import Mathlib

/-!
# DS2431 1-Wire EEPROM driver: shallow embedding and verified properties

The embedding follows `src/driver_ds2431.c`.

* Machine integers are natural numbers; a truncation `% 256` is written where the C
  code narrows a wider intermediate to `uint8_t`.
* The injected platform capabilities of `ds2431_handle_t` are a record `Link σ` of
  state-passing functions over an arbitrary platform state `σ`.  A status of `0`
  is success, as in the C code.
* The static helpers `a_ds2431_reset`, `a_ds2431_read_byte`, ... are built on `Link`.
  The protocol routines are written once over the record `Wire σ` of these helpers,
  so that they can be run on the real stack (`Wire.ofLink`) and on simulated buses.
* `ds2431_read` and `ds2431_write` are written over the record `Pager σ` holding the
  internal page routines `a_ds2431_read` / `a_ds2431_write`; `Pager.ofWire` is the
  real stack.
* In every public routine the C source spells out six branches, one for each mode.
  The branches share the addressing sequence `rom_select` and, up to the choice of
  the standard or overdrive byte transport, the rest of their body.
* The handle is passed by value.  The four functions with an assignment to one of its
  fields (`ds2431_set_mode`, `ds2431_set_rom`, `ds2431_init`, `ds2431_deinit`) return
  the handle after the call, and `exec` runs any call of the public interface on a
  handle and returns the handle after it.
* `ds2431_init` tests the capability pointers; `LinkPtrs` holds them as the caller
  linked them, `none` being a `NULL` pointer.
-/

namespace DS2431

/-! ## Commands and modes -/

def DS2431_CMD_SEARCH_ROM : Nat := 0xF0
def DS2431_CMD_READ_ROM : Nat := 0x33
def DS2431_CMD_MATCH_ROM : Nat := 0x55
def DS2431_CMD_OVERDRIVE_MATCH_ROM : Nat := 0x69
def DS2431_CMD_SKIP_ROM : Nat := 0xCC
def DS2431_CMD_OVERDRIVE_SKIP_ROM : Nat := 0x3C
def DS2431_CMD_RESUME : Nat := 0xA5
def DS2431_CMD_WRITE_SCRATCHPAD : Nat := 0x0F
def DS2431_CMD_READ_SCRATCHPAD : Nat := 0xAA
def DS2431_CMD_COPY_SCRATCHPAD : Nat := 0x55
def DS2431_CMD_READ_MEMORY : Nat := 0xF0

def DS2431_MODE_SKIP_ROM : Nat := 0x00
def DS2431_MODE_OVERDRIVE_SKIP_ROM : Nat := 0x01
def DS2431_MODE_MATCH_ROM : Nat := 0x02
def DS2431_MODE_OVERDRIVE_MATCH_ROM : Nat := 0x03
def DS2431_MODE_RESUME : Nat := 0x04
def DS2431_MODE_OVERDRIVE_RESUME : Nat := 0x05

def DS2431_MAX_SEARCH_SIZE : Nat := 64

/-! ## CRC-16 -/

/-- One iteration of the loop body of `a_ds2431_crc16_update` on the pair `(crc, data)`. -/
def crcStep (cd : Nat × Nat) : Nat × Nat :=
  let mix := (cd.1 ^^^ cd.2) &&& 0x01
  let crc := cd.1 >>> 1
  let crc := if mix ≠ 0 then crc ^^^ 0xA001 else crc
  (crc, cd.2 >>> 1)

/-- The function `a_ds2431_crc16_update`: eight iterations of the loop body. -/
def a_ds2431_crc16_update (input data : Nat) : Nat :=
  (crcStep^[8] (input, data)).1

/-- Running CRC of a byte sequence, started from `0` as every caller does. -/
def crc16 (bytes : List Nat) : Nat := bytes.foldl a_ds2431_crc16_update 0

/-- Bitwise complement of a `uint16_t`, the C expression `~x` stored back in 16 bits. -/
def not16 (x : Nat) : Nat := 0xFFFF - x

/-- Reference CRC-16/ARC, shift of one bit: reflected polynomial `0xA001`. -/
def arcShift (x : Nat) : Nat := if x % 2 = 1 then (x / 2) ^^^ 0xA001 else x / 2

/-- Reference CRC-16/ARC, one input byte: the byte is folded into the low bits of the
register, which is then shifted eight times, least significant bit first. -/
def arcByte (crc byte : Nat) : Nat := arcShift^[8] (crc ^^^ byte)

/-- Reference CRC-16/ARC of a byte sequence: initial value `0`, no final XOR. -/
def crc16_arc (bytes : List Nat) : Nat := bytes.foldl arcByte 0

/-! ## Platform capabilities -/

/-- The capability callbacks of `ds2431_handle_t` over a platform state `σ`.
`bus_read` yields the status and the byte stored through its pointer argument. -/
structure Link (σ : Type) where
  bus_init : σ → Nat × σ
  bus_deinit : σ → Nat × σ
  bus_read : σ → Nat × Nat × σ
  bus_write : Nat → σ → Nat × σ
  delay_ms : Nat → σ → σ
  delay_us : Nat → σ → σ
  enable_irq : σ → σ
  disable_irq : σ → σ
  debug_print : String → σ → σ

/-- The data fields of `ds2431_handle_t`. -/
structure Handle where
  inited : Nat
  mode : Nat
  rom : List Nat
deriving DecidableEq, Repr

/-- A capability call as seen by the platform. -/
inductive Event where
  | bus_init (status : Nat)
  | bus_deinit (status : Nat)
  | bus_read (status value : Nat)
  | bus_write (value status : Nat)
  | delay_ms (ms : Nat)
  | delay_us (us : Nat)
  | enable_irq
  | disable_irq
  | debug_print (msg : String)
deriving DecidableEq, Repr

/-- The platform `L` with every capability call appended to a log. -/
def Link.record {σ : Type} (L : Link σ) : Link (σ × List Event) where
  bus_init := fun s => let r := L.bus_init s.1; (r.1, (r.2, s.2 ++ [Event.bus_init r.1]))
  bus_deinit := fun s => let r := L.bus_deinit s.1; (r.1, (r.2, s.2 ++ [Event.bus_deinit r.1]))
  bus_read := fun s =>
    let r := L.bus_read s.1
    (r.1, r.2.1, (r.2.2, s.2 ++ [Event.bus_read r.1 r.2.1]))
  bus_write := fun v s =>
    let r := L.bus_write v s.1
    (r.1, (r.2, s.2 ++ [Event.bus_write v r.1]))
  delay_ms := fun n s => (L.delay_ms n s.1, s.2 ++ [Event.delay_ms n])
  delay_us := fun n s => (L.delay_us n s.1, s.2 ++ [Event.delay_us n])
  enable_irq := fun s => (L.enable_irq s.1, s.2 ++ [Event.enable_irq])
  disable_irq := fun s => (L.disable_irq s.1, s.2 ++ [Event.disable_irq])
  debug_print := fun m s => (L.debug_print m s.1, s.2 ++ [Event.debug_print m])

/-! ## Bus reset and bit / byte transport -/

/-- A presence polling loop of `a_ds2431_reset`:
`while (cond(res) && retry < limit) { bus_read(&res); retry++; delay_us(1); }`
with `cond(res) = (res != 0)` when `waitLow` and `(res == 0)` otherwise.
The first argument bounds the number of iterations; the callers pass `limit`, which the
loop cannot exceed because `retry` starts at `0`.  The result is
`(status, retry, state)`, with status `1` when a `bus_read` failed. -/
def reset_poll {σ : Type} (L : Link σ) (waitLow : Bool) (limit : Nat) :
    Nat → Nat → Nat → σ → Nat × Nat × σ
  | 0, _, retry, s => (0, retry, s)
  | n + 1, res, retry, s =>
    if (if waitLow then res ≠ 0 else res = 0) ∧ retry < limit then
      let r := L.bus_read s
      if r.1 ≠ 0 then
        (1, retry, L.debug_print "ds2431: bus read failed.\n" (L.enable_irq r.2.2))
      else
        reset_poll L waitLow limit n (r.2.1 % 256) (retry + 1) (L.delay_us 1 r.2.2)
    else (0, retry, s)

/-- Common body of `a_ds2431_reset` and `a_ds2431_reset_overdrive`, which differ in the
two pulse delays and the two polling budgets only. -/
def reset_core {σ : Type} (L : Link σ) (lowUs highUs budget1 budget2 : Nat) (s : σ) : Nat × σ :=
  let s := L.disable_irq s
  let r := L.bus_write 0 s
  if r.1 ≠ 0 then (1, L.debug_print "ds2431: bus write failed.\n" (L.enable_irq r.2)) else
  let s := L.delay_us lowUs r.2
  let r := L.bus_write 1 s
  if r.1 ≠ 0 then (1, L.debug_print "ds2431: bus write failed.\n" (L.enable_irq r.2)) else
  let s := L.delay_us highUs r.2
  let p := reset_poll L true budget1 budget1 1 0 s
  if p.1 ≠ 0 then (1, p.2.2) else
  if p.2.1 ≥ budget1 then
    (1, L.debug_print "ds2431: bus read no response.\n" (L.enable_irq p.2.2))
  else
  let q := reset_poll L false budget2 budget2 0 0 p.2.2
  if q.1 ≠ 0 then (1, q.2.2) else
  if q.2.1 ≥ budget2 then
    (1, L.debug_print "ds2431: bus read no response.\n" (L.enable_irq q.2.2))
  else (0, L.enable_irq q.2.2)

/-- The function `a_ds2431_reset`. -/
def a_ds2431_reset {σ : Type} (L : Link σ) (s : σ) : Nat × σ := reset_core L 550 15 200 240 s

/-- The function `a_ds2431_reset_overdrive`. -/
def a_ds2431_reset_overdrive {σ : Type} (L : Link σ) (s : σ) : Nat × σ :=
  reset_core L 70 2 20 20 s

/-- The function `a_ds2431_read_bit`; the result is `(status, bit, state)`, the bit being
meaningful on success only. -/
def a_ds2431_read_bit {σ : Type} (L : Link σ) (s : σ) : Nat × Nat × σ :=
  let r := L.bus_write 0 s
  if r.1 ≠ 0 then (1, 0, L.debug_print "ds2431: bus write failed.\n" r.2) else
  let s := L.delay_us 2 r.2
  let r := L.bus_write 1 s
  if r.1 ≠ 0 then (1, 0, L.debug_print "ds2431: bus write failed.\n" r.2) else
  let s := L.delay_us 12 r.2
  let r := L.bus_read s
  if r.1 ≠ 0 then (1, 0, L.debug_print "ds2431: bus read failed.\n" r.2.2) else
  (0, r.2.1 % 256, L.delay_us 50 r.2.2)

/-- The function `a_ds2431_read_bit_overdrive`. -/
def a_ds2431_read_bit_overdrive {σ : Type} (L : Link σ) (s : σ) : Nat × Nat × σ :=
  let r := L.bus_write 0 s
  if r.1 ≠ 0 then (1, 0, L.debug_print "ds2431: bus write failed.\n" r.2) else
  let s := L.delay_us 1 r.2
  let r := L.bus_write 1 s
  if r.1 ≠ 0 then (1, 0, L.debug_print "ds2431: bus write failed.\n" r.2) else
  let r := L.bus_read r.2
  if r.1 ≠ 0 then (1, 0, L.debug_print "ds2431: bus read failed.\n" r.2.2) else
  (0, r.2.1 % 256, L.delay_us 10 r.2.2)

/-- The bit loop of `a_ds2431_read_byte` over a bit reader: `n` bits are still to be read
and `byte` is the value accumulated so far.  The result is `(status, byte, state)`. -/
def read_byte_loop {σ : Type} (L : Link σ) (readBit : σ → Nat × Nat × σ) :
    Nat → Nat → σ → Nat × Nat × σ
  | 0, byte, s => (0, byte, L.enable_irq s)
  | n + 1, byte, s =>
    let r := readBit s
    if r.1 ≠ 0 then
      (1, byte, L.debug_print "ds2431: bus read byte failed.\n" (L.enable_irq r.2.2))
    else
      read_byte_loop L readBit n (((r.2.1 <<< 7) ||| (byte >>> 1)) % 256) r.2.2

/-- The function `a_ds2431_read_byte`. -/
def a_ds2431_read_byte {σ : Type} (L : Link σ) (s : σ) : Nat × Nat × σ :=
  read_byte_loop L (a_ds2431_read_bit L) 8 0 (L.disable_irq s)

/-- The function `a_ds2431_read_byte_overdrive`. -/
def a_ds2431_read_byte_overdrive {σ : Type} (L : Link σ) (s : σ) : Nat × Nat × σ :=
  read_byte_loop L (a_ds2431_read_bit_overdrive L) 8 0 (L.disable_irq s)

/-- The bit loop of `a_ds2431_write_byte`: `n` slots are still to be sent.  A one is a
low pulse of `oneLow` then `oneHigh` microseconds high, a zero a low pulse of `zeroLow`
then `zeroHigh` microseconds high. -/
def write_byte_loop {σ : Type} (L : Link σ) (oneLow oneHigh zeroLow zeroHigh : Nat) :
    Nat → Nat → σ → Nat × σ
  | 0, _, s => (0, L.enable_irq s)
  | n + 1, byte, s =>
    let test_b := byte &&& 0x01
    let byte := byte >>> 1
    if test_b ≠ 0 then
      let r := L.bus_write 0 s
      if r.1 ≠ 0 then (1, L.debug_print "ds2431: bus write failed.\n" (L.enable_irq r.2)) else
      let s := L.delay_us oneLow r.2
      let r := L.bus_write 1 s
      if r.1 ≠ 0 then (1, L.debug_print "ds2431: bus write failed.\n" (L.enable_irq r.2)) else
      write_byte_loop L oneLow oneHigh zeroLow zeroHigh n byte (L.delay_us oneHigh r.2)
    else
      let r := L.bus_write 0 s
      if r.1 ≠ 0 then (1, L.debug_print "ds2431: bus write failed.\n" (L.enable_irq r.2)) else
      let s := L.delay_us zeroLow r.2
      let r := L.bus_write 1 s
      if r.1 ≠ 0 then (1, L.debug_print "ds2431: bus write failed.\n" (L.enable_irq r.2)) else
      write_byte_loop L oneLow oneHigh zeroLow zeroHigh n byte (L.delay_us zeroHigh r.2)

/-- The function `a_ds2431_write_byte`. -/
def a_ds2431_write_byte {σ : Type} (L : Link σ) (byte : Nat) (s : σ) : Nat × σ :=
  write_byte_loop L 2 65 65 2 8 byte (L.disable_irq s)

/-- The function `a_ds2431_write_byte_overdrive`. -/
def a_ds2431_write_byte_overdrive {σ : Type} (L : Link σ) (byte : Nat) (s : σ) : Nat × σ :=
  write_byte_loop L 1 10 10 2 8 byte (L.disable_irq s)

/-- The loop of `a_ds2431_read_2bit`: `n` bits are still to be read into `data`. -/
def read_2bit_loop {σ : Type} (L : Link σ) : Nat → Nat → σ → Nat × Nat × σ
  | 0, data, s => (0, data, L.enable_irq s)
  | n + 1, data, s =>
    let data := (data <<< 1) % 256
    let r := a_ds2431_read_bit L s
    if r.1 ≠ 0 then
      (1, data, L.debug_print "ds2431: read bit failed.\n" (L.enable_irq r.2.2))
    else
      read_2bit_loop L n (data ||| r.2.1) r.2.2

/-- The function `a_ds2431_read_2bit`. -/
def a_ds2431_read_2bit {σ : Type} (L : Link σ) (s : σ) : Nat × Nat × σ :=
  read_2bit_loop L 2 0 (L.disable_irq s)

/-- The function `a_ds2431_write_bit`. -/
def a_ds2431_write_bit {σ : Type} (L : Link σ) (bit : Nat) (s : σ) : Nat × σ :=
  let s := L.disable_irq s
  let r := L.bus_write 0 s
  if r.1 ≠ 0 then (1, L.debug_print "ds2431: write bit failed.\n" (L.enable_irq r.2)) else
  let s := L.delay_us 12 r.2
  let r := L.bus_write bit s
  if r.1 ≠ 0 then (1, L.debug_print "ds2431: write bit failed.\n" (L.enable_irq r.2)) else
  let s := L.delay_us 30 r.2
  let r := L.bus_write 1 s
  if r.1 ≠ 0 then (1, L.debug_print "ds2431: write bit failed.\n" (L.enable_irq r.2)) else
  (0, L.enable_irq (L.delay_us 5 r.2))

/-! ## Byte-level interface -/

/-- The static transport helpers the protocol routines are built from, together with the
capabilities those routines call directly. -/
structure Wire (σ : Type) where
  reset : σ → Nat × σ
  reset_overdrive : σ → Nat × σ
  read_byte : σ → Nat × Nat × σ
  write_byte : Nat → σ → Nat × σ
  read_byte_overdrive : σ → Nat × Nat × σ
  write_byte_overdrive : Nat → σ → Nat × σ
  read_2bit : σ → Nat × Nat × σ
  write_bit : Nat → σ → Nat × σ
  delay_ms : Nat → σ → σ
  delay_us : Nat → σ → σ
  debug_print : String → σ → σ

/-- The real transport: the static helpers of the driver over the platform `L`. -/
def Wire.ofLink {σ : Type} (L : Link σ) : Wire σ where
  reset := a_ds2431_reset L
  reset_overdrive := a_ds2431_reset_overdrive L
  read_byte := a_ds2431_read_byte L
  write_byte := a_ds2431_write_byte L
  read_byte_overdrive := a_ds2431_read_byte_overdrive L
  write_byte_overdrive := a_ds2431_write_byte_overdrive L
  read_2bit := a_ds2431_read_2bit L
  write_bit := a_ds2431_write_bit L
  delay_ms := L.delay_ms
  delay_us := L.delay_us
  debug_print := L.debug_print

/-- Byte writer of a branch: the overdrive helper in the overdrive branches. -/
def Wire.wb {σ : Type} (W : Wire σ) (od : Bool) : Nat → σ → Nat × σ :=
  if od then W.write_byte_overdrive else W.write_byte

/-- Byte reader of a branch: the overdrive helper in the overdrive branches. -/
def Wire.rb {σ : Type} (W : Wire σ) (od : Bool) : σ → Nat × Nat × σ :=
  if od then W.read_byte_overdrive else W.read_byte

/-- Whether the branch of mode `mode` sends its payload with the overdrive helpers. -/
def overdrive (mode : Nat) : Bool :=
  mode = DS2431_MODE_OVERDRIVE_SKIP_ROM ∨ mode = DS2431_MODE_OVERDRIVE_MATCH_ROM
    ∨ mode = DS2431_MODE_OVERDRIVE_RESUME

/-- The eight bytes `data[0]`, ..., `data[7]` of a C array argument `uint8_t data[8]`. -/
def bytes8 (data : List Nat) : List Nat := (List.range 8).map (fun i => data.getD i 0)

/-- Loop `for (i = 0; i < 8; i++) if (write(handle->rom[i]) != 0) { debug_print; return 1; }`
over the bytes to send. -/
def write_all {σ : Type} (W : Wire σ) (wb : Nat → σ → Nat × σ) (msg : String) :
    List Nat → σ → Nat × σ
  | [], s => (0, s)
  | b :: bs, s =>
    let r := wb b s
    if r.1 ≠ 0 then (1, W.debug_print msg r.2) else write_all W wb msg bs r.2

/-- The addressing sequence that opens each of the six mode branches: bus reset, ROM
command and, in the match modes, the eight ROM bytes.  The final `else` of the C source,
taken for a mode outside the enumeration, prints `mode invalid` and returns `1`. -/
def rom_select {σ : Type} (W : Wire σ) (h : Handle) (s : σ) : Nat × σ :=
  if h.mode = DS2431_MODE_SKIP_ROM then
    let r := W.reset s
    if r.1 ≠ 0 then (1, W.debug_print "ds2431: bus reset failed.\n" r.2) else
    let r := W.write_byte DS2431_CMD_SKIP_ROM r.2
    if r.1 ≠ 0 then (1, W.debug_print "ds2431: write command failed.\n" r.2) else
    (0, r.2)
  else if h.mode = DS2431_MODE_OVERDRIVE_SKIP_ROM then
    let r := W.reset s
    if r.1 ≠ 0 then (1, W.debug_print "ds2431: bus reset failed.\n" r.2) else
    let r := W.write_byte DS2431_CMD_OVERDRIVE_SKIP_ROM r.2
    if r.1 ≠ 0 then (1, W.debug_print "ds2431: write command failed.\n" r.2) else
    (0, r.2)
  else if h.mode = DS2431_MODE_MATCH_ROM then
    let r := W.reset s
    if r.1 ≠ 0 then (1, W.debug_print "ds2431: bus reset failed.\n" r.2) else
    let r := W.write_byte DS2431_CMD_MATCH_ROM r.2
    if r.1 ≠ 0 then (1, W.debug_print "ds2431: write command failed.\n" r.2) else
    write_all W W.write_byte "ds2431: write command failed.\n" (bytes8 h.rom) r.2
  else if h.mode = DS2431_MODE_OVERDRIVE_MATCH_ROM then
    let r := W.reset s
    if r.1 ≠ 0 then (1, W.debug_print "ds2431: bus reset failed.\n" r.2) else
    let r := W.write_byte DS2431_CMD_OVERDRIVE_MATCH_ROM r.2
    if r.1 ≠ 0 then (1, W.debug_print "ds2431: write command failed.\n" r.2) else
    write_all W W.write_byte_overdrive "ds2431: write command failed.\n" (bytes8 h.rom) r.2
  else if h.mode = DS2431_MODE_RESUME then
    let r := W.reset s
    if r.1 ≠ 0 then (1, W.debug_print "ds2431: bus reset failed.\n" r.2) else
    let r := W.write_byte DS2431_CMD_RESUME r.2
    if r.1 ≠ 0 then (1, W.debug_print "ds2431: write command failed.\n" r.2) else
    (0, r.2)
  else if h.mode = DS2431_MODE_OVERDRIVE_RESUME then
    let r := W.reset_overdrive s
    if r.1 ≠ 0 then (1, W.debug_print "ds2431: bus reset failed.\n" r.2) else
    let r := W.write_byte_overdrive DS2431_CMD_RESUME r.2
    if r.1 ≠ 0 then (1, W.debug_print "ds2431: write command failed.\n" r.2) else
    (0, r.2)
  else (1, W.debug_print "ds2431: mode invalid.\n" s)

/-! ## Scratchpad and memory routines -/

/-- Body of a branch of `ds2431_copy_scratchpad` after the addressing sequence. -/
def copy_scratchpad_body {σ : Type} (W : Wire σ) (od : Bool) (address : Nat) (s : σ) : Nat × σ :=
  let r := W.wb od DS2431_CMD_COPY_SCRATCHPAD s
  if r.1 ≠ 0 then (1, W.debug_print "ds2431: write command failed.\n" r.2) else
  let r := W.wb od ((address >>> 0) &&& 0xFF) r.2
  if r.1 ≠ 0 then (1, W.debug_print "ds2431: write command failed.\n" r.2) else
  let r := W.wb od ((address >>> 8) &&& 0xFF) r.2
  if r.1 ≠ 0 then (1, W.debug_print "ds2431: write command failed.\n" r.2) else
  let r := W.wb od 0x07 r.2
  if r.1 ≠ 0 then (1, W.debug_print "ds2431: write command failed.\n" r.2) else
  let s := W.delay_ms 10 r.2
  let r := W.rb od s
  if r.1 ≠ 0 then (1, W.debug_print "ds2431: read data failed.\n" r.2.2) else
  if r.2.1 ≠ 0xAA then (1, W.debug_print "ds2431: response error.\n" r.2.2) else
  (0, r.2.2)

/-- The function `ds2431_copy_scratchpad`; `none` is the `NULL` handle. -/
def ds2431_copy_scratchpad {σ : Type} (W : Wire σ) (handle : Option Handle) (address : Nat)
    (s : σ) : Nat × σ :=
  match handle with
  | none => (2, s)
  | some h =>
    if h.inited ≠ 1 then (3, s) else
    if address ≥ 0x0080 then (4, W.debug_print "ds2431: address >= 0x0080.\n" s) else
    if address % 8 ≠ 0 then (5, W.debug_print "ds2431: address is invalid.\n" s) else
    let r := rom_select W h s
    if r.1 ≠ 0 then (1, r.2) else
    copy_scratchpad_body W (overdrive h.mode) address r.2

/-- Loop `for (i = 0; i < 8; i++)` sending the data bytes and updating the running CRC.
The result is `(status, crc, state)`. -/
def write_data_crc {σ : Type} (W : Wire σ) (wb : Nat → σ → Nat × σ) :
    List Nat → Nat → σ → Nat × Nat × σ
  | [], crc, s => (0, crc, s)
  | b :: bs, crc, s =>
    let r := wb b s
    if r.1 ≠ 0 then (1, crc, W.debug_print "ds2431: write data failed.\n" r.2) else
    write_data_crc W wb bs (a_ds2431_crc16_update crc b) r.2

/-- Body of a branch of `ds2431_write_scratchpad` after the addressing sequence.  The
result is `(status, crc16, state)` where `crc16` is the value stored through the `crc16`
pointer, `none` while nothing has been stored. -/
def write_scratchpad_body {σ : Type} (W : Wire σ) (od : Bool) (address : Nat) (data : List Nat)
    (s : σ) : Nat × Option Nat × σ :=
  let crc := 0
  let r := W.wb od DS2431_CMD_WRITE_SCRATCHPAD s
  if r.1 ≠ 0 then (1, none, W.debug_print "ds2431: write command failed.\n" r.2) else
  let crc := a_ds2431_crc16_update crc DS2431_CMD_WRITE_SCRATCHPAD
  let r := W.wb od ((address >>> 0) &&& 0xFF) r.2
  if r.1 ≠ 0 then (1, none, W.debug_print "ds2431: write command failed.\n" r.2) else
  let crc := a_ds2431_crc16_update crc ((address >>> 0) &&& 0xFF)
  let r := W.wb od ((address >>> 8) &&& 0xFF) r.2
  if r.1 ≠ 0 then (1, none, W.debug_print "ds2431: write command failed.\n" r.2) else
  let crc := a_ds2431_crc16_update crc ((address >>> 8) &&& 0xFF)
  let w := write_data_crc W (W.wb od) (bytes8 data) crc r.2
  if w.1 ≠ 0 then (1, none, w.2.2) else
  let crc := w.2.1
  let b0 := W.rb od w.2.2
  if b0.1 ≠ 0 then (1, none, W.debug_print "ds2431: read data failed.\n" b0.2.2) else
  let crc := a_ds2431_crc16_update crc b0.2.1
  let b1 := W.rb od b0.2.2
  if b1.1 ≠ 0 then (1, none, W.debug_print "ds2431: read data failed.\n" b1.2.2) else
  let crc := a_ds2431_crc16_update crc b1.2.1
  let crc16 := not16 ((b1.2.1 <<< 8) ||| b0.2.1)
  let r := W.rb od b1.2.2
  if r.1 ≠ 0 then (1, some crc16, W.debug_print "ds2431: read data failed.\n" r.2.2) else
  if r.2.1 ≠ 0xFF then (1, some crc16, W.debug_print "ds2431: response error.\n" r.2.2) else
  if crc ≠ 0xB001 then (6, some crc16, W.debug_print "ds2431: crc16 check error.\n" r.2.2) else
  (0, some crc16, r.2.2)

/-- The function `ds2431_write_scratchpad`. -/
def ds2431_write_scratchpad {σ : Type} (W : Wire σ) (handle : Option Handle) (address : Nat)
    (data : List Nat) (s : σ) : Nat × Option Nat × σ :=
  match handle with
  | none => (2, none, s)
  | some h =>
    if h.inited ≠ 1 then (3, none, s) else
    if address ≥ 0x0080 then (4, none, W.debug_print "ds2431: address >= 0x0080.\n" s) else
    if address % 8 ≠ 0 then (5, none, W.debug_print "ds2431: address is invalid.\n" s) else
    let r := rom_select W h s
    if r.1 ≠ 0 then (1, none, r.2) else
    write_scratchpad_body W (overdrive h.mode) address data r.2

/-- Loop `for (i = 0; i < n; i++)` reading bytes into `data[i]` and updating the running
CRC; `acc` holds the bytes stored so far.  On a failed read the byte the helper left in
`data[i]` is stored as well.  The result is `(status, crc, data, state)`. -/
def read_data_crc {σ : Type} (W : Wire σ) (rb : σ → Nat × Nat × σ) :
    Nat → Nat → List Nat → σ → Nat × Nat × List Nat × σ
  | 0, crc, acc, s => (0, crc, acc, s)
  | n + 1, crc, acc, s =>
    let r := rb s
    if r.1 ≠ 0 then (1, crc, acc ++ [r.2.1], W.debug_print "ds2431: read data failed.\n" r.2.2)
    else read_data_crc W rb n (a_ds2431_crc16_update crc r.2.1) (acc ++ [r.2.1]) r.2.2

/-- Values stored through the output pointers of `ds2431_read_scratchpad`: `none` while
nothing has been stored, and the data bytes stored so far. -/
structure ScratchpadOut where
  address : Option Nat
  data : List Nat
  crc16 : Option Nat
deriving DecidableEq, Repr

/-- Body of a branch of `ds2431_read_scratchpad` after the addressing sequence. -/
def read_scratchpad_body {σ : Type} (W : Wire σ) (od : Bool) (s : σ) :
    Nat × ScratchpadOut × σ :=
  let crc := 0
  let r := W.wb od DS2431_CMD_READ_SCRATCHPAD s
  if r.1 ≠ 0 then (1, ⟨none, [], none⟩, W.debug_print "ds2431: write command failed.\n" r.2) else
  let crc := a_ds2431_crc16_update crc DS2431_CMD_READ_SCRATCHPAD
  let b0 := W.rb od r.2
  if b0.1 ≠ 0 then (1, ⟨none, [], none⟩, W.debug_print "ds2431: read data failed.\n" b0.2.2) else
  let crc := a_ds2431_crc16_update crc b0.2.1
  let b1 := W.rb od b0.2.2
  if b1.1 ≠ 0 then (1, ⟨none, [], none⟩, W.debug_print "ds2431: read data failed.\n" b1.2.2) else
  let crc := a_ds2431_crc16_update crc b1.2.1
  let ta := W.rb od b1.2.2
  if ta.1 ≠ 0 then (1, ⟨none, [], none⟩, W.debug_print "ds2431: read data failed.\n" ta.2.2) else
  let crc := a_ds2431_crc16_update crc ta.2.1
  let address := (b1.2.1 <<< 8) ||| b0.2.1
  if ta.2.1 ≠ 0x07 then
    (4, ⟨some address, [], none⟩, W.debug_print "ds2431: status is error.\n" ta.2.2)
  else
  let d := read_data_crc W (W.rb od) 8 crc [] ta.2.2
  if d.1 ≠ 0 then (1, ⟨some address, d.2.2.1, none⟩, d.2.2.2) else
  let crc := d.2.1
  let c0 := W.rb od d.2.2.2
  if c0.1 ≠ 0 then
    (1, ⟨some address, d.2.2.1, none⟩, W.debug_print "ds2431: read data failed.\n" c0.2.2)
  else
  let crc := a_ds2431_crc16_update crc c0.2.1
  let c1 := W.rb od c0.2.2
  if c1.1 ≠ 0 then
    (1, ⟨some address, d.2.2.1, none⟩, W.debug_print "ds2431: read data failed.\n" c1.2.2)
  else
  let crc := a_ds2431_crc16_update crc c1.2.1
  let crc16 := not16 ((c1.2.1 <<< 8) ||| c0.2.1)
  let out : ScratchpadOut := ⟨some address, d.2.2.1, some crc16⟩
  let r := W.rb od c1.2.2
  if r.1 ≠ 0 then (1, out, W.debug_print "ds2431: read data failed.\n" r.2.2) else
  if r.2.1 ≠ 0xFF then (1, out, W.debug_print "ds2431: response error.\n" r.2.2) else
  if crc ≠ 0xB001 then (5, out, W.debug_print "ds2431: crc16 check error.\n" r.2.2) else
  (0, out, r.2.2)

/-- The function `ds2431_read_scratchpad`. -/
def ds2431_read_scratchpad {σ : Type} (W : Wire σ) (handle : Option Handle) (s : σ) :
    Nat × ScratchpadOut × σ :=
  match handle with
  | none => (2, ⟨none, [], none⟩, s)
  | some h =>
    if h.inited ≠ 1 then (3, ⟨none, [], none⟩, s) else
    let r := rom_select W h s
    if r.1 ≠ 0 then (1, ⟨none, [], none⟩, r.2) else
    read_scratchpad_body W (overdrive h.mode) r.2

/-- Loop `for (i = 0; i < len; i++)` of the memory read; `acc` holds the bytes stored so
far.  The result is `(status, data, state)`. -/
def read_data {σ : Type} (W : Wire σ) (rb : σ → Nat × Nat × σ) :
    Nat → List Nat → σ → Nat × List Nat × σ
  | 0, acc, s => (0, acc, s)
  | n + 1, acc, s =>
    let r := rb s
    if r.1 ≠ 0 then (1, acc ++ [r.2.1], W.debug_print "ds2431: read data failed.\n" r.2.2)
    else read_data W rb n (acc ++ [r.2.1]) r.2.2

/-- Body of a branch of `ds2431_read_memory` and of `a_ds2431_read` after the addressing
sequence; the two C functions share it word for word. -/
def read_memory_body {σ : Type} (W : Wire σ) (od : Bool) (address len : Nat) (s : σ) :
    Nat × List Nat × σ :=
  let r := W.wb od DS2431_CMD_READ_MEMORY s
  if r.1 ≠ 0 then (1, [], W.debug_print "ds2431: write command failed.\n" r.2) else
  let r := W.wb od ((address >>> 0) &&& 0xFF) r.2
  if r.1 ≠ 0 then (1, [], W.debug_print "ds2431: write command failed.\n" r.2) else
  let r := W.wb od ((address >>> 8) &&& 0xFF) r.2
  if r.1 ≠ 0 then (1, [], W.debug_print "ds2431: write command failed.\n" r.2) else
  read_data W (W.rb od) len [] r.2

/-- The function `ds2431_read_memory` with its 16-bit `address` and `len`; the sum
`address + len` is computed in `int`, hence without wrap-around. -/
def ds2431_read_memory {σ : Type} (W : Wire σ) (handle : Option Handle) (address len : Nat)
    (s : σ) : Nat × List Nat × σ :=
  match handle with
  | none => (2, [], s)
  | some h =>
    if h.inited ≠ 1 then (3, [], s) else
    if address + len > 0x0080 then
      (4, [], W.debug_print "ds2431: address and len are invalid.\n" s)
    else
    let r := rom_select W h s
    if r.1 ≠ 0 then (1, [], r.2) else
    read_memory_body W (overdrive h.mode) address len r.2

/-- The static function `a_ds2431_read`. -/
def a_ds2431_read {σ : Type} (W : Wire σ) (h : Handle) (address len : Nat) (s : σ) :
    Nat × List Nat × σ :=
  let r := rom_select W h s
  if r.1 ≠ 0 then (1, [], r.2) else
  read_memory_body W (overdrive h.mode) address len r.2

/-- The addressing sequence `a_ds2431_write` sends between its scratchpad stage and its
copy stage, as written in each of its six branches. -/
def copy_readdress {σ : Type} (W : Wire σ) (h : Handle) (s : σ) : Nat × σ :=
  if h.mode = DS2431_MODE_SKIP_ROM then
    let r := W.reset s
    if r.1 ≠ 0 then (1, W.debug_print "ds2431: bus reset failed.\n" r.2) else
    let r := W.write_byte DS2431_CMD_SKIP_ROM r.2
    if r.1 ≠ 0 then (1, W.debug_print "ds2431: write command failed.\n" r.2) else
    (0, r.2)
  else if h.mode = DS2431_MODE_OVERDRIVE_SKIP_ROM then
    let r := W.reset_overdrive s
    if r.1 ≠ 0 then (1, W.debug_print "ds2431: bus reset failed.\n" r.2) else
    let r := W.write_byte_overdrive DS2431_CMD_OVERDRIVE_SKIP_ROM r.2
    if r.1 ≠ 0 then (1, W.debug_print "ds2431: write command failed.\n" r.2) else
    (0, r.2)
  else if h.mode = DS2431_MODE_MATCH_ROM then
    let r := W.reset s
    if r.1 ≠ 0 then (1, W.debug_print "ds2431: bus reset failed.\n" r.2) else
    let r := W.write_byte DS2431_CMD_MATCH_ROM r.2
    if r.1 ≠ 0 then (1, W.debug_print "ds2431: write command failed.\n" r.2) else
    write_all W W.write_byte "ds2431: write command failed.\n" (bytes8 h.rom) r.2
  else if h.mode = DS2431_MODE_OVERDRIVE_MATCH_ROM then
    let r := W.reset_overdrive s
    if r.1 ≠ 0 then (1, W.debug_print "ds2431: bus reset failed.\n" r.2) else
    let r := W.write_byte_overdrive DS2431_CMD_OVERDRIVE_SKIP_ROM r.2
    if r.1 ≠ 0 then (1, W.debug_print "ds2431: write command failed.\n" r.2) else
    (0, r.2)
  else if h.mode = DS2431_MODE_RESUME then
    let r := W.reset s
    if r.1 ≠ 0 then (1, W.debug_print "ds2431: bus reset failed.\n" r.2) else
    let r := W.write_byte DS2431_CMD_RESUME r.2
    if r.1 ≠ 0 then (1, W.debug_print "ds2431: write command failed.\n" r.2) else
    (0, r.2)
  else if h.mode = DS2431_MODE_OVERDRIVE_RESUME then
    let r := W.reset_overdrive s
    if r.1 ≠ 0 then (1, W.debug_print "ds2431: bus reset failed.\n" r.2) else
    let r := W.write_byte_overdrive DS2431_CMD_RESUME r.2
    if r.1 ≠ 0 then (1, W.debug_print "ds2431: write command failed.\n" r.2) else
    (0, r.2)
  else (1, W.debug_print "ds2431: mode invalid.\n" s)

/-- The static function `a_ds2431_write`.  Its scratchpad stage is the body of
`ds2431_write_scratchpad` except that nothing is stored through a `crc16` pointer and
that a CRC mismatch returns `1`; its copy stage is the body of `ds2431_copy_scratchpad`
after the addressing sequence `copy_readdress`. -/
def a_ds2431_write {σ : Type} (W : Wire σ) (h : Handle) (address : Nat) (data : List Nat)
    (s : σ) : Nat × σ :=
  let r := rom_select W h s
  if r.1 ≠ 0 then (1, r.2) else
  let w := write_scratchpad_body W (overdrive h.mode) address data r.2
  if w.1 ≠ 0 then (1, w.2.2) else
  let r := copy_readdress W h w.2.2
  if r.1 ≠ 0 then (1, r.2) else
  copy_scratchpad_body W (overdrive h.mode) address r.2

/-! ## Public read and write -/

/-- The internal page routines used by `ds2431_read` and `ds2431_write`. -/
structure Pager (σ : Type) where
  a_read : Handle → Nat → Nat → σ → Nat × List Nat × σ
  a_write : Handle → Nat → List Nat → σ → Nat × σ
  debug_print : String → σ → σ

/-- The real page routines over a transport. -/
def Pager.ofWire {σ : Type} (W : Wire σ) : Pager σ where
  a_read := a_ds2431_read W
  a_write := a_ds2431_write W
  debug_print := W.debug_print

/-- The function `ds2431_read` with its 8-bit `address` and `len`; the sum is computed in
`int`.  The result is `(status, bytes stored in data, state)`. -/
def ds2431_read {σ : Type} (P : Pager σ) (handle : Option Handle) (address len : Nat)
    (s : σ) : Nat × List Nat × σ :=
  match handle with
  | none => (2, [], s)
  | some h =>
    if h.inited ≠ 1 then (3, [], s) else
    if address + len > 0x80 then
      (4, [], P.debug_print "ds2431: address and len are invalid.\n" s)
    else
    let r := P.a_read h address len s
    if r.1 ≠ 0 then (1, r.2.1, r.2.2) else (0, r.2.1, r.2.2)

/-- The local `uint8_t buffer[8 + 1]` of `ds2431_write` after `a_ds2431_read` stored the
bytes `page` in it. -/
def page_buffer (page : List Nat) : List Nat := (List.range 9).map (fun i => page.getD i 0)

/-- Loop `for (i = 0; i < remain; i++) buffer[i + off] = data[i];`. -/
def overlay (buffer : List Nat) (off remain : Nat) (data : List Nat) : List Nat :=
  (List.range remain).foldl (fun b i => b.set (i + off) (data.getD i 0)) buffer

/-- The first statement of the loop body of `ds2431_write`: a chunk that does not fill a
page is merged into the page read back at `pos * 8` and the page is written, a chunk of
eight bytes is written directly from the caller's buffer.  The status is `0` when the
page routines succeeded. -/
def ds2431_write_chunk {σ : Type} (P : Pager σ) (h : Handle) (pos off remain : Nat)
    (data : List Nat) (address : Nat) (s : σ) : Nat × σ :=
  if remain ≠ 8 then
    let r := P.a_read h ((pos * 8) % 65536) 8 s
    if r.1 ≠ 0 then (1, r.2.2) else
    let buffer := overlay (page_buffer r.2.1) off remain data
    P.a_write h ((pos * 8) % 65536) buffer r.2.2
  else
    P.a_write h address data s

/-- The `while (1)` loop of `ds2431_write`.  The first argument bounds the number of
iterations; `none` is returned when it is exhausted.  `data` is the caller's buffer from
the current position of the `data` pointer on. -/
def ds2431_write_loop {σ : Type} (P : Pager σ) (h : Handle) :
    Nat → Nat → Nat → Nat → List Nat → Nat → Nat → σ → Option (Nat × σ)
  | 0, _, _, _, _, _, _, _ => none
  | fuel + 1, pos, off, remain, data, address, len, s =>
    let w := ds2431_write_chunk P h pos off remain data address s
    if w.1 ≠ 0 then some (1, w.2) else
    if len = remain then some (0, w.2) else
    let len1 := (len + 4294967296 - remain) % 256
    ds2431_write_loop P h fuel (pos + 1) 0 (if len1 > 8 then 8 else len1) (data.drop remain)
      ((address + remain) % 256) len1 w.2

/-- The function `ds2431_write`; `fuel` bounds the iterations of its loop. -/
def ds2431_write {σ : Type} (P : Pager σ) (fuel : Nat) (handle : Option Handle)
    (address : Nat) (data : List Nat) (len : Nat) (s : σ) : Option (Nat × σ) :=
  match handle with
  | none => some (2, s)
  | some h =>
    if h.inited ≠ 1 then some (3, s) else
    if address + len > 0x80 then
      some (4, P.debug_print "ds2431: address and len are invalid.\n" s)
    else
    let pos := address / 8
    let off := address % 8
    let remain := 8 - off
    let remain := if len ≤ remain then len else remain
    ds2431_write_loop P h fuel pos off remain data address len s

/-! ## ROM search -/

/-- The variables of `a_ds2431_search`: the discrepancy stack `buffer` with its index `l`,
the bits `ss` chosen in the last pass, the byte `s` being assembled, the count `num`, the
caller's `*number` and the caller's ROM array `pid`.  Arrays are functions of the index. -/
structure SearchState where
  buffer : Nat → Nat
  l : Nat
  ss : Nat → Nat
  s : Nat
  num : Nat
  number : Nat
  pid : Nat → Nat → Nat

/-- Body of the innermost loop of `a_ds2431_search` at byte `m`, bit `n`.  The first
component is `some status` when the body executed a `return`. -/
def search_bit {σ : Type} (W : Wire σ) (m n : Nat) (st : SearchState) (s : σ) :
    Option Nat × SearchState × σ :=
  let r := W.read_2bit s
  if r.1 ≠ 0 then (some 1, st, W.debug_print "ds2431: read 2bit failed.\n" r.2.2) else
  let k := r.2.1 &&& 0x03
  let st := { st with s := st.s >>> 1 }
  if k = 0x01 then
    let w := W.write_bit 0 r.2.2
    if w.1 ≠ 0 then (some 1, st, W.debug_print "ds2431: write bit failed.\n" w.2) else
    (none, { st with ss := Function.update st.ss (m * 8 + n) 0 }, W.delay_us 5 w.2)
  else if k = 0x02 then
    let st := { st with s := st.s ||| 0x80 }
    let w := W.write_bit 1 r.2.2
    if w.1 ≠ 0 then (some 1, st, W.debug_print "ds2431: write bit failed.\n" w.2) else
    (none, { st with ss := Function.update st.ss (m * 8 + n) 1 }, W.delay_us 5 w.2)
  else if k = 0x00 then
    let conflict_bit := (m * 8 + n + 1) % 256
    if conflict_bit > st.buffer st.l then
      let w := W.write_bit 0 r.2.2
      if w.1 ≠ 0 then (some 1, st, W.debug_print "ds2431: write bit failed.\n" w.2) else
      let l := (st.l + 1) % 256
      (none, { st with ss := Function.update st.ss (m * 8 + n) 0, l := l,
                       buffer := Function.update st.buffer l conflict_bit },
        W.delay_us 5 w.2)
    else if conflict_bit < st.buffer st.l then
      let st := { st with s := st.s ||| ((st.ss (m * 8 + n) &&& 0x01) <<< 7) }
      let w := W.write_bit (st.ss (m * 8 + n)) r.2.2
      if w.1 ≠ 0 then (some 1, st, W.debug_print "ds2431: write bit failed.\n" w.2) else
      (none, st, W.delay_us 5 w.2)
    else
      let st := { st with s := st.s ||| 0x80 }
      let w := W.write_bit 1 r.2.2
      if w.1 ≠ 0 then (some 1, st, W.debug_print "ds2431: write bit failed.\n" w.2) else
      (none, { st with ss := Function.update st.ss (m * 8 + n) 1, l := (st.l + 255) % 256 },
        W.delay_us 5 w.2)
  else
    (some 0, { st with number := st.num }, r.2.2)

/-- Loop `for (n = 0; n < 8; n++)` of `a_ds2431_search`: `k` iterations from bit `n` on. -/
def search_bits {σ : Type} (W : Wire σ) (m : Nat) :
    Nat → Nat → SearchState → σ → Option Nat × SearchState × σ
  | 0, _, st, s => (none, st, s)
  | k + 1, n, st, s =>
    let r := search_bit W m n st s
    match r.1 with
    | some c => (some c, r.2.1, r.2.2)
    | none => search_bits W m k (n + 1) r.2.1 r.2.2

/-- Loop `for (m = 0; m < 8; m++)` of `a_ds2431_search`: `k` iterations from byte `m` on,
each storing the assembled byte in `pid[num][m]`. -/
def search_bytes {σ : Type} (W : Wire σ) :
    Nat → Nat → SearchState → σ → Option Nat × SearchState × σ
  | 0, _, st, s => (none, st, s)
  | k + 1, m, st, s =>
    let r := search_bits W m 8 0 st s
    match r.1 with
    | some c => (some c, r.2.1, r.2.2)
    | none =>
      let st := r.2.1
      let st := { st with pid := Function.update st.pid st.num
                                  (Function.update (st.pid st.num) m st.s), s := 0 }
      search_bytes W k (m + 1) st r.2.2

/-- The `do ... while (buffer[l] != 0)` loop of `a_ds2431_search`, one pass for each
iteration.  The first argument bounds the number of passes; `none` is returned when it is
exhausted.  The result is `(status, variables, state)`. -/
def search_passes {σ : Type} (W : Wire σ) (cmd : Nat) :
    Nat → SearchState → σ → Option (Nat × SearchState × σ)
  | 0, _, _ => none
  | fuel + 1, st, s =>
    let r := W.reset s
    if r.1 ≠ 0 then some (1, st, W.debug_print "ds2431: reset failed.\n" r.2) else
    let r := W.write_byte cmd r.2
    if r.1 ≠ 0 then some (1, st, W.debug_print "ds2431: write command failed.\n" r.2) else
    let p := search_bytes W 8 0 st r.2
    match p.1 with
    | some c => some (c, p.2.1, p.2.2)
    | none =>
      let st := { p.2.1 with num := (p.2.1.num + 1) % 256 }
      if st.num > st.number then some (0, { st with number := st.num }, p.2.2)
      else if st.buffer st.l ≠ 0 then search_passes W cmd fuel st p.2.2
      else some (0, { st with number := st.num }, p.2.2)

/-- The static function `a_ds2431_search`.  `pid` is the caller's ROM array and `number`
the value of `*number` on entry; the result is `(status, *number, pid, state)`.  A pass
increments `num` and the loop is left once `num > *number`, so that `number + 1` passes
are all the loop can make. -/
def a_ds2431_search {σ : Type} (W : Wire σ) (pid : Nat → Nat → Nat) (cmd : Nat) (number : Nat)
    (s : σ) : Option (Nat × Nat × (Nat → Nat → Nat) × σ) :=
  if number > DS2431_MAX_SEARCH_SIZE then
    some (1, number, pid, W.debug_print "ds2431: number is over DS2431_MAX_SEARCH_SIZE.\n" s)
  else
    match search_passes W cmd (number + 1)
        ⟨fun _ => 0, 0, fun _ => 0, 0, 0, number, pid⟩ s with
    | none => none
    | some r => some (r.1, r.2.1.number, r.2.1.pid, r.2.2)

/-- The function `ds2431_search_rom`. -/
def ds2431_search_rom {σ : Type} (W : Wire σ) (handle : Option Handle) (rom : Nat → Nat → Nat)
    (num : Nat) (s : σ) : Option (Nat × Nat × (Nat → Nat → Nat) × σ) :=
  match handle with
  | none => some (2, num, rom, s)
  | some h =>
    if h.inited ≠ 1 then some (3, num, rom, s) else
    a_ds2431_search W rom DS2431_CMD_SEARCH_ROM num s

/-- Row `i` of a ROM array as a list of its eight bytes. -/
def rom_row (rom : Nat → Nat → Nat) (i : Nat) : List Nat := (List.range 8).map (rom i)

/-! ## Mode, ROM and ROM matching -/

def DS2431_TYPE_MATCH_ROM : Nat := 0x00
def DS2431_TYPE_OVERDRIVE_MATCH_ROM : Nat := 0x01

/-- The function `ds2431_set_mode`; the result is the status and the handle after the
call.  The assignment `handle->mode = (uint8_t)mode` narrows the enumeration value. -/
def ds2431_set_mode (handle : Option Handle) (mode : Nat) : Nat × Option Handle :=
  match handle with
  | none => (2, none)
  | some h =>
    if h.inited ≠ 1 then (3, some h) else
    (0, some { h with mode := mode % 256 })

/-- The function `ds2431_get_mode`; the second component is the value stored through the
`mode` pointer, `none` when nothing is stored. -/
def ds2431_get_mode (handle : Option Handle) : Nat × Option Nat :=
  match handle with
  | none => (2, none)
  | some h =>
    if h.inited ≠ 1 then (3, none) else
    (0, some h.mode)

/-- The function `ds2431_set_rom`: `memcpy(handle->rom, rom, 8)`. -/
def ds2431_set_rom (handle : Option Handle) (rom : List Nat) : Nat × Option Handle :=
  match handle with
  | none => (2, none)
  | some h =>
    if h.inited ≠ 1 then (3, some h) else
    (0, some { h with rom := bytes8 rom })

/-- Loop `for (i = 0; i < 8; i++)` of `ds2431_get_rom` reading into `rom[i]`; `acc` holds
the bytes stored so far.  The result is `(status, rom, state)`. -/
def read_rom {σ : Type} (W : Wire σ) : Nat → List Nat → σ → Nat × List Nat × σ
  | 0, acc, s => (0, acc, s)
  | n + 1, acc, s =>
    let r := W.read_byte s
    if r.1 ≠ 0 then (1, acc ++ [r.2.1], W.debug_print "ds2431: read rom failed.\n" r.2.2)
    else read_rom W n (acc ++ [r.2.1]) r.2.2

/-- The function `ds2431_get_rom`; the bytes are stored in the caller's `rom` buffer. -/
def ds2431_get_rom {σ : Type} (W : Wire σ) (handle : Option Handle) (s : σ) :
    Nat × List Nat × σ :=
  match handle with
  | none => (2, [], s)
  | some h =>
    if h.inited ≠ 1 then (3, [], s) else
    let r := W.reset s
    if r.1 ≠ 0 then (1, [], W.debug_print "ds2431: bus rest failed.\n" r.2) else
    let r := W.write_byte DS2431_CMD_READ_ROM r.2
    if r.1 ≠ 0 then (1, [], W.debug_print "ds2431: write command failed.\n" r.2) else
    read_rom W 8 [] r.2

/-- The function `ds2431_rom_match`; every `type` other than `DS2431_TYPE_MATCH_ROM` takes
the overdrive branch. -/
def ds2431_rom_match {σ : Type} (W : Wire σ) (handle : Option Handle) (type : Nat)
    (rom : List Nat) (s : σ) : Nat × σ :=
  match handle with
  | none => (2, s)
  | some h =>
    if h.inited ≠ 1 then (3, s) else
    if type = DS2431_TYPE_MATCH_ROM then
      let r := W.reset s
      if r.1 ≠ 0 then (1, W.debug_print "ds2431: bus reset failed.\n" r.2) else
      let r := W.write_byte DS2431_CMD_MATCH_ROM r.2
      if r.1 ≠ 0 then (1, W.debug_print "ds2431: write command failed.\n" r.2) else
      let w := write_all W W.write_byte "ds2431: write command failed.\n" (bytes8 rom) r.2
      if w.1 ≠ 0 then (1, w.2) else
      let r := W.reset w.2
      if r.1 ≠ 0 then (1, W.debug_print "ds2431: bus reset failed.\n" r.2) else
      (0, r.2)
    else
      let r := W.reset s
      if r.1 ≠ 0 then (1, W.debug_print "ds2431: bus reset failed.\n" r.2) else
      let r := W.write_byte DS2431_CMD_OVERDRIVE_MATCH_ROM r.2
      if r.1 ≠ 0 then (1, W.debug_print "ds2431: write command failed.\n" r.2) else
      let w := write_all W W.write_byte_overdrive "ds2431: write command failed.\n"
        (bytes8 rom) r.2
      if w.1 ≠ 0 then (1, w.2) else
      let r := W.reset_overdrive w.2
      if r.1 ≠ 0 then (1, W.debug_print "ds2431: bus reset failed.\n" r.2) else
      (0, r.2)

/-! ## Memory configuration -/

/-- The structure `ds2431_config_control_t`. -/
structure Config where
  page0_protection_control : Nat
  page1_protection_control : Nat
  page2_protection_control : Nat
  page3_protection_control : Nat
  copy_protection : Nat
  factory_byte : Nat
  user_byte_0 : Nat
  user_byte_1 : Nat
deriving DecidableEq, Repr

/-- The assignments `config->... = buf[i]` of `ds2431_read_memory_config`. -/
def config_of_buf (buf : List Nat) : Config where
  page0_protection_control := buf.getD 0 0
  page1_protection_control := buf.getD 1 0
  page2_protection_control := buf.getD 2 0
  page3_protection_control := buf.getD 3 0
  copy_protection := buf.getD 4 0
  factory_byte := buf.getD 5 0
  user_byte_0 := buf.getD 6 0
  user_byte_1 := buf.getD 7 0

/-- The assignments `buf[i] = config->...` of `ds2431_write_memory_config`. -/
def buf_of_config (config : Config) : List Nat :=
  [config.page0_protection_control, config.page1_protection_control,
   config.page2_protection_control, config.page3_protection_control,
   config.copy_protection, config.factory_byte, config.user_byte_0, config.user_byte_1]

/-- The function `ds2431_read_memory_config`; the second component is the structure
stored through `config`, `none` when nothing is stored. -/
def ds2431_read_memory_config {σ : Type} (P : Pager σ) (handle : Option Handle) (s : σ) :
    Nat × Option Config × σ :=
  match handle with
  | none => (2, none, s)
  | some h =>
    if h.inited ≠ 1 then (3, none, s) else
    let r := P.a_read h 0x80 8 s
    if r.1 ≠ 0 then (1, none, r.2.2) else
    (0, some (config_of_buf r.2.1), r.2.2)

/-- The function `ds2431_write_memory_config`. -/
def ds2431_write_memory_config {σ : Type} (P : Pager σ) (handle : Option Handle)
    (config : Config) (s : σ) : Nat × σ :=
  match handle with
  | none => (2, s)
  | some h =>
    if h.inited ≠ 1 then (3, s) else
    let r := P.a_write h 0x80 (buf_of_config config) s
    if r.1 ≠ 0 then (1, r.2) else (0, r.2)

/-! ## Initialization -/

/-- The capability pointers of `ds2431_handle_t` as the caller linked them; `none` is a
`NULL` pointer. -/
structure LinkPtrs (σ : Type) where
  bus_init : Option (σ → Nat × σ)
  bus_deinit : Option (σ → Nat × σ)
  bus_read : Option (σ → Nat × Nat × σ)
  bus_write : Option (Nat → σ → Nat × σ)
  delay_ms : Option (Nat → σ → σ)
  delay_us : Option (Nat → σ → σ)
  enable_irq : Option (σ → σ)
  disable_irq : Option (σ → σ)
  debug_print : Option (String → σ → σ)

/-- The pointers of a handle in which every capability is linked. -/
def LinkPtrs.ofLink {σ : Type} (L : Link σ) : LinkPtrs σ where
  bus_init := some L.bus_init
  bus_deinit := some L.bus_deinit
  bus_read := some L.bus_read
  bus_write := some L.bus_write
  delay_ms := some L.delay_ms
  delay_us := some L.delay_us
  enable_irq := some L.enable_irq
  disable_irq := some L.disable_irq
  debug_print := some L.debug_print

/-- The function `ds2431_init`; the result is the status, the handle after the call and
the platform state.  The pointers are tested in the order of the source. -/
def ds2431_init {σ : Type} (P : LinkPtrs σ) (handle : Option Handle) (s : σ) :
    Nat × Option Handle × σ :=
  match handle with
  | none => (2, none, s)
  | some h =>
    match P.debug_print with
    | none => (3, some h, s)
    | some debug_print =>
    match P.bus_init with
    | none => (3, some h, debug_print "ds2431: bus_init is null.\n" s)
    | some bus_init =>
    match P.bus_deinit with
    | none => (3, some h, debug_print "ds2431: bus_deinit is null.\n" s)
    | some bus_deinit =>
    match P.bus_read with
    | none => (3, some h, debug_print "ds2431: bus_read is null.\n" s)
    | some bus_read =>
    match P.bus_write with
    | none => (3, some h, debug_print "ds2431: bus_write is null.\n" s)
    | some bus_write =>
    match P.delay_ms with
    | none => (3, some h, debug_print "ds2431: delay_ms is null.\n" s)
    | some delay_ms =>
    match P.delay_us with
    | none => (3, some h, debug_print "ds2431: delay_us is null.\n" s)
    | some delay_us =>
    match P.enable_irq with
    | none => (3, some h, debug_print "ds2431: enable_irq is null.\n" s)
    | some enable_irq =>
    match P.disable_irq with
    | none => (3, some h, debug_print "ds2431: disable_irq is null.\n" s)
    | some disable_irq =>
    let L : Link σ := ⟨bus_init, bus_deinit, bus_read, bus_write, delay_ms, delay_us,
      enable_irq, disable_irq, debug_print⟩
    let r := L.bus_init s
    if r.1 ≠ 0 then (1, some h, L.debug_print "ds2431: bus init failed.\n" r.2) else
    let r := a_ds2431_reset L r.2
    if r.1 ≠ 0 then
      (4, some h, (L.bus_deinit (L.debug_print "ds2431: reset failed.\n" r.2)).2)
    else
    (0, some { h with inited := 1 }, r.2)

/-- The function `ds2431_deinit`. -/
def ds2431_deinit {σ : Type} (L : Link σ) (handle : Option Handle) (s : σ) :
    Nat × Option Handle × σ :=
  match handle with
  | none => (2, none, s)
  | some h =>
    if h.inited ≠ 1 then (3, some h, s) else
    let r := L.bus_deinit s
    if r.1 ≠ 0 then (1, some h, L.debug_print "ds2431: deinit failed.\n" r.2) else
    (0, some { h with inited := 0 }, r.2)

/-! ## The public interface as a whole -/

/-- A call of a public function on a handle, with the arguments other than the handle. -/
inductive Call where
  | set_mode (mode : Nat)
  | get_mode
  | set_rom (rom : List Nat)
  | get_rom
  | copy_scratchpad (address : Nat)
  | write_scratchpad (address : Nat) (data : List Nat)
  | read_scratchpad
  | read_memory (address len : Nat)
  | read_memory_config
  | write_memory_config (config : Config)
  | read (address len : Nat)
  | write (address : Nat) (data : List Nat) (len : Nat)
  | rom_match (type : Nat) (rom : List Nat)
  | search_rom (rom : Nat → Nat → Nat) (num : Nat)
  | init
  | deinit

/-- Whether the call is one of the four functions that assign to a field of the handle. -/
def Call.assigns : Call → Bool
  | Call.set_mode _ => true
  | Call.set_rom _ => true
  | Call.init => true
  | Call.deinit => true
  | _ => false

/-- A call of the public interface on the handle `h` with every capability linked to the
platform `L`: the status, the handle after the call and the platform state.  The handle is
passed by reference in the source; `ds2431_set_mode`, `ds2431_set_rom`, `ds2431_init` and
`ds2431_deinit` are the functions with an assignment to one of its fields, every other
function reads it only, and its output buffers are the caller's.  `ds2431_write` runs with
the 17 loop iterations an in-range request can need. -/
def exec {σ : Type} (L : Link σ) (c : Call) (h : Handle) (s : σ) :
    Option (Nat × Handle × σ) :=
  match c with
  | Call.set_mode mode =>
    let r := ds2431_set_mode (some h) mode
    some (r.1, r.2.getD h, s)
  | Call.get_mode => some ((ds2431_get_mode (some h)).1, h, s)
  | Call.set_rom rom =>
    let r := ds2431_set_rom (some h) rom
    some (r.1, r.2.getD h, s)
  | Call.get_rom =>
    let r := ds2431_get_rom (Wire.ofLink L) (some h) s
    some (r.1, h, r.2.2)
  | Call.copy_scratchpad address =>
    let r := ds2431_copy_scratchpad (Wire.ofLink L) (some h) address s
    some (r.1, h, r.2)
  | Call.write_scratchpad address data =>
    let r := ds2431_write_scratchpad (Wire.ofLink L) (some h) address data s
    some (r.1, h, r.2.2)
  | Call.read_scratchpad =>
    let r := ds2431_read_scratchpad (Wire.ofLink L) (some h) s
    some (r.1, h, r.2.2)
  | Call.read_memory address len =>
    let r := ds2431_read_memory (Wire.ofLink L) (some h) address len s
    some (r.1, h, r.2.2)
  | Call.read_memory_config =>
    let r := ds2431_read_memory_config (Pager.ofWire (Wire.ofLink L)) (some h) s
    some (r.1, h, r.2.2)
  | Call.write_memory_config config =>
    let r := ds2431_write_memory_config (Pager.ofWire (Wire.ofLink L)) (some h) config s
    some (r.1, h, r.2)
  | Call.read address len =>
    let r := ds2431_read (Pager.ofWire (Wire.ofLink L)) (some h) address len s
    some (r.1, h, r.2.2)
  | Call.write address data len =>
    (ds2431_write (Pager.ofWire (Wire.ofLink L)) 17 (some h) address data len s).map
      (fun r => (r.1, h, r.2))
  | Call.rom_match type rom =>
    let r := ds2431_rom_match (Wire.ofLink L) (some h) type rom s
    some (r.1, h, r.2)
  | Call.search_rom rom num =>
    (ds2431_search_rom (Wire.ofLink L) (some h) rom num s).map
      (fun r => (r.1, h, r.2.2.2))
  | Call.init =>
    let r := ds2431_init (LinkPtrs.ofLink L) (some h) s
    some (r.1, r.2.1.getD h, r.2.2)
  | Call.deinit =>
    let r := ds2431_deinit L (some h) s
    some (r.1, r.2.1.getD h, r.2.2)

/-! ## Simulated devices -/

/-- Device model at the level of the page routines: the memory is a byte array, a page
read returns the current bytes and always succeeds, a page write always succeeds and
replaces the eight bytes at its address. -/
def memPager : Pager (Nat → Nat) where
  a_read := fun _ address len mem => (0, (List.range len).map (fun i => mem (address + i)), mem)
  a_write := fun _ address data mem =>
    (0, fun j => if address ≤ j ∧ j < address + 8 then data.getD (j - address) 0 else mem j)
  debug_print := fun _ mem => mem

/-- A transport call as seen by a simulated bus. -/
inductive WireEvent where
  | reset
  | reset_overdrive
  | read_byte (value : Nat)
  | write_byte (byte : Nat)
  | read_byte_overdrive (value : Nat)
  | write_byte_overdrive (byte : Nat)
  | read_2bit (value : Nat)
  | write_bit (bit : Nat)
  | delay_ms (ms : Nat)
  | delay_us (us : Nat)
  | debug_print (msg : String)
deriving DecidableEq, Repr

/-- State of the scripted bus: the bytes the device will answer, in order, and the log of
the transport calls made so far. -/
structure Script where
  rx : List Nat
  log : List WireEvent
deriving DecidableEq, Repr

/-- Scripted bus on which every transfer succeeds: resets and writes are logged, a byte
read delivers the next scripted byte.  A read past the end of the script fails. -/
def scriptWire : Wire Script where
  reset := fun s => (0, { s with log := s.log ++ [WireEvent.reset] })
  reset_overdrive := fun s => (0, { s with log := s.log ++ [WireEvent.reset_overdrive] })
  read_byte := fun s =>
    match s.rx with
    | [] => (1, 0, s)
    | b :: rest => (0, b, ⟨rest, s.log ++ [WireEvent.read_byte b]⟩)
  write_byte := fun b s => (0, { s with log := s.log ++ [WireEvent.write_byte b] })
  read_byte_overdrive := fun s =>
    match s.rx with
    | [] => (1, 0, s)
    | b :: rest => (0, b, ⟨rest, s.log ++ [WireEvent.read_byte_overdrive b]⟩)
  write_byte_overdrive := fun b s =>
    (0, { s with log := s.log ++ [WireEvent.write_byte_overdrive b] })
  read_2bit := fun s =>
    match s.rx with
    | [] => (1, 0, s)
    | b :: rest => (0, b, ⟨rest, s.log ++ [WireEvent.read_2bit b]⟩)
  write_bit := fun b s => (0, { s with log := s.log ++ [WireEvent.write_bit b] })
  delay_ms := fun n s => { s with log := s.log ++ [WireEvent.delay_ms n] }
  delay_us := fun n s => { s with log := s.log ++ [WireEvent.delay_us n] }
  debug_print := fun m s => { s with log := s.log ++ [WireEvent.debug_print m] }

/-- Bit `i` (0..63) of a ROM identifier, least significant bit of byte 0 first. -/
def rom_bit (rom : List Nat) (i : Nat) : Nat := (rom.getD (i / 8) 0 >>> (i % 8)) &&& 1

/-- State of the simulated wired-AND bus: the devices present, those still selected in
the current search pass and the bit position the pass has reached. -/
structure SimBus where
  devices : List (List Nat)
  selected : List (List Nat)
  pos : Nat
deriving DecidableEq, Repr

/-- The simulated wired-AND bus.  A reset selects every device; in a search pass each
selected device sends its next ROM bit then the complement, the line reads the AND of all
senders (`1` when nobody pulls it low), and a device stays selected only when the bit
written back equals its own.  After the 64 bits no device answers. -/
def simWire : Wire SimBus where
  reset := fun s => (0, { s with selected := s.devices, pos := 0 })
  reset_overdrive := fun s => (0, { s with selected := s.devices, pos := 0 })
  read_byte := fun s => (0, 0xFF, s)
  write_byte := fun _ s => (0, s)
  read_byte_overdrive := fun s => (0, 0xFF, s)
  write_byte_overdrive := fun _ s => (0, s)
  read_2bit := fun s =>
    let senders := if s.pos < 64 then s.selected else []
    let first := if senders.all (fun d => rom_bit d s.pos = 1) then 1 else 0
    let second := if senders.all (fun d => rom_bit d s.pos = 0) then 1 else 0
    (0, (first <<< 1) ||| second, s)
  write_bit := fun b s =>
    (0, { s with selected := s.selected.filter (fun d => rom_bit d s.pos = (if b = 0 then 0 else 1)),
                 pos := s.pos + 1 })
  delay_ms := fun _ s => s
  delay_us := fun _ s => s
  debug_print := fun _ s => s

/-! ## Auxiliary definitions for the statements -/

/-- The status (first component) of a result is one of the listed codes. -/
def StatusIn {α : Type} (codes : List Nat) (r : Nat × α) : Prop := r.1 ∈ codes

/-- The driver's transport on the platform `L`, every capability call being logged. -/
def driver {σ : Type} (L : Link σ) : Wire (σ × List Event) := Wire.ofLink L.record

/-- A platform without state on which every transfer succeeds and the line reads `0`. -/
def quietLink : Link Unit where
  bus_init := fun s => (0, s)
  bus_deinit := fun s => (0, s)
  bus_read := fun s => (0, 0, s)
  bus_write := fun _ s => (0, s)
  delay_ms := fun _ s => s
  delay_us := fun _ s => s
  enable_irq := fun s => s
  disable_irq := fun s => s
  debug_print := fun _ s => s

/-- A platform without state on which every bus transfer fails. -/
def deadLink : Link Unit where
  bus_init := fun s => (0, s)
  bus_deinit := fun s => (0, s)
  bus_read := fun s => (1, 0, s)
  bus_write := fun _ s => (1, s)
  delay_ms := fun _ s => s
  delay_us := fun _ s => s
  enable_irq := fun s => s
  disable_irq := fun s => s
  debug_print := fun _ s => s

/-- The pointers `P` with every linked capability logging its calls, as `Link.record`. -/
def LinkPtrs.record {σ : Type} (P : LinkPtrs σ) : LinkPtrs (σ × List Event) where
  bus_init := P.bus_init.map (fun f s =>
    let r := f s.1; (r.1, (r.2, s.2 ++ [Event.bus_init r.1])))
  bus_deinit := P.bus_deinit.map (fun f s =>
    let r := f s.1; (r.1, (r.2, s.2 ++ [Event.bus_deinit r.1])))
  bus_read := P.bus_read.map (fun f s =>
    let r := f s.1; (r.1, r.2.1, (r.2.2, s.2 ++ [Event.bus_read r.1 r.2.1])))
  bus_write := P.bus_write.map (fun f v s =>
    let r := f v s.1; (r.1, (r.2, s.2 ++ [Event.bus_write v r.1])))
  delay_ms := P.delay_ms.map (fun f n s => (f n s.1, s.2 ++ [Event.delay_ms n]))
  delay_us := P.delay_us.map (fun f n s => (f n s.1, s.2 ++ [Event.delay_us n]))
  enable_irq := P.enable_irq.map (fun f s => (f s.1, s.2 ++ [Event.enable_irq]))
  disable_irq := P.disable_irq.map (fun f s => (f s.1, s.2 ++ [Event.disable_irq]))
  debug_print := P.debug_print.map (fun f m s => (f m s.1, s.2 ++ [Event.debug_print m]))

/-- Whether one of the nine capabilities is not linked. -/
def LinkPtrs.absent {σ : Type} (P : LinkPtrs σ) : Bool :=
  P.debug_print.isNone || P.bus_init.isNone || P.bus_deinit.isNone || P.bus_read.isNone
    || P.bus_write.isNone || P.delay_ms.isNone || P.delay_us.isNone || P.enable_irq.isNone
    || P.disable_irq.isNone

/-- The event is a `bus_read` or `bus_write` call. -/
def Event.isBus : Event → Bool
  | Event.bus_read _ _ => true
  | Event.bus_write _ _ => true
  | _ => false

/-- The event is a `bus_read` or `bus_write` call that reported a failure. -/
def Event.failed : Event → Bool
  | Event.bus_read status _ => status ≠ 0
  | Event.bus_write _ status => status ≠ 0
  | _ => false

/-- The event is a `bus_init` call. -/
def Event.isInit : Event → Bool
  | Event.bus_init _ => true
  | _ => false

/-- An operation that took the log from `before` to `after` and returned `status` unwound
at the first transport error: the log was extended only, and whenever the extension holds a
failed `bus_read` or `bus_write` no such call follows it and the status is not `0`. -/
def Unwound (before : List Event) (status : Nat) (after : List Event) : Prop :=
  ∃ ext, after = before ++ ext ∧
    ∀ a e b, ext = a ++ e :: b → e.failed = true → (∀ x ∈ b, x.isBus = false) ∧ status ≠ 0

/-- No event of the list is a `bus_read` or `bus_write` call. -/
def Quiet (ext : List Event) : Prop := ∀ e ∈ ext, e.isBus = false

/-- No event of the list is a failed transfer. -/
def Clean (ext : List Event) : Prop := ∀ e ∈ ext, e.failed = false

/-- The log `t1` extends `t` by calls other than `bus_read` and `bus_write`. -/
def QuietStep (t t1 : List Event) : Prop := ∃ ext, t1 = t ++ ext ∧ Quiet ext

/-- Invariant of a routine that took the log from `t` to `t1` with status `st`: with status
`0` no transfer of the extension failed; with another status the extension is made of
transfers that did not fail, then at most one more event, then no transfer. -/
def Step (t : List Event) (st : Nat) (t1 : List Event) : Prop :=
  ∃ ext, t1 = t ++ ext ∧
    ((st = 0 ∧ Clean ext) ∨ (st ≠ 0 ∧ ∃ a b, ext = a ++ b ∧ Clean a ∧ Quiet b.tail))

/-- The invariant `Step` for a result `r` with status `st r` and log `lg r`. -/
def Traced {ρ : Type} (st : ρ → Nat) (lg : ρ → List Event) (t : List Event) (r : ρ) : Prop :=
  Step t (st r) (lg r)

/-- The capabilities of a platform over a logging state keep the invariant: a transfer
appends events according to its status, every other capability appends no transfer. -/
structure Link.Traced {σ : Type} (L : Link (σ × List Event)) : Prop where
  bus_init : ∀ s, QuietStep s.2 (L.bus_init s).2.2
  bus_deinit : ∀ s, QuietStep s.2 (L.bus_deinit s).2.2
  bus_read : ∀ s, Step s.2 (L.bus_read s).1 (L.bus_read s).2.2.2
  bus_write : ∀ v s, Step s.2 (L.bus_write v s).1 (L.bus_write v s).2.2
  delay_ms : ∀ n s, QuietStep s.2 (L.delay_ms n s).2
  delay_us : ∀ n s, QuietStep s.2 (L.delay_us n s).2
  enable_irq : ∀ s, QuietStep s.2 (L.enable_irq s).2
  disable_irq : ∀ s, QuietStep s.2 (L.disable_irq s).2
  debug_print : ∀ m s, QuietStep s.2 (L.debug_print m s).2

/-- The transport helpers over a logging state keep the invariant. -/
structure Wire.Traced {σ : Type} (W : Wire (σ × List Event)) : Prop where
  reset : ∀ s, Step s.2 (W.reset s).1 (W.reset s).2.2
  reset_overdrive : ∀ s, Step s.2 (W.reset_overdrive s).1 (W.reset_overdrive s).2.2
  read_byte : ∀ s, Step s.2 (W.read_byte s).1 (W.read_byte s).2.2.2
  write_byte : ∀ b s, Step s.2 (W.write_byte b s).1 (W.write_byte b s).2.2
  read_byte_overdrive : ∀ s,
    Step s.2 (W.read_byte_overdrive s).1 (W.read_byte_overdrive s).2.2.2
  write_byte_overdrive : ∀ b s,
    Step s.2 (W.write_byte_overdrive b s).1 (W.write_byte_overdrive b s).2.2
  read_2bit : ∀ s, Step s.2 (W.read_2bit s).1 (W.read_2bit s).2.2.2
  write_bit : ∀ b s, Step s.2 (W.write_bit b s).1 (W.write_bit b s).2.2
  delay_ms : ∀ n s, QuietStep s.2 (W.delay_ms n s).2
  delay_us : ∀ n s, QuietStep s.2 (W.delay_us n s).2
  debug_print : ∀ m s, QuietStep s.2 (W.debug_print m s).2

/-- The page routines over a logging state keep the invariant. -/
structure Pager.Traced {σ : Type} (P : Pager (σ × List Event)) : Prop where
  a_read : ∀ h address len s,
    Step s.2 (P.a_read h address len s).1 (P.a_read h address len s).2.2.2
  a_write : ∀ h address data s,
    Step s.2 (P.a_write h address data s).1 (P.a_write h address data s).2.2
  debug_print : ∀ m s, QuietStep s.2 (P.debug_print m s).2

/-- Pointers of a handle on which no capability has been linked. -/
def unlinked : LinkPtrs Unit := ⟨none, none, none, none, none, none, none, none, none⟩

/-- The transport `W` with its standard reset and standard byte writer replaced by the
overdrive ones: addressing at overdrive speed. -/
def Wire.fast {σ : Type} (W : Wire σ) : Wire σ :=
  { W with reset := W.reset_overdrive, write_byte := W.write_byte_overdrive }

/-- The invariant for a result `(status, state)`. -/
abbrev Traced1 {σ : Type} (t : List Event) (r : Nat × (σ × List Event)) : Prop :=
  Traced (fun r : Nat × (σ × List Event) => r.1) (fun r => r.2.2) t r

/-- The invariant for a result `(status, value, state)`. -/
abbrev Traced2 {σ α : Type} (t : List Event) (r : Nat × α × (σ × List Event)) : Prop :=
  Traced (fun r : Nat × α × (σ × List Event) => r.1) (fun r => r.2.2.2) t r

/-- The invariant for a result `(status, value, value, state)`. -/
abbrev Traced3 {σ α β : Type} (t : List Event) (r : Nat × α × β × (σ × List Event)) : Prop :=
  Traced (fun r : Nat × α × β × (σ × List Event) => r.1) (fun r => r.2.2.2.2) t r

/-- The invariant for a result `(return, variables, state)` of a part of the search, where
the first component is `some status` after a `return` and `none` otherwise. -/
abbrev TracedR {σ α : Type} (t : List Event) (r : Option Nat × α × (σ × List Event)) : Prop :=
  Traced (fun r : Option Nat × α × (σ × List Event) => r.1.getD 0) (fun r => r.2.2.2) t r

/-! ## Specification-level notions for the ROM search -/

/-- ROM identifiers `w` and `v` have the same bits at the positions below `i`. -/
def bitsAgree (w v : List Nat) (i : Nat) : Prop := ∀ j, j < i → rom_bit w j = rom_bit v j

instance bitsAgree_decidable (w v : List Nat) (i : Nat) : Decidable (bitsAgree w v i) := by
  unfold bitsAgree
  infer_instance

/-- Discrepancy at position `j` on the path of `v`: a device of `S` shares the bits of `v`
below `j` and differs at `j`. -/
def conflict (S : List (List Nat)) (v : List Nat) (j : Nat) : Prop :=
  ∃ w ∈ S, bitsAgree w v j ∧ rom_bit w j ≠ rom_bit v j

instance conflict_decidable (S : List (List Nat)) (v : List Nat) (j : Nat) :
    Decidable (conflict S v j) := by
  unfold conflict
  infer_instance

/-- Order of the search: `w` precedes `v` when at the first bit where they differ `w` has
`0` and `v` has `1`. -/
def romLt (w v : List Nat) : Prop :=
  ∃ r, r < 64 ∧ bitsAgree w v r ∧ rom_bit w r = 0 ∧ rom_bit v r = 1

instance romLt_decidable (w v : List Nat) : Decidable (romLt w v) := by
  unfold romLt
  infer_instance

/-- The identifier `w` has the 64 bits of `v` or precedes it. -/
def romLe (w v : List Nat) : Prop := bitsAgree w v 64 ∨ romLt w v

instance romLe_decidable (w v : List Nat) : Decidable (romLe w v) := by
  unfold romLe
  infer_instance

/-- A well-formed ROM identifier: eight bytes. -/
def ValidRom (d : List Nat) : Prop := d.length = 8 ∧ ∀ x ∈ d, x < 256

instance validRom_decidable (d : List Nat) : Decidable (ValidRom d) := by
  unfold ValidRom
  infer_instance

/-- A platform on which every `bus_write` succeeds and `bus_read` delivers the scripted
sample values in order; a read past the end of the script fails.  The state is the list of
the samples not yet delivered. -/
def sampleLink : Link (List Nat) where
  bus_init := fun s => (0, s)
  bus_deinit := fun s => (0, s)
  bus_read := fun s =>
    match s with
    | [] => (1, 0, s)
    | v :: rest => (0, v, rest)
  bus_write := fun _ s => (0, s)
  delay_ms := fun _ s => s
  delay_us := fun _ s => s
  enable_irq := fun s => s
  disable_irq := fun s => s
  debug_print := fun _ s => s

/-- The events of one write slot in which both bus writes succeed: the line is driven low,
held for `lowUs` microseconds, released and left high for `highUs` microseconds. -/
def write_slot (lowUs highUs : Nat) : List Event :=
  [Event.bus_write 0 0, Event.delay_us lowUs, Event.bus_write 1 0, Event.delay_us highUs]

/-- The slots of the bits `i`, `i + 1`, ..., `i + n - 1` of `b`, in that order: a slot
`(oneLow, oneHigh)` for a bit `1` and a slot `(zeroLow, zeroHigh)` for a bit `0`. -/
def byte_slots (oneLow oneHigh zeroLow zeroHigh b : Nat) : Nat → Nat → List Event
  | 0, _ => []
  | n + 1, i =>
    (if b.testBit i then write_slot oneLow oneHigh else write_slot zeroLow zeroHigh)
      ++ byte_slots oneLow oneHigh zeroLow zeroHigh b n (i + 1)

/-- Sum of the `delay_us` arguments of a list of events. -/
def delay_total : List Event → Nat
  | [] => 0
  | Event.delay_us us :: es => us + delay_total es
  | _ :: es => delay_total es

/-- A call of a page routine as seen by a simulated page device. -/
inductive PageOp where
  | read (address len : Nat)
  | write (address : Nat) (data : List Nat)
deriving DecidableEq, Repr

/-- Device model at the level of the page routines that logs their calls; a page read
returns zeros and every call succeeds. -/
def logPager : Pager (List PageOp) where
  a_read := fun _ address len log => (0, List.replicate len 0, log ++ [PageOp.read address len])
  a_write := fun _ address data log => (0, log ++ [PageOp.write address data])
  debug_print := fun _ log => log

/-- A result `(status, crc16, state)` that stores `x` through `crc16` whenever its status
is `0`. -/
def StoresCrc {σ : Type} (x : Nat) (r : Nat × Option Nat × σ) : Prop :=
  r.1 = 0 → r.2.1 = some x

/-! ## Recorded transport calls -/

/-- The transport `W` with every call appended to a log together with the status it
returned (`0` for the calls that return none). -/
def Wire.record {σ : Type} (W : Wire σ) : Wire (σ × List (WireEvent × Nat)) where
  reset := fun s =>
    let r := W.reset s.1
    (r.1, (r.2, s.2 ++ [(WireEvent.reset, r.1)]))
  reset_overdrive := fun s =>
    let r := W.reset_overdrive s.1
    (r.1, (r.2, s.2 ++ [(WireEvent.reset_overdrive, r.1)]))
  read_byte := fun s =>
    let r := W.read_byte s.1
    (r.1, r.2.1, (r.2.2, s.2 ++ [(WireEvent.read_byte r.2.1, r.1)]))
  write_byte := fun b s =>
    let r := W.write_byte b s.1
    (r.1, (r.2, s.2 ++ [(WireEvent.write_byte b, r.1)]))
  read_byte_overdrive := fun s =>
    let r := W.read_byte_overdrive s.1
    (r.1, r.2.1, (r.2.2, s.2 ++ [(WireEvent.read_byte_overdrive r.2.1, r.1)]))
  write_byte_overdrive := fun b s =>
    let r := W.write_byte_overdrive b s.1
    (r.1, (r.2, s.2 ++ [(WireEvent.write_byte_overdrive b, r.1)]))
  read_2bit := fun s =>
    let r := W.read_2bit s.1
    (r.1, r.2.1, (r.2.2, s.2 ++ [(WireEvent.read_2bit r.2.1, r.1)]))
  write_bit := fun b s =>
    let r := W.write_bit b s.1
    (r.1, (r.2, s.2 ++ [(WireEvent.write_bit b, r.1)]))
  delay_ms := fun n s => (W.delay_ms n s.1, s.2 ++ [(WireEvent.delay_ms n, 0)])
  delay_us := fun n s => (W.delay_us n s.1, s.2 ++ [(WireEvent.delay_us n, 0)])
  debug_print := fun m s => (W.debug_print m s.1, s.2 ++ [(WireEvent.debug_print m, 0)])

/-- The call is a successful `a_ds2431_read_2bit` whose two bits are both `1`. -/
def both_ones : WireEvent × Nat → Bool
  | (WireEvent.read_2bit v, 0) => decide (v &&& 0x03 = 0x03)
  | _ => false

/-- The call is a standard bus reset. -/
def is_reset : WireEvent × Nat → Bool
  | (WireEvent.reset, _) => true
  | _ => false

/-- No call of the list is a successful double read of two ones. -/
def NoEarly (ext : List (WireEvent × Nat)) : Prop := ∀ e ∈ ext, both_ones e = false

/-- No call of the list is a bus reset. -/
def NoReset (ext : List (WireEvent × Nat)) : Prop := ∀ e ∈ ext, is_reset e = false

/-- The log `t1` extends `t` by calls that are neither a bus reset nor a successful double
read of two ones. -/
def Calm (t t1 : List (WireEvent × Nat)) : Prop :=
  ∃ ext, t1 = t ++ ext ∧ NoEarly ext ∧ NoReset ext

/-- Outcome `r` of a part of a search pass started with the variables `st` and the log
`t`: no reset was made, `num` is as before, and either the part did not return `0`, made
no double read of two ones and left `*number` alone, or it returned `0` with
`*number = num` and the double read of two ones is its last call and its only one. -/
def PassPart {σ : Type} (t : List (WireEvent × Nat)) (st : SearchState)
    (r : Option Nat × SearchState × (σ × List (WireEvent × Nat))) : Prop :=
  ∃ ext, r.2.2.2 = t ++ ext ∧ NoReset ext ∧ r.2.1.num = st.num ∧
    ((r.1 ≠ some 0 ∧ NoEarly ext ∧ r.2.1.number = st.number) ∨
     (r.1 = some 0 ∧ r.2.1.number = st.num ∧
        ∃ pre e, ext = pre ++ [e] ∧ NoEarly pre ∧ both_ones e = true))

/-- Outcome `r` of the passes started with the variables `st` and the log `t`: either no
double read of two ones was made, or it is the last call and the only one, the status is
`0` and `*number` counts the passes that were completed: `st.num` and one for each reset
but the last. -/
def PassesOut {σ : Type} (t : List (WireEvent × Nat)) (st : SearchState)
    (r : Nat × SearchState × (σ × List (WireEvent × Nat))) : Prop :=
  ∃ ext, r.2.2.2 = t ++ ext ∧
    (NoEarly ext ∨
     (∃ pre e, ext = pre ++ [e] ∧ NoEarly pre ∧ both_ones e = true ∧ r.1 = 0 ∧
        st.num + ext.countP is_reset = r.2.1.number + 1))

/-! ## The scratchpad stage of the page write -/

/-- The scratchpad stage of `a_ds2431_write`: its addressing sequence and its scratchpad
write with the checks of the bytes read back, up to the point where the copy stage starts.
The result is the status of the stage and the state it leaves. -/
def scratchpad_stage {σ : Type} (W : Wire σ) (h : Handle) (address : Nat) (data : List Nat)
    (s : σ) : Nat × σ :=
  let r := rom_select W h s
  if r.1 ≠ 0 then (1, r.2) else
  let w := write_scratchpad_body W (overdrive h.mode) address data r.2
  if w.1 ≠ 0 then (1, w.2.2) else (0, w.2.2)

/-- Every call of the list returned the status `0`. -/
def AllOk (ext : List (WireEvent × Nat)) : Prop := ∀ e ∈ ext, e.2 = 0

/-- The byte read of a branch as a transport call: the overdrive helper in the overdrive
branches. -/
def WireEvent.read (od : Bool) (value : Nat) : WireEvent :=
  if od then WireEvent.read_byte_overdrive value else WireEvent.read_byte value

/-- The byte write of a branch as a transport call. -/
def WireEvent.write (od : Bool) (byte : Nat) : WireEvent :=
  if od then WireEvent.write_byte_overdrive byte else WireEvent.write_byte byte

/-- A step from the log `t` to the log `t1` with status `c`: when the status is `0` the
log was extended by calls that all succeeded. -/
def OkStep (t : List (WireEvent × Nat)) (c : Nat) (t1 : List (WireEvent × Nat)) : Prop :=
  c = 0 → ∃ ext, t1 = t ++ ext ∧ AllOk ext

/-- The property `OkStep` for a result `(status, state)`. -/
def OkRun1 {σ : Type} (t : List (WireEvent × Nat)) (r : Nat × (σ × List (WireEvent × Nat))) :
    Prop :=
  OkStep t r.1 r.2.2

/-- The property `OkStep` for a result `(status, value, state)`. -/
def OkRun2 {σ α : Type} (t : List (WireEvent × Nat))
    (r : Nat × α × (σ × List (WireEvent × Nat))) : Prop :=
  OkStep t r.1 r.2.2.2

/-- A result `(status, crc16, state)` of a scratchpad write of `data` at `address` started
with the log `t` is verified: when the status is `0` every call succeeded, the last three
calls read two bytes `b0`, `b1` and the status byte `0xFF`, and the running CRC-16 over the
bytes sent and `b0`, `b1` is `0xB001`. -/
def Verified {σ : Type} (od : Bool) (address : Nat) (data : List Nat)
    (t : List (WireEvent × Nat)) (r : Nat × Option Nat × (σ × List (WireEvent × Nat))) :
    Prop :=
  r.1 = 0 → ∃ pre b0 b1,
    r.2.2.2 = t ++ pre ++ [(WireEvent.read od b0, 0), (WireEvent.read od b1, 0),
      (WireEvent.read od 0xFF, 0)] ∧ AllOk pre ∧
    crc16 ([0x0F, address &&& 0xFF, (address >>> 8) &&& 0xFF] ++ bytes8 data ++ [b0, b1])
      = 0xB001

/-! ## Interrupt discipline -/

/-- The event is a `disable_irq` or `enable_irq` call. -/
def Event.isIrq : Event → Bool
  | Event.enable_irq => true
  | Event.disable_irq => true
  | _ => false

/-- No event of the list is a `disable_irq` or `enable_irq` call. -/
def NoIrq (ext : List Event) : Prop := ∀ e ∈ ext, e.isIrq = false

/-- The calls of one critical section: `disable_irq` once, then calls none of which is
`disable_irq` or `enable_irq`, then `enable_irq` once, then calls none of which is
`disable_irq`, `enable_irq`, `bus_read` or `bus_write`. -/
def OneSection (ext : List Event) : Prop :=
  ∃ mid tail, ext = Event.disable_irq :: (mid ++ Event.enable_irq :: tail) ∧
    NoIrq mid ∧ NoIrq tail ∧ Quiet tail

/-- The interrupt state after one capability call made in the state `enabled`; `none`
when the call breaks the discipline: `disable_irq` with interrupts disabled, `enable_irq`
with interrupts enabled, `bus_read` or `bus_write` with interrupts enabled. -/
def irq_step (enabled : Bool) (e : Event) : Option Bool :=
  match e with
  | Event.disable_irq => if enabled then some false else none
  | Event.enable_irq => if enabled then none else some true
  | Event.bus_read _ _ => if enabled then none else some enabled
  | Event.bus_write _ _ => if enabled then none else some enabled
  | _ => some enabled

/-- The interrupt state after the capability calls of a list, `none` when one of them
breaks the discipline. -/
def irq_run : Bool → List Event → Option Bool
  | enabled, [] => some enabled
  | enabled, e :: es => (irq_step enabled e).bind (fun b => irq_run b es)

/-- The log `t1` extends `t` by an open critical section: `disable_irq`, then calls none of
which is `disable_irq` or `enable_irq`. -/
def Opened (t t1 : List Event) : Prop :=
  ∃ mid, t1 = t ++ Event.disable_irq :: mid ∧ NoIrq mid

/-- The log `t1` extends `t` by the calls of one critical section. -/
def Sectioned (t t1 : List Event) : Prop := ∃ ext, t1 = t ++ ext ∧ OneSection ext

/-- The log `t1` extends `t` by calls that keep the discipline from interrupts enabled to
interrupts enabled. -/
def Guarded (t t1 : List Event) : Prop := ∃ ext, t1 = t ++ ext ∧ irq_run true ext = some true

/-- The transport helpers over a logging state keep the interrupt discipline. -/
structure Wire.Guards {σ : Type} (W : Wire (σ × List Event)) : Prop where
  reset : ∀ s, Guarded s.2 (W.reset s).2.2
  reset_overdrive : ∀ s, Guarded s.2 (W.reset_overdrive s).2.2
  read_byte : ∀ s, Guarded s.2 (W.read_byte s).2.2.2
  write_byte : ∀ b s, Guarded s.2 (W.write_byte b s).2.2
  read_byte_overdrive : ∀ s, Guarded s.2 (W.read_byte_overdrive s).2.2.2
  write_byte_overdrive : ∀ b s, Guarded s.2 (W.write_byte_overdrive b s).2.2
  read_2bit : ∀ s, Guarded s.2 (W.read_2bit s).2.2.2
  write_bit : ∀ b s, Guarded s.2 (W.write_bit b s).2.2
  delay_ms : ∀ n s, Guarded s.2 (W.delay_ms n s).2
  delay_us : ∀ n s, Guarded s.2 (W.delay_us n s).2
  debug_print : ∀ m s, Guarded s.2 (W.debug_print m s).2

/-- The page routines over a logging state keep the interrupt discipline. -/
structure Pager.Guards {σ : Type} (P : Pager (σ × List Event)) : Prop where
  a_read : ∀ h address len s, Guarded s.2 (P.a_read h address len s).2.2.2
  a_write : ∀ h address data s, Guarded s.2 (P.a_write h address data s).2.2
  debug_print : ∀ m s, Guarded s.2 (P.debug_print m s).2

/-! ## The handle and the output buffers in memory -/

/-- The caller's memory, a byte at every address: among the objects in it are the handle
and the objects the public functions store into.  The local variables of the driver are
not part of it. -/
abbrev Mem := Nat → Nat

/-- The assignment `*p = v` through a pointer `p` to `uint8_t`. -/
def store (m : Mem) (p v : Nat) : Mem := Function.update m p v

/-- The assignments `p[0] = bytes[0]`, `p[1] = bytes[1]`, ... in this order. -/
def store_all (m : Mem) (p : Nat) : List Nat → Mem
  | [] => m
  | b :: bs => store_all (store m p b) (p + 1) bs

/-- The object representation of a type that is not a character type: the number of bytes
of an object and, for a value, the byte at each offset.  Both are implementation-defined. -/
structure Repr where
  size : Nat
  byte : Nat → Nat → Nat

/-- The assignment `*p = v` through a pointer `p` to an object with representation `R`:
its `R.size` bytes are stored at `p`, `p + 1`, .... -/
def store_obj (R : Repr) (m : Mem) (p v : Nat) : Mem :=
  store_all m p ((List.range R.size).map (R.byte v))

/-- What the implementation of C fixes about the objects in memory: the number `fp` of
bytes of the handle object that precede the field `inited`, which are the nine function
pointers, the representations of `ds2431_mode_t` and of `uint16_t`, and the bytes `info` of
an object of type `ds2431_info_t` that holds the constants `ds2431_info` stores, with zero
in every other byte. -/
structure Layout where
  fp : Nat
  mode : Repr
  u16 : Repr
  info : List Nat

/-- The data fields of the handle object as they are in memory.  `ds2431_handle_t` declares
`uint8_t inited; uint8_t mode; uint8_t rom[8];` one after the other, so with `inited` at the
address `hp` the field `mode` is at `hp + 1` and `rom[i]` at `hp + 2 + i`. -/
def load_handle (hp : Nat) (m : Mem) : Handle :=
  ⟨m hp, m (hp + 1), (List.range 8).map (fun i => m (hp + 2 + i))⟩

/-- The data fields of the handle written back to the handle object. -/
def store_handle (hp : Nat) (h : Handle) (m : Mem) : Mem :=
  store_all (store (store m hp h.inited) (hp + 1) h.mode) (hp + 2) (bytes8 h.rom)

/-- The function `ds2431_get_mode` on the handle at `hp` with the pointer argument `mode`:
`*mode = (ds2431_mode_t)(handle->mode)`. -/
def ds2431_get_mode_at (R : Repr) (hp mode : Nat) (m : Mem) : Nat × Mem :=
  if m hp ≠ 1 then (3, m) else
  (0, store_obj R m mode (m (hp + 1)))

/-- The function `ds2431_info` with the pointer argument `info`, `none` for `NULL`:
`memset(info, 0, sizeof(ds2431_info_t))`, then the stores of the constants into the members,
after which the object holds `image`. -/
def ds2431_info_at (image : List Nat) (info : Option Nat) (m : Mem) : Nat × Mem :=
  match info with
  | none => (2, m)
  | some p => (0, store_all (store_all m p (List.replicate image.length 0)) p image)

/-- Loop `for (i = 0; i < 8; i++)` of `ds2431_get_rom` with its stores: the call
`a_ds2431_read_byte(handle, &rom[i])` leaves its byte in `rom[i]`, also when it fails;
`p` is the address of `rom[i]`.  The result is `(status, memory, state)`. -/
def read_rom_at {σ : Type} (W : Wire σ) : Nat → Nat → Mem → σ → Nat × Mem × σ
  | 0, _, m, s => (0, m, s)
  | n + 1, p, m, s =>
    let r := W.read_byte s
    let m := store m p r.2.1
    if r.1 ≠ 0 then (1, m, W.debug_print "ds2431: read rom failed.\n" r.2.2)
    else read_rom_at W n (p + 1) m r.2.2

/-- The function `ds2431_get_rom` on the handle at `hp` with the pointer argument `rom`. -/
def ds2431_get_rom_at {σ : Type} (W : Wire σ) (hp rom : Nat) (m : Mem) (s : σ) :
    Nat × Mem × σ :=
  if m hp ≠ 1 then (3, m, s) else
  let r := W.reset s
  if r.1 ≠ 0 then (1, m, W.debug_print "ds2431: bus rest failed.\n" r.2) else
  let r := W.write_byte DS2431_CMD_READ_ROM r.2
  if r.1 ≠ 0 then (1, m, W.debug_print "ds2431: write command failed.\n" r.2) else
  read_rom_at W 8 rom m r.2

/-- Loop `for (i = 0; i < len; i++)` of the memory read with its stores through `data`;
`p` is the address of `data[i]`. -/
def read_data_at {σ : Type} (W : Wire σ) (rb : σ → Nat × Nat × σ) :
    Nat → Nat → Mem → σ → Nat × Mem × σ
  | 0, _, m, s => (0, m, s)
  | n + 1, p, m, s =>
    let r := rb s
    let m := store m p r.2.1
    if r.1 ≠ 0 then (1, m, W.debug_print "ds2431: read data failed.\n" r.2.2)
    else read_data_at W rb n (p + 1) m r.2.2

/-- Body of a branch of `ds2431_read_memory` and of `a_ds2431_read` after the addressing
sequence, with its stores through `data`. -/
def read_memory_body_at {σ : Type} (W : Wire σ) (od : Bool) (address len data : Nat)
    (m : Mem) (s : σ) : Nat × Mem × σ :=
  let r := W.wb od DS2431_CMD_READ_MEMORY s
  if r.1 ≠ 0 then (1, m, W.debug_print "ds2431: write command failed.\n" r.2) else
  let r := W.wb od ((address >>> 0) &&& 0xFF) r.2
  if r.1 ≠ 0 then (1, m, W.debug_print "ds2431: write command failed.\n" r.2) else
  let r := W.wb od ((address >>> 8) &&& 0xFF) r.2
  if r.1 ≠ 0 then (1, m, W.debug_print "ds2431: write command failed.\n" r.2) else
  read_data_at W (W.rb od) len data m r.2

/-- The static function `a_ds2431_read` on the handle at `hp` with the pointer argument
`data`.  The fields `mode` and `rom` are read by the addressing sequence, before the first
store. -/
def a_ds2431_read_at {σ : Type} (W : Wire σ) (hp address data len : Nat) (m : Mem) (s : σ) :
    Nat × Mem × σ :=
  let r := rom_select W (load_handle hp m) s
  if r.1 ≠ 0 then (1, m, r.2) else
  read_memory_body_at W (overdrive (m (hp + 1))) address len data m r.2

/-- The function `ds2431_read_memory` on the handle at `hp` with the pointer argument
`data`. -/
def ds2431_read_memory_at {σ : Type} (W : Wire σ) (hp address data len : Nat) (m : Mem)
    (s : σ) : Nat × Mem × σ :=
  if m hp ≠ 1 then (3, m, s) else
  if address + len > 0x0080 then
    (4, m, W.debug_print "ds2431: address and len are invalid.\n" s)
  else
  let r := rom_select W (load_handle hp m) s
  if r.1 ≠ 0 then (1, m, r.2) else
  read_memory_body_at W (overdrive (m (hp + 1))) address len data m r.2

/-- The function `ds2431_read` on the handle at `hp` with the pointer argument `data`. -/
def ds2431_read_at {σ : Type} (W : Wire σ) (hp address data len : Nat) (m : Mem) (s : σ) :
    Nat × Mem × σ :=
  if m hp ≠ 1 then (3, m, s) else
  if address + len > 0x80 then
    (4, m, W.debug_print "ds2431: address and len are invalid.\n" s)
  else
  let r := a_ds2431_read_at W hp address data len m s
  if r.1 ≠ 0 then (1, r.2.1, r.2.2) else (0, r.2.1, r.2.2)

/-- Loop `for (i = 0; i < 8; i++)` of `ds2431_read_scratchpad` with its stores through
`data`; the running CRC is updated with `data[i]`, the byte just stored.  The result is
`(status, crc, memory, state)`. -/
def read_data_crc_at {σ : Type} (W : Wire σ) (rb : σ → Nat × Nat × σ) :
    Nat → Nat → Nat → Mem → σ → Nat × Nat × Mem × σ
  | 0, _, crc, m, s => (0, crc, m, s)
  | n + 1, p, crc, m, s =>
    let r := rb s
    let m := store m p r.2.1
    if r.1 ≠ 0 then (1, crc, m, W.debug_print "ds2431: read data failed.\n" r.2.2)
    else read_data_crc_at W rb n (p + 1) (a_ds2431_crc16_update crc (m p)) m r.2.2

/-- Body of a branch of `ds2431_write_scratchpad` after the addressing sequence, with its
stores through the pointer argument `crc16` to a `uint16_t`: `*crc16 = ...` and then
`*crc16 = ~(*crc16)`, which reads the value just stored.  The bytes of `data` are read
before the first store and are given by value. -/
def write_scratchpad_body_at {σ : Type} (W : Wire σ) (R : Repr) (od : Bool) (address : Nat)
    (data : List Nat) (crc16 : Nat) (m : Mem) (s : σ) : Nat × Mem × σ :=
  let crc := 0
  let r := W.wb od DS2431_CMD_WRITE_SCRATCHPAD s
  if r.1 ≠ 0 then (1, m, W.debug_print "ds2431: write command failed.\n" r.2) else
  let crc := a_ds2431_crc16_update crc DS2431_CMD_WRITE_SCRATCHPAD
  let r := W.wb od ((address >>> 0) &&& 0xFF) r.2
  if r.1 ≠ 0 then (1, m, W.debug_print "ds2431: write command failed.\n" r.2) else
  let crc := a_ds2431_crc16_update crc ((address >>> 0) &&& 0xFF)
  let r := W.wb od ((address >>> 8) &&& 0xFF) r.2
  if r.1 ≠ 0 then (1, m, W.debug_print "ds2431: write command failed.\n" r.2) else
  let crc := a_ds2431_crc16_update crc ((address >>> 8) &&& 0xFF)
  let w := write_data_crc W (W.wb od) (bytes8 data) crc r.2
  if w.1 ≠ 0 then (1, m, w.2.2) else
  let crc := w.2.1
  let b0 := W.rb od w.2.2
  if b0.1 ≠ 0 then (1, m, W.debug_print "ds2431: read data failed.\n" b0.2.2) else
  let crc := a_ds2431_crc16_update crc b0.2.1
  let b1 := W.rb od b0.2.2
  if b1.1 ≠ 0 then (1, m, W.debug_print "ds2431: read data failed.\n" b1.2.2) else
  let crc := a_ds2431_crc16_update crc b1.2.1
  let m := store_obj R m crc16 ((b1.2.1 <<< 8) ||| b0.2.1)
  let m := store_obj R m crc16 (not16 ((b1.2.1 <<< 8) ||| b0.2.1))
  let r := W.rb od b1.2.2
  if r.1 ≠ 0 then (1, m, W.debug_print "ds2431: read data failed.\n" r.2.2) else
  if r.2.1 ≠ 0xFF then (1, m, W.debug_print "ds2431: response error.\n" r.2.2) else
  if crc ≠ 0xB001 then (6, m, W.debug_print "ds2431: crc16 check error.\n" r.2.2) else
  (0, m, r.2.2)

/-- The function `ds2431_write_scratchpad` on the handle at `hp` with the pointer argument
`crc16`. -/
def ds2431_write_scratchpad_at {σ : Type} (W : Wire σ) (R : Repr) (hp address : Nat)
    (data : List Nat) (crc16 : Nat) (m : Mem) (s : σ) : Nat × Mem × σ :=
  if m hp ≠ 1 then (3, m, s) else
  if address ≥ 0x0080 then (4, m, W.debug_print "ds2431: address >= 0x0080.\n" s) else
  if address % 8 ≠ 0 then (5, m, W.debug_print "ds2431: address is invalid.\n" s) else
  let r := rom_select W (load_handle hp m) s
  if r.1 ≠ 0 then (1, m, r.2) else
  write_scratchpad_body_at W R (overdrive (m (hp + 1))) address data crc16 m r.2

/-- Body of a branch of `ds2431_read_scratchpad` after the addressing sequence, with its
stores: `*address = ...` through the pointer `address` to a `uint16_t` once the three
bytes after the command are read, the eight bytes through `data`, and `*crc16 = ...`
followed by `*crc16 = ~(*crc16)` through the pointer `crc16` to a `uint16_t`. -/
def read_scratchpad_body_at {σ : Type} (W : Wire σ) (R : Repr) (od : Bool)
    (address data crc16 : Nat) (m : Mem) (s : σ) : Nat × Mem × σ :=
  let crc := 0
  let r := W.wb od DS2431_CMD_READ_SCRATCHPAD s
  if r.1 ≠ 0 then (1, m, W.debug_print "ds2431: write command failed.\n" r.2) else
  let crc := a_ds2431_crc16_update crc DS2431_CMD_READ_SCRATCHPAD
  let b0 := W.rb od r.2
  if b0.1 ≠ 0 then (1, m, W.debug_print "ds2431: read data failed.\n" b0.2.2) else
  let crc := a_ds2431_crc16_update crc b0.2.1
  let b1 := W.rb od b0.2.2
  if b1.1 ≠ 0 then (1, m, W.debug_print "ds2431: read data failed.\n" b1.2.2) else
  let crc := a_ds2431_crc16_update crc b1.2.1
  let ta := W.rb od b1.2.2
  if ta.1 ≠ 0 then (1, m, W.debug_print "ds2431: read data failed.\n" ta.2.2) else
  let crc := a_ds2431_crc16_update crc ta.2.1
  let m := store_obj R m address ((b1.2.1 <<< 8) ||| b0.2.1)
  if ta.2.1 ≠ 0x07 then (4, m, W.debug_print "ds2431: status is error.\n" ta.2.2) else
  let d := read_data_crc_at W (W.rb od) 8 data crc m ta.2.2
  if d.1 ≠ 0 then (1, d.2.2.1, d.2.2.2) else
  let crc := d.2.1
  let m := d.2.2.1
  let c0 := W.rb od d.2.2.2
  if c0.1 ≠ 0 then (1, m, W.debug_print "ds2431: read data failed.\n" c0.2.2) else
  let crc := a_ds2431_crc16_update crc c0.2.1
  let c1 := W.rb od c0.2.2
  if c1.1 ≠ 0 then (1, m, W.debug_print "ds2431: read data failed.\n" c1.2.2) else
  let crc := a_ds2431_crc16_update crc c1.2.1
  let m := store_obj R m crc16 ((c1.2.1 <<< 8) ||| c0.2.1)
  let m := store_obj R m crc16 (not16 ((c1.2.1 <<< 8) ||| c0.2.1))
  let r := W.rb od c1.2.2
  if r.1 ≠ 0 then (1, m, W.debug_print "ds2431: read data failed.\n" r.2.2) else
  if r.2.1 ≠ 0xFF then (1, m, W.debug_print "ds2431: response error.\n" r.2.2) else
  if crc ≠ 0xB001 then (5, m, W.debug_print "ds2431: crc16 check error.\n" r.2.2) else
  (0, m, r.2.2)

/-- The function `ds2431_read_scratchpad` on the handle at `hp` with the pointer arguments
`address`, `data` and `crc16`. -/
def ds2431_read_scratchpad_at {σ : Type} (W : Wire σ) (R : Repr) (hp address data crc16 : Nat)
    (m : Mem) (s : σ) : Nat × Mem × σ :=
  if m hp ≠ 1 then (3, m, s) else
  let r := rom_select W (load_handle hp m) s
  if r.1 ≠ 0 then (1, m, r.2) else
  read_scratchpad_body_at W R (overdrive (m (hp + 1))) address data crc16 m r.2

/-- The function `ds2431_read_memory_config` on the handle at `hp` with the pointer
argument `config`: the eight members of `ds2431_config_control_t`, all of type `uint8_t`,
are stored in the order of their declaration from the local `buf`. -/
def ds2431_read_memory_config_at {σ : Type} (P : Pager σ) (hp config : Nat) (m : Mem)
    (s : σ) : Nat × Mem × σ :=
  if m hp ≠ 1 then (3, m, s) else
  let r := P.a_read (load_handle hp m) 0x80 8 s
  if r.1 ≠ 0 then (1, m, r.2.2) else
  (0, store_all m config (buf_of_config (config_of_buf r.2.1)), r.2.2)

/-- The local variables of `a_ds2431_search`: the discrepancy stack `buffer` with its index
`l`, the bits `ss` chosen in the last pass, the byte `s` being assembled and the count
`num`. -/
structure SearchVars where
  buffer : Nat → Nat
  l : Nat
  ss : Nat → Nat
  s : Nat
  num : Nat

/-- Body of the innermost loop of `a_ds2431_search` at byte `bm`, bit `n`, with its store
`*number = num`; `number` is the pointer argument.  The first component is `some status`
when the body executed a `return`. -/
def search_bit_at {σ : Type} (W : Wire σ) (number bm n : Nat) (v : SearchVars) (m : Mem)
    (s : σ) : Option Nat × SearchVars × Mem × σ :=
  let r := W.read_2bit s
  if r.1 ≠ 0 then (some 1, v, m, W.debug_print "ds2431: read 2bit failed.\n" r.2.2) else
  let k := r.2.1 &&& 0x03
  let v := { v with s := v.s >>> 1 }
  if k = 0x01 then
    let w := W.write_bit 0 r.2.2
    if w.1 ≠ 0 then (some 1, v, m, W.debug_print "ds2431: write bit failed.\n" w.2) else
    (none, { v with ss := Function.update v.ss (bm * 8 + n) 0 }, m, W.delay_us 5 w.2)
  else if k = 0x02 then
    let v := { v with s := v.s ||| 0x80 }
    let w := W.write_bit 1 r.2.2
    if w.1 ≠ 0 then (some 1, v, m, W.debug_print "ds2431: write bit failed.\n" w.2) else
    (none, { v with ss := Function.update v.ss (bm * 8 + n) 1 }, m, W.delay_us 5 w.2)
  else if k = 0x00 then
    let conflict_bit := (bm * 8 + n + 1) % 256
    if conflict_bit > v.buffer v.l then
      let w := W.write_bit 0 r.2.2
      if w.1 ≠ 0 then (some 1, v, m, W.debug_print "ds2431: write bit failed.\n" w.2) else
      let l := (v.l + 1) % 256
      (none, { v with ss := Function.update v.ss (bm * 8 + n) 0, l := l,
                      buffer := Function.update v.buffer l conflict_bit },
        m, W.delay_us 5 w.2)
    else if conflict_bit < v.buffer v.l then
      let v := { v with s := v.s ||| ((v.ss (bm * 8 + n) &&& 0x01) <<< 7) }
      let w := W.write_bit (v.ss (bm * 8 + n)) r.2.2
      if w.1 ≠ 0 then (some 1, v, m, W.debug_print "ds2431: write bit failed.\n" w.2) else
      (none, v, m, W.delay_us 5 w.2)
    else
      let v := { v with s := v.s ||| 0x80 }
      let w := W.write_bit 1 r.2.2
      if w.1 ≠ 0 then (some 1, v, m, W.debug_print "ds2431: write bit failed.\n" w.2) else
      (none, { v with ss := Function.update v.ss (bm * 8 + n) 1, l := (v.l + 255) % 256 },
        m, W.delay_us 5 w.2)
  else
    (some 0, v, store m number v.num, r.2.2)

/-- Loop `for (n = 0; n < 8; n++)` of `a_ds2431_search` in memory: `k` iterations from bit
`n` on. -/
def search_bits_at {σ : Type} (W : Wire σ) (number bm : Nat) :
    Nat → Nat → SearchVars → Mem → σ → Option Nat × SearchVars × Mem × σ
  | 0, _, v, m, s => (none, v, m, s)
  | k + 1, n, v, m, s =>
    let r := search_bit_at W number bm n v m s
    match r.1 with
    | some c => (some c, r.2.1, r.2.2.1, r.2.2.2)
    | none => search_bits_at W number bm k (n + 1) r.2.1 r.2.2.1 r.2.2.2

/-- Loop `for (m = 0; m < 8; m++)` of `a_ds2431_search` in memory: `k` iterations from byte
`bm` on, each ending with the store `pid[num][m] = s`; `pid` is the pointer argument of
type `uint8_t (*)[8]`, so `pid[num][m]` is at `pid + 8 * num + m`. -/
def search_bytes_at {σ : Type} (W : Wire σ) (pid number : Nat) :
    Nat → Nat → SearchVars → Mem → σ → Option Nat × SearchVars × Mem × σ
  | 0, _, v, m, s => (none, v, m, s)
  | k + 1, bm, v, m, s =>
    let r := search_bits_at W number bm 8 0 v m s
    match r.1 with
    | some c => (some c, r.2.1, r.2.2.1, r.2.2.2)
    | none =>
      let v := r.2.1
      let m := store r.2.2.1 (pid + 8 * v.num + bm) v.s
      search_bytes_at W pid number k (bm + 1) { v with s := 0 } m r.2.2.2

/-- The `do ... while (buffer[l] != 0)` loop of `a_ds2431_search` in memory; `*number` is
read from memory in the test `num > (*number)`.  The first argument bounds the number of
passes; `none` is returned when it is exhausted. -/
def search_passes_at {σ : Type} (W : Wire σ) (cmd pid number : Nat) :
    Nat → SearchVars → Mem → σ → Option (Nat × Mem × σ)
  | 0, _, _, _ => none
  | fuel + 1, v, m, s =>
    let r := W.reset s
    if r.1 ≠ 0 then some (1, m, W.debug_print "ds2431: reset failed.\n" r.2) else
    let r := W.write_byte cmd r.2
    if r.1 ≠ 0 then some (1, m, W.debug_print "ds2431: write command failed.\n" r.2) else
    let p := search_bytes_at W pid number 8 0 v m r.2
    match p.1 with
    | some c => some (c, p.2.2.1, p.2.2.2)
    | none =>
      let v := { p.2.1 with num := (p.2.1.num + 1) % 256 }
      let m := p.2.2.1
      if v.num > m number then some (0, store m number v.num, p.2.2.2)
      else if v.buffer v.l ≠ 0 then search_passes_at W cmd pid number fuel v m p.2.2.2
      else some (0, store m number v.num, p.2.2.2)

/-- The static function `a_ds2431_search` in memory, with the pointer arguments `pid` and
`number`.  The loop is given the `*number + 1` passes it can make when `*number` keeps the
value it has on entry. -/
def a_ds2431_search_at {σ : Type} (W : Wire σ) (pid cmd number : Nat) (m : Mem) (s : σ) :
    Option (Nat × Mem × σ) :=
  if m number > DS2431_MAX_SEARCH_SIZE then
    some (1, m, W.debug_print "ds2431: number is over DS2431_MAX_SEARCH_SIZE.\n" s)
  else
    search_passes_at W cmd pid number (m number + 1) ⟨fun _ => 0, 0, fun _ => 0, 0, 0⟩ m s

/-- The function `ds2431_search_rom` on the handle at `hp` with the pointer arguments `rom`
and `num`. -/
def ds2431_search_rom_at {σ : Type} (W : Wire σ) (hp rom num : Nat) (m : Mem) (s : σ) :
    Option (Nat × Mem × σ) :=
  if m hp ≠ 1 then some (3, m, s) else
  a_ds2431_search_at W rom DS2431_CMD_SEARCH_ROM num m s

/-- A call of a public function on a handle, with the arguments other than the handle; an
argument that the function stores through is given by its address, a buffer that the
function only reads by the bytes read. -/
inductive CallAt where
  | set_mode (mode : Nat)
  | get_mode (mode : Nat)
  | set_rom (rom : List Nat)
  | get_rom (rom : Nat)
  | copy_scratchpad (address : Nat)
  | write_scratchpad (address : Nat) (data : List Nat) (crc16 : Nat)
  | read_scratchpad (address data crc16 : Nat)
  | read_memory (address len data : Nat)
  | read_memory_config (config : Nat)
  | write_memory_config (config : Config)
  | read (address len data : Nat)
  | write (address : Nat) (data : List Nat) (len : Nat)
  | rom_match (type : Nat) (rom : List Nat)
  | search_rom (rom num : Nat)
  | init
  | deinit
  | info (info : Option Nat)

/-- A call of the public interface on the handle object whose field `inited` is at `hp` in
memory, with every capability linked to the platform `L`: the status, the memory and the
platform state after the call.  Every assignment of the source through a pointer argument
is a store in memory: the stores of `ds2431_get_mode`, `ds2431_get_rom`,
`ds2431_write_scratchpad`, `ds2431_read_scratchpad`, `ds2431_read_memory`, `ds2431_read`,
`ds2431_read_memory_config`, `ds2431_search_rom` and `ds2431_info` through their output
arguments, and the assignments to a field of the handle in `ds2431_set_mode`, `ds2431_set_rom`, `ds2431_init`
and `ds2431_deinit`, for which the handle after the call is written back.  The other four
functions, `ds2431_copy_scratchpad`, `ds2431_write_memory_config`, `ds2431_write` and
`ds2431_rom_match`, assign to local variables only.  The platform functions act on the
platform state.  The status and the platform state are those of `exec` on the handle read
from memory. -/
def exec_at {σ : Type} (L : Link σ) (A : Layout) (c : CallAt) (hp : Nat) (m : Mem) (s : σ) :
    Option (Nat × Mem × σ) :=
  match c with
  | CallAt.set_mode mode =>
    let r := ds2431_set_mode (some (load_handle hp m)) mode
    some (r.1, store_handle hp (r.2.getD (load_handle hp m)) m, s)
  | CallAt.get_mode mode =>
    let r := ds2431_get_mode_at A.mode hp mode m
    some (r.1, r.2, s)
  | CallAt.set_rom rom =>
    let r := ds2431_set_rom (some (load_handle hp m)) rom
    some (r.1, store_handle hp (r.2.getD (load_handle hp m)) m, s)
  | CallAt.get_rom rom => some (ds2431_get_rom_at (Wire.ofLink L) hp rom m s)
  | CallAt.copy_scratchpad address =>
    let r := ds2431_copy_scratchpad (Wire.ofLink L) (some (load_handle hp m)) address s
    some (r.1, m, r.2)
  | CallAt.write_scratchpad address data crc16 =>
    some (ds2431_write_scratchpad_at (Wire.ofLink L) A.u16 hp address data crc16 m s)
  | CallAt.read_scratchpad address data crc16 =>
    some (ds2431_read_scratchpad_at (Wire.ofLink L) A.u16 hp address data crc16 m s)
  | CallAt.read_memory address len data =>
    some (ds2431_read_memory_at (Wire.ofLink L) hp address data len m s)
  | CallAt.read_memory_config config =>
    some (ds2431_read_memory_config_at (Pager.ofWire (Wire.ofLink L)) hp config m s)
  | CallAt.write_memory_config config =>
    let r := ds2431_write_memory_config (Pager.ofWire (Wire.ofLink L))
      (some (load_handle hp m)) config s
    some (r.1, m, r.2)
  | CallAt.read address len data =>
    some (ds2431_read_at (Wire.ofLink L) hp address data len m s)
  | CallAt.write address data len =>
    (ds2431_write (Pager.ofWire (Wire.ofLink L)) 17 (some (load_handle hp m)) address data len
      s).map (fun r => (r.1, m, r.2))
  | CallAt.rom_match type rom =>
    let r := ds2431_rom_match (Wire.ofLink L) (some (load_handle hp m)) type rom s
    some (r.1, m, r.2)
  | CallAt.search_rom rom num => ds2431_search_rom_at (Wire.ofLink L) hp rom num m s
  | CallAt.init =>
    let r := ds2431_init (LinkPtrs.ofLink L) (some (load_handle hp m)) s
    some (r.1, store_handle hp (r.2.1.getD (load_handle hp m)) m, r.2.2)
  | CallAt.deinit =>
    let r := ds2431_deinit L (some (load_handle hp m)) s
    some (r.1, store_handle hp (r.2.1.getD (load_handle hp m)) m, r.2.2)
  | CallAt.info info =>
    let r := ds2431_info_at A.info info m
    some (r.1, r.2, s)

/-- The output arguments of the call do not overlap one another where the function reads
one of them back: for `ds2431_search_rom` the byte at `num` is none of the rows at `rom`. -/
def CallAt.apart (c : CallAt) (m : Mem) : Prop :=
  match c with
  | CallAt.search_rom rom num => ¬ (rom ≤ num ∧ num < rom + 8 * (m num + 1))
  | _ => True

/-- The memory `m1` is `m` at every address outside `F`. -/
def SameOutside (F : Nat → Prop) (m m1 : Mem) : Prop := ∀ a, ¬ F a → m1 a = m a

/-- The variables of the search without the caller's objects `*number` and `pid`. -/
def SearchState.vars (st : SearchState) : SearchVars :=
  ⟨st.buffer, st.l, st.ss, st.s, st.num⟩

/-- The call with its output objects left out and the objects it reads taken from memory:
the same call on a handle passed by value.  `ds2431_info` has no handle. -/
def CallAt.call (c : CallAt) (m : Mem) : Option Call :=
  match c with
  | CallAt.set_mode mode => some (Call.set_mode mode)
  | CallAt.get_mode _ => some Call.get_mode
  | CallAt.set_rom rom => some (Call.set_rom rom)
  | CallAt.get_rom _ => some Call.get_rom
  | CallAt.copy_scratchpad address => some (Call.copy_scratchpad address)
  | CallAt.write_scratchpad address data _ => some (Call.write_scratchpad address data)
  | CallAt.read_scratchpad _ _ _ => some Call.read_scratchpad
  | CallAt.read_memory address len _ => some (Call.read_memory address len)
  | CallAt.read_memory_config _ => some Call.read_memory_config
  | CallAt.write_memory_config config => some (Call.write_memory_config config)
  | CallAt.read address len _ => some (Call.read address len)
  | CallAt.write address data len => some (Call.write address data len)
  | CallAt.rom_match type rom => some (Call.rom_match type rom)
  | CallAt.search_rom rom num =>
    some (Call.search_rom (fun i j => m (rom + 8 * i + j)) (m num))
  | CallAt.init => some Call.init
  | CallAt.deinit => some Call.deinit
  | CallAt.info _ => none

/-! ## CRC-16: algebra of the update function -/

theorem crcStep_xor (c d : Nat) :
    (crcStep (c, d)).1 ^^^ (crcStep (c, d)).2 = arcShift (c ^^^ d) := by
  simp only [crcStep, arcShift, Nat.and_one_is_mod, Nat.shiftRight_one, Nat.xor_div_two]
  have h2 : (c ^^^ d) % 2 = 0 ∨ (c ^^^ d) % 2 = 1 := by omega
  rcases h2 with h | h
  · simp [h]
  · simp only [h, if_true, ne_eq, one_ne_zero, not_false_eq_true, Nat.xor_assoc]
    rw [Nat.xor_comm 40961]

theorem crcStep_iter_xor (n : Nat) (c d : Nat) :
    (crcStep^[n] (c, d)).1 ^^^ (crcStep^[n] (c, d)).2 = arcShift^[n] (c ^^^ d) := by
  induction n generalizing c d with
  | zero => simp
  | succ n ih =>
    rw [Function.iterate_succ_apply, Function.iterate_succ_apply, ← crcStep_xor, ← ih]

theorem crcStep_iter_snd (n : Nat) (c d : Nat) :
    (crcStep^[n] (c, d)).2 = d / 2 ^ n := by
  induction n generalizing c d with
  | zero => simp
  | succ n ih =>
    rw [Function.iterate_succ_apply]
    show (crcStep^[n] ((crcStep (c, d)).1, (crcStep (c, d)).2)).2 = _
    rw [ih]
    simp only [crcStep, Nat.shiftRight_one, Nat.div_div_eq_div_mul, pow_succ]
    congr 1
    ring

theorem update_eq_arcByte (c d : Nat) (hd : d < 256) :
    a_ds2431_crc16_update c d = arcByte c d := by
  have h := crcStep_iter_xor 8 c d
  have h2 := crcStep_iter_snd 8 c d
  have h3 : d / 2 ^ 8 = 0 := by simp; omega
  rw [h2, h3, Nat.xor_zero] at h
  exact h


theorem arcShift_xor (x y : Nat) : arcShift (x ^^^ y) = arcShift x ^^^ arcShift y := by
  have hx : x % 2 = 0 ∨ x % 2 = 1 := by omega
  have hy : y % 2 = 0 ∨ y % 2 = 1 := by omega
  have hxy : (x ^^^ y) % 2 = (x + y) % 2 := Nat.xor_mod_two_eq
  unfold arcShift
  rw [Nat.xor_div_two]
  rcases hx with hx | hx <;> rcases hy with hy | hy
  · have : (x ^^^ y) % 2 = 0 := by omega
    simp [this, hx, hy]
  · have : (x ^^^ y) % 2 = 1 := by omega
    simp [this, hx, hy, Nat.xor_assoc]
  · have : (x ^^^ y) % 2 = 1 := by omega
    simp only [this, hx, hy, if_true, Nat.xor_assoc]
    simp [Nat.xor_comm]
  · have : (x ^^^ y) % 2 = 0 := by omega
    simp only [this, hx, hy, if_true, Nat.xor_assoc]
    simp
    rw [Nat.xor_comm 40961, Nat.xor_assoc, Nat.xor_self, Nat.xor_zero]

theorem arcShift_iter_xor (n x y : Nat) :
    arcShift^[n] (x ^^^ y) = arcShift^[n] x ^^^ arcShift^[n] y := by
  induction n generalizing x y with
  | zero => simp
  | succ n ih => simp only [Function.iterate_succ_apply, arcShift_xor, ih]

theorem arcShift_lt (x : Nat) (hx : x < 65536) : arcShift x < 65536 := by
  unfold arcShift
  split
  · exact Nat.xor_lt_two_pow (n := 16) (by omega) (by norm_num)
  · omega

theorem arcShift_iter_lt (n x : Nat) (hx : x < 65536) : arcShift^[n] x < 65536 := by
  induction n generalizing x with
  | zero => simpa using hx
  | succ n ih => rw [Function.iterate_succ_apply]; exact ih _ (arcShift_lt x hx)

theorem arcShift_eq_zero (x : Nat) (hx : x < 65536) (h : arcShift x = 0) : x = 0 := by
  unfold arcShift at h
  split at h
  · rw [Nat.xor_eq_zero] at h
    omega
  · omega

theorem arcShift_iter_eq_zero (n x : Nat) (hx : x < 65536) (h : arcShift^[n] x = 0) : x = 0 := by
  induction n generalizing x with
  | zero => simpa using h
  | succ n ih =>
    rw [Function.iterate_succ_apply] at h
    exact arcShift_eq_zero x hx (ih _ (arcShift_lt x hx) h)

theorem arcShift_iter_inj (n x y : Nat) (hx : x < 65536) (hy : y < 65536)
    (h : arcShift^[n] x = arcShift^[n] y) : x = y := by
  have h1 : arcShift^[n] (x ^^^ y) = 0 := by
    rw [arcShift_iter_xor, h, Nat.xor_self]
  have h2 := arcShift_iter_eq_zero n (x ^^^ y) (Nat.xor_lt_two_pow (n := 16) hx hy) h1
  exact Nat.xor_eq_zero.mp h2

theorem arcShift_iter_shift (n k : Nat) : arcShift^[n] (k * 2 ^ n) = k := by
  induction n generalizing k with
  | zero => simp
  | succ n ih =>
    rw [Function.iterate_succ_apply]
    have h : arcShift (k * 2 ^ (n + 1)) = k * 2 ^ n := by
      unfold arcShift
      have : k * 2 ^ (n + 1) = (k * 2 ^ n) * 2 := by ring
      rw [this]
      have h0 : (k * 2 ^ n * 2) % 2 = 0 := by omega
      simp [h0]
    rw [h, ih]


theorem not16_eq_xor (c : Nat) (hc : c < 65536) : not16 c = c ^^^ 0xFFFF := by
  unfold not16
  apply Nat.eq_of_testBit_eq
  intro i
  have h1 : 0xFFFF - c = 2 ^ 16 - (c + 1) := by norm_num; omega
  have h2 : (0xFFFF : Nat) = 2 ^ 16 - (0 + 1) := by norm_num
  rw [h1, Nat.testBit_two_pow_sub_succ (by simpa using hc), Nat.testBit_xor, h2,
    Nat.testBit_two_pow_sub_succ (by norm_num)]
  by_cases hi : i < 16
  · simp [hi]
  · have : c.testBit i = false :=
      Nat.testBit_lt_two_pow (lt_of_lt_of_le (show c < 2 ^ 16 by simpa using hc)
        (Nat.pow_le_pow_right (by norm_num : 0 < 2) (by omega : 16 ≤ i)))
    simp [hi, this]

theorem word_eq_xor (b0 b1 : Nat) (hb0 : b0 < 256) :
    (b1 <<< 8) ||| b0 = b0 ^^^ b1 * 2 ^ 8 := by
  apply Nat.eq_of_testBit_eq
  intro i
  rw [Nat.testBit_or, Nat.testBit_xor, Nat.testBit_shiftLeft, ← Nat.shiftLeft_eq,
    Nat.testBit_shiftLeft]
  by_cases hi : i < 8
  · have : ¬ i ≥ 8 := by omega
    simp [this]
  · have : b0.testBit i = false :=
      Nat.testBit_lt_two_pow (lt_of_lt_of_le (show b0 < 2 ^ 8 by simpa using hb0)
        (Nat.pow_le_pow_right (by norm_num : 0 < 2) (by omega : 8 ≤ i)))
    simp [this]

theorem update_lt (c d : Nat) (hc : c < 65536) (hd : d < 256) :
    a_ds2431_crc16_update c d < 65536 := by
  rw [update_eq_arcByte c d hd]
  exact arcShift_iter_lt 8 _ (Nat.xor_lt_two_pow (n := 16) hc (by omega))

theorem crc16_lt (bytes : List Nat) (h : ∀ b ∈ bytes, b < 256) : crc16 bytes < 65536 := by
  unfold crc16
  suffices H : ∀ c, c < 65536 → bytes.foldl a_ds2431_crc16_update c < 65536 from H 0 (by norm_num)
  induction bytes with
  | nil => intro c hc; simpa using hc
  | cons b bs ih =>
    intro c hc
    simp only [List.foldl_cons]
    exact ih (fun x hx => h x (List.mem_cons_of_mem _ hx)) _
      (update_lt c b hc (h b (List.mem_cons_self _ _)))

theorem arc16_ffff : arcShift^[16] 0xFFFF = 0xB001 := by
  simp [arcShift, Function.iterate_succ_apply]

theorem crc_two_more (c b0 b1 : Nat) (hc : c < 65536) (hb0 : b0 < 256) (hb1 : b1 < 256) :
    a_ds2431_crc16_update (a_ds2431_crc16_update c b0) b1 = 0xB001 ↔
      (b1 <<< 8) ||| b0 = not16 c := by
  rw [update_eq_arcByte _ b1 hb1, update_eq_arcByte c b0 hb0, not16_eq_xor c hc,
    word_eq_xor b0 b1 hb0]
  unfold arcByte
  have hw : b0 ^^^ b1 * 2 ^ 8 < 65536 :=
    Nat.xor_lt_two_pow (n := 16) (by omega) (by omega)
  have h1 : arcShift^[8] (arcShift^[8] (c ^^^ b0) ^^^ b1)
      = arcShift^[16] (c ^^^ (b0 ^^^ b1 * 2 ^ 8)) := by
    have e : (16 : Nat) = 8 + 8 := rfl
    rw [e, Function.iterate_add_apply, ← Nat.xor_assoc, arcShift_iter_xor 8 (c ^^^ b0),
      arcShift_iter_shift 8 b1]
  rw [h1, ← arc16_ffff]
  constructor
  · intro h
    have := arcShift_iter_inj 16 _ _ (Nat.xor_lt_two_pow (n := 16) hc hw) (by norm_num) h
    rw [← this, ← Nat.xor_assoc, Nat.xor_self, Nat.zero_xor]
  · intro h
    rw [h, ← Nat.xor_assoc, Nat.xor_self, Nat.zero_xor]


theorem crc16_append (xs ys : List Nat) :
    crc16 (xs ++ ys) = ys.foldl a_ds2431_crc16_update (crc16 xs) := by
  simp [crc16, List.foldl_append]

theorem crc16_eq_arc (bytes : List Nat) (h : ∀ b ∈ bytes, b < 256) :
    crc16 bytes = crc16_arc bytes := by
  unfold crc16 crc16_arc
  generalize (0 : Nat) = c
  induction bytes generalizing c with
  | nil => rfl
  | cons b bs ih =>
    simp only [List.foldl_cons]
    rw [update_eq_arcByte c b (h b (List.mem_cons_self _ _))]
    exact ih (fun x hx => h x (List.mem_cons_of_mem _ hx)) _

/-! ## Claims C4 and C5 -/

/-- Claim C4.  For a message `M = [command, address_lo, address_hi] ++ data` of bytes (the
data bytes being the eight bytes `data[0..8)` of a scratchpad write, or any other number
of bytes) and readback bytes `b0`, `b1`, the running CRC over `M ++ [b0, b1]` is `0xB001`
exactly when the 16-bit word `(b1 << 8) | b0` is the bitwise complement of the CRC over
`M`. -/
theorem crc16_verification_constant (command address_lo address_hi : Nat) (data : List Nat)
    (b0 b1 : Nat)
    (hM : ∀ x ∈ [command, address_lo, address_hi] ++ data, x < 256)
    (hb0 : b0 < 256) (hb1 : b1 < 256) :
    crc16 ([command, address_lo, address_hi] ++ data ++ [b0, b1]) = 0xB001 ↔
      (b1 <<< 8) ||| b0 = not16 (crc16 ([command, address_lo, address_hi] ++ data)) := by
  rw [crc16_append]
  simp only [List.foldl_cons, List.foldl_nil]
  exact crc_two_more _ b0 b1 (crc16_lt _ hM) hb0 hb1

/-- Witness of C4 on the message of a write of `[1..8]` at address `0`, whose CRC is
`0xD0C0`, with the readback bytes `0x3F`, `0x2F` of its complement `0x2F3F`. -/
theorem crc16_verification_constant_witness :
    crc16 ([0x0F, 0x00, 0x00] ++ [1, 2, 3, 4, 5, 6, 7, 8] ++ [0x3F, 0x2F]) = 0xB001 ↔
      (0x2F <<< 8) ||| 0x3F = not16 (crc16 ([0x0F, 0x00, 0x00] ++ [1, 2, 3, 4, 5, 6, 7, 8])) :=
  crc16_verification_constant 0x0F 0x00 0x00 [1, 2, 3, 4, 5, 6, 7, 8] 0x3F 0x2F
    (by decide) (by decide) (by decide)

/-- Claim C5.  Folding `a_ds2431_crc16_update` over a list of bytes from `0` equals the
reference bit-wise CRC-16/ARC (reflected polynomial `0xA001`, initial value `0`, least
significant bit first, no final XOR); the ASCII bytes of "123456789" give `0xBB3D`. -/
theorem crc16_update_is_crc16_arc (bytes : List Nat) (h : ∀ b ∈ bytes, b < 256) :
    crc16 bytes = crc16_arc bytes ∧
      crc16 [0x31, 0x32, 0x33, 0x34, 0x35, 0x36, 0x37, 0x38, 0x39] = 0xBB3D := by
  refine ⟨crc16_eq_arc bytes h, ?_⟩
  simp [crc16, a_ds2431_crc16_update, crcStep]

/-- Witness of C5 on the bytes `[0x0F, 0x08, 0x00]`. -/
theorem crc16_update_is_crc16_arc_witness :
    crc16 [0x0F, 0x08, 0x00] = crc16_arc [0x0F, 0x08, 0x00] ∧
      crc16 [0x31, 0x32, 0x33, 0x34, 0x35, 0x36, 0x37, 0x38, 0x39] = 0xBB3D :=
  crc16_update_is_crc16_arc [0x0F, 0x08, 0x00] (by decide)

/-! ## Status codes of the protocol routines -/

theorem ite_ind {α : Type} {c : Prop} [Decidable c] {P : α → Prop} {a b : α}
    (ha : P a) (hb : P b) : P (if c then a else b) := by
  split
  · exact ha
  · exact hb

theorem write_all_status {σ : Type} (W : Wire σ) (wb : Nat → σ → Nat × σ) (msg : String)
    (bs : List Nat) (s : σ) : StatusIn [0, 1] (write_all W wb msg bs s) := by
  induction bs generalizing s with
  | nil => simp [write_all, StatusIn]
  | cons b bs ih =>
    simp only [write_all]
    refine ite_ind ?_ (ih _)
    simp [StatusIn]

theorem rom_select_status {σ : Type} (W : Wire σ) (h : Handle) (s : σ) :
    StatusIn [0, 1] (rom_select W h s) := by
  unfold rom_select
  dsimp only
  repeat' apply ite_ind
  all_goals first | exact write_all_status _ _ _ _ _ | simp [StatusIn]

theorem copy_readdress_status {σ : Type} (W : Wire σ) (h : Handle) (s : σ) :
    StatusIn [0, 1] (copy_readdress W h s) := by
  unfold copy_readdress
  dsimp only
  repeat' apply ite_ind
  all_goals first | exact write_all_status _ _ _ _ _ | simp [StatusIn]

theorem copy_scratchpad_body_status {σ : Type} (W : Wire σ) (od : Bool) (address : Nat) (s : σ) :
    StatusIn [0, 1] (copy_scratchpad_body W od address s) := by
  unfold copy_scratchpad_body
  dsimp only
  repeat' apply ite_ind
  all_goals simp [StatusIn]

theorem write_scratchpad_body_status {σ : Type} (W : Wire σ) (od : Bool) (address : Nat)
    (data : List Nat) (s : σ) :
    StatusIn [0, 1, 6] (write_scratchpad_body W od address data s) := by
  unfold write_scratchpad_body
  dsimp only
  repeat' apply ite_ind
  all_goals simp [StatusIn]

theorem read_data_status {σ : Type} (W : Wire σ) (rb : σ → Nat × Nat × σ) (n : Nat)
    (acc : List Nat) (s : σ) : StatusIn [0, 1] (read_data W rb n acc s) := by
  induction n generalizing acc s with
  | zero => simp [read_data, StatusIn]
  | succ n ih =>
    simp only [read_data]
    refine ite_ind ?_ (ih _ _)
    simp [StatusIn]

theorem read_memory_body_status {σ : Type} (W : Wire σ) (od : Bool) (address len : Nat) (s : σ) :
    StatusIn [0, 1] (read_memory_body W od address len s) := by
  unfold read_memory_body
  dsimp only
  repeat' apply ite_ind
  all_goals first | exact read_data_status _ _ _ _ _ | simp [StatusIn]


theorem a_ds2431_read_status {σ : Type} (W : Wire σ) (h : Handle) (address len : Nat) (s : σ) :
    StatusIn [0, 1] (a_ds2431_read W h address len s) := by
  unfold a_ds2431_read
  dsimp only
  refine ite_ind ?_ (read_memory_body_status _ _ _ _ _)
  simp [StatusIn]

theorem write_loop_total {σ : Type} (P : Pager σ) (h : Handle) :
    ∀ (fuel pos off remain : Nat) (data : List Nat) (address len : Nat) (s : σ),
      off < 8 → remain = (if len ≤ 8 - off then len else 8 - off) → len < 256 →
      (off + len) / 8 + 1 ≤ fuel →
      ∃ r, ds2431_write_loop P h fuel pos off remain data address len s = some r ∧
        StatusIn [0, 1] r := by
  intro fuel
  induction fuel with
  | zero => intro pos off remain data address len s _ _ _ hf; omega
  | succ fuel ih =>
    intro pos off remain data address len s hoff hrem hlen hf
    unfold ds2431_write_loop
    dsimp only
    split
    · exact ⟨_, rfl, by simp [StatusIn]⟩
    · split
      · exact ⟨_, rfl, by simp [StatusIn]⟩
      · rename_i hne
        have hr : remain = 8 - off ∧ 8 - off < len := by
          split at hrem
          · omega
          · omega
        have hl : (len + 4294967296 - remain) % 256 = len - remain := by omega
        rw [hl]
        apply ih
        · omega
        · split <;> split <;> omega
        · omega
        · omega

/-! ## Claims C1 and C8: argument checks -/

/-- Claim C8.  On an initialized handle `ds2431_write_scratchpad` and
`ds2431_copy_scratchpad` return `4` for an address `>= 0x80` (aligned or not) and `5` for
a misaligned address below `0x80`, in both cases calling no capability but `debug_print`
(no `bus_read`, no `bus_write`); for a multiple of 8 below `0x80` they return neither `4`
nor `5`, whatever the mode and the behaviour of the platform. -/
theorem scratchpad_address_check {σ : Type} (L : Link σ) (h : Handle) (address : Nat)
    (data : List Nat) (s : σ) (t : List Event) (hi : h.inited = 1) :
    (0x80 ≤ address →
      ds2431_write_scratchpad (driver L) (some h) address data (s, t)
        = (4, none, L.debug_print "ds2431: address >= 0x0080.\n" s,
            t ++ [Event.debug_print "ds2431: address >= 0x0080.\n"]) ∧
      ds2431_copy_scratchpad (driver L) (some h) address (s, t)
        = (4, L.debug_print "ds2431: address >= 0x0080.\n" s,
            t ++ [Event.debug_print "ds2431: address >= 0x0080.\n"])) ∧
    (address < 0x80 → address % 8 ≠ 0 →
      ds2431_write_scratchpad (driver L) (some h) address data (s, t)
        = (5, none, L.debug_print "ds2431: address is invalid.\n" s,
            t ++ [Event.debug_print "ds2431: address is invalid.\n"]) ∧
      ds2431_copy_scratchpad (driver L) (some h) address (s, t)
        = (5, L.debug_print "ds2431: address is invalid.\n" s,
            t ++ [Event.debug_print "ds2431: address is invalid.\n"])) ∧
    (address < 0x80 → address % 8 = 0 →
      (ds2431_write_scratchpad (driver L) (some h) address data (s, t)).1 ≠ 4 ∧
      (ds2431_write_scratchpad (driver L) (some h) address data (s, t)).1 ≠ 5 ∧
      (ds2431_copy_scratchpad (driver L) (some h) address (s, t)).1 ≠ 4 ∧
      (ds2431_copy_scratchpad (driver L) (some h) address (s, t)).1 ≠ 5) := by
  refine ⟨fun h1 => ?_, fun h1 h2 => ?_, fun h1 h2 => ?_⟩
  · have hn : ¬ address < 128 := by omega
    simp [ds2431_write_scratchpad, ds2431_copy_scratchpad, hi, h1, driver, Wire.ofLink,
      Link.record]
  · have hn : ¬ 128 ≤ address := by omega
    simp [ds2431_write_scratchpad, ds2431_copy_scratchpad, hi, hn, h2, driver, Wire.ofLink,
      Link.record]
  · have hn : ¬ 128 ≤ address := by omega
    have hw : StatusIn [0, 1, 6]
        (ds2431_write_scratchpad (driver L) (some h) address data (s, t)) := by
      simp only [ds2431_write_scratchpad, hi, ne_eq, not_true_eq_false, if_false, ge_iff_le, hn,
        h2]
      refine ite_ind ?_ (write_scratchpad_body_status _ _ _ _ _)
      simp [StatusIn]
    have hc : StatusIn [0, 1]
        (ds2431_copy_scratchpad (driver L) (some h) address (s, t)) := by
      simp only [ds2431_copy_scratchpad, hi, ne_eq, not_true_eq_false, if_false, ge_iff_le, hn,
        h2]
      refine ite_ind ?_ (copy_scratchpad_body_status _ _ _ _)
      simp [StatusIn]
    simp only [StatusIn, List.mem_cons, List.mem_singleton, List.not_mem_nil, or_false] at hw hc
    omega

/-- Witness of C8 on the quiet platform: address `0x81` is rejected with status `4`. -/
theorem scratchpad_address_check_witness :
    ds2431_write_scratchpad (driver quietLink) (some ⟨1, 0, []⟩) 0x81 [] ((), [])
        = (4, none, (), [Event.debug_print "ds2431: address >= 0x0080.\n"]) ∧
      ds2431_copy_scratchpad (driver quietLink) (some ⟨1, 0, []⟩) 0x81 ((), [])
        = (4, (), [Event.debug_print "ds2431: address >= 0x0080.\n"]) :=
  (scratchpad_address_check quietLink ⟨1, 0, []⟩ 0x81 [] () [] rfl).1 (by decide)

/-- Claim C1.  On an initialized handle, when `address + len > 128` (sum in exact integer
arithmetic) `ds2431_read`, `ds2431_write` and `ds2431_read_memory` return `4` and call no
capability but `debug_print` (no `bus_read`, no `bus_write`, no delay); when
`address + len <= 128` they return, and never `4`, whatever the platform does. -/
theorem address_range_check {σ : Type} (L : Link σ) (h : Handle) (address len fuel : Nat)
    (data : List Nat) (s : σ) (t : List Event) (hi : h.inited = 1) (hfuel : 17 ≤ fuel) :
    (address + len > 128 →
      ds2431_read (Pager.ofWire (driver L)) (some h) address len (s, t)
        = (4, [], L.debug_print "ds2431: address and len are invalid.\n" s,
            t ++ [Event.debug_print "ds2431: address and len are invalid.\n"]) ∧
      ds2431_write (Pager.ofWire (driver L)) fuel (some h) address data len (s, t)
        = some (4, L.debug_print "ds2431: address and len are invalid.\n" s,
            t ++ [Event.debug_print "ds2431: address and len are invalid.\n"]) ∧
      ds2431_read_memory (driver L) (some h) address len (s, t)
        = (4, [], L.debug_print "ds2431: address and len are invalid.\n" s,
            t ++ [Event.debug_print "ds2431: address and len are invalid.\n"])) ∧
    (address + len ≤ 128 →
      (ds2431_read (Pager.ofWire (driver L)) (some h) address len (s, t)).1 ≠ 4 ∧
      (∃ r, ds2431_write (Pager.ofWire (driver L)) fuel (some h) address data len (s, t) = some r
        ∧ r.1 ≠ 4) ∧
      (ds2431_read_memory (driver L) (some h) address len (s, t)).1 ≠ 4) := by
  refine ⟨fun h1 => ?_, fun h1 => ⟨?_, ?_, ?_⟩⟩
  · simp [ds2431_read, ds2431_write, ds2431_read_memory, hi, h1, driver, Wire.ofLink,
      Link.record, Pager.ofWire]
  · have hn : ¬ 128 < address + len := by omega
    simp only [ds2431_read, hi, ne_eq, not_true_eq_false, if_false, gt_iff_lt, hn]
    split <;> simp
  · have hn : ¬ 128 < address + len := by omega
    simp only [ds2431_write, hi, ne_eq, not_true_eq_false, if_false, gt_iff_lt, hn]
    obtain ⟨r, hr, hs⟩ := write_loop_total (Pager.ofWire (driver L)) h fuel (address / 8)
      (address % 8) (if len ≤ 8 - address % 8 then len else 8 - address % 8) data address len
      (s, t) (Nat.mod_lt _ (by norm_num)) rfl (by omega) (by omega)
    refine ⟨r, hr, ?_⟩
    simp only [StatusIn, List.mem_cons, List.mem_singleton, List.not_mem_nil, or_false] at hs
    omega
  · have hn : ¬ 128 < address + len := by omega
    have hs : StatusIn [0, 1] (ds2431_read_memory (driver L) (some h) address len (s, t)) := by
      simp only [ds2431_read_memory, hi, ne_eq, not_true_eq_false, if_false, gt_iff_lt, hn]
      refine ite_ind ?_ (read_memory_body_status _ _ _ _ _)
      simp [StatusIn]
    simp only [StatusIn, List.mem_cons, List.mem_singleton, List.not_mem_nil, or_false] at hs
    omega

/-- Witness of C1 on the quiet platform: `address = 200`, `len = 100` is rejected. -/
theorem address_range_check_witness :
    ds2431_read (Pager.ofWire (driver quietLink)) (some ⟨1, 0, []⟩) 200 100 ((), [])
        = (4, [], (), [Event.debug_print "ds2431: address and len are invalid.\n"]) ∧
      ds2431_write (Pager.ofWire (driver quietLink)) 17 (some ⟨1, 0, []⟩) 200 [] 100 ((), [])
        = some (4, (), [Event.debug_print "ds2431: address and len are invalid.\n"]) ∧
      ds2431_read_memory (driver quietLink) (some ⟨1, 0, []⟩) 200 100 ((), [])
        = (4, [], (), [Event.debug_print "ds2431: address and len are invalid.\n"]) :=
  (address_range_check quietLink ⟨1, 0, []⟩ 200 100 17 [] () [] rfl (le_refl 17)).1 (by decide)

/-! ## The scripted bus -/

theorem script_wb (od : Bool) (b : Nat) (s : Script) :
    scriptWire.wb od b s
      = (0, ⟨s.rx, s.log ++
          [if od then WireEvent.write_byte_overdrive b else WireEvent.write_byte b]⟩) := by
  cases od <;> rfl

theorem script_rb (od : Bool) (b : Nat) (rx : List Nat) (log : List WireEvent) :
    scriptWire.rb od ⟨b :: rx, log⟩
      = (0, b, ⟨rx, log ++
          [if od then WireEvent.read_byte_overdrive b else WireEvent.read_byte b]⟩) := by
  cases od <;> rfl

theorem script_write_all (od : Bool) (msg : String) (bs : List Nat) (s : Script) :
    write_all scriptWire (scriptWire.wb od) msg bs s
      = (0, ⟨s.rx, s.log ++ bs.map (fun b =>
          if od then WireEvent.write_byte_overdrive b else WireEvent.write_byte b)⟩) := by
  induction bs generalizing s with
  | nil => simp [write_all]
  | cons b bs ih => simp [write_all, script_wb, ih]

theorem script_rom_select (h : Handle) (hm : h.mode ≤ 5) (s : Script) :
    (rom_select scriptWire h s).1 = 0 ∧ (rom_select scriptWire h s).2.rx = s.rx := by
  have hw := script_write_all false "ds2431: write command failed.\n" (bytes8 h.rom)
  have hwo := script_write_all true "ds2431: write command failed.\n" (bytes8 h.rom)
  simp only [Wire.wb, Bool.false_eq_true, if_false, if_true] at hw hwo
  obtain ⟨i, m, r⟩ := h
  simp only at hm hw hwo
  interval_cases m <;>
    simp [rom_select, DS2431_MODE_SKIP_ROM, DS2431_MODE_OVERDRIVE_SKIP_ROM,
      DS2431_MODE_MATCH_ROM, DS2431_MODE_OVERDRIVE_MATCH_ROM, DS2431_MODE_RESUME,
      DS2431_MODE_OVERDRIVE_RESUME, hw, hwo] <;>
    simp [scriptWire]

theorem script_write_data_crc (od : Bool) (bs : List Nat) (crc : Nat) (s : Script) :
    write_data_crc scriptWire (scriptWire.wb od) bs crc s
      = (0, bs.foldl a_ds2431_crc16_update crc, ⟨s.rx, s.log ++ bs.map (fun b =>
          if od then WireEvent.write_byte_overdrive b else WireEvent.write_byte b)⟩) := by
  induction bs generalizing crc s with
  | nil => simp [write_data_crc]
  | cons b bs ih => simp [write_data_crc, script_wb, ih]

theorem script_read_data_crc (od : Bool) (bs : List Nat) (crc : Nat) (acc rx : List Nat)
    (log : List WireEvent) :
    read_data_crc scriptWire (scriptWire.rb od) bs.length crc acc ⟨bs ++ rx, log⟩
      = (0, bs.foldl a_ds2431_crc16_update crc, acc ++ bs, ⟨rx, log ++ bs.map (fun b =>
          if od then WireEvent.read_byte_overdrive b else WireEvent.read_byte b)⟩) := by
  induction bs generalizing crc acc log with
  | nil => simp [read_data_crc]
  | cons b bs ih => simp [read_data_crc, script_rb, ih]

theorem script_write_scratchpad_body (od : Bool) (address : Nat) (data : List Nat)
    (b0 b1 st : Nat) (rest : List Nat) (log : List WireEvent) :
    (write_scratchpad_body scriptWire od address data ⟨b0 :: b1 :: st :: rest, log⟩).1 =
      (if st ≠ 0xFF then 1
       else if crc16 ([DS2431_CMD_WRITE_SCRATCHPAD, (address >>> 0) &&& 0xFF,
          (address >>> 8) &&& 0xFF] ++ bytes8 data ++ [b0, b1]) ≠ 0xB001 then 6 else 0) ∧
    (write_scratchpad_body scriptWire od address data ⟨b0 :: b1 :: st :: rest, log⟩).2.1 =
      some (not16 ((b1 <<< 8) ||| b0)) ∧
    (write_scratchpad_body scriptWire od address data ⟨b0 :: b1 :: st :: rest, log⟩).2.2.rx =
      rest := by
  have hc : crc16 ([DS2431_CMD_WRITE_SCRATCHPAD, (address >>> 0) &&& 0xFF,
      (address >>> 8) &&& 0xFF] ++ bytes8 data ++ [b0, b1])
      = a_ds2431_crc16_update (a_ds2431_crc16_update (List.foldl a_ds2431_crc16_update
          (a_ds2431_crc16_update (a_ds2431_crc16_update
            (a_ds2431_crc16_update 0 DS2431_CMD_WRITE_SCRATCHPAD) ((address >>> 0) &&& 0xFF))
            ((address >>> 8) &&& 0xFF)) (bytes8 data)) b0) b1 := by
    simp [crc16, List.foldl_append]
  rw [hc]
  unfold write_scratchpad_body
  simp only [script_wb, script_write_data_crc, script_rb, ne_eq, not_true_eq_false, if_false]
  generalize a_ds2431_crc16_update (a_ds2431_crc16_update (List.foldl a_ds2431_crc16_update
          (a_ds2431_crc16_update (a_ds2431_crc16_update
            (a_ds2431_crc16_update 0 DS2431_CMD_WRITE_SCRATCHPAD) ((address >>> 0) &&& 0xFF))
            ((address >>> 8) &&& 0xFF)) (bytes8 data)) b0) b1 = c
  by_cases h1 : st = 255
  · by_cases h2 : c = 45057
    · simp [h1, h2]
    · simp [h1, h2, scriptWire]
  · simp [h1, scriptWire]

theorem script_read_scratchpad_body (od : Bool) (ta1 ta2 es : Nat) (d : List Nat)
    (c0 c1 st : Nat) (rest : List Nat) (log : List WireEvent) (hd : d.length = 8) :
    (read_scratchpad_body scriptWire od
        ⟨ta1 :: ta2 :: es :: (d ++ c0 :: c1 :: st :: rest), log⟩).1 =
      (if es ≠ 0x07 then 4 else if st ≠ 0xFF then 1
       else if crc16 ([DS2431_CMD_READ_SCRATCHPAD, ta1, ta2, es] ++ d ++ [c0, c1]) ≠ 0xB001
       then 5 else 0) ∧
    (read_scratchpad_body scriptWire od
        ⟨ta1 :: ta2 :: es :: (d ++ c0 :: c1 :: st :: rest), log⟩).2.1 =
      (if es ≠ 0x07 then ⟨some ((ta2 <<< 8) ||| ta1), [], none⟩
       else ⟨some ((ta2 <<< 8) ||| ta1), d, some (not16 ((c1 <<< 8) ||| c0))⟩) ∧
    (read_scratchpad_body scriptWire od
        ⟨ta1 :: ta2 :: es :: (d ++ c0 :: c1 :: st :: rest), log⟩).2.2.rx =
      (if es ≠ 0x07 then d ++ c0 :: c1 :: st :: rest else rest) := by
  have hc : crc16 ([DS2431_CMD_READ_SCRATCHPAD, ta1, ta2, es] ++ d ++ [c0, c1])
      = a_ds2431_crc16_update (a_ds2431_crc16_update (List.foldl a_ds2431_crc16_update
          (a_ds2431_crc16_update (a_ds2431_crc16_update (a_ds2431_crc16_update
            (a_ds2431_crc16_update 0 DS2431_CMD_READ_SCRATCHPAD) ta1) ta2) es) d) c0) c1 := by
    simp [crc16, List.foldl_append]
  rw [hc]
  have hr := script_read_data_crc od d
  rw [hd] at hr
  unfold read_scratchpad_body
  simp only [script_wb, script_rb, hr, ne_eq, not_true_eq_false, if_false]
  generalize a_ds2431_crc16_update (a_ds2431_crc16_update (List.foldl a_ds2431_crc16_update
          (a_ds2431_crc16_update (a_ds2431_crc16_update (a_ds2431_crc16_update
            (a_ds2431_crc16_update 0 DS2431_CMD_READ_SCRATCHPAD) ta1) ta2) es) d) c0) c1 = c
  by_cases h0 : es = 7
  · by_cases h1 : st = 255
    · by_cases h2 : c = 45057
      · simp [h0, h1, h2]
      · simp [h0, h1, h2, scriptWire]
    · simp [h0, h1, scriptWire]
  · simp [h0, scriptWire]

theorem script_eta (s : Script) (rx : List Nat) (h : s.rx = rx) : s = ⟨rx, s.log⟩ := by
  cases s
  simp_all

/-! ## Claims C9 and C10: verdicts of the scratchpad routines -/

/-- Counterexample to C9 as stated: with address `0`, data `[1..8]` and the correct CRC
bytes `0x3F`, `0x2F` read back, a trailing status byte `0x00` makes
`ds2431_write_scratchpad` return `1`, not `6`. -/
theorem write_scratchpad_status_byte_returns_one :
    (ds2431_write_scratchpad scriptWire (some ⟨1, 0, []⟩) 0 [1, 2, 3, 4, 5, 6, 7, 8]
        ⟨[0x3F, 0x2F, 0x00], []⟩).1 = 1 ∧
      (ds2431_write_scratchpad scriptWire (some ⟨1, 0, []⟩) 0 [1, 2, 3, 4, 5, 6, 7, 8]
        ⟨[0x3F, 0x2F, 0x00], []⟩).1 ≠ 6 := by
  have h := (script_write_scratchpad_body false 0 [1, 2, 3, 4, 5, 6, 7, 8] 0x3F 0x2F 0x00 []
    [WireEvent.reset, WireEvent.write_byte DS2431_CMD_SKIP_ROM]).1
  have e : ds2431_write_scratchpad scriptWire (some ⟨1, 0, []⟩) 0 [1, 2, 3, 4, 5, 6, 7, 8]
      ⟨[0x3F, 0x2F, 0x00], []⟩ = write_scratchpad_body scriptWire false 0
        [1, 2, 3, 4, 5, 6, 7, 8] ⟨[0x3F, 0x2F, 0x00],
          [WireEvent.reset, WireEvent.write_byte DS2431_CMD_SKIP_ROM]⟩ := rfl
  rw [e, h]
  decide

/-- Claim C9, amended.  For a valid aligned address and a valid mode, on a bus where every
transfer succeeds and the device answers `b0`, `b1` (CRC bytes) and `st` (status byte),
`ds2431_write_scratchpad` returns `1` if `st` is not `0xFF`, otherwise `6` if the running
CRC-16 over `[0x0F, address_lo, address_hi, data[0..8), b0, b1]` is not `0xB001`, and
otherwise `0`. -/
theorem write_scratchpad_verdict (h : Handle) (address : Nat) (data : List Nat)
    (b0 b1 st : Nat) (rest : List Nat) (log : List WireEvent)
    (hi : h.inited = 1) (hm : h.mode ≤ 5) (ha : address < 0x80) (hal : address % 8 = 0) :
    (ds2431_write_scratchpad scriptWire (some h) address data
        ⟨b0 :: b1 :: st :: rest, log⟩).1 =
      (if st ≠ 0xFF then 1
       else if crc16 ([0x0F, (address >>> 0) &&& 0xFF, (address >>> 8) &&& 0xFF]
          ++ bytes8 data ++ [b0, b1]) ≠ 0xB001 then 6 else 0) := by
  have hn : ¬ 128 ≤ address := by omega
  obtain ⟨h1, h2⟩ := script_rom_select h hm ⟨b0 :: b1 :: st :: rest, log⟩
  simp only [ds2431_write_scratchpad, hi, ne_eq, not_true_eq_false, if_false, ge_iff_le, hn,
    hal, h1]
  rw [script_eta _ _ h2]
  exact (script_write_scratchpad_body _ address data b0 b1 st rest _).1

/-- Witness of C9: skip-ROM mode, address `0`, data `[1..8]`, the correct CRC bytes
`0x3F`, `0x2F` and status `0xFF` give status `0`. -/
theorem write_scratchpad_verdict_witness :
    (ds2431_write_scratchpad scriptWire (some ⟨1, 0, []⟩) 0 [1, 2, 3, 4, 5, 6, 7, 8]
        ⟨[0x3F, 0x2F, 0xFF], []⟩).1 = 0 :=
  (write_scratchpad_verdict ⟨1, 0, []⟩ 0 [1, 2, 3, 4, 5, 6, 7, 8] 0x3F 0x2F 0xFF [] [] rfl
    (by decide) (by decide) (by decide)).trans
    (by simp [crc16, bytes8, a_ds2431_crc16_update, crcStep, List.range, List.range.loop])

/-- Claim C10.  For a valid mode, on a bus where every transfer succeeds and the device
answers `ta1`, `ta2`, `es`, the eight bytes `d`, `c0`, `c1` and `st` in that order,
`ds2431_read_scratchpad` stores `(ta2 << 8) | ta1` through `address`; it returns `4` if
`es` is not `0x07`, leaving the data bytes and all that follows unread; otherwise it
reads the remaining eleven bytes and returns `1` if `st` is not `0xFF`, otherwise `5`
if the running CRC-16 over `[0xAA, ta1, ta2, es] ++ d ++ [c0, c1]` is not `0xB001`,
otherwise `0`, with `data` holding `d` and `crc16` the complement of `(c1 << 8) | c0`. -/
theorem read_scratchpad_verdict (h : Handle) (ta1 ta2 es : Nat) (d : List Nat)
    (c0 c1 st : Nat) (rest : List Nat) (log : List WireEvent)
    (hi : h.inited = 1) (hm : h.mode ≤ 5) (hd : d.length = 8) :
    (ds2431_read_scratchpad scriptWire (some h)
        ⟨ta1 :: ta2 :: es :: (d ++ c0 :: c1 :: st :: rest), log⟩).1 =
      (if es ≠ 0x07 then 4 else if st ≠ 0xFF then 1
       else if crc16 ([0xAA, ta1, ta2, es] ++ d ++ [c0, c1]) ≠ 0xB001 then 5 else 0) ∧
    (ds2431_read_scratchpad scriptWire (some h)
        ⟨ta1 :: ta2 :: es :: (d ++ c0 :: c1 :: st :: rest), log⟩).2.1 =
      (if es ≠ 0x07 then ⟨some ((ta2 <<< 8) ||| ta1), [], none⟩
       else ⟨some ((ta2 <<< 8) ||| ta1), d, some (not16 ((c1 <<< 8) ||| c0))⟩) ∧
    (ds2431_read_scratchpad scriptWire (some h)
        ⟨ta1 :: ta2 :: es :: (d ++ c0 :: c1 :: st :: rest), log⟩).2.2.rx =
      (if es ≠ 0x07 then d ++ c0 :: c1 :: st :: rest else rest) := by
  obtain ⟨h1, h2⟩ := script_rom_select h hm
    ⟨ta1 :: ta2 :: es :: (d ++ c0 :: c1 :: st :: rest), log⟩
  simp only [ds2431_read_scratchpad, hi, ne_eq, not_true_eq_false, if_false, h1]
  rw [script_eta _ _ h2]
  exact script_read_scratchpad_body _ ta1 ta2 es d c0 c1 st rest _ hd

/-- Witness of C10: skip-ROM mode, target address `0x0008`, `es = 0x07`, data `[1..8]`. -/
theorem read_scratchpad_verdict_witness :
    (ds2431_read_scratchpad scriptWire (some ⟨1, 0, []⟩)
        ⟨0x08 :: 0x00 :: 0x07 :: ([1, 2, 3, 4, 5, 6, 7, 8] ++ 0x12 :: 0x34 :: 0xFF :: []),
          []⟩).2.1 =
      (if 0x07 ≠ 0x07 then ⟨some ((0x00 <<< 8) ||| 0x08), [], none⟩
       else ⟨some ((0x00 <<< 8) ||| 0x08), [1, 2, 3, 4, 5, 6, 7, 8],
          some (not16 ((0x34 <<< 8) ||| 0x12))⟩) :=
  (read_scratchpad_verdict ⟨1, 0, []⟩ 0x08 0x00 0x07 [1, 2, 3, 4, 5, 6, 7, 8] 0x12 0x34 0xFF
    [] [] rfl (by decide) rfl).2.1

/-! ## The page-level device model -/

theorem getD_drop (l : List Nat) (n i : Nat) : (l.drop n).getD i 0 = l.getD (n + i) 0 := by
  simp [List.getD_eq_getElem?_getD, List.getElem?_drop]

theorem getD_map_range (f : Nat → Nat) (n i : Nat) :
    ((List.range n).map f).getD i 0 = if i < n then f i else 0 := by
  simp only [List.getD_eq_getElem?_getD, List.getElem?_map, List.getElem?_range]
  by_cases h : i < n
  · simp [h, List.getElem?_range h]
  · have : (List.range n)[i]? = none := by
      rw [List.getElem?_eq_none_iff]
      simpa using h
    simp [h, this]

theorem overlay_succ (buffer : List Nat) (off n : Nat) (data : List Nat) :
    overlay buffer off (n + 1) data
      = (overlay buffer off n data).set (n + off) (data.getD n 0) := by
  simp only [overlay, List.range_succ, List.foldl_append, List.foldl_cons, List.foldl_nil]

theorem overlay_length (buffer : List Nat) (off remain : Nat) (data : List Nat) :
    (overlay buffer off remain data).length = buffer.length := by
  induction remain with
  | zero => simp [overlay]
  | succ n ih => rw [overlay_succ, List.length_set, ih]

theorem overlay_getD (buffer : List Nat) (off remain : Nat) (data : List Nat) (i : Nat) :
    (overlay buffer off remain data).getD i 0 =
      if off ≤ i ∧ i < off + remain ∧ i < buffer.length then data.getD (i - off) 0
      else buffer.getD i 0 := by
  induction remain with
  | zero =>
    have : ¬ (off ≤ i ∧ i < off + 0 ∧ i < buffer.length) := by omega
    rw [if_neg this]
    rfl
  | succ n ih =>
    have hl := overlay_length buffer off n data
    rw [overlay_succ]
    by_cases h1 : n + off = i
    · subst h1
      by_cases h2 : n + off < buffer.length
      · have h3 : off ≤ n + off ∧ n + off < off + (n + 1) ∧ n + off < buffer.length := by omega
        rw [if_pos h3, List.getD_eq_getElem?_getD, List.getElem?_set_self (by omega)]
        simp
      · have h3 : ¬ (off ≤ n + off ∧ n + off < off + (n + 1) ∧ n + off < buffer.length) := by
          omega
        have e1 : ((overlay buffer off n data).set (n + off) (data.getD n 0))[n + off]? = none :=
          List.getElem?_eq_none_iff.mpr (by rw [List.length_set]; omega)
        have e2 : buffer[n + off]? = none := List.getElem?_eq_none_iff.mpr (by omega)
        rw [if_neg h3]
        simp only [List.getD_eq_getElem?_getD] at e1 ⊢
        rw [e1, e2]
    · rw [List.getD_eq_getElem?_getD, List.getElem?_set_ne h1, ← List.getD_eq_getElem?_getD, ih]
      by_cases h4 : off ≤ i ∧ i < off + n ∧ i < buffer.length
      · have : off ≤ i ∧ i < off + (n + 1) ∧ i < buffer.length := by omega
        rw [if_pos h4, if_pos this]
      · have : ¬ (off ≤ i ∧ i < off + (n + 1) ∧ i < buffer.length) := by omega
        rw [if_neg h4, if_neg this]

theorem chunk_mem (h : Handle) (pos off remain : Nat) (data : List Nat) (address : Nat)
    (mem : Nat → Nat) (hoff : off + remain ≤ 8) (ha : address = pos * 8 + off)
    (hp : pos * 8 < 65536) :
    ds2431_write_chunk memPager h pos off remain data address mem =
      (0, fun j => if address ≤ j ∧ j < address + remain then data.getD (j - address) 0
        else mem j) := by
  unfold ds2431_write_chunk
  by_cases h8 : remain = 8
  · have h0 : off = 0 := by omega
    simp [h8, memPager]
  · simp only [ne_eq, h8, not_false_eq_true, if_true, memPager, Nat.mod_eq_of_lt hp,
      not_true_eq_false, if_false]
    congr 1
    funext j
    subst ha
    by_cases hj : pos * 8 ≤ j ∧ j < pos * 8 + 8
    · rw [if_pos hj, overlay_getD]
      have hlen : (page_buffer ((List.range 8).map (fun i => mem (pos * 8 + i)))).length = 9 := by
        simp [page_buffer]
      rw [hlen]
      by_cases hk : off ≤ j - pos * 8 ∧ j - pos * 8 < off + remain ∧ j - pos * 8 < 9
      · have : pos * 8 + off ≤ j ∧ j < pos * 8 + off + remain := by omega
        rw [if_pos hk, if_pos this]
        congr 1
        omega
      · have : ¬ (pos * 8 + off ≤ j ∧ j < pos * 8 + off + remain) := by omega
        rw [if_neg hk, if_neg this]
        unfold page_buffer
        rw [getD_map_range, if_pos (by omega), getD_map_range, if_pos (by omega)]
        congr 1
        omega
    · have : ¬ (pos * 8 + off ≤ j ∧ j < pos * 8 + off + remain) := by omega
      rw [if_neg hj, if_neg this]

theorem write_loop_mem (h : Handle) :
    ∀ (fuel pos off remain : Nat) (data : List Nat) (address len : Nat) (mem : Nat → Nat),
      off < 8 → remain = (if len ≤ 8 - off then len else 8 - off) →
      address = pos * 8 + off → address + len ≤ 128 → (off + len) / 8 + 1 ≤ fuel →
      ds2431_write_loop memPager h fuel pos off remain data address len mem =
        some (0, fun j => if address ≤ j ∧ j < address + len then data.getD (j - address) 0
          else mem j) := by
  intro fuel
  induction fuel with
  | zero => intro pos off remain data address len mem _ _ _ _ hf; omega
  | succ fuel ih =>
    intro pos off remain data address len mem hoff hrem ha hr hf
    have hrem2 : remain ≤ len ∧ off + remain ≤ 8 ∧ (len ≠ remain → remain = 8 - off) := by
      split at hrem <;> omega
    unfold ds2431_write_loop
    rw [chunk_mem h pos off remain data address mem hrem2.2.1 ha (by omega)]
    by_cases hl : len = remain
    · simp [hl]
    · have hl1 : (len + 4294967296 - remain) % 256 = len - remain := by omega
      have ha1 : (address + remain) % 256 = (pos + 1) * 8 + 0 := by omega
      simp only [ne_eq, not_true_eq_false, if_false, hl, hl1]
      rw [ih (pos + 1) 0 _ _ _ (len - remain) _ (by omega) (by split <;> split <;> omega) ha1
        (by omega) (by omega)]
      congr 2
      funext j
      rw [ha1]
      by_cases h1 : (pos + 1) * 8 + 0 ≤ j ∧ j < (pos + 1) * 8 + 0 + (len - remain)
      · have h2 : address ≤ j ∧ j < address + len := by omega
        rw [if_pos h1, if_pos h2, getD_drop]
        congr 1
        omega
      · rw [if_neg h1]
        by_cases h3 : address ≤ j ∧ j < address + remain
        · have h2 : address ≤ j ∧ j < address + len := by omega
          rw [if_pos h3, if_pos h2]
        · have h2 : ¬ (address ≤ j ∧ j < address + len) := by omega
          rw [if_neg h3, if_neg h2]

theorem write_mem (h : Handle) (fuel address len : Nat) (data : List Nat) (mem : Nat → Nat)
    (hi : h.inited = 1) (hr : address + len ≤ 128) (hf : 17 ≤ fuel) :
    ds2431_write memPager fuel (some h) address data len mem =
      some (0, fun j => if address ≤ j ∧ j < address + len then data.getD (j - address) 0
        else mem j) := by
  have hn : ¬ 128 < address + len := by omega
  simp only [ds2431_write, hi, ne_eq, not_true_eq_false, if_false, gt_iff_lt, hn]
  exact write_loop_mem h fuel (address / 8) (address % 8) _ data address len mem
    (Nat.mod_lt _ (by norm_num)) rfl (by omega) hr (by omega)

theorem map_getD_range (D : List Nat) : (List.range D.length).map (fun i => D.getD i 0) = D := by
  apply List.ext_getElem
  · simp
  · intro i h1 h2
    simp [List.getD_eq_getElem?_getD, List.getElem?_eq_getElem h2]

/-! ## Claims C2 and C3: write then read on the page-level device model -/

/-- Claim C2.  On the device model in which a page read returns the current bytes and a
page write replaces the eight bytes at its address, for every initialized handle (every
mode, in particular the six valid ones), every address `A` and every buffer `D` with
`A + len(D) <= 128` (lengths 1..128, and the empty buffer as well), `ds2431_write(A, D,
len(D))` returns `0` and the following `ds2431_read(A, len(D))` returns `0` with exactly
the bytes of `D`. -/
theorem write_read_round_trip (h : Handle) (A : Nat) (D : List Nat) (mem : Nat → Nat)
    (fuel : Nat) (hi : h.inited = 1) (hr : A + D.length ≤ 128) (hf : 17 ≤ fuel) :
    ∃ mem1, ds2431_write memPager fuel (some h) A D D.length mem = some (0, mem1) ∧
      ds2431_read memPager (some h) A D.length mem1 = (0, D, mem1) := by
  refine ⟨_, write_mem h fuel A D.length D mem hi hr hf, ?_⟩
  have hn : ¬ 128 < A + D.length := by omega
  simp only [ds2431_read, hi, ne_eq, not_true_eq_false, if_false, gt_iff_lt, hn, memPager]
  refine Prod.ext rfl (Prod.ext ?_ rfl)
  show (List.range D.length).map _ = D
  conv_rhs => rw [← map_getD_range D]
  apply List.map_congr_left
  intro i hi2
  have hi3 : i < D.length := List.mem_range.mp hi2
  have : A ≤ A + i ∧ A + i < A + D.length := by omega
  simp only [this, and_self, if_true]
  congr 1
  omega

/-- Witness of C2: twelve bytes written at address `5`, across three pages. -/
theorem write_read_round_trip_witness :
    ∃ mem1, ds2431_write memPager 17 (some ⟨1, 2, [1, 2, 3, 4, 5, 6, 7, 8]⟩) 5
        [1, 2, 3, 4, 5, 6, 7, 8, 9, 10, 11, 12]
        [1, 2, 3, 4, 5, 6, 7, 8, 9, 10, 11, 12].length (fun i => 100 + i) = some (0, mem1) ∧
      ds2431_read memPager (some ⟨1, 2, [1, 2, 3, 4, 5, 6, 7, 8]⟩) 5
        [1, 2, 3, 4, 5, 6, 7, 8, 9, 10, 11, 12].length mem1
        = (0, [1, 2, 3, 4, 5, 6, 7, 8, 9, 10, 11, 12], mem1) :=
  write_read_round_trip ⟨1, 2, [1, 2, 3, 4, 5, 6, 7, 8]⟩ 5
    [1, 2, 3, 4, 5, 6, 7, 8, 9, 10, 11, 12] (fun i => 100 + i) 17 rfl (by decide) (by decide)

/-- Claim C3.  On the same device model, for every address `A` and length `len` with
`A + len <= 128` (`len >= 1`, and `len = 0` as well), `ds2431_write(A, D, len)` returns `0`
and every memory byte at an index outside `[A, A + len)` keeps its value, including the
bytes of the first and last page that the range does not cover. -/
theorem write_leaves_other_bytes (h : Handle) (A len : Nat) (D : List Nat) (mem : Nat → Nat)
    (fuel : Nat) (hi : h.inited = 1) (hr : A + len ≤ 128) (hf : 17 ≤ fuel) :
    ∃ mem1, ds2431_write memPager fuel (some h) A D len mem = some (0, mem1) ∧
      ∀ j, (j < A ∨ A + len ≤ j) → mem1 j = mem j := by
  refine ⟨_, write_mem h fuel A len D mem hi hr hf, ?_⟩
  intro j hj
  have : ¬ (A ≤ j ∧ j < A + len) := by omega
  simp only [this, if_false]

/-- Witness of C3: three bytes written at address `6`, touching pages 0 and 1. -/
theorem write_leaves_other_bytes_witness :
    ∃ mem1, ds2431_write memPager 17 (some ⟨1, 0, []⟩) 6 [7, 8, 9] 3 (fun i => 100 + i)
        = some (0, mem1) ∧
      ∀ j, (j < 6 ∨ 6 + 3 ≤ j) → mem1 j = (fun i => 100 + i) j :=
  write_leaves_other_bytes ⟨1, 0, []⟩ 6 3 [7, 8, 9] (fun i => 100 + i) 17 rfl (by decide)
    (by decide)

/-! ## Claim C7: search with a capacity below the population -/

set_option maxRecDepth 100000 in
/-- Claim C7 fails on the code.  With two devices on the simulated bus and a capacity
`*num = 1`, `ds2431_search_rom` returns `0` but reports `*num = 2` and has written row `1`
of the caller's array as well as row `0`: the loop is left on `num > *number`, one pass
late. -/
theorem search_rom_overruns_capacity :
    (ds2431_search_rom simWire (some ⟨1, 0, []⟩) (fun _ _ => 0) 1
        ⟨[[1, 2, 3, 4, 5, 6, 7, 8], [1, 2, 3, 4, 5, 6, 7, 9]],
          [[1, 2, 3, 4, 5, 6, 7, 8], [1, 2, 3, 4, 5, 6, 7, 9]], 0⟩).map
      (fun r => (r.1, r.2.1, rom_row r.2.2.1 0, rom_row r.2.2.1 1))
      = some (0, 2, [1, 2, 3, 4, 5, 6, 7, 8], [1, 2, 3, 4, 5, 6, 7, 9]) := by
  decide

/-! ## ROM search: order of the identifiers -/

/-- In the order of the search, `w` precedes `v` when they agree below `r`, and at `r`
the bit of `w` is `0` and that of `v` is `1`. -/
theorem romLe_of_lt {w v : List Nat} (h : romLt w v) : romLe w v := Or.inr h

/-- Claim C18.  On an initialized handle `ds2431_set_mode` with one of the six mode
enumerants `m` returns `0` and a following `ds2431_get_mode` returns `0` and yields `m`;
on a handle whose `inited` flag is not `1` both return `3` and the handle, hence the stored
mode, is unchanged. -/
theorem set_mode_get_mode (h : Handle) (m : Nat) :
    (h.inited = 1 → m ≤ 5 →
      (ds2431_set_mode (some h) m).1 = 0 ∧
      ds2431_get_mode (ds2431_set_mode (some h) m).2 = (0, some m)) ∧
    (h.inited ≠ 1 →
      ds2431_set_mode (some h) m = (3, some h) ∧ ds2431_get_mode (some h) = (3, none)) := by
  refine ⟨fun hi hm => ?_, fun hi => ?_⟩
  · have hm256 : m % 256 = m := by omega
    simp [ds2431_set_mode, ds2431_get_mode, hi, hm256]
  · simp [ds2431_set_mode, ds2431_get_mode, hi]

/-- Witness of C18: overdrive match-ROM mode is stored and read back. -/
theorem set_mode_get_mode_witness :
    (ds2431_set_mode (some ⟨1, 0, []⟩) DS2431_MODE_OVERDRIVE_MATCH_ROM).1 = 0 ∧
      ds2431_get_mode (ds2431_set_mode (some ⟨1, 0, []⟩) DS2431_MODE_OVERDRIVE_MATCH_ROM).2
        = (0, some DS2431_MODE_OVERDRIVE_MATCH_ROM) :=
  (set_mode_get_mode ⟨1, 0, []⟩ DS2431_MODE_OVERDRIVE_MATCH_ROM).1 rfl (by decide)

/-! ## Claim C17: configuration block -/

theorem config_of_buf_of_config (c : Config) :
    config_of_buf (buf_of_config c) = c := by
  cases c
  rfl

theorem buf_of_config_of_buf (b : List Nat) : buf_of_config (config_of_buf b) = bytes8 b := by
  simp [buf_of_config, config_of_buf, bytes8, List.range, List.range.loop]

theorem bytes8_of_length (b : List Nat) (hb : b.length = 8) : bytes8 b = b := by
  match b, hb with
  | [b0, b1, b2, b3, b4, b5, b6, b7], _ =>
    simp [bytes8, List.range, List.range.loop]

/-- Claim C17.  On the page-level device model (a page read returns what the page writes
stored): `ds2431_write_memory_config` succeeds and leaves the eight fields, in the order
page0..page3 protection, copy protection, factory byte, user byte 0, user byte 1, in the
bytes `0x80 .. 0x87` and nothing else changed; `ds2431_read_memory_config` succeeds and
fills the fields from the bytes `0x80 .. 0x87` in the same order; unpacking an 8-byte
register content and packing the result gives it back; and reading the configuration,
writing it back unmodified and reading again yields the same structure twice. -/
theorem config_round_trip (h : Handle) (mem : Nat → Nat) (c : Config) (b : List Nat)
    (hi : h.inited = 1) (hb : b.length = 8) :
    (ds2431_write_memory_config memPager (some h) c mem).1 = 0 ∧
    (List.range 8).map (fun i => (ds2431_write_memory_config memPager (some h) c mem).2
      (0x80 + i)) = [c.page0_protection_control, c.page1_protection_control,
        c.page2_protection_control, c.page3_protection_control, c.copy_protection,
        c.factory_byte, c.user_byte_0, c.user_byte_1] ∧
    (∀ j, ¬ (0x80 ≤ j ∧ j < 0x88) →
      (ds2431_write_memory_config memPager (some h) c mem).2 j = mem j) ∧
    ds2431_read_memory_config memPager (some h) mem
      = (0, some ⟨mem 0x80, mem 0x81, mem 0x82, mem 0x83, mem 0x84, mem 0x85, mem 0x86,
          mem 0x87⟩, mem) ∧
    buf_of_config (config_of_buf b) = b ∧
    (∀ c1, (ds2431_read_memory_config memPager (some h) mem).2.1 = some c1 →
      (ds2431_write_memory_config memPager (some h) c1 mem).1 = 0 ∧
      (ds2431_read_memory_config memPager (some h)
        (ds2431_write_memory_config memPager (some h) c1 mem).2).1 = 0 ∧
      (ds2431_read_memory_config memPager (some h)
        (ds2431_write_memory_config memPager (some h) c1 mem).2).2.1 = some c1) := by
  refine ⟨?_, ?_, ?_, ?_, ?_, ?_⟩
  · simp [ds2431_write_memory_config, hi, memPager]
  · simp [ds2431_write_memory_config, hi, memPager, buf_of_config, List.range,
      List.range.loop]
  · intro j hj
    simp only [ds2431_write_memory_config, hi, memPager, ne_eq, not_true_eq_false, if_false]
    have : ¬ (128 ≤ j ∧ j < 128 + 8) := by omega
    simp [this]
  · simp [ds2431_read_memory_config, hi, memPager, config_of_buf, List.range,
      List.range.loop]
  · rw [buf_of_config_of_buf, bytes8_of_length b hb]
  · intro c1 hc1
    simp only [ds2431_read_memory_config, hi, memPager, ne_eq, not_true_eq_false, if_false,
      Option.some.injEq] at hc1
    subst hc1
    simp [ds2431_write_memory_config, ds2431_read_memory_config, hi, memPager, config_of_buf,
      buf_of_config, List.range, List.range.loop]

/-- Witness of C17: a handle in skip-ROM mode, a memory of zeros and the register content
`[1..8]`. -/
theorem config_round_trip_witness :
    buf_of_config (config_of_buf [1, 2, 3, 4, 5, 6, 7, 8]) = [1, 2, 3, 4, 5, 6, 7, 8] :=
  (config_round_trip ⟨1, 0, []⟩ (fun _ => 0) ⟨0, 0, 0, 0, 0, 0, 0, 0⟩ [1, 2, 3, 4, 5, 6, 7, 8]
    rfl rfl).2.2.2.2.1

/-! ## Claim C16: initialization -/

theorem record_ofLink {σ : Type} (L : Link σ) :
    (LinkPtrs.ofLink L).record = LinkPtrs.ofLink L.record := rfl

theorem init_ofLink {σ : Type} (L : Link σ) (h : Handle) (s : σ) :
    ds2431_init (LinkPtrs.ofLink L) (some h) s =
      if (L.bus_init s).1 ≠ 0 then
        (1, some h, L.debug_print "ds2431: bus init failed.\n" (L.bus_init s).2)
      else if (a_ds2431_reset L (L.bus_init s).2).1 ≠ 0 then
        (4, some h, (L.bus_deinit (L.debug_print "ds2431: reset failed.\n"
          (a_ds2431_reset L (L.bus_init s).2).2)).2)
      else (0, some { h with inited := 1 }, (a_ds2431_reset L (L.bus_init s).2).2) := rfl

theorem init_absent {σ : Type} (P : LinkPtrs σ) (h : Handle) (s : σ) (t : List Event)
    (ha : P.absent = true) :
    (ds2431_init P.record (some h) (s, t)).1 = 3 ∧
    (ds2431_init P.record (some h) (s, t)).2.1 = some h ∧
    ∃ ext, (ds2431_init P.record (some h) (s, t)).2.2.2 = t ++ ext ∧
      ∀ e ∈ ext, e.isInit = false := by
  obtain ⟨bi, bd, br, bw, dm, du, ei, di, dp⟩ := P
  rcases dp with _ | dp
  · exact ⟨rfl, rfl, [], by simp [ds2431_init, LinkPtrs.record], by simp⟩
  rcases bi with _ | bi
  · exact ⟨rfl, rfl, [_], rfl, by simp [Event.isInit]⟩
  rcases bd with _ | bd
  · exact ⟨rfl, rfl, [_], rfl, by simp [Event.isInit]⟩
  rcases br with _ | br
  · exact ⟨rfl, rfl, [_], rfl, by simp [Event.isInit]⟩
  rcases bw with _ | bw
  · exact ⟨rfl, rfl, [_], rfl, by simp [Event.isInit]⟩
  rcases dm with _ | dm
  · exact ⟨rfl, rfl, [_], rfl, by simp [Event.isInit]⟩
  rcases du with _ | du
  · exact ⟨rfl, rfl, [_], rfl, by simp [Event.isInit]⟩
  rcases ei with _ | ei
  · exact ⟨rfl, rfl, [_], rfl, by simp [Event.isInit]⟩
  rcases di with _ | di
  · exact ⟨rfl, rfl, [_], rfl, by simp [Event.isInit]⟩
  simp [LinkPtrs.absent] at ha

theorem absent_or_linked {σ : Type} (P : LinkPtrs σ) :
    P.absent = true ∨ ∃ L, P = LinkPtrs.ofLink L := by
  obtain ⟨bi, bd, br, bw, dm, du, ei, di, dp⟩ := P
  rcases dp with _ | dp
  · exact Or.inl (by simp [LinkPtrs.absent])
  rcases bi with _ | bi
  · exact Or.inl (by simp [LinkPtrs.absent])
  rcases bd with _ | bd
  · exact Or.inl (by simp [LinkPtrs.absent])
  rcases br with _ | br
  · exact Or.inl (by simp [LinkPtrs.absent])
  rcases bw with _ | bw
  · exact Or.inl (by simp [LinkPtrs.absent])
  rcases dm with _ | dm
  · exact Or.inl (by simp [LinkPtrs.absent])
  rcases du with _ | du
  · exact Or.inl (by simp [LinkPtrs.absent])
  rcases ei with _ | ei
  · exact Or.inl (by simp [LinkPtrs.absent])
  rcases di with _ | di
  · exact Or.inl (by simp [LinkPtrs.absent])
  exact Or.inr ⟨⟨bi, bd, br, bw, dm, du, ei, di, dp⟩, rfl⟩

/-- Claim C16.  `ds2431_init` on a non-null handle, every capability call being logged:
if one of the nine capabilities is absent it returns `3`, the handle is unchanged and no
`bus_init` call is logged; with all nine linked it returns `1` with the handle unchanged
if `bus_init` fails, otherwise `4` with the handle unchanged and a `bus_deinit` call as
the last logged event if the reset fails, otherwise `0` with `inited` set to `1` and the
other fields unchanged.  In every case `inited` differs after the call only when the
status is `0`, and it is then `1`. -/
theorem init_status {σ : Type} (P : LinkPtrs σ) (h : Handle) (s : σ) (t : List Event) :
    (P.absent = true →
      (ds2431_init P.record (some h) (s, t)).1 = 3 ∧
      (ds2431_init P.record (some h) (s, t)).2.1 = some h ∧
      ∃ ext, (ds2431_init P.record (some h) (s, t)).2.2.2 = t ++ ext ∧
        ∀ e ∈ ext, e.isInit = false) ∧
    (∀ L : Link σ, P = LinkPtrs.ofLink L →
      ((L.record.bus_init (s, t)).1 ≠ 0 →
        (ds2431_init P.record (some h) (s, t)).1 = 1 ∧
        (ds2431_init P.record (some h) (s, t)).2.1 = some h) ∧
      ((L.record.bus_init (s, t)).1 = 0 →
        (a_ds2431_reset L.record (L.record.bus_init (s, t)).2).1 ≠ 0 →
        (ds2431_init P.record (some h) (s, t)).1 = 4 ∧
        (ds2431_init P.record (some h) (s, t)).2.1 = some h ∧
        ∃ pre status, (ds2431_init P.record (some h) (s, t)).2.2.2
          = pre ++ [Event.bus_deinit status]) ∧
      ((L.record.bus_init (s, t)).1 = 0 →
        (a_ds2431_reset L.record (L.record.bus_init (s, t)).2).1 = 0 →
        (ds2431_init P.record (some h) (s, t)).1 = 0 ∧
        (ds2431_init P.record (some h) (s, t)).2.1 = some { h with inited := 1 })) ∧
    (∀ h1, (ds2431_init P.record (some h) (s, t)).2.1 = some h1 →
      h1.inited ≠ h.inited →
      (ds2431_init P.record (some h) (s, t)).1 = 0 ∧ h1.inited = 1) := by
  refine ⟨init_absent P h s t, ?_, ?_⟩
  · intro L hL
    subst hL
    rw [record_ofLink, init_ofLink]
    refine ⟨fun h1 => ?_, fun h1 h2 => ?_, fun h1 h2 => ?_⟩
    · simp [h1]
    · rw [if_neg (by simpa using h1), if_pos h2]
      exact ⟨rfl, rfl, _, _, rfl⟩
    · rw [if_neg (by simpa using h1), if_neg (by simpa using h2)]
      exact ⟨rfl, rfl⟩
  · intro h1 e1 hne
    rcases absent_or_linked P with ha | ⟨L, hL⟩
    · rw [(init_absent P h s t ha).2.1] at e1
      simp only [Option.some.injEq] at e1
      subst e1
      exact absurd rfl hne
    · subst hL
      rw [record_ofLink, init_ofLink] at e1 ⊢
      split at e1
      · simp only [Option.some.injEq] at e1
        subst e1
        exact absurd rfl hne
      · split at e1
        · simp only [Option.some.injEq] at e1
          subst e1
          exact absurd rfl hne
        · rename_i h2 h3
          simp only [Option.some.injEq] at e1
          subst e1
          rw [if_neg h2, if_neg h3]
          exact ⟨rfl, rfl⟩

/-- Witness of C16: a handle without any capability linked is refused with status `3`. -/
theorem init_status_witness :
    (ds2431_init unlinked.record (some ⟨0, 0, []⟩) ((), [])).1 = 3 :=
  ((init_status unlinked ⟨0, 0, []⟩ () []).1 rfl).1

/-! ## Claim C11: copy scratchpad in skip-ROM mode -/

theorem script_copy_scratchpad_body (od : Bool) (address b : Nat) (rest : List Nat)
    (log : List WireEvent) :
    copy_scratchpad_body scriptWire od address ⟨b :: rest, log⟩ =
      (if b = 0xAA then 0 else 1,
        ⟨rest, log ++ [
          if od then WireEvent.write_byte_overdrive 0x55 else WireEvent.write_byte 0x55,
          if od then WireEvent.write_byte_overdrive (address &&& 0xFF)
            else WireEvent.write_byte (address &&& 0xFF),
          if od then WireEvent.write_byte_overdrive ((address >>> 8) &&& 0xFF)
            else WireEvent.write_byte ((address >>> 8) &&& 0xFF),
          if od then WireEvent.write_byte_overdrive 0x07 else WireEvent.write_byte 0x07,
          WireEvent.delay_ms 10,
          if od then WireEvent.read_byte_overdrive b else WireEvent.read_byte b]
          ++ (if b = 0xAA then [] else [WireEvent.debug_print "ds2431: response error.\n"])⟩) := by
  unfold copy_scratchpad_body
  simp only [script_wb, ne_eq, not_true_eq_false, if_false, DS2431_CMD_COPY_SCRATCHPAD]
  have e : scriptWire.delay_ms 10 = fun s => { s with log := s.log ++ [WireEvent.delay_ms 10] } :=
    rfl
  simp only [e, script_rb, ne_eq, not_true_eq_false, if_false, Nat.shiftRight_zero]
  by_cases hb : b = 170
  · simp [hb]
  · simp [hb, scriptWire]

/-- Claim C11.  In skip-ROM mode, for an address below `0x80` that is a multiple of 8, on a
bus where every transfer succeeds and the device answers the byte `b`,
`ds2431_copy_scratchpad` makes a standard reset, writes the bytes `0xCC`, `0x55`,
`address & 0xFF`, `address >> 8`, `0x07` in that order with the standard byte writer,
calls `delay_ms(10)`, reads exactly one byte, and returns `0` if that byte is `0xAA` and
`1` (after a `debug_print`) otherwise. -/
theorem copy_scratchpad_skip_rom (h : Handle) (address b : Nat) (rest : List Nat)
    (log : List WireEvent) (hi : h.inited = 1) (hm : h.mode = DS2431_MODE_SKIP_ROM)
    (ha : address < 0x80) (hal : address % 8 = 0) :
    ds2431_copy_scratchpad scriptWire (some h) address ⟨b :: rest, log⟩ =
      (if b = 0xAA then 0 else 1,
        ⟨rest, log ++ [WireEvent.reset, WireEvent.write_byte 0xCC, WireEvent.write_byte 0x55,
          WireEvent.write_byte (address &&& 0xFF), WireEvent.write_byte (address >>> 8),
          WireEvent.write_byte 0x07, WireEvent.delay_ms 10, WireEvent.read_byte b]
          ++ (if b = 0xAA then [] else [WireEvent.debug_print "ds2431: response error.\n"])⟩) ∧
    ((ds2431_copy_scratchpad scriptWire (some h) address ⟨b :: rest, log⟩).1 = 0 ↔
      b = 0xAA) := by
  have hn : ¬ 128 ≤ address := by omega
  have hhi : (address >>> 8) &&& 0xFF = address >>> 8 := by
    have : address >>> 8 = 0 := by
      rw [Nat.shiftRight_eq_div_pow]
      exact Nat.div_eq_of_lt (by omega)
    rw [this]
    rfl
  have hsel : rom_select scriptWire h ⟨b :: rest, log⟩
      = (0, ⟨b :: rest, log ++ [WireEvent.reset, WireEvent.write_byte 0xCC]⟩) := by
    simp [rom_select, hm, scriptWire, DS2431_CMD_SKIP_ROM]
  have hod : overdrive h.mode = false := by
    rw [hm]
    decide
  have e : ds2431_copy_scratchpad scriptWire (some h) address ⟨b :: rest, log⟩ =
      (if b = 0xAA then 0 else 1,
        ⟨rest, log ++ [WireEvent.reset, WireEvent.write_byte 0xCC, WireEvent.write_byte 0x55,
          WireEvent.write_byte (address &&& 0xFF), WireEvent.write_byte (address >>> 8),
          WireEvent.write_byte 0x07, WireEvent.delay_ms 10, WireEvent.read_byte b]
          ++ (if b = 0xAA then [] else [WireEvent.debug_print "ds2431: response error.\n"])⟩) := by
    simp only [ds2431_copy_scratchpad, hi, ne_eq, not_true_eq_false, if_false, ge_iff_le, hn,
      hal, hsel, hod, script_copy_scratchpad_body, hhi]
    simp
  refine ⟨e, ?_⟩
  rw [e]
  by_cases hb : b = 170 <;> simp [hb]

/-- Witness of C11: address `0x08` and the answer `0xAA`. -/
theorem copy_scratchpad_skip_rom_witness :
    (ds2431_copy_scratchpad scriptWire (some ⟨1, 0, []⟩) 0x08 ⟨[0xAA], []⟩).1 = 0 :=
  (copy_scratchpad_skip_rom ⟨1, 0, []⟩ 0x08 0xAA [] [] rfl rfl (by decide) (by decide)).2.2 rfl

/-! ## Claim C13: a mode outside the enumeration -/

theorem rom_select_invalid {σ : Type} (W : Wire σ) (h : Handle) (s : σ) (hm : 5 < h.mode) :
    rom_select W h s = (1, W.debug_print "ds2431: mode invalid.\n" s) := by
  have h0 : h.mode ≠ 0 := by omega
  have h1 : h.mode ≠ 1 := by omega
  have h2 : h.mode ≠ 2 := by omega
  have h3 : h.mode ≠ 3 := by omega
  have h4 : h.mode ≠ 4 := by omega
  have h5 : h.mode ≠ 5 := by omega
  simp [rom_select, DS2431_MODE_SKIP_ROM, DS2431_MODE_OVERDRIVE_SKIP_ROM,
    DS2431_MODE_MATCH_ROM, DS2431_MODE_OVERDRIVE_MATCH_ROM, DS2431_MODE_RESUME,
    DS2431_MODE_OVERDRIVE_RESUME, h0, h1, h2, h3, h4, h5]

/-- Counterexample to C13 as stated: `ds2431_copy_scratchpad`, `ds2431_read_scratchpad` and
`ds2431_read` return `1` on a handle with the invalid mode `6`, and they return `1` as
well on a handle in skip-ROM mode when the first transfer of the bus reset fails: the
status of an invalid mode is not distinct from the status of a transport failure. -/
theorem mode_invalid_status_is_transport_status :
    (ds2431_copy_scratchpad (driver quietLink) (some ⟨1, 6, []⟩) 0 ((), [])).1 = 1 ∧
    (ds2431_copy_scratchpad (driver deadLink) (some ⟨1, 0, []⟩) 0 ((), [])).1 = 1 ∧
    (ds2431_read_scratchpad (driver quietLink) (some ⟨1, 6, []⟩) ((), [])).1 = 1 ∧
    (ds2431_read_scratchpad (driver deadLink) (some ⟨1, 0, []⟩) ((), [])).1 = 1 ∧
    (ds2431_read (Pager.ofWire (driver quietLink)) (some ⟨1, 6, []⟩) 0 8 ((), [])).1 = 1 ∧
    (ds2431_read (Pager.ofWire (driver deadLink)) (some ⟨1, 0, []⟩) 0 8 ((), [])).1 = 1 := by
  refine ⟨rfl, rfl, rfl, rfl, rfl, rfl⟩

/-- Claim C13, amended.  On an initialized handle whose mode is none of the six
enumerants, with arguments that pass the address checks, `ds2431_copy_scratchpad`,
`ds2431_write_scratchpad`, `ds2431_read_scratchpad`, `ds2431_read_memory`, `ds2431_read`
and `ds2431_write` call no capability but `debug_print` with the message
`ds2431: mode invalid.` (no `bus_read`, no `bus_write`) and return the status `1`, the
status they also return for a transport failure. -/
theorem invalid_mode_status {σ : Type} (L : Link σ) (h : Handle) (address len fuel : Nat)
    (data : List Nat) (s : σ) (t : List Event) (hi : h.inited = 1) (hm : 5 < h.mode)
    (hfuel : 0 < fuel) :
    (address < 0x80 → address % 8 = 0 →
      ds2431_copy_scratchpad (driver L) (some h) address (s, t)
        = (1, L.debug_print "ds2431: mode invalid.\n" s,
            t ++ [Event.debug_print "ds2431: mode invalid.\n"]) ∧
      ds2431_write_scratchpad (driver L) (some h) address data (s, t)
        = (1, none, L.debug_print "ds2431: mode invalid.\n" s,
            t ++ [Event.debug_print "ds2431: mode invalid.\n"])) ∧
    ds2431_read_scratchpad (driver L) (some h) (s, t)
      = (1, ⟨none, [], none⟩, L.debug_print "ds2431: mode invalid.\n" s,
          t ++ [Event.debug_print "ds2431: mode invalid.\n"]) ∧
    (address + len ≤ 0x80 →
      ds2431_read_memory (driver L) (some h) address len (s, t)
        = (1, [], L.debug_print "ds2431: mode invalid.\n" s,
            t ++ [Event.debug_print "ds2431: mode invalid.\n"]) ∧
      ds2431_read (Pager.ofWire (driver L)) (some h) address len (s, t)
        = (1, [], L.debug_print "ds2431: mode invalid.\n" s,
            t ++ [Event.debug_print "ds2431: mode invalid.\n"]) ∧
      ds2431_write (Pager.ofWire (driver L)) fuel (some h) address data len (s, t)
        = some (1, L.debug_print "ds2431: mode invalid.\n" s,
            t ++ [Event.debug_print "ds2431: mode invalid.\n"])) := by
  have hsel := rom_select_invalid (driver L) h (s, t) hm
  have hd : (driver L).debug_print "ds2431: mode invalid.\n" (s, t)
      = (L.debug_print "ds2431: mode invalid.\n" s,
          t ++ [Event.debug_print "ds2431: mode invalid.\n"]) := rfl
  refine ⟨fun ha hal => ?_, ?_, fun hr => ⟨?_, ?_, ?_⟩⟩
  · have hn : ¬ 128 ≤ address := by omega
    simp [ds2431_copy_scratchpad, ds2431_write_scratchpad, hi, hn, hal, hsel, hd]
  · simp [ds2431_read_scratchpad, hi, hsel, hd]
  · have hn : ¬ 128 < address + len := by omega
    simp [ds2431_read_memory, hi, hn, hsel, hd]
  · have hn : ¬ 128 < address + len := by omega
    simp [ds2431_read, Pager.ofWire, a_ds2431_read, hi, hn, hsel, hd]
  · have hn : ¬ 128 < address + len := by omega
    obtain ⟨f, rfl⟩ : ∃ f, fuel = f + 1 := ⟨fuel - 1, by omega⟩
    have hr1 : ∀ a n, a_ds2431_read (driver L) h a n (s, t)
        = (1, [], L.debug_print "ds2431: mode invalid.\n" s,
            t ++ [Event.debug_print "ds2431: mode invalid.\n"]) := by
      intro a n
      simp [a_ds2431_read, rom_select_invalid (driver L) h (s, t) hm, hd]
    have hw1 : ∀ a d, a_ds2431_write (driver L) h a d (s, t)
        = (1, L.debug_print "ds2431: mode invalid.\n" s,
            t ++ [Event.debug_print "ds2431: mode invalid.\n"]) := by
      intro a d
      simp [a_ds2431_write, rom_select_invalid (driver L) h (s, t) hm, hd]
    simp only [ds2431_write, hi, ne_eq, not_true_eq_false, if_false, gt_iff_lt, hn,
      ds2431_write_loop, ds2431_write_chunk, Pager.ofWire, hr1, hw1]
    split <;> simp

/-- Witness of C13: mode `6` on the quiet platform. -/
theorem invalid_mode_status_witness :
    ds2431_read_scratchpad (driver quietLink) (some ⟨1, 6, []⟩) ((), [])
      = (1, ⟨none, [], none⟩, (), [Event.debug_print "ds2431: mode invalid.\n"]) :=
  (invalid_mode_status quietLink ⟨1, 6, []⟩ 0 0 1 [] () [] rfl (by decide) (by decide)).2.1

/-! ## Claims C12 and C20: the two stages of a page write -/

set_option maxRecDepth 100000 in
/-- Evaluation for C12.  `ds2431_write` of the page `[1..8]` at address `0` in overdrive
match-ROM mode with ROM `2D 11 22 33 44 55 66 77`, the device answering the CRC bytes, the
status `0xFF` and the copy status `0xAA`: the scratchpad stage opens with a reset, `0x69`
and the eight ROM bytes, the copy stage opens with an overdrive reset and the overdrive
skip-ROM command `0x3C`, and the copy command `0x55` follows without any ROM byte. -/
theorem write_overdrive_match_copy_stage :
    ds2431_write (Pager.ofWire scriptWire) 17
        (some ⟨1, DS2431_MODE_OVERDRIVE_MATCH_ROM, [0x2D, 0x11, 0x22, 0x33, 0x44, 0x55, 0x66, 0x77]⟩)
        0 [1, 2, 3, 4, 5, 6, 7, 8] 8 ⟨[0x3F, 0x2F, 0xFF, 0xAA], []⟩ =
      some (0, ⟨[], [WireEvent.reset, WireEvent.write_byte 0x69,
        WireEvent.write_byte_overdrive 0x2D, WireEvent.write_byte_overdrive 0x11,
        WireEvent.write_byte_overdrive 0x22, WireEvent.write_byte_overdrive 0x33,
        WireEvent.write_byte_overdrive 0x44, WireEvent.write_byte_overdrive 0x55,
        WireEvent.write_byte_overdrive 0x66, WireEvent.write_byte_overdrive 0x77,
        WireEvent.write_byte_overdrive 0x0F, WireEvent.write_byte_overdrive 0x00,
        WireEvent.write_byte_overdrive 0x00,
        WireEvent.write_byte_overdrive 1, WireEvent.write_byte_overdrive 2,
        WireEvent.write_byte_overdrive 3, WireEvent.write_byte_overdrive 4,
        WireEvent.write_byte_overdrive 5, WireEvent.write_byte_overdrive 6,
        WireEvent.write_byte_overdrive 7, WireEvent.write_byte_overdrive 8,
        WireEvent.read_byte_overdrive 0x3F, WireEvent.read_byte_overdrive 0x2F,
        WireEvent.read_byte_overdrive 0xFF,
        WireEvent.reset_overdrive, WireEvent.write_byte_overdrive 0x3C,
        WireEvent.write_byte_overdrive 0x55, WireEvent.write_byte_overdrive 0x00,
        WireEvent.write_byte_overdrive 0x00, WireEvent.write_byte_overdrive 0x07,
        WireEvent.delay_ms 10, WireEvent.read_byte_overdrive 0xAA]⟩) := by
  decide

theorem copy_readdress_eq_rom_select {σ : Type} (W : Wire σ) (h : Handle) (s : σ)
    (hm : h.mode = DS2431_MODE_SKIP_ROM ∨ h.mode = DS2431_MODE_MATCH_ROM ∨
      h.mode = DS2431_MODE_RESUME ∨ h.mode = DS2431_MODE_OVERDRIVE_RESUME) :
    copy_readdress W h s = rom_select W h s := by
  rcases hm with hm | hm | hm | hm <;>
    simp [copy_readdress, rom_select, hm, DS2431_MODE_SKIP_ROM,
      DS2431_MODE_OVERDRIVE_SKIP_ROM, DS2431_MODE_MATCH_ROM, DS2431_MODE_OVERDRIVE_MATCH_ROM,
      DS2431_MODE_RESUME, DS2431_MODE_OVERDRIVE_RESUME]

theorem copy_readdress_overdrive_skip {σ : Type} (W : Wire σ) (h : Handle) (s : σ)
    (hm : h.mode = DS2431_MODE_OVERDRIVE_SKIP_ROM) :
    copy_readdress W h s = rom_select W.fast h s := by
  simp [copy_readdress, rom_select, hm, DS2431_MODE_SKIP_ROM,
    DS2431_MODE_OVERDRIVE_SKIP_ROM, Wire.fast]

theorem copy_scratchpad_body_fast {σ : Type} (W : Wire σ) (address : Nat) (s : σ) :
    copy_scratchpad_body W.fast true address s = copy_scratchpad_body W true address s := rfl

set_option maxRecDepth 100000 in
/-- Counterexample to C20 as stated, on the scripted bus with every transfer succeeding
and the scratchpad stage verified.  In overdrive skip-ROM mode at address `0` the copy
stage of `a_ds2431_write` opens with an overdrive reset and sends `0x3C` with the overdrive
byte writer, where `ds2431_copy_scratchpad` makes a standard reset and sends `0x3C` with
the standard byte writer.  In skip-ROM mode at address `0x80` `a_ds2431_write` runs its
two stages, where `ds2431_write_scratchpad` rejects the address with status `4`. -/
theorem write_page_traffic_differs :
    (ds2431_write_scratchpad scriptWire (some ⟨1, DS2431_MODE_OVERDRIVE_SKIP_ROM, []⟩) 0
        [1, 2, 3, 4, 5, 6, 7, 8] ⟨[0x3F, 0x2F, 0xFF, 0xAA], []⟩).1 = 0 ∧
    ((a_ds2431_write scriptWire ⟨1, DS2431_MODE_OVERDRIVE_SKIP_ROM, []⟩ 0
        [1, 2, 3, 4, 5, 6, 7, 8] ⟨[0x3F, 0x2F, 0xFF, 0xAA], []⟩).2.log.drop 16).take 2
      = [WireEvent.reset_overdrive, WireEvent.write_byte_overdrive 0x3C] ∧
    ((ds2431_copy_scratchpad scriptWire (some ⟨1, DS2431_MODE_OVERDRIVE_SKIP_ROM, []⟩) 0
        (ds2431_write_scratchpad scriptWire (some ⟨1, DS2431_MODE_OVERDRIVE_SKIP_ROM, []⟩) 0
          [1, 2, 3, 4, 5, 6, 7, 8] ⟨[0x3F, 0x2F, 0xFF, 0xAA], []⟩).2.2).2.log.drop 16).take 2
      = [WireEvent.reset, WireEvent.write_byte 0x3C] ∧
    a_ds2431_write scriptWire ⟨1, DS2431_MODE_OVERDRIVE_SKIP_ROM, []⟩ 0
        [1, 2, 3, 4, 5, 6, 7, 8] ⟨[0x3F, 0x2F, 0xFF, 0xAA], []⟩ ≠
      ds2431_copy_scratchpad scriptWire (some ⟨1, DS2431_MODE_OVERDRIVE_SKIP_ROM, []⟩) 0
        (ds2431_write_scratchpad scriptWire (some ⟨1, DS2431_MODE_OVERDRIVE_SKIP_ROM, []⟩) 0
          [1, 2, 3, 4, 5, 6, 7, 8] ⟨[0x3F, 0x2F, 0xFF, 0xAA], []⟩).2.2 ∧
    (a_ds2431_write scriptWire ⟨1, DS2431_MODE_SKIP_ROM, []⟩ 0x80
        [1, 2, 3, 4, 5, 6, 7, 8] ⟨[0x38, 0xC7, 0xFF, 0xAA], []⟩).1 = 0 ∧
    (a_ds2431_write scriptWire ⟨1, DS2431_MODE_SKIP_ROM, []⟩ 0x80
        [1, 2, 3, 4, 5, 6, 7, 8] ⟨[0x38, 0xC7, 0xFF, 0xAA], []⟩).2.log.length = 24 ∧
    ds2431_write_scratchpad scriptWire (some ⟨1, DS2431_MODE_SKIP_ROM, []⟩) 0x80
        [1, 2, 3, 4, 5, 6, 7, 8] ⟨[0x38, 0xC7, 0xFF, 0xAA], []⟩ =
      (4, none, ⟨[0x38, 0xC7, 0xFF, 0xAA],
        [WireEvent.debug_print "ds2431: address >= 0x0080.\n"]⟩) := by
  refine ⟨?_, ?_, ?_, ?_, ?_, ?_, ?_⟩ <;> decide

/-- Claim C20, amended.  For every transport, every aligned address below `0x80` and every
data, whenever `ds2431_write_scratchpad` returns `0` (every transfer succeeded and the
stage verified): in skip-ROM, match-ROM, resume and overdrive-resume mode the internal
`a_ds2431_write` returns the status and leaves the transport in the state, traffic
included, of `ds2431_write_scratchpad` followed by `ds2431_copy_scratchpad`; in overdrive
skip-ROM mode it does so with the copy stage addressed at overdrive speed, that is with
`ds2431_copy_scratchpad` run on the transport whose reset and byte writer for the ROM
command are the overdrive ones.  Nothing is stated for overdrive match-ROM mode. -/
theorem write_page_is_scratchpad_then_copy {σ : Type} (W : Wire σ) (h : Handle)
    (address : Nat) (data : List Nat) (s : σ) (hi : h.inited = 1) (ha : address < 0x80)
    (hal : address % 8 = 0)
    (hv : (ds2431_write_scratchpad W (some h) address data s).1 = 0) :
    (h.mode = DS2431_MODE_SKIP_ROM ∨ h.mode = DS2431_MODE_MATCH_ROM ∨
        h.mode = DS2431_MODE_RESUME ∨ h.mode = DS2431_MODE_OVERDRIVE_RESUME →
      a_ds2431_write W h address data s =
        ds2431_copy_scratchpad W (some h) address
          (ds2431_write_scratchpad W (some h) address data s).2.2) ∧
    (h.mode = DS2431_MODE_OVERDRIVE_SKIP_ROM →
      a_ds2431_write W h address data s =
        ds2431_copy_scratchpad W.fast (some h) address
          (ds2431_write_scratchpad W (some h) address data s).2.2) := by
  have hn : ¬ 128 ≤ address := by omega
  have e : ds2431_write_scratchpad W (some h) address data s =
      if (rom_select W h s).1 ≠ 0 then (1, none, (rom_select W h s).2)
      else write_scratchpad_body W (overdrive h.mode) address data (rom_select W h s).2 := by
    simp [ds2431_write_scratchpad, hi, hn, hal]
  rw [e] at hv ⊢
  by_cases h1 : (rom_select W h s).1 ≠ 0
  · rw [if_pos h1] at hv
    simp at hv
  · rw [if_neg h1] at hv ⊢
    have h2 : ¬ (write_scratchpad_body W (overdrive h.mode) address data
        (rom_select W h s).2).1 ≠ 0 := by simp [hv]
    have ew : a_ds2431_write W h address data s =
        if (copy_readdress W h (write_scratchpad_body W (overdrive h.mode) address data
          (rom_select W h s).2).2.2).1 ≠ 0 then
          (1, (copy_readdress W h (write_scratchpad_body W (overdrive h.mode) address data
            (rom_select W h s).2).2.2).2)
        else copy_scratchpad_body W (overdrive h.mode) address
          (copy_readdress W h (write_scratchpad_body W (overdrive h.mode) address data
            (rom_select W h s).2).2.2).2 := by
      simp only [a_ds2431_write, if_neg h1, if_neg h2]
    refine ⟨fun hm => ?_, fun hm => ?_⟩
    · rw [ew, copy_readdress_eq_rom_select W h _ hm]
      simp [ds2431_copy_scratchpad, hi, hn, hal]
    · have hod : overdrive h.mode = true := by
        rw [hm]
        decide
      rw [ew, copy_readdress_overdrive_skip W h _ hm]
      simp only [ds2431_copy_scratchpad, hi, ne_eq, not_true_eq_false, if_false, ge_iff_le, hn,
        hal, hod, copy_scratchpad_body_fast]

set_option maxRecDepth 100000 in
/-- Witness of C20: skip-ROM mode on the scripted bus, address `0`, data `[1..8]`, the
device answering the CRC bytes, the status `0xFF` and the copy status `0xAA`. -/
theorem write_page_is_scratchpad_then_copy_witness :
    a_ds2431_write scriptWire ⟨1, DS2431_MODE_SKIP_ROM, []⟩ 0 [1, 2, 3, 4, 5, 6, 7, 8]
        ⟨[0x3F, 0x2F, 0xFF, 0xAA], []⟩ =
      ds2431_copy_scratchpad scriptWire (some ⟨1, DS2431_MODE_SKIP_ROM, []⟩) 0
        (ds2431_write_scratchpad scriptWire (some ⟨1, DS2431_MODE_SKIP_ROM, []⟩) 0
          [1, 2, 3, 4, 5, 6, 7, 8] ⟨[0x3F, 0x2F, 0xFF, 0xAA], []⟩).2.2 :=
  (write_page_is_scratchpad_then_copy scriptWire ⟨1, DS2431_MODE_SKIP_ROM, []⟩ 0
    [1, 2, 3, 4, 5, 6, 7, 8] ⟨[0x3F, 0x2F, 0xFF, 0xAA], []⟩ rfl (by decide) (by decide)
    (by decide)).1 (Or.inl rfl)

/-! ## Transport errors: the invariant of the log -/

theorem failed_isBus (e : Event) (h : e.failed = true) : e.isBus = true := by
  cases e <;> simp_all [Event.failed, Event.isBus]

theorem quiet_clean {ext : List Event} (h : Quiet ext) : Clean ext := by
  intro e he
  have h1 := h e he
  cases hf : e.failed
  · rfl
  · rw [failed_isBus e hf] at h1
    exact absurd h1 (by decide)

theorem clean_append {a b : List Event} (ha : Clean a) (hb : Clean b) : Clean (a ++ b) := by
  intro e he
  rcases List.mem_append.1 he with h | h
  · exact ha e h
  · exact hb e h

theorem quiet_append {a b : List Event} (ha : Quiet a) (hb : Quiet b) : Quiet (a ++ b) := by
  intro e he
  rcases List.mem_append.1 he with h | h
  · exact ha e h
  · exact hb e h

theorem quiet_tail_append {b q : List Event} (hb : Quiet b.tail) (hq : Quiet q) :
    Quiet (b ++ q).tail := by
  cases b with
  | nil =>
    intro e he
    exact hq e (List.mem_of_mem_tail he)
  | cons x b0 => exact quiet_append hb hq

theorem quietStep_refl (t : List Event) : QuietStep t t :=
  ⟨[], by simp, by simp [Quiet]⟩

theorem quietStep_trans {t t1 t2 : List Event} (h1 : QuietStep t t1) (h2 : QuietStep t1 t2) :
    QuietStep t t2 := by
  obtain ⟨e1, rfl, q1⟩ := h1
  obtain ⟨e2, rfl, q2⟩ := h2
  exact ⟨e1 ++ e2, by simp, quiet_append q1 q2⟩

theorem step_refl (t : List Event) : Step t 0 t :=
  ⟨[], by simp, Or.inl ⟨rfl, by simp [Clean]⟩⟩

theorem step_of_quiet {t t1 : List Event} (st : Nat) (h : QuietStep t t1) : Step t st t1 := by
  obtain ⟨e, rfl, q⟩ := h
  refine ⟨e, rfl, ?_⟩
  by_cases hs : st = 0
  · exact Or.inl ⟨hs, quiet_clean q⟩
  · exact Or.inr ⟨hs, e, [], by simp, quiet_clean q, by simp [Quiet]⟩

theorem step_seq {t t1 t2 : List Event} {st : Nat} (h1 : Step t 0 t1) (h2 : Step t1 st t2) :
    Step t st t2 := by
  obtain ⟨e1, rfl, c1⟩ := h1
  obtain ⟨e2, rfl, c2⟩ := h2
  have hc1 : Clean e1 := by
    rcases c1 with ⟨_, h⟩ | ⟨h, _⟩
    · exact h
    · exact absurd rfl h
  refine ⟨e1 ++ e2, by simp, ?_⟩
  rcases c2 with ⟨hs, h⟩ | ⟨hs, a, b, rfl, ha, hb⟩
  · exact Or.inl ⟨hs, clean_append hc1 h⟩
  · exact Or.inr ⟨hs, e1 ++ a, b, by simp, clean_append hc1 ha, hb⟩

theorem step_quiet_left {t t0 t1 : List Event} {st : Nat} (h1 : QuietStep t t0)
    (h2 : Step t0 st t1) : Step t st t1 :=
  step_seq (step_of_quiet 0 h1) h2

theorem step_quiet_right {t t1 t2 : List Event} {st : Nat} (h1 : Step t st t1)
    (h2 : QuietStep t1 t2) : Step t st t2 := by
  obtain ⟨e1, rfl, c1⟩ := h1
  obtain ⟨e2, rfl, q2⟩ := h2
  refine ⟨e1 ++ e2, by simp, ?_⟩
  rcases c1 with ⟨hs, h⟩ | ⟨hs, a, b, rfl, ha, hb⟩
  · exact Or.inl ⟨hs, clean_append h (quiet_clean q2)⟩
  · exact Or.inr ⟨hs, a, b ++ e2, by simp, ha, quiet_tail_append hb q2⟩

theorem step_fail {t t1 : List Event} {st : Nat} (st1 : Nat) (h : Step t st t1) (hs : st ≠ 0)
    (hs1 : st1 ≠ 0) : Step t st1 t1 := by
  obtain ⟨e1, rfl, c1⟩ := h
  refine ⟨e1, rfl, ?_⟩
  rcases c1 with ⟨h0, _⟩ | ⟨_, h⟩
  · exact absurd h0 hs
  · exact Or.inr ⟨hs1, h⟩

theorem step_unwound {t t1 : List Event} {st : Nat} (h : Step t st t1) : Unwound t st t1 := by
  obtain ⟨ext, rfl, c⟩ := h
  refine ⟨ext, rfl, ?_⟩
  intro a1 e b1 hx hf
  rcases c with ⟨_, hc⟩ | ⟨hs, a, b, rfl, ha, hb⟩
  · have := hc e (by rw [hx]; simp)
    rw [hf] at this
    exact absurd this (by decide)
  · refine ⟨?_, hs⟩
    have hnq : ∀ l : List Event, Quiet l → e ∉ l := by
      intro l hl he
      have := hl e he
      rw [failed_isBus e hf] at this
      exact absurd this (by decide)
    have hnc : e ∉ a := by
      intro he
      have := ha e he
      rw [hf] at this
      exact absurd this (by decide)
    rcases List.append_eq_append_iff.1 hx with ⟨c, rfl, hb2⟩ | ⟨c, rfl, hb2⟩
    · cases c with
      | nil =>
        subst hb2
        exact hb
      | cons x c0 =>
        exfalso
        subst hb2
        exact hnq _ hb (by simp)
    · cases c with
      | nil =>
        simp only [List.nil_append] at hb2
        subst hb2
        exact hb
      | cons x c0 =>
        exfalso
        simp only [List.cons_append, List.cons.injEq] at hb2
        apply hnc
        rw [hb2.1]
        simp

theorem traced_if {ρ : Type} (st : ρ → Nat) (lg : ρ → List Event) {t t1 : List Event}
    {c : Nat} {a b : ρ} (h1 : Step t c t1) (ha : c ≠ 0 → st a ≠ 0 ∧ QuietStep t1 (lg a))
    (hb : c = 0 → Traced st lg t1 b) : Traced st lg t (if c ≠ 0 then a else b) := by
  by_cases hc : c = 0
  · rw [if_neg (by simpa using hc)]
    subst hc
    exact step_seq h1 (hb rfl)
  · rw [if_pos hc]
    exact step_quiet_right (step_fail _ h1 hc (ha hc).1) (ha hc).2

theorem traced_quiet {ρ : Type} (st : ρ → Nat) (lg : ρ → List Event) {t : List Event} {a : ρ}
    (h : QuietStep t (lg a)) : Traced st lg t a :=
  step_of_quiet _ h

theorem record_traced {σ : Type} (L : Link σ) : L.record.Traced where
  bus_init := fun s => ⟨[_], rfl, by simp [Quiet, Event.isBus]⟩
  bus_deinit := fun s => ⟨[_], rfl, by simp [Quiet, Event.isBus]⟩
  bus_read := fun s => by
    refine ⟨[_], rfl, ?_⟩
    by_cases h : (L.record.bus_read s).1 = 0
    · refine Or.inl ⟨h, ?_⟩
      intro e he
      simp only [List.mem_singleton] at he
      subst he
      simpa [Event.failed, Link.record] using h
    · exact Or.inr ⟨h, [], [_], rfl, by simp [Clean], by simp [Quiet]⟩
  bus_write := fun v s => by
    refine ⟨[_], rfl, ?_⟩
    by_cases h : (L.record.bus_write v s).1 = 0
    · refine Or.inl ⟨h, ?_⟩
      intro e he
      simp only [List.mem_singleton] at he
      subst he
      simpa [Event.failed, Link.record] using h
    · exact Or.inr ⟨h, [], [_], rfl, by simp [Clean], by simp [Quiet]⟩
  delay_ms := fun n s => ⟨[_], rfl, by simp [Quiet, Event.isBus]⟩
  delay_us := fun n s => ⟨[_], rfl, by simp [Quiet, Event.isBus]⟩
  enable_irq := fun s => ⟨[_], rfl, by simp [Quiet, Event.isBus]⟩
  disable_irq := fun s => ⟨[_], rfl, by simp [Quiet, Event.isBus]⟩
  debug_print := fun m s => ⟨[_], rfl, by simp [Quiet, Event.isBus]⟩

/-! ## Transport errors: the helpers over the platform -/

theorem reset_poll_traced {σ : Type} (L : Link (σ × List Event)) (hL : L.Traced)
    (waitLow : Bool) (limit : Nat) :
    ∀ (n res retry : Nat) (s : σ × List Event),
      Traced2 s.2 (reset_poll L waitLow limit n res retry s) := by
  intro n
  induction n with
  | zero =>
    intro res retry s
    exact step_refl _
  | succ n ih =>
    intro res retry s
    unfold reset_poll
    dsimp only
    refine ite_ind ?_ (step_refl _)
    refine traced_if _ _ (hL.bus_read s)
      (fun _ => ⟨by simp, quietStep_trans (hL.enable_irq _) (hL.debug_print _ _)⟩) (fun _ => ?_)
    exact step_quiet_left (hL.delay_us _ _) (ih _ _ _)

theorem reset_core_after_irq {σ : Type} (L : Link (σ × List Event)) (hL : L.Traced)
    (lowUs highUs budget1 budget2 : Nat) (s : σ × List Event) :
    Traced1 (L.disable_irq s).2 (reset_core L lowUs highUs budget1 budget2 s) := by
  unfold reset_core
  dsimp only
  refine traced_if _ _ (hL.bus_write _ _)
    (fun _ => ⟨by simp, quietStep_trans (hL.enable_irq _) (hL.debug_print _ _)⟩) (fun _ => ?_)
  refine traced_if _ _ (step_quiet_left (hL.delay_us _ _) (hL.bus_write _ _))
    (fun _ => ⟨by simp, quietStep_trans (hL.enable_irq _) (hL.debug_print _ _)⟩) (fun _ => ?_)
  refine traced_if _ _ (step_quiet_left (hL.delay_us _ _) (reset_poll_traced L hL _ _ _ _ _ _))
    (fun _ => ⟨by simp, quietStep_refl _⟩) (fun _ => ?_)
  refine ite_ind (traced_quiet _ _ (quietStep_trans (hL.enable_irq _) (hL.debug_print _ _))) ?_
  refine traced_if _ _ (reset_poll_traced L hL _ _ _ _ _ _)
    (fun _ => ⟨by simp, quietStep_refl _⟩) (fun _ => ?_)
  refine ite_ind (traced_quiet _ _ (quietStep_trans (hL.enable_irq _) (hL.debug_print _ _))) ?_
  exact traced_quiet _ _ (hL.enable_irq _)

theorem reset_core_traced {σ : Type} (L : Link (σ × List Event)) (hL : L.Traced)
    (lowUs highUs budget1 budget2 : Nat) (s : σ × List Event) :
    Traced1 s.2 (reset_core L lowUs highUs budget1 budget2 s) :=
  step_quiet_left (hL.disable_irq s) (reset_core_after_irq L hL _ _ _ _ s)

theorem read_bit_traced {σ : Type} (L : Link (σ × List Event)) (hL : L.Traced)
    (s : σ × List Event) : Traced2 s.2 (a_ds2431_read_bit L s) := by
  unfold a_ds2431_read_bit
  dsimp only
  refine traced_if _ _ (hL.bus_write _ _) (fun _ => ⟨by simp, hL.debug_print _ _⟩) (fun _ => ?_)
  refine traced_if _ _ (step_quiet_left (hL.delay_us _ _) (hL.bus_write _ _))
    (fun _ => ⟨by simp, hL.debug_print _ _⟩) (fun _ => ?_)
  refine traced_if _ _ (step_quiet_left (hL.delay_us _ _) (hL.bus_read _))
    (fun _ => ⟨by simp, hL.debug_print _ _⟩) (fun _ => ?_)
  exact traced_quiet _ _ (hL.delay_us _ _)

theorem read_bit_overdrive_traced {σ : Type} (L : Link (σ × List Event)) (hL : L.Traced)
    (s : σ × List Event) : Traced2 s.2 (a_ds2431_read_bit_overdrive L s) := by
  unfold a_ds2431_read_bit_overdrive
  dsimp only
  refine traced_if _ _ (hL.bus_write _ _) (fun _ => ⟨by simp, hL.debug_print _ _⟩) (fun _ => ?_)
  refine traced_if _ _ (step_quiet_left (hL.delay_us _ _) (hL.bus_write _ _))
    (fun _ => ⟨by simp, hL.debug_print _ _⟩) (fun _ => ?_)
  refine traced_if _ _ (hL.bus_read _) (fun _ => ⟨by simp, hL.debug_print _ _⟩) (fun _ => ?_)
  exact traced_quiet _ _ (hL.delay_us _ _)

theorem read_byte_loop_traced {σ : Type} (L : Link (σ × List Event)) (hL : L.Traced)
    (readBit : σ × List Event → Nat × Nat × (σ × List Event))
    (hr : ∀ s, Traced2 s.2 (readBit s)) :
    ∀ (n byte : Nat) (s : σ × List Event), Traced2 s.2 (read_byte_loop L readBit n byte s) := by
  intro n
  induction n with
  | zero =>
    intro byte s
    exact traced_quiet _ _ (hL.enable_irq _)
  | succ n ih =>
    intro byte s
    unfold read_byte_loop
    dsimp only
    exact traced_if _ _ (hr s)
      (fun _ => ⟨by simp, quietStep_trans (hL.enable_irq _) (hL.debug_print _ _)⟩) (fun _ => ih _ _)

theorem write_byte_loop_traced {σ : Type} (L : Link (σ × List Event)) (hL : L.Traced)
    (oneLow oneHigh zeroLow zeroHigh : Nat) :
    ∀ (n byte : Nat) (s : σ × List Event),
      Traced1 s.2 (write_byte_loop L oneLow oneHigh zeroLow zeroHigh n byte s) := by
  intro n
  induction n with
  | zero =>
    intro byte s
    exact traced_quiet _ _ (hL.enable_irq _)
  | succ n ih =>
    intro byte s
    unfold write_byte_loop
    dsimp only
    refine ite_ind ?_ ?_
    · refine traced_if _ _ (hL.bus_write _ _)
        (fun _ => ⟨by simp, quietStep_trans (hL.enable_irq _) (hL.debug_print _ _)⟩) (fun _ => ?_)
      refine traced_if _ _ (step_quiet_left (hL.delay_us _ _) (hL.bus_write _ _))
        (fun _ => ⟨by simp, quietStep_trans (hL.enable_irq _) (hL.debug_print _ _)⟩) (fun _ => ?_)
      exact step_quiet_left (hL.delay_us _ _) (ih _ _)
    · refine traced_if _ _ (hL.bus_write _ _)
        (fun _ => ⟨by simp, quietStep_trans (hL.enable_irq _) (hL.debug_print _ _)⟩) (fun _ => ?_)
      refine traced_if _ _ (step_quiet_left (hL.delay_us _ _) (hL.bus_write _ _))
        (fun _ => ⟨by simp, quietStep_trans (hL.enable_irq _) (hL.debug_print _ _)⟩) (fun _ => ?_)
      exact step_quiet_left (hL.delay_us _ _) (ih _ _)

theorem read_2bit_loop_traced {σ : Type} (L : Link (σ × List Event)) (hL : L.Traced) :
    ∀ (n data : Nat) (s : σ × List Event), Traced2 s.2 (read_2bit_loop L n data s) := by
  intro n
  induction n with
  | zero =>
    intro data s
    exact traced_quiet _ _ (hL.enable_irq _)
  | succ n ih =>
    intro data s
    unfold read_2bit_loop
    dsimp only
    exact traced_if _ _ (read_bit_traced L hL s)
      (fun _ => ⟨by simp, quietStep_trans (hL.enable_irq _) (hL.debug_print _ _)⟩) (fun _ => ih _ _)

theorem write_bit_traced {σ : Type} (L : Link (σ × List Event)) (hL : L.Traced) (bit : Nat)
    (s : σ × List Event) : Traced1 s.2 (a_ds2431_write_bit L bit s) := by
  unfold a_ds2431_write_bit
  dsimp only
  refine traced_if _ _ (step_quiet_left (hL.disable_irq _) (hL.bus_write _ _))
    (fun _ => ⟨by simp, quietStep_trans (hL.enable_irq _) (hL.debug_print _ _)⟩) (fun _ => ?_)
  refine traced_if _ _ (step_quiet_left (hL.delay_us _ _) (hL.bus_write _ _))
    (fun _ => ⟨by simp, quietStep_trans (hL.enable_irq _) (hL.debug_print _ _)⟩) (fun _ => ?_)
  refine traced_if _ _ (step_quiet_left (hL.delay_us _ _) (hL.bus_write _ _))
    (fun _ => ⟨by simp, quietStep_trans (hL.enable_irq _) (hL.debug_print _ _)⟩) (fun _ => ?_)
  exact traced_quiet _ _ (quietStep_trans (hL.delay_us _ _) (hL.enable_irq _))

theorem ofLink_traced {σ : Type} (L : Link (σ × List Event)) (hL : L.Traced) :
    (Wire.ofLink L).Traced where
  reset := fun s => reset_core_traced L hL _ _ _ _ s
  reset_overdrive := fun s => reset_core_traced L hL _ _ _ _ s
  read_byte := fun s =>
    step_quiet_left (hL.disable_irq s)
      (read_byte_loop_traced L hL _ (read_bit_traced L hL) _ _ _)
  write_byte := fun _ s =>
    step_quiet_left (hL.disable_irq s) (write_byte_loop_traced L hL _ _ _ _ _ _ _)
  read_byte_overdrive := fun s =>
    step_quiet_left (hL.disable_irq s)
      (read_byte_loop_traced L hL _ (read_bit_overdrive_traced L hL) _ _ _)
  write_byte_overdrive := fun _ s =>
    step_quiet_left (hL.disable_irq s) (write_byte_loop_traced L hL _ _ _ _ _ _ _)
  read_2bit := fun s => step_quiet_left (hL.disable_irq s) (read_2bit_loop_traced L hL _ _ _)
  write_bit := fun b s => write_bit_traced L hL b s
  delay_ms := hL.delay_ms
  delay_us := hL.delay_us
  debug_print := hL.debug_print

theorem driver_traced {σ : Type} (L : Link σ) : (driver L).Traced :=
  ofLink_traced L.record (record_traced L)

/-! ## Transport errors: the protocol routines -/

theorem wb_traced {σ : Type} (W : Wire (σ × List Event)) (hW : W.Traced) (od : Bool) (b : Nat)
    (s : σ × List Event) : Step s.2 (W.wb od b s).1 (W.wb od b s).2.2 := by
  cases od
  · exact hW.write_byte b s
  · exact hW.write_byte_overdrive b s

theorem rb_traced {σ : Type} (W : Wire (σ × List Event)) (hW : W.Traced) (od : Bool)
    (s : σ × List Event) : Step s.2 (W.rb od s).1 (W.rb od s).2.2.2 := by
  cases od
  · exact hW.read_byte s
  · exact hW.read_byte_overdrive s

theorem write_all_traced {σ : Type} (W : Wire (σ × List Event)) (hW : W.Traced)
    (wb : Nat → σ × List Event → Nat × (σ × List Event))
    (hwb : ∀ b s, Step s.2 (wb b s).1 (wb b s).2.2) (msg : String) :
    ∀ (bs : List Nat) (s : σ × List Event), Traced1 s.2 (write_all W wb msg bs s) := by
  intro bs
  induction bs with
  | nil =>
    intro s
    exact step_refl _
  | cons b bs ih =>
    intro s
    unfold write_all
    dsimp only
    exact traced_if _ _ (hwb b s) (fun _ => ⟨by simp, hW.debug_print _ _⟩) (fun _ => ih _)

theorem rom_select_traced {σ : Type} (W : Wire (σ × List Event)) (hW : W.Traced) (h : Handle)
    (s : σ × List Event) : Traced1 s.2 (rom_select W h s) := by
  unfold rom_select
  dsimp only
  repeat' (first
    | exact step_refl _
    | exact write_all_traced W hW _ hW.write_byte _ _ _
    | exact write_all_traced W hW _ hW.write_byte_overdrive _ _ _
    | refine traced_if _ _ (by first | exact hW.reset _ | exact hW.reset_overdrive _ | exact hW.write_byte _ _ | exact hW.write_byte_overdrive _ _)
        (fun _ => ⟨by simp, hW.debug_print _ _⟩) (fun _ => ?_)
    | exact traced_quiet _ _ (hW.debug_print _ _)
    | refine ite_ind ?_ ?_)

theorem copy_readdress_traced {σ : Type} (W : Wire (σ × List Event)) (hW : W.Traced)
    (h : Handle) (s : σ × List Event) : Traced1 s.2 (copy_readdress W h s) := by
  unfold copy_readdress
  dsimp only
  repeat' (first
    | exact step_refl _
    | exact write_all_traced W hW _ hW.write_byte _ _ _
    | refine traced_if _ _ (by first | exact hW.reset _ | exact hW.reset_overdrive _ | exact hW.write_byte _ _ | exact hW.write_byte_overdrive _ _)
        (fun _ => ⟨by simp, hW.debug_print _ _⟩) (fun _ => ?_)
    | exact traced_quiet _ _ (hW.debug_print _ _)
    | refine ite_ind ?_ ?_)

theorem copy_scratchpad_body_traced {σ : Type} (W : Wire (σ × List Event)) (hW : W.Traced)
    (od : Bool) (address : Nat) (s : σ × List Event) :
    Traced1 s.2 (copy_scratchpad_body W od address s) := by
  unfold copy_scratchpad_body
  dsimp only
  repeat' (first
    | exact step_refl _
    | refine traced_if _ _ (by first | exact wb_traced W hW _ _ _ | exact step_quiet_left (hW.delay_ms _ _) (rb_traced W hW _ _))
        (fun _ => ⟨by simp, hW.debug_print _ _⟩) (fun _ => ?_)
    | exact traced_quiet _ _ (hW.debug_print _ _)
    | refine ite_ind ?_ ?_)

theorem write_data_crc_traced {σ : Type} (W : Wire (σ × List Event)) (hW : W.Traced)
    (wb : Nat → σ × List Event → Nat × (σ × List Event))
    (hwb : ∀ b s, Step s.2 (wb b s).1 (wb b s).2.2) :
    ∀ (bs : List Nat) (crc : Nat) (s : σ × List Event),
      Traced2 s.2 (write_data_crc W wb bs crc s) := by
  intro bs
  induction bs with
  | nil =>
    intro crc s
    exact step_refl _
  | cons b bs ih =>
    intro crc s
    unfold write_data_crc
    dsimp only
    exact traced_if _ _ (hwb b s) (fun _ => ⟨by simp, hW.debug_print _ _⟩) (fun _ => ih _ _)

theorem write_scratchpad_body_traced {σ : Type} (W : Wire (σ × List Event)) (hW : W.Traced)
    (od : Bool) (address : Nat) (data : List Nat) (s : σ × List Event) :
    Traced2 s.2 (write_scratchpad_body W od address data s) := by
  unfold write_scratchpad_body
  dsimp only
  repeat' (first
    | exact step_refl _
    | refine traced_if _ _ (by first | exact wb_traced W hW _ _ _ | exact rb_traced W hW _ _)
        (fun _ => ⟨by simp, hW.debug_print _ _⟩) (fun _ => ?_)
    | refine traced_if _ _ (write_data_crc_traced W hW _ (wb_traced W hW od) _ _ _)
        (fun _ => ⟨by simp, quietStep_refl _⟩) (fun _ => ?_)
    | exact traced_quiet _ _ (hW.debug_print _ _)
    | refine ite_ind ?_ ?_)

theorem read_data_crc_traced {σ : Type} (W : Wire (σ × List Event)) (hW : W.Traced)
    (rb : σ × List Event → Nat × Nat × (σ × List Event))
    (hrb : ∀ s, Step s.2 (rb s).1 (rb s).2.2.2) :
    ∀ (n crc : Nat) (acc : List Nat) (s : σ × List Event),
      Traced3 s.2 (read_data_crc W rb n crc acc s) := by
  intro n
  induction n with
  | zero =>
    intro crc acc s
    exact step_refl _
  | succ n ih =>
    intro crc acc s
    unfold read_data_crc
    dsimp only
    exact traced_if _ _ (hrb s) (fun _ => ⟨by simp, hW.debug_print _ _⟩) (fun _ => ih _ _ _)

theorem read_scratchpad_body_traced {σ : Type} (W : Wire (σ × List Event)) (hW : W.Traced)
    (od : Bool) (s : σ × List Event) : Traced2 s.2 (read_scratchpad_body W od s) := by
  unfold read_scratchpad_body
  dsimp only
  repeat' (first
    | exact step_refl _
    | refine traced_if _ _ (by first | exact wb_traced W hW _ _ _ | exact rb_traced W hW _ _)
        (fun _ => ⟨by simp, hW.debug_print _ _⟩) (fun _ => ?_)
    | refine traced_if _ _ (read_data_crc_traced W hW _ (rb_traced W hW od) _ _ _ _)
        (fun _ => ⟨by simp, quietStep_refl _⟩) (fun _ => ?_)
    | exact traced_quiet _ _ (hW.debug_print _ _)
    | refine ite_ind ?_ ?_)

theorem read_data_traced {σ : Type} (W : Wire (σ × List Event)) (hW : W.Traced)
    (rb : σ × List Event → Nat × Nat × (σ × List Event))
    (hrb : ∀ s, Step s.2 (rb s).1 (rb s).2.2.2) :
    ∀ (n : Nat) (acc : List Nat) (s : σ × List Event), Traced2 s.2 (read_data W rb n acc s) := by
  intro n
  induction n with
  | zero =>
    intro acc s
    exact step_refl _
  | succ n ih =>
    intro acc s
    unfold read_data
    dsimp only
    exact traced_if _ _ (hrb s) (fun _ => ⟨by simp, hW.debug_print _ _⟩) (fun _ => ih _ _)

theorem read_memory_body_traced {σ : Type} (W : Wire (σ × List Event)) (hW : W.Traced)
    (od : Bool) (address len : Nat) (s : σ × List Event) :
    Traced2 s.2 (read_memory_body W od address len s) := by
  unfold read_memory_body
  dsimp only
  repeat' (first
    | exact read_data_traced W hW _ (rb_traced W hW od) _ _ _
    | refine traced_if _ _ (wb_traced W hW _ _ _)
        (fun _ => ⟨by simp, hW.debug_print _ _⟩) (fun _ => ?_))

theorem a_ds2431_read_traced {σ : Type} (W : Wire (σ × List Event)) (hW : W.Traced)
    (h : Handle) (address len : Nat) (s : σ × List Event) :
    Traced2 s.2 (a_ds2431_read W h address len s) := by
  unfold a_ds2431_read
  dsimp only
  exact traced_if _ _ (rom_select_traced W hW h s) (fun _ => ⟨by simp, quietStep_refl _⟩)
    (fun _ => read_memory_body_traced W hW _ _ _ _)

theorem a_ds2431_write_traced {σ : Type} (W : Wire (σ × List Event)) (hW : W.Traced)
    (h : Handle) (address : Nat) (data : List Nat) (s : σ × List Event) :
    Traced1 s.2 (a_ds2431_write W h address data s) := by
  unfold a_ds2431_write
  dsimp only
  refine traced_if _ _ (rom_select_traced W hW h s) (fun _ => ⟨by simp, quietStep_refl _⟩)
    (fun _ => ?_)
  refine traced_if _ _ (write_scratchpad_body_traced W hW _ _ _ _)
    (fun _ => ⟨by simp, quietStep_refl _⟩) (fun _ => ?_)
  exact traced_if _ _ (copy_readdress_traced W hW h _) (fun _ => ⟨by simp, quietStep_refl _⟩)
    (fun _ => copy_scratchpad_body_traced W hW _ _ _)

theorem ofWire_traced {σ : Type} (W : Wire (σ × List Event)) (hW : W.Traced) :
    (Pager.ofWire W).Traced where
  a_read := a_ds2431_read_traced W hW
  a_write := a_ds2431_write_traced W hW
  debug_print := hW.debug_print

/-! ## Transport errors: the public functions -/

theorem copy_scratchpad_traced {σ : Type} (W : Wire (σ × List Event)) (hW : W.Traced)
    (h : Handle) (address : Nat) (s : σ × List Event) :
    Traced1 s.2 (ds2431_copy_scratchpad W (some h) address s) := by
  unfold ds2431_copy_scratchpad
  dsimp only
  refine ite_ind (traced_quiet _ _ (quietStep_refl _)) ?_
  refine ite_ind (traced_quiet _ _ (hW.debug_print _ _)) ?_
  refine ite_ind (traced_quiet _ _ (hW.debug_print _ _)) ?_
  exact traced_if _ _ (rom_select_traced W hW h s) (fun _ => ⟨by simp, quietStep_refl _⟩)
    (fun _ => copy_scratchpad_body_traced W hW _ _ _)

theorem write_scratchpad_traced {σ : Type} (W : Wire (σ × List Event)) (hW : W.Traced)
    (h : Handle) (address : Nat) (data : List Nat) (s : σ × List Event) :
    Traced2 s.2 (ds2431_write_scratchpad W (some h) address data s) := by
  unfold ds2431_write_scratchpad
  dsimp only
  refine ite_ind (traced_quiet _ _ (quietStep_refl _)) ?_
  refine ite_ind (traced_quiet _ _ (hW.debug_print _ _)) ?_
  refine ite_ind (traced_quiet _ _ (hW.debug_print _ _)) ?_
  exact traced_if _ _ (rom_select_traced W hW h s) (fun _ => ⟨by simp, quietStep_refl _⟩)
    (fun _ => write_scratchpad_body_traced W hW _ _ _ _)

theorem read_scratchpad_traced {σ : Type} (W : Wire (σ × List Event)) (hW : W.Traced)
    (h : Handle) (s : σ × List Event) :
    Traced2 s.2 (ds2431_read_scratchpad W (some h) s) := by
  unfold ds2431_read_scratchpad
  dsimp only
  refine ite_ind (traced_quiet _ _ (quietStep_refl _)) ?_
  exact traced_if _ _ (rom_select_traced W hW h s) (fun _ => ⟨by simp, quietStep_refl _⟩)
    (fun _ => read_scratchpad_body_traced W hW _ _)

theorem read_memory_traced {σ : Type} (W : Wire (σ × List Event)) (hW : W.Traced)
    (h : Handle) (address len : Nat) (s : σ × List Event) :
    Traced2 s.2 (ds2431_read_memory W (some h) address len s) := by
  unfold ds2431_read_memory
  dsimp only
  refine ite_ind (traced_quiet _ _ (quietStep_refl _)) ?_
  refine ite_ind (traced_quiet _ _ (hW.debug_print _ _)) ?_
  exact traced_if _ _ (rom_select_traced W hW h s) (fun _ => ⟨by simp, quietStep_refl _⟩)
    (fun _ => read_memory_body_traced W hW _ _ _ _)

theorem read_rom_traced {σ : Type} (W : Wire (σ × List Event)) (hW : W.Traced) :
    ∀ (n : Nat) (acc : List Nat) (s : σ × List Event), Traced2 s.2 (read_rom W n acc s) := by
  intro n
  induction n with
  | zero =>
    intro acc s
    exact step_refl _
  | succ n ih =>
    intro acc s
    unfold read_rom
    dsimp only
    exact traced_if _ _ (hW.read_byte s) (fun _ => ⟨by simp, hW.debug_print _ _⟩)
      (fun _ => ih _ _)

theorem get_rom_traced {σ : Type} (W : Wire (σ × List Event)) (hW : W.Traced)
    (h : Handle) (s : σ × List Event) : Traced2 s.2 (ds2431_get_rom W (some h) s) := by
  unfold ds2431_get_rom
  dsimp only
  refine ite_ind (traced_quiet _ _ (quietStep_refl _)) ?_
  refine traced_if _ _ (hW.reset _) (fun _ => ⟨by simp, hW.debug_print _ _⟩) (fun _ => ?_)
  refine traced_if _ _ (hW.write_byte _ _) (fun _ => ⟨by simp, hW.debug_print _ _⟩)
    (fun _ => ?_)
  exact read_rom_traced W hW _ _ _

theorem rom_match_traced {σ : Type} (W : Wire (σ × List Event)) (hW : W.Traced)
    (h : Handle) (type : Nat) (rom : List Nat) (s : σ × List Event) :
    Traced1 s.2 (ds2431_rom_match W (some h) type rom s) := by
  unfold ds2431_rom_match
  dsimp only
  refine ite_ind (traced_quiet _ _ (quietStep_refl _)) ?_
  refine ite_ind ?_ ?_
  · refine traced_if _ _ (hW.reset _) (fun _ => ⟨by simp, hW.debug_print _ _⟩) (fun _ => ?_)
    refine traced_if _ _ (hW.write_byte _ _) (fun _ => ⟨by simp, hW.debug_print _ _⟩)
      (fun _ => ?_)
    refine traced_if _ _ (write_all_traced W hW _ hW.write_byte _ _ _)
      (fun _ => ⟨by simp, quietStep_refl _⟩) (fun _ => ?_)
    refine traced_if _ _ (hW.reset _) (fun _ => ⟨by simp, hW.debug_print _ _⟩) (fun _ => ?_)
    exact step_refl _
  · refine traced_if _ _ (hW.reset _) (fun _ => ⟨by simp, hW.debug_print _ _⟩) (fun _ => ?_)
    refine traced_if _ _ (hW.write_byte _ _) (fun _ => ⟨by simp, hW.debug_print _ _⟩)
      (fun _ => ?_)
    refine traced_if _ _ (write_all_traced W hW _ hW.write_byte_overdrive _ _ _)
      (fun _ => ⟨by simp, quietStep_refl _⟩) (fun _ => ?_)
    refine traced_if _ _ (hW.reset_overdrive _) (fun _ => ⟨by simp, hW.debug_print _ _⟩)
      (fun _ => ?_)
    exact step_refl _

theorem read_traced {σ : Type} (P : Pager (σ × List Event)) (hP : P.Traced)
    (h : Handle) (address len : Nat) (s : σ × List Event) :
    Traced2 s.2 (ds2431_read P (some h) address len s) := by
  unfold ds2431_read
  dsimp only
  refine ite_ind (traced_quiet _ _ (quietStep_refl _)) ?_
  refine ite_ind (traced_quiet _ _ (hP.debug_print _ _)) ?_
  exact traced_if _ _ (hP.a_read _ _ _ _) (fun _ => ⟨by simp, quietStep_refl _⟩)
    (fun _ => step_refl _)

theorem read_memory_config_traced {σ : Type} (P : Pager (σ × List Event)) (hP : P.Traced)
    (h : Handle) (s : σ × List Event) :
    Traced2 s.2 (ds2431_read_memory_config P (some h) s) := by
  unfold ds2431_read_memory_config
  dsimp only
  refine ite_ind (traced_quiet _ _ (quietStep_refl _)) ?_
  exact traced_if _ _ (hP.a_read _ _ _ _) (fun _ => ⟨by simp, quietStep_refl _⟩)
    (fun _ => step_refl _)

theorem write_memory_config_traced {σ : Type} (P : Pager (σ × List Event)) (hP : P.Traced)
    (h : Handle) (config : Config) (s : σ × List Event) :
    Traced1 s.2 (ds2431_write_memory_config P (some h) config s) := by
  unfold ds2431_write_memory_config
  dsimp only
  refine ite_ind (traced_quiet _ _ (quietStep_refl _)) ?_
  exact traced_if _ _ (hP.a_write _ _ _ _) (fun _ => ⟨by simp, quietStep_refl _⟩)
    (fun _ => step_refl _)

theorem write_chunk_traced {σ : Type} (P : Pager (σ × List Event)) (hP : P.Traced)
    (h : Handle) (pos off remain : Nat) (data : List Nat) (address : Nat)
    (s : σ × List Event) :
    Traced1 s.2 (ds2431_write_chunk P h pos off remain data address s) := by
  unfold ds2431_write_chunk
  dsimp only
  refine ite_ind ?_ (hP.a_write _ _ _ _)
  exact traced_if _ _ (hP.a_read _ _ _ _) (fun _ => ⟨by simp, quietStep_refl _⟩)
    (fun _ => hP.a_write _ _ _ _)

theorem write_loop_traced {σ : Type} (P : Pager (σ × List Event)) (hP : P.Traced)
    (h : Handle) :
    ∀ (fuel pos off remain : Nat) (data : List Nat) (address len : Nat) (s : σ × List Event)
      (r : Nat × (σ × List Event)),
      ds2431_write_loop P h fuel pos off remain data address len s = some r →
      Step s.2 r.1 r.2.2 := by
  intro fuel
  induction fuel with
  | zero =>
    intro pos off remain data address len s r hr
    simp [ds2431_write_loop] at hr
  | succ fuel ih =>
    intro pos off remain data address len s r hr
    have hc := write_chunk_traced P hP h pos off remain data address s
    unfold ds2431_write_loop at hr
    dsimp only at hr
    split at hr
    · rename_i h1
      simp only [Option.some.injEq] at hr
      subst hr
      exact step_fail 1 hc h1 (by decide)
    · rename_i h1
      have h0 : (ds2431_write_chunk P h pos off remain data address s).1 = 0 := by
        simpa using h1
      have hc0 : Step s.2 0 (ds2431_write_chunk P h pos off remain data address s).2.2 := by
        have := hc
        simp only [Traced1, Traced, h0] at this
        exact this
      split at hr
      · simp only [Option.some.injEq] at hr
        subst hr
        exact hc0
      · exact step_seq hc0 (ih _ _ _ _ _ _ _ _ hr)

theorem write_traced {σ : Type} (P : Pager (σ × List Event)) (hP : P.Traced)
    (h : Handle) (fuel address len : Nat) (data : List Nat) (s : σ × List Event)
    (hfuel : 17 ≤ fuel) :
    ∃ r, ds2431_write P fuel (some h) address data len s = some r ∧ Step s.2 r.1 r.2.2 := by
  unfold ds2431_write
  dsimp only
  split
  · exact ⟨_, rfl, step_of_quiet _ (quietStep_refl _)⟩
  · split
    · exact ⟨_, rfl, step_of_quiet _ (hP.debug_print _ _)⟩
    · rename_i h1 h2
      obtain ⟨r, hr, _⟩ := write_loop_total P h fuel (address / 8)
        (address % 8) (if len ≤ 8 - address % 8 then len else 8 - address % 8) data address len
        s (Nat.mod_lt _ (by norm_num)) rfl (by omega) (by omega)
      exact ⟨r, hr, write_loop_traced P hP h _ _ _ _ _ _ _ _ _ hr⟩

/-! ## Transport errors: the ROM search -/

theorem search_bit_traced {σ : Type} (W : Wire (σ × List Event)) (hW : W.Traced) (m n : Nat)
    (st : SearchState) (s : σ × List Event) : TracedR s.2 (search_bit W m n st s) := by
  unfold search_bit
  dsimp only
  repeat' (first
    | exact step_refl _
    | refine traced_if _ _ (by first | exact hW.read_2bit _ | exact hW.write_bit _ _)
        (fun _ => ⟨by simp, hW.debug_print _ _⟩) (fun _ => ?_)
    | exact traced_quiet _ _ (hW.delay_us _ _)
    | refine ite_ind ?_ ?_)

theorem search_bit_keeps {σ : Type} (W : Wire σ) (m n : Nat) (st : SearchState) (s : σ)
    (h : (search_bit W m n st s).1 = none) :
    (search_bit W m n st s).2.1.num = st.num ∧
      (search_bit W m n st s).2.1.number = st.number := by
  revert h
  unfold search_bit
  dsimp only
  repeat' (first | split | intro h)
  all_goals first | exact ⟨rfl, rfl⟩ | simp at h

theorem search_bits_traced {σ : Type} (W : Wire (σ × List Event)) (hW : W.Traced) (m : Nat) :
    ∀ (k n : Nat) (st : SearchState) (s : σ × List Event),
      TracedR s.2 (search_bits W m k n st s) := by
  intro k
  induction k with
  | zero =>
    intro n st s
    exact step_refl _
  | succ k ih =>
    intro n st s
    have hb := search_bit_traced W hW m n st s
    unfold search_bits
    dsimp only
    split
    · rename_i c hc
      simp only [TracedR, Traced, hc] at hb ⊢
      exact hb
    · rename_i hc
      simp only [TracedR, Traced, hc, Option.getD_none] at hb
      exact step_seq hb (ih _ _ _)

theorem search_bits_keeps {σ : Type} (W : Wire σ) (m : Nat) :
    ∀ (k n : Nat) (st : SearchState) (s : σ), (search_bits W m k n st s).1 = none →
      (search_bits W m k n st s).2.1.num = st.num ∧
        (search_bits W m k n st s).2.1.number = st.number := by
  intro k
  induction k with
  | zero =>
    intro n st s _
    exact ⟨rfl, rfl⟩
  | succ k ih =>
    intro n st s
    unfold search_bits
    dsimp only
    split
    · intro h
      simp at h
    · rename_i hc
      intro h
      have h1 := search_bit_keeps W m n st s hc
      have h2 := ih _ _ _ h
      exact ⟨h2.1.trans h1.1, h2.2.trans h1.2⟩

theorem search_bytes_traced {σ : Type} (W : Wire (σ × List Event)) (hW : W.Traced) :
    ∀ (k m : Nat) (st : SearchState) (s : σ × List Event),
      TracedR s.2 (search_bytes W k m st s) := by
  intro k
  induction k with
  | zero =>
    intro m st s
    exact step_refl _
  | succ k ih =>
    intro m st s
    have hb := search_bits_traced W hW m 8 0 st s
    unfold search_bytes
    dsimp only
    split
    · rename_i c hc
      simp only [TracedR, Traced, hc] at hb ⊢
      exact hb
    · rename_i hc
      simp only [TracedR, Traced, hc, Option.getD_none] at hb
      exact step_seq hb (ih _ _ _)

theorem search_bytes_keeps {σ : Type} (W : Wire σ) :
    ∀ (k m : Nat) (st : SearchState) (s : σ), (search_bytes W k m st s).1 = none →
      (search_bytes W k m st s).2.1.num = st.num ∧
        (search_bytes W k m st s).2.1.number = st.number := by
  intro k
  induction k with
  | zero =>
    intro m st s _
    exact ⟨rfl, rfl⟩
  | succ k ih =>
    intro m st s
    unfold search_bytes
    dsimp only
    split
    · intro h
      simp at h
    · rename_i hc
      intro h
      have h1 := search_bits_keeps W m 8 0 st s hc
      have h2 := ih _ _ _ h
      exact ⟨h2.1.trans h1.1, h2.2.trans h1.2⟩

theorem search_passes_traced {σ : Type} (W : Wire (σ × List Event)) (hW : W.Traced)
    (cmd : Nat) :
    ∀ (fuel : Nat) (st : SearchState) (s : σ × List Event)
      (r : Nat × SearchState × (σ × List Event)),
      search_passes W cmd fuel st s = some r → Step s.2 r.1 r.2.2.2 := by
  intro fuel
  induction fuel with
  | zero =>
    intro st s r hr
    simp [search_passes] at hr
  | succ fuel ih =>
    intro st s r hr
    unfold search_passes at hr
    dsimp only at hr
    split at hr
    · rename_i h1
      simp only [Option.some.injEq] at hr
      subst hr
      exact step_quiet_right (step_fail 1 (hW.reset s) h1 (by decide)) (hW.debug_print _ _)
    · rename_i h1
      have h10 : (W.reset s).1 = 0 := by simpa using h1
      have s1 : Step s.2 0 (W.reset s).2.2 := by
        have := hW.reset s
        rw [h10] at this
        exact this
      split at hr
      · rename_i h2
        simp only [Option.some.injEq] at hr
        subst hr
        exact step_seq s1
          (step_quiet_right (step_fail 1 (hW.write_byte _ _) h2 (by decide))
            (hW.debug_print _ _))
      · rename_i h2
        have h20 : (W.write_byte cmd (W.reset s).2).1 = 0 := by simpa using h2
        have s2 : Step s.2 0 (W.write_byte cmd (W.reset s).2).2.2 := by
          have := hW.write_byte cmd (W.reset s).2
          rw [h20] at this
          exact step_seq s1 this
        have hb := search_bytes_traced W hW 8 0 st (W.write_byte cmd (W.reset s).2).2
        split at hr
        · rename_i c hc
          simp only [Option.some.injEq] at hr
          subst hr
          simp only [TracedR, Traced, hc, Option.getD_some] at hb
          exact step_seq s2 hb
        · rename_i hc
          simp only [TracedR, Traced, hc, Option.getD_none] at hb
          have s3 := step_seq s2 hb
          split at hr
          · simp only [Option.some.injEq] at hr
            subst hr
            exact s3
          · split at hr
            · exact step_seq s3 (ih _ _ _ hr)
            · simp only [Option.some.injEq] at hr
              subst hr
              exact s3

theorem search_passes_total {σ : Type} (W : Wire σ) (cmd : Nat) :
    ∀ (fuel : Nat) (st : SearchState) (s : σ), st.num ≤ st.number → st.number < 255 →
      st.number - st.num < fuel → ∃ r, search_passes W cmd fuel st s = some r := by
  intro fuel
  induction fuel with
  | zero =>
    intro st s _ _ hf
    omega
  | succ fuel ih =>
    intro st s h1 h2 hf
    unfold search_passes
    dsimp only
    split
    · exact ⟨_, rfl⟩
    · split
      · exact ⟨_, rfl⟩
      · split
        · exact ⟨_, rfl⟩
        · rename_i hc
          obtain ⟨k1, k2⟩ := search_bytes_keeps W 8 0 st _ hc
          split
          · exact ⟨_, rfl⟩
          · rename_i hle
            split
            · simp only [k1, k2, not_lt] at hle
              have hmod : (st.num + 1) % 256 = st.num + 1 := by omega
              apply ih
              · simp only [k1, k2]
                omega
              · simp only [k2]
                exact h2
              · simp only [k1, k2]
                omega
            · exact ⟨_, rfl⟩

theorem search_total {σ : Type} (W : Wire σ) (pid : Nat → Nat → Nat) (cmd number : Nat)
    (s : σ) : ∃ r, a_ds2431_search W pid cmd number s = some r := by
  unfold a_ds2431_search
  split
  · exact ⟨_, rfl⟩
  · rename_i hn
    have hn64 : number ≤ 64 := by
      simpa [DS2431_MAX_SEARCH_SIZE] using hn
    obtain ⟨r, hr⟩ := search_passes_total W cmd (number + 1)
      ⟨fun _ => 0, 0, fun _ => 0, 0, 0, number, pid⟩ s (Nat.zero_le _)
      (by simp only; omega) (by simp only; omega)
    rw [hr]
    exact ⟨_, rfl⟩

theorem search_traced {σ : Type} (W : Wire (σ × List Event)) (hW : W.Traced)
    (pid : Nat → Nat → Nat) (cmd number : Nat) (s : σ × List Event)
    (r : Nat × Nat × (Nat → Nat → Nat) × (σ × List Event))
    (hr : a_ds2431_search W pid cmd number s = some r) : Step s.2 r.1 r.2.2.2.2 := by
  unfold a_ds2431_search at hr
  split at hr
  · simp only [Option.some.injEq] at hr
    subst hr
    exact step_of_quiet _ (hW.debug_print _ _)
  · split at hr
    · simp at hr
    · rename_i r1 hr1
      simp only [Option.some.injEq] at hr
      subst hr
      exact search_passes_traced W hW cmd _ _ _ _ hr1

theorem search_passes_after_reset {σ : Type} (W : Wire (σ × List Event)) (hW : W.Traced)
    (cmd fuel : Nat) (st : SearchState) (s : σ × List Event)
    (r : Nat × SearchState × (σ × List Event))
    (hr : search_passes W cmd (fuel + 1) st s = some r) :
    Step (W.reset s).2.2 r.1 r.2.2.2 := by
  unfold search_passes at hr
  dsimp only at hr
  split at hr
  · simp only [Option.some.injEq] at hr
    subst hr
    exact step_of_quiet _ (hW.debug_print _ _)
  · split at hr
    · rename_i h2
      simp only [Option.some.injEq] at hr
      subst hr
      exact step_quiet_right (step_fail 1 (hW.write_byte _ _) h2 (by decide))
        (hW.debug_print _ _)
    · rename_i h2
      have h20 : (W.write_byte cmd (W.reset s).2).1 = 0 := by simpa using h2
      have s2 : Step (W.reset s).2.2 0 (W.write_byte cmd (W.reset s).2).2.2 := by
        have := hW.write_byte cmd (W.reset s).2
        rw [h20] at this
        exact this
      have hb := search_bytes_traced W hW 8 0 st (W.write_byte cmd (W.reset s).2).2
      split at hr
      · rename_i c hc
        simp only [Option.some.injEq] at hr
        subst hr
        simp only [TracedR, Traced, hc, Option.getD_some] at hb
        exact step_seq s2 hb
      · rename_i hc
        simp only [TracedR, Traced, hc, Option.getD_none] at hb
        have s3 := step_seq s2 hb
        split at hr
        · simp only [Option.some.injEq] at hr
          subst hr
          exact s3
        · split at hr
          · exact step_seq s3 (search_passes_traced W hW cmd _ _ _ _ hr)
          · simp only [Option.some.injEq] at hr
            subst hr
            exact s3

theorem search_rom_traced {σ : Type} (W : Wire (σ × List Event)) (hW : W.Traced)
    (h : Handle) (rom : Nat → Nat → Nat) (num : Nat) (s : σ × List Event) :
    ∃ r, ds2431_search_rom W (some h) rom num s = some r ∧ Step s.2 r.1 r.2.2.2.2 := by
  unfold ds2431_search_rom
  dsimp only
  split
  · exact ⟨_, rfl, step_of_quiet _ (quietStep_refl _)⟩
  · obtain ⟨r, hr⟩ := search_total W rom DS2431_CMD_SEARCH_ROM num s
    exact ⟨r, hr, search_traced W hW rom _ num s r hr⟩

theorem init_traced {σ : Type} (L : Link (σ × List Event)) (hL : L.Traced) (h : Handle)
    (s : σ × List Event) : Traced2 s.2 (ds2431_init (LinkPtrs.ofLink L) (some h) s) := by
  rw [init_ofLink]
  refine traced_if _ _ (step_of_quiet _ (hL.bus_init s))
    (fun _ => ⟨by simp, hL.debug_print _ _⟩) (fun _ => ?_)
  refine traced_if _ _ (reset_core_traced L hL _ _ _ _ _)
    (fun _ => ⟨by simp, quietStep_trans (hL.debug_print _ _) (hL.bus_deinit _)⟩) (fun _ => ?_)
  exact step_refl _

theorem deinit_traced {σ : Type} (L : Link (σ × List Event)) (hL : L.Traced) (h : Handle)
    (s : σ × List Event) : Traced2 s.2 (ds2431_deinit L (some h) s) := by
  unfold ds2431_deinit
  dsimp only
  refine ite_ind (traced_quiet _ _ (quietStep_refl _)) ?_
  refine ite_ind (traced_quiet _ _ (quietStep_trans (hL.bus_deinit _) (hL.debug_print _ _))) ?_
  exact traced_quiet _ _ (hL.bus_deinit _)

/-! ## Claim C14: transport errors unwind -/

/-- Claim C14.  For every platform, every state of it, every handle and every call of the
public interface with any arguments (`ds2431_get_rom`, `ds2431_rom_match`, the scratchpad
functions, `ds2431_read_memory`, `ds2431_read`, `ds2431_write`, the memory configuration
functions, `ds2431_search_rom`, and the others as well), the call returns, the log of
capability calls is extended only, and once a `bus_read` or `bus_write` call of the
extension reported a failure (a status other than `0`) no `bus_read` or `bus_write` call
follows it and the status returned by the call is not `0`. -/
theorem transport_errors_unwind {σ : Type} (L : Link σ) (c : Call) (h : Handle) (s : σ)
    (t : List Event) :
    ∃ r, exec L.record c h (s, t) = some r ∧ Unwound t r.1 r.2.2.2 := by
  have hL := record_traced L
  have hW := ofLink_traced L.record hL
  have hP := ofWire_traced _ hW
  cases c with
  | set_mode mode => exact ⟨_, rfl, step_unwound (step_of_quiet _ (quietStep_refl _))⟩
  | get_mode => exact ⟨_, rfl, step_unwound (step_of_quiet _ (quietStep_refl _))⟩
  | set_rom rom => exact ⟨_, rfl, step_unwound (step_of_quiet _ (quietStep_refl _))⟩
  | get_rom => exact ⟨_, rfl, step_unwound (get_rom_traced _ hW h (s, t))⟩
  | copy_scratchpad address =>
    exact ⟨_, rfl, step_unwound (copy_scratchpad_traced _ hW h address (s, t))⟩
  | write_scratchpad address data =>
    exact ⟨_, rfl, step_unwound (write_scratchpad_traced _ hW h address data (s, t))⟩
  | read_scratchpad => exact ⟨_, rfl, step_unwound (read_scratchpad_traced _ hW h (s, t))⟩
  | read_memory address len =>
    exact ⟨_, rfl, step_unwound (read_memory_traced _ hW h address len (s, t))⟩
  | read_memory_config => exact ⟨_, rfl, step_unwound (read_memory_config_traced _ hP h (s, t))⟩
  | write_memory_config config =>
    exact ⟨_, rfl, step_unwound (write_memory_config_traced _ hP h config (s, t))⟩
  | read address len => exact ⟨_, rfl, step_unwound (read_traced _ hP h address len (s, t))⟩
  | write address data len =>
    obtain ⟨r, hr, hs⟩ := write_traced _ hP h 17 address len data (s, t) (le_refl _)
    refine ⟨(r.1, h, r.2), ?_, step_unwound hs⟩
    simp only [exec, hr, Option.map_some']
  | rom_match type rom => exact ⟨_, rfl, step_unwound (rom_match_traced _ hW h type rom (s, t))⟩
  | search_rom rom num =>
    obtain ⟨r, hr, hs⟩ := search_rom_traced _ hW h rom num (s, t)
    refine ⟨(r.1, h, r.2.2.2), ?_, step_unwound hs⟩
    simp only [exec, hr, Option.map_some']
  | init => exact ⟨_, rfl, step_unwound (init_traced _ hL h (s, t))⟩
  | deinit => exact ⟨_, rfl, step_unwound (deinit_traced _ hL h (s, t))⟩

/-! ## Claim C19: the capacity check of the search -/

theorem reset_log_starts {σ : Type} (L : Link σ) (lowUs highUs budget1 budget2 : Nat) (s : σ)
    (t : List Event) :
    ∃ ext, (reset_core L.record lowUs highUs budget1 budget2 (s, t)).2.2
      = t ++ Event.disable_irq :: ext := by
  obtain ⟨ext, he, _⟩ := reset_core_after_irq L.record (record_traced L) lowUs highUs budget1
    budget2 (s, t)
  refine ⟨ext, ?_⟩
  simp only [Traced] at he
  rw [he]
  simp [Link.record]

/-- Claim C19.  On an initialized handle, every capability call being logged:
`ds2431_search_rom` with `*num` above `DS2431_MAX_SEARCH_SIZE = 64` returns `1`, leaves
`*num` and the ROM array as they were and calls no capability but `debug_print` (no
`bus_read`, no `bus_write`); with `*num` at most `64`, hence with exactly `64`, it is not
stopped by this check: it returns after a log extension that starts with the
`disable_irq` call of the first bus reset. -/
theorem search_rom_capacity_check {σ : Type} (L : Link σ) (h : Handle)
    (rom : Nat → Nat → Nat) (num : Nat) (s : σ) (t : List Event) (hi : h.inited = 1) :
    (64 < num →
      ds2431_search_rom (driver L) (some h) rom num (s, t)
        = some (1, num, rom,
            L.debug_print "ds2431: number is over DS2431_MAX_SEARCH_SIZE.\n" s,
            t ++ [Event.debug_print "ds2431: number is over DS2431_MAX_SEARCH_SIZE.\n"])) ∧
    (num ≤ 64 →
      ∃ r ext, ds2431_search_rom (driver L) (some h) rom num (s, t) = some r ∧
        r.2.2.2.2 = t ++ Event.disable_irq :: ext) := by
  refine ⟨fun hn => ?_, fun hn => ?_⟩
  · simp [ds2431_search_rom, a_ds2431_search, hi, hn, DS2431_MAX_SEARCH_SIZE, driver,
      Wire.ofLink, Link.record]
  · have hW := driver_traced L
    have hn1 : ¬ num > DS2431_MAX_SEARCH_SIZE := by
      simp only [DS2431_MAX_SEARCH_SIZE]
      omega
    obtain ⟨r1, hr1⟩ := search_passes_total (driver L) DS2431_CMD_SEARCH_ROM (num + 1)
      ⟨fun _ => 0, 0, fun _ => 0, 0, 0, num, rom⟩ (s, t) (Nat.zero_le _)
      (by simp only; omega) (by simp only; omega)
    obtain ⟨e1, he1, _⟩ := search_passes_after_reset (driver L) hW _ _ _ _ _ hr1
    obtain ⟨e0, he0⟩ := reset_log_starts L 550 15 200 240 s t
    refine ⟨(r1.1, r1.2.1.number, r1.2.1.pid, r1.2.2), e0 ++ e1, ?_, ?_⟩
    · simp only [ds2431_search_rom, a_ds2431_search, hi, ne_eq, not_true_eq_false, if_false,
        hn1, hr1]
    · have hreset : ((driver L).reset (s, t)).2.2 = t ++ Event.disable_irq :: e0 := he0
      rw [he1, hreset]
      simp

/-- Witness of C19 on the quiet platform: a capacity of `65` is refused. -/
theorem search_rom_capacity_check_witness :
    ds2431_search_rom (driver quietLink) (some ⟨1, 0, []⟩) (fun _ _ => 0) 65 ((), [])
      = some (1, 65, fun _ _ => 0, (),
          [Event.debug_print "ds2431: number is over DS2431_MAX_SEARCH_SIZE.\n"]) :=
  (search_rom_capacity_check quietLink ⟨1, 0, []⟩ (fun _ _ => 0) 65 () [] rfl).1 (by decide)

/-! ## Claim C28: the two read functions -/

/-- Claim C28.  For every transport, every handle (absent, not initialized, or initialized
with any mode and ROM), every state of the bus and every `address` and `len` in `0..255`,
`ds2431_read` and `ds2431_read_memory` give the same result: the same status, the same
bytes stored in `data` and the same final state of the transport, hence the same sequence
of capability calls. -/
theorem read_is_read_memory {σ : Type} (W : Wire σ) (handle : Option Handle)
    (address len : Nat) (s : σ) (_ha : address < 256) (_hl : len < 256) :
    ds2431_read (Pager.ofWire W) handle address len s
      = ds2431_read_memory W handle address len s := by
  cases handle with
  | none => rfl
  | some h =>
    have hs := a_ds2431_read_status W h address len s
    simp only [StatusIn, List.mem_cons, List.mem_singleton, List.not_mem_nil, or_false] at hs
    have e : a_ds2431_read W h address len s
        = (if (rom_select W h s).1 ≠ 0 then (1, [], (rom_select W h s).2)
           else read_memory_body W (overdrive h.mode) address len (rom_select W h s).2) := rfl
    simp only [ds2431_read, ds2431_read_memory, Pager.ofWire]
    split
    · rfl
    · split
      · rfl
      · rw [← e]
        rcases hs with h0 | h1
        · rw [if_neg (by simp [h0])]
          rw [← h0]
        · rw [if_pos (by simp [h1])]
          rw [← h1]

/-- Witness of C28 on the logged driver over the quiet platform. -/
theorem read_is_read_memory_witness :
    ds2431_read (Pager.ofWire (driver quietLink)) (some ⟨1, 0, []⟩) 0 8 ((), [])
      = ds2431_read_memory (driver quietLink) (some ⟨1, 0, []⟩) 0 8 ((), []) :=
  read_is_read_memory (driver quietLink) (some ⟨1, 0, []⟩) 0 8 ((), []) (by decide) (by decide)

/-! ## Claim C23: the polling budgets of the reset -/

set_option maxRecDepth 1000000 in
/-- Evaluation for C23 on a line that delivers scripted samples, every capability call
succeeding.  A line first sampled low at poll 200 (then high at the next poll) makes
`a_ds2431_reset` return `1`, the sample after the 200th being left unread, while a line
first sampled low at poll 199 gives `0`; a line sampled low at the first poll and high
again only at poll 240 of the second loop gives `1`, high at poll 239 gives `0`.  The
overdrive reset does the same at polls 20 and 19. -/
theorem reset_last_poll_is_rejected :
    a_ds2431_reset sampleLink (List.replicate 199 1 ++ [0, 1]) = (1, [1]) ∧
    a_ds2431_reset sampleLink (List.replicate 198 1 ++ [0, 1]) = (0, []) ∧
    a_ds2431_reset sampleLink (0 :: (List.replicate 239 0 ++ [1])) = (1, []) ∧
    a_ds2431_reset sampleLink (0 :: (List.replicate 238 0 ++ [1])) = (0, []) ∧
    a_ds2431_reset_overdrive sampleLink (List.replicate 19 1 ++ [0, 1]) = (1, [1]) ∧
    a_ds2431_reset_overdrive sampleLink (List.replicate 18 1 ++ [0, 1]) = (0, []) ∧
    a_ds2431_reset_overdrive sampleLink (0 :: (List.replicate 19 0 ++ [1])) = (1, []) ∧
    a_ds2431_reset_overdrive sampleLink (0 :: (List.replicate 18 0 ++ [1])) = (0, []) := by
  refine ⟨?_, ?_, ?_, ?_, ?_, ?_, ?_, ?_⟩ <;> decide

/-! ## Claim C29: the pages touched by `ds2431_write` -/

/-- Evaluation for C29.  `ds2431_write` with `address = 128` and `len = 0`, which passes
the range check, reads the page at `0x80` and writes it back: the register page is read
and written by `ds2431_write`. -/
theorem write_of_nothing_at_128_touches_register_page :
    ds2431_write logPager 17 (some ⟨1, 0, []⟩) 128 [] 0 []
      = some (0, [PageOp.read 0x80 8, PageOp.write 0x80 [0, 0, 0, 0, 0, 0, 0, 0, 0]]) := by
  decide

/-! ## Claim C30: the discrepancy stack on an arbitrary bus -/

set_option maxRecDepth 1000000 in
/-- Evaluation for C30.  The first pass of `a_ds2431_search`, started with the variables
as the function initialises them, on a bus where the 64 two-bit reads all give `00`:
every position pushes its number on the discrepancy stack, so the pass ends with `l = 64`
and has stored `64` in `buffer[64]`, one entry past the 64-entry stack. -/
theorem search_stack_index_reaches_64 :
    (search_bytes scriptWire 8 0 ⟨fun _ => 0, 0, fun _ => 0, 0, 0, 64, fun _ _ => 0⟩
        ⟨List.replicate 64 0, []⟩).1 = none ∧
    (search_bytes scriptWire 8 0 ⟨fun _ => 0, 0, fun _ => 0, 0, 0, 64, fun _ _ => 0⟩
        ⟨List.replicate 64 0, []⟩).2.1.l = 64 ∧
    (search_bytes scriptWire 8 0 ⟨fun _ => 0, 0, fun _ => 0, 0, 0, 64, fun _ _ => 0⟩
        ⟨List.replicate 64 0, []⟩).2.1.buffer 64 = 64 := by
  refine ⟨?_, ?_, ?_⟩ <;> decide

/-! ## Claim C25: decoding of a byte read -/

theorem msb_step (v byte : Nat) (hb : byte < 256) :
    (((v % 256) <<< 7) ||| (byte >>> 1)) % 256 = 128 * (v % 2) + byte / 2 := by
  have h1 : byte >>> 1 = byte / 2 := Nat.shiftRight_one byte
  have h2 : (v % 256) <<< 7 = 2 ^ 7 * (v % 256) := by
    rw [Nat.shiftLeft_eq, Nat.mul_comm]
  have h3 : byte / 2 < 2 ^ 7 := by
    norm_num
    omega
  rw [h1, h2, ← Nat.mul_add_lt_is_or h3]
  norm_num
  omega

theorem sample_read_byte_loop (readBit : List Nat → Nat × Nat × List Nat)
    (hr : ∀ v rest, readBit (v :: rest) = (0, v % 256, rest)) :
    ∀ (samples : List Nat) (byte : Nat) (rest : List Nat), byte < 256 →
      read_byte_loop sampleLink readBit samples.length byte (samples ++ rest)
        = (0, samples.foldl (fun acc v => 128 * (v % 2) + acc / 2) byte, rest) := by
  intro samples
  induction samples with
  | nil =>
    intro byte rest _
    rfl
  | cons v vs ih =>
    intro byte rest hb
    simp only [List.length_cons, List.cons_append, read_byte_loop, hr, ne_eq,
      not_true_eq_false, if_false, List.foldl_cons]
    rw [msb_step v byte hb]
    exact ih _ rest (by omega)

theorem sample_read_bit (v : Nat) (rest : List Nat) :
    a_ds2431_read_bit sampleLink (v :: rest) = (0, v % 256, rest) := rfl

theorem sample_read_bit_overdrive (v : Nat) (rest : List Nat) :
    a_ds2431_read_bit_overdrive sampleLink (v :: rest) = (0, v % 256, rest) := rfl

/-- Claim C25.  On a line that delivers the sampled values `s0`, ..., `s7` to `bus_read`
in that order (arbitrary values, every capability call succeeding), `a_ds2431_read_byte`
and `a_ds2431_read_byte_overdrive` return the status `0` and the byte whose bit `i` is
the least significant bit of `s_i`, the other bits of the samples being discarded, and
consume exactly the eight samples; consequently the samples `(b >> i) & 1` of the bits of
a byte `b` give `b` back. -/
theorem read_byte_decodes (s0 s1 s2 s3 s4 s5 s6 s7 b : Nat) (rest : List Nat)
    (hb : b < 256) :
    a_ds2431_read_byte sampleLink (s0 :: s1 :: s2 :: s3 :: s4 :: s5 :: s6 :: s7 :: rest)
      = (0, s0 % 2 + 2 * (s1 % 2) + 4 * (s2 % 2) + 8 * (s3 % 2) + 16 * (s4 % 2)
          + 32 * (s5 % 2) + 64 * (s6 % 2) + 128 * (s7 % 2), rest) ∧
    a_ds2431_read_byte_overdrive sampleLink
        (s0 :: s1 :: s2 :: s3 :: s4 :: s5 :: s6 :: s7 :: rest)
      = (0, s0 % 2 + 2 * (s1 % 2) + 4 * (s2 % 2) + 8 * (s3 % 2) + 16 * (s4 % 2)
          + 32 * (s5 % 2) + 64 * (s6 % 2) + 128 * (s7 % 2), rest) ∧
    a_ds2431_read_byte sampleLink
        (((b >>> 0) &&& 1) :: ((b >>> 1) &&& 1) :: ((b >>> 2) &&& 1) :: ((b >>> 3) &&& 1) ::
          ((b >>> 4) &&& 1) :: ((b >>> 5) &&& 1) :: ((b >>> 6) &&& 1) :: ((b >>> 7) &&& 1) :: rest)
      = (0, b, rest) ∧
    a_ds2431_read_byte_overdrive sampleLink
        (((b >>> 0) &&& 1) :: ((b >>> 1) &&& 1) :: ((b >>> 2) &&& 1) :: ((b >>> 3) &&& 1) ::
          ((b >>> 4) &&& 1) :: ((b >>> 5) &&& 1) :: ((b >>> 6) &&& 1) :: ((b >>> 7) &&& 1) :: rest)
      = (0, b, rest) := by
  have key : ∀ (readBit : List Nat → Nat × Nat × List Nat),
      (∀ v rest, readBit (v :: rest) = (0, v % 256, rest)) →
      ∀ t0 t1 t2 t3 t4 t5 t6 t7 : Nat,
      read_byte_loop sampleLink readBit 8 0
          (t0 :: t1 :: t2 :: t3 :: t4 :: t5 :: t6 :: t7 :: rest)
        = (0, t0 % 2 + 2 * (t1 % 2) + 4 * (t2 % 2) + 8 * (t3 % 2) + 16 * (t4 % 2)
            + 32 * (t5 % 2) + 64 * (t6 % 2) + 128 * (t7 % 2), rest) := by
    intro readBit hr t0 t1 t2 t3 t4 t5 t6 t7
    have h := sample_read_byte_loop readBit hr [t0, t1, t2, t3, t4, t5, t6, t7] 0 rest
      (by norm_num)
    simp only [List.length_cons, List.length_nil, List.cons_append, List.nil_append,
      List.foldl_cons, List.foldl_nil] at h
    rw [h]
    congr 2
    omega
  have bits : ∀ i, (b >>> i) &&& 1 = b / 2 ^ i % 2 := by
    intro i
    rw [Nat.and_one_is_mod, Nat.shiftRight_eq_div_pow]
  have hsum : b / 2 ^ 0 % 2 % 2 + 2 * (b / 2 ^ 1 % 2 % 2) + 4 * (b / 2 ^ 2 % 2 % 2)
      + 8 * (b / 2 ^ 3 % 2 % 2) + 16 * (b / 2 ^ 4 % 2 % 2) + 32 * (b / 2 ^ 5 % 2 % 2)
      + 64 * (b / 2 ^ 6 % 2 % 2) + 128 * (b / 2 ^ 7 % 2 % 2) = b := by
    norm_num
    omega
  refine ⟨key _ sample_read_bit _ _ _ _ _ _ _ _,
    key _ sample_read_bit_overdrive _ _ _ _ _ _ _ _, ?_, ?_⟩
  · have h := key _ sample_read_bit ((b >>> 0) &&& 1) ((b >>> 1) &&& 1) ((b >>> 2) &&& 1)
      ((b >>> 3) &&& 1) ((b >>> 4) &&& 1) ((b >>> 5) &&& 1) ((b >>> 6) &&& 1) ((b >>> 7) &&& 1)
    simp only [bits] at h ⊢
    rw [hsum] at h
    exact h
  · have h := key _ sample_read_bit_overdrive ((b >>> 0) &&& 1) ((b >>> 1) &&& 1)
      ((b >>> 2) &&& 1) ((b >>> 3) &&& 1) ((b >>> 4) &&& 1) ((b >>> 5) &&& 1) ((b >>> 6) &&& 1)
      ((b >>> 7) &&& 1)
    simp only [bits] at h ⊢
    rw [hsum] at h
    exact h

/-- Witness of C25: the samples of the bits of `0xA5`, least significant bit first. -/
theorem read_byte_decodes_witness :
    a_ds2431_read_byte sampleLink
        (((0xA5 >>> 0) &&& 1) :: ((0xA5 >>> 1) &&& 1) :: ((0xA5 >>> 2) &&& 1) ::
          ((0xA5 >>> 3) &&& 1) :: ((0xA5 >>> 4) &&& 1) :: ((0xA5 >>> 5) &&& 1) ::
          ((0xA5 >>> 6) &&& 1) :: ((0xA5 >>> 7) &&& 1) :: [])
      = (0, 0xA5, []) :=
  (read_byte_decodes 0 0 0 0 0 0 0 0 0xA5 [] (by decide)).2.2.1

/-! ## Claim C24: the slots of a byte write -/

theorem byte_slots_shift (oneLow oneHigh zeroLow zeroHigh b : Nat) :
    ∀ n i, byte_slots oneLow oneHigh zeroLow zeroHigh b n (i + 1)
      = byte_slots oneLow oneHigh zeroLow zeroHigh (b >>> 1) n i := by
  intro n
  induction n with
  | zero =>
    intro i
    rfl
  | succ n ih =>
    intro i
    simp only [byte_slots]
    rw [ih (i + 1), Nat.testBit_shiftRight, Nat.add_comm 1 i]

theorem write_byte_loop_slots {σ : Type} (L : Link σ) (hw : ∀ v s, (L.bus_write v s).1 = 0)
    (oneLow oneHigh zeroLow zeroHigh : Nat) :
    ∀ (n byte : Nat) (s : σ × List Event),
      (write_byte_loop L.record oneLow oneHigh zeroLow zeroHigh n byte s).1 = 0 ∧
      (write_byte_loop L.record oneLow oneHigh zeroLow zeroHigh n byte s).2.2
        = s.2 ++ (byte_slots oneLow oneHigh zeroLow zeroHigh byte n 0 ++ [Event.enable_irq]) := by
  intro n
  induction n with
  | zero =>
    intro byte s
    exact ⟨rfl, rfl⟩
  | succ n ih =>
    intro byte s
    have hbit : (byte &&& 1 ≠ 0) ↔ byte.testBit 0 = true := by
      rw [Nat.and_one_is_mod, Nat.testBit_zero]
      simp
    have hw0 : ∀ v (u : σ × List Event), (L.record.bus_write v u).1 = 0 := fun v u => hw v u.1
    have hwl : ∀ v (u : σ × List Event),
        (L.record.bus_write v u).2.2 = u.2 ++ [Event.bus_write v 0] := by
      intro v u
      simp [Link.record, hw]
    have hd : ∀ k (u : σ × List Event),
        (L.record.delay_us k u).2 = u.2 ++ [Event.delay_us k] := fun _ _ => rfl
    by_cases hb : byte.testBit 0 = true
    · have hne : byte &&& 1 ≠ 0 := hbit.2 hb
      simp only [write_byte_loop, byte_slots, hb, if_true, hw0, ne_eq, hne,
        not_false_eq_true, not_true_eq_false, if_false]
      refine ⟨(ih _ _).1, ?_⟩
      rw [(ih _ _).2, byte_slots_shift, hd, hwl, hd, hwl]
      simp [write_slot, List.append_assoc]
    · have hne : ¬ (byte &&& 1 ≠ 0) := fun h => hb (hbit.1 h)
      simp only [write_byte_loop, byte_slots, hb, hw0, ne_eq, hne,
        not_false_eq_true, not_true_eq_false, if_false]
      refine ⟨(ih _ _).1, ?_⟩
      rw [(ih _ _).2, byte_slots_shift, hd, hwl, hd, hwl]
      simp [write_slot, List.append_assoc]

/-- Claim C24.  When every `bus_write` of the platform succeeds, `a_ds2431_write_byte`
returns `0` and its capability calls are `disable_irq`, then exactly eight write slots for
the bits `0`, ..., `7` of the byte in that order, then `enable_irq`; a slot is
`bus_write(0)`, a delay, `bus_write(1)`, a delay, with 2 us low and 65 us high when the
bit is `1` and 65 us low and 2 us high when it is `0`, 67 us in either case.
`a_ds2431_write_byte_overdrive` does the same with 1 us and 10 us for a `1` and 10 us and
2 us for a `0`, so at least 11 us a slot. -/
theorem write_byte_slots {σ : Type} (L : Link σ) (hw : ∀ v s, (L.bus_write v s).1 = 0)
    (b : Nat) (s : σ) (t : List Event) :
    (a_ds2431_write_byte L.record b (s, t)).1 = 0 ∧
    (a_ds2431_write_byte L.record b (s, t)).2.2
      = t ++ Event.disable_irq :: (byte_slots 2 65 65 2 b 8 0 ++ [Event.enable_irq]) ∧
    (a_ds2431_write_byte_overdrive L.record b (s, t)).1 = 0 ∧
    (a_ds2431_write_byte_overdrive L.record b (s, t)).2.2
      = t ++ Event.disable_irq :: (byte_slots 1 10 10 2 b 8 0 ++ [Event.enable_irq]) ∧
    byte_slots 2 65 65 2 b 8 0
      = (List.range 8).flatMap
          (fun i => if b.testBit i then write_slot 2 65 else write_slot 65 2) ∧
    byte_slots 1 10 10 2 b 8 0
      = (List.range 8).flatMap
          (fun i => if b.testBit i then write_slot 1 10 else write_slot 10 2) ∧
    delay_total (write_slot 2 65) = 67 ∧ delay_total (write_slot 65 2) = 67 ∧
    delay_total (write_slot 1 10) = 11 ∧ delay_total (write_slot 10 2) = 12 := by
  refine ⟨?_, ?_, ?_, ?_, ?_, ?_, rfl, rfl, rfl, rfl⟩
  · exact (write_byte_loop_slots L hw 2 65 65 2 8 b _).1
  · unfold a_ds2431_write_byte
    rw [(write_byte_loop_slots L hw 2 65 65 2 8 b _).2]
    simp [Link.record]
  · exact (write_byte_loop_slots L hw 1 10 10 2 8 b _).1
  · unfold a_ds2431_write_byte_overdrive
    rw [(write_byte_loop_slots L hw 1 10 10 2 8 b _).2]
    simp [Link.record]
  · simp [byte_slots, List.range, List.range.loop, List.flatMap]
  · simp [byte_slots, List.range, List.range.loop, List.flatMap]

/-- Witness of C24: the byte `0xA5` on the platform on which every transfer succeeds. -/
theorem write_byte_slots_witness :
    (a_ds2431_write_byte quietLink.record 0xA5 ((), [])).1 = 0 :=
  (write_byte_slots quietLink (fun _ _ => rfl) 0xA5 () []).1

/-! ## Claim C27: the CRC stored by a successful scratchpad write -/

theorem write_data_crc_value {σ : Type} (W : Wire σ) (wb : Nat → σ → Nat × σ) :
    ∀ (bs : List Nat) (crc : Nat) (s : σ), (write_data_crc W wb bs crc s).1 = 0 →
      (write_data_crc W wb bs crc s).2.1 = bs.foldl a_ds2431_crc16_update crc := by
  intro bs
  induction bs with
  | nil =>
    intro crc s _
    rfl
  | cons b bs ih =>
    intro crc s h
    unfold write_data_crc at h ⊢
    by_cases c : (wb b s).1 ≠ 0
    · simp [c] at h
    · simp only [c, if_false] at h ⊢
      exact ih _ _ h

theorem not16_not16 (c : Nat) (hc : c < 65536) : not16 (not16 c) = c := by
  unfold not16
  omega

theorem bytes8_lt (data : List Nat) (hd : ∀ b ∈ data, b < 256) : ∀ b ∈ bytes8 data, b < 256 := by
  intro b hb
  unfold bytes8 at hb
  rw [List.mem_map] at hb
  obtain ⟨i, _, rfl⟩ := hb
  rw [List.getD_eq_getElem?_getD]
  cases hi : data[i]? with
  | none => simp
  | some v =>
    simp only [Option.getD_some]
    exact hd v (List.getElem?_mem hi)

theorem ite_ind_neg {α : Type} {c : Prop} [Decidable c] {P : α → Prop} {a b : α}
    (ha : P a) (hb : ¬ c → P b) : P (if c then a else b) := by
  split
  · exact ha
  · exact hb ‹_›

theorem write_scratchpad_body_crc16 {σ : Type} (W : Wire σ) (od : Bool) (address : Nat)
    (data : List Nat) (s : σ) (hrb : ∀ s, (W.rb od s).2.1 < 256) (hd : ∀ b ∈ data, b < 256) :
    StoresCrc (crc16 ([0x0F, address &&& 0xFF, (address >>> 8) &&& 0xFF] ++ bytes8 data))
      (write_scratchpad_body W od address data s) := by
  unfold write_scratchpad_body
  dsimp only
  refine ite_ind_neg (by simp [StoresCrc]) (fun _ => ?_)
  refine ite_ind_neg (by simp [StoresCrc]) (fun _ => ?_)
  refine ite_ind_neg (by simp [StoresCrc]) (fun _ => ?_)
  refine ite_ind_neg (by simp [StoresCrc]) (fun c4 => ?_)
  refine ite_ind_neg (by simp [StoresCrc]) (fun _ => ?_)
  refine ite_ind_neg (by simp [StoresCrc]) (fun _ => ?_)
  refine ite_ind_neg (by simp [StoresCrc]) (fun _ => ?_)
  refine ite_ind_neg (by simp [StoresCrc]) (fun _ => ?_)
  refine ite_ind_neg (by simp [StoresCrc]) (fun c9 => ?_)
  intro _
  have hw := write_data_crc_value W (W.wb od) _ _ _ (of_not_not c4)
  rw [hw] at c9
  have hc : crc16 ([0x0F, address &&& 0xFF, (address >>> 8) &&& 0xFF] ++ bytes8 data)
      = List.foldl a_ds2431_crc16_update
          (a_ds2431_crc16_update (a_ds2431_crc16_update
            (a_ds2431_crc16_update 0 DS2431_CMD_WRITE_SCRATCHPAD) (address >>> 0 &&& 255))
            (address >>> 8 &&& 255)) (bytes8 data) := by
    simp [crc16, DS2431_CMD_WRITE_SCRATCHPAD]
  rw [← hc] at c9
  have hlt : crc16 ([0x0F, address &&& 0xFF, (address >>> 8) &&& 0xFF] ++ bytes8 data)
      < 65536 := by
    apply crc16_lt
    intro b hb
    simp only [List.cons_append, List.nil_append, List.mem_cons] at hb
    rcases hb with rfl | rfl | rfl | hb
    · norm_num
    · exact Nat.lt_of_le_of_lt Nat.and_le_right (by norm_num)
    · exact Nat.lt_of_le_of_lt Nat.and_le_right (by norm_num)
    · exact bytes8_lt data hd b hb
  have h2 := (crc_two_more _ _ _ hlt (hrb _) (hrb _)).1 (of_not_not c9)
  show some (not16 _) = some _
  rw [h2, not16_not16 _ hlt]

theorem read_byte_loop_lt {σ : Type} (L : Link σ) (readBit : σ → Nat × Nat × σ) :
    ∀ (n byte : Nat) (s : σ), byte < 256 → (read_byte_loop L readBit n byte s).2.1 < 256 := by
  intro n
  induction n with
  | zero =>
    intro byte s hb
    exact hb
  | succ n ih =>
    intro byte s hb
    unfold read_byte_loop
    dsimp only
    split
    · exact hb
    · exact ih _ _ (Nat.mod_lt _ (by norm_num))

theorem ofLink_rb_lt {σ : Type} (L : Link σ) (od : Bool) (s : σ) :
    ((Wire.ofLink L).rb od s).2.1 < 256 := by
  cases od
  · exact read_byte_loop_lt L _ 8 0 _ (by norm_num)
  · exact read_byte_loop_lt L _ 8 0 _ (by norm_num)

set_option maxRecDepth 1000000 in
/-- Claim C27.  Over any platform, for data bytes below 256, whenever
`ds2431_write_scratchpad` returns `0` the value it stored through `crc16`, the complement
of `(crc_hi << 8) | crc_lo` of the two CRC bytes read back, is the running CRC that
`a_ds2431_crc16_update` computes from `0` over the eleven bytes
`[0x0F, address & 0xFF, address >> 8, data[0], ..., data[7]]`, which is their
CRC-16/ARC. -/
theorem write_scratchpad_stores_crc_of_sent {σ : Type} (L : Link σ) (handle : Option Handle)
    (address : Nat) (data : List Nat) (s : σ) (hd : ∀ b ∈ data, b < 256)
    (h0 : (ds2431_write_scratchpad (Wire.ofLink L) handle address data s).1 = 0) :
    (ds2431_write_scratchpad (Wire.ofLink L) handle address data s).2.1
      = some (crc16 ([0x0F, address &&& 0xFF, address >>> 8] ++ bytes8 data)) ∧
    crc16 ([0x0F, address &&& 0xFF, address >>> 8] ++ bytes8 data)
      = crc16_arc ([0x0F, address &&& 0xFF, address >>> 8] ++ bytes8 data) := by
  cases handle with
  | none => exact absurd h0 (by simp [ds2431_write_scratchpad])
  | some h =>
    have key : address < 0x80 ∧
        StoresCrc (crc16 ([0x0F, address &&& 0xFF, (address >>> 8) &&& 0xFF] ++ bytes8 data))
          (ds2431_write_scratchpad (Wire.ofLink L) (some h) address data s) := by
      by_cases ha : address < 0x80
      · refine ⟨ha, ?_⟩
        unfold ds2431_write_scratchpad
        dsimp only
        refine ite_ind (by simp [StoresCrc]) ?_
        refine ite_ind (by simp [StoresCrc]) ?_
        refine ite_ind (by simp [StoresCrc]) ?_
        refine ite_ind (by simp [StoresCrc]) ?_
        exact write_scratchpad_body_crc16 _ _ _ _ _ (ofLink_rb_lt L _) hd
      · exfalso
        have hge : address ≥ 0x0080 := by omega
        unfold ds2431_write_scratchpad at h0
        dsimp only at h0
        by_cases hi : h.inited ≠ 1
        · rw [if_pos hi] at h0
          simp at h0
        · rw [if_neg hi, if_pos hge] at h0
          simp at h0
    obtain ⟨ha, hk⟩ := key
    have e8 : address >>> 8 = 0 := by
      rw [Nat.shiftRight_eq_div_pow]
      exact Nat.div_eq_of_lt (by norm_num; omega)
    have e8b : (address >>> 8) &&& 0xFF = 0 := by
      rw [e8]
      rfl
    rw [e8b] at hk
    rw [e8]
    refine ⟨hk h0, crc16_eq_arc _ ?_⟩
    intro b hb
    simp only [List.cons_append, List.nil_append, List.mem_cons] at hb
    rcases hb with rfl | rfl | rfl | hb
    · norm_num
    · exact Nat.lt_of_le_of_lt Nat.and_le_right (by norm_num)
    · norm_num
    · exact bytes8_lt data hd b hb

set_option maxRecDepth 1000000 in
/-- Witness of C27: skip-ROM mode, address `0`, data `[1..8]` on a line whose samples are
the presence pulse, then the bits of the CRC bytes `0x3F`, `0x2F` and of the status
`0xFF`, least significant bit first. -/
theorem write_scratchpad_stores_crc_of_sent_witness :
    (ds2431_write_scratchpad (Wire.ofLink sampleLink) (some ⟨1, 0, []⟩) 0
        [1, 2, 3, 4, 5, 6, 7, 8]
        [0, 1, 1, 1, 1, 1, 1, 1, 0, 0, 1, 1, 1, 1, 0, 1, 0, 0, 1, 1, 1, 1, 1, 1, 1, 1]).2.1
      = some (crc16 ([0x0F, 0 &&& 0xFF, 0 >>> 8] ++ bytes8 [1, 2, 3, 4, 5, 6, 7, 8])) :=
  (write_scratchpad_stores_crc_of_sent sampleLink (some ⟨1, 0, []⟩) 0 [1, 2, 3, 4, 5, 6, 7, 8]
    [0, 1, 1, 1, 1, 1, 1, 1, 0, 0, 1, 1, 1, 1, 0, 1, 0, 0, 1, 1, 1, 1, 1, 1, 1, 1]
    (by decide) (by decide)).1

/-! ## Claim C26: early end of the search -/

theorem calm_refl (t : List (WireEvent × Nat)) : Calm t t :=
  ⟨[], by simp, by simp [NoEarly], by simp [NoReset]⟩

theorem calm_trans {t t1 t2 : List (WireEvent × Nat)} (h1 : Calm t t1) (h2 : Calm t1 t2) :
    Calm t t2 := by
  obtain ⟨e1, rfl, a1, b1⟩ := h1
  obtain ⟨e2, rfl, a2, b2⟩ := h2
  refine ⟨e1 ++ e2, by simp, ?_, ?_⟩
  · intro e he
    rcases List.mem_append.1 he with h | h
    · exact a1 e h
    · exact a2 e h
  · intro e he
    rcases List.mem_append.1 he with h | h
    · exact b1 e h
    · exact b2 e h

theorem calm_one (t : List (WireEvent × Nat)) (e : WireEvent × Nat)
    (h1 : both_ones e = false) (h2 : is_reset e = false) : Calm t (t ++ [e]) :=
  ⟨[e], rfl, by simpa [NoEarly] using h1, by simpa [NoReset] using h2⟩

theorem calm_debug_print {σ : Type} (W : Wire σ) (m : String)
    {t : List (WireEvent × Nat)} (s : σ × List (WireEvent × Nat)) (h : Calm t s.2) :
    Calm t (W.record.debug_print m s).2 :=
  calm_trans h (calm_one _ _ rfl rfl)

theorem calm_delay_us {σ : Type} (W : Wire σ) (n : Nat)
    {t : List (WireEvent × Nat)} (s : σ × List (WireEvent × Nat)) (h : Calm t s.2) :
    Calm t (W.record.delay_us n s).2 :=
  calm_trans h (calm_one _ _ rfl rfl)

theorem calm_write_bit {σ : Type} (W : Wire σ) (b : Nat)
    {t : List (WireEvent × Nat)} (s : σ × List (WireEvent × Nat)) (h : Calm t s.2) :
    Calm t (W.record.write_bit b s).2.2 :=
  calm_trans h (calm_one _ _ rfl rfl)

theorem calm_write_byte {σ : Type} (W : Wire σ) (b : Nat)
    {t : List (WireEvent × Nat)} (s : σ × List (WireEvent × Nat)) (h : Calm t s.2) :
    Calm t (W.record.write_byte b s).2.2 :=
  calm_trans h (calm_one _ _ rfl rfl)

theorem calm_read_2bit {σ : Type} (W : Wire σ) (s : σ × List (WireEvent × Nat))
    (h : (W.record.read_2bit s).1 ≠ 0 ∨ (W.record.read_2bit s).2.1 &&& 0x03 ≠ 0x03) :
    Calm s.2 (W.record.read_2bit s).2.2.2 := by
  refine calm_one _ _ ?_ rfl
  show both_ones (WireEvent.read_2bit (W.read_2bit s.1).2.1, (W.read_2bit s.1).1) = false
  change (W.read_2bit s.1).1 ≠ 0 ∨ (W.read_2bit s.1).2.1 &&& 0x03 ≠ 0x03 at h
  cases hs : (W.read_2bit s.1).1 with
  | zero =>
    rw [hs] at h
    rcases h with h | h
    · exact absurd rfl h
    · simp [both_ones, h]
  | succ k => rfl

theorem early_read_2bit {σ : Type} (W : Wire σ) (s : σ × List (WireEvent × Nat))
    (h1 : (W.record.read_2bit s).1 = 0) (h2 : (W.record.read_2bit s).2.1 &&& 0x03 = 0x03) :
    ∃ e, (W.record.read_2bit s).2.2.2 = s.2 ++ [e] ∧ both_ones e = true ∧ is_reset e = false := by
  refine ⟨(WireEvent.read_2bit (W.read_2bit s.1).2.1, (W.read_2bit s.1).1), rfl, ?_, rfl⟩
  change (W.read_2bit s.1).1 = 0 at h1
  change (W.read_2bit s.1).2.1 &&& 0x03 = 0x03 at h2
  rw [h1]
  simp [both_ones, h2]

theorem passPart_calm {σ : Type} {t : List (WireEvent × Nat)} {st : SearchState}
    {r : Option Nat × SearchState × (σ × List (WireEvent × Nat))}
    (h0 : r.1 ≠ some 0) (hn : r.2.1.num = st.num)
    (hm : r.2.1.number = st.number) (hc : Calm t r.2.2.2) : PassPart t st r := by
  obtain ⟨ext, e, a, b⟩ := hc
  exact ⟨ext, e, b, hn, Or.inl ⟨h0, a, hm⟩⟩

theorem passPart_seq {σ : Type} {t : List (WireEvent × Nat)} {st : SearchState}
    {r1 r2 : Option Nat × SearchState × (σ × List (WireEvent × Nat))}
    (h1 : PassPart t st r1) (hnone : r1.1 = none) (h2 : PassPart r1.2.2.2 r1.2.1 r2) :
    PassPart t st r2 := by
  obtain ⟨e1, l1, nr1, n1, c1⟩ := h1
  obtain ⟨e2, l2, nr2, n2, c2⟩ := h2
  have ne1 : NoEarly e1 ∧ r1.2.1.number = st.number := by
    rcases c1 with ⟨_, a, b⟩ | ⟨a, _⟩
    · exact ⟨a, b⟩
    · rw [hnone] at a
      simp at a
  refine ⟨e1 ++ e2, by rw [l2, l1, List.append_assoc], ?_, by rw [n2, n1], ?_⟩
  · intro e he
    rcases List.mem_append.1 he with h | h
    · exact nr1 e h
    · exact nr2 e h
  · rcases c2 with ⟨a, b, c⟩ | ⟨a, b, pre, e, he, hpre, hb⟩
    · refine Or.inl ⟨a, ?_, by rw [c, ne1.2]⟩
      intro e he
      rcases List.mem_append.1 he with h | h
      · exact ne1.1 e h
      · exact b e h
    · refine Or.inr ⟨a, by rw [b, n1], e1 ++ pre, e, by rw [he, List.append_assoc], ?_, hb⟩
      intro x hx
      rcases List.mem_append.1 hx with h | h
      · exact ne1.1 x h
      · exact hpre x h

theorem two_bits_cases (v : Nat) (h1 : ¬ v &&& 0x03 = 0x01) (h2 : ¬ v &&& 0x03 = 0x02)
    (h0 : ¬ v &&& 0x03 = 0x00) : v &&& 0x03 = 0x03 := by
  have e : v &&& 0x03 = v % 4 := Nat.and_pow_two_sub_one_eq_mod v 2
  rw [e] at h1 h2 h0 ⊢
  omega

theorem search_bit_early {σ : Type} (W : Wire σ) (m n : Nat) (st : SearchState) (s : σ)
    (h1 : (W.read_2bit s).1 = 0) (h2 : (W.read_2bit s).2.1 &&& 0x03 = 0x03) :
    search_bit W m n st s
      = (some 0, { st with s := st.s >>> 1, number := st.num }, (W.read_2bit s).2.2) := by
  unfold search_bit
  simp [h1, h2]

theorem search_bit_part {σ : Type} (W : Wire σ) (m n : Nat) (st : SearchState)
    (s : σ × List (WireEvent × Nat)) : PassPart s.2 st (search_bit W.record m n st s) := by
  by_cases hr : (W.record.read_2bit s).1 = 0 ∧ (W.record.read_2bit s).2.1 &&& 0x03 = 0x03
  · rw [search_bit_early _ _ _ _ _ hr.1 hr.2]
    obtain ⟨e, he, hb, hrs⟩ := early_read_2bit W s hr.1 hr.2
    refine ⟨[e], he, by simpa [NoReset] using hrs, rfl,
      Or.inr ⟨rfl, rfl, [], e, rfl, by simp [NoEarly], hb⟩⟩
  · have hc : Calm s.2 (W.record.read_2bit s).2.2.2 := by
      apply calm_read_2bit
      by_cases h1 : (W.record.read_2bit s).1 = 0
      · exact Or.inr (fun h2 => hr ⟨h1, h2⟩)
      · exact Or.inl h1
    unfold search_bit
    dsimp only
    split
    · exact passPart_calm (by simp) rfl rfl (calm_debug_print _ _ _ hc)
    · rename_i h1
      split
      · split
        · exact passPart_calm (by simp) rfl rfl
            (calm_debug_print _ _ _ (calm_write_bit _ _ _ hc))
        · exact passPart_calm (by simp) rfl rfl
            (calm_delay_us _ _ _ (calm_write_bit _ _ _ hc))
      · split
        · split
          · exact passPart_calm (by simp) rfl rfl
              (calm_debug_print _ _ _ (calm_write_bit _ _ _ hc))
          · exact passPart_calm (by simp) rfl rfl
              (calm_delay_us _ _ _ (calm_write_bit _ _ _ hc))
        · split
          · split
            · split
              · exact passPart_calm (by simp) rfl rfl
                  (calm_debug_print _ _ _ (calm_write_bit _ _ _ hc))
              · exact passPart_calm (by simp) rfl rfl
                  (calm_delay_us _ _ _ (calm_write_bit _ _ _ hc))
            · split
              · split
                · exact passPart_calm (by simp) rfl rfl
                    (calm_debug_print _ _ _ (calm_write_bit _ _ _ hc))
                · exact passPart_calm (by simp) rfl rfl
                    (calm_delay_us _ _ _ (calm_write_bit _ _ _ hc))
              · split
                · exact passPart_calm (by simp) rfl rfl
                    (calm_debug_print _ _ _ (calm_write_bit _ _ _ hc))
                · exact passPart_calm (by simp) rfl rfl
                    (calm_delay_us _ _ _ (calm_write_bit _ _ _ hc))
          · rename_i k1 k2 k0
            exact absurd ⟨of_not_not h1, two_bits_cases _ k1 k2 k0⟩ hr

theorem search_bits_part {σ : Type} (W : Wire σ) (m : Nat) :
    ∀ (k n : Nat) (st : SearchState) (s : σ × List (WireEvent × Nat)),
      PassPart s.2 st (search_bits W.record m k n st s) := by
  intro k
  induction k with
  | zero =>
    intro n st s
    exact passPart_calm (by simp [search_bits]) rfl rfl (calm_refl _)
  | succ k ih =>
    intro n st s
    have hb := search_bit_part W m n st s
    unfold search_bits
    dsimp only
    split
    · rename_i c hc
      have e : ((some c, (search_bit W.record m n st s).2.1, (search_bit W.record m n st s).2.2)
          : Option Nat × SearchState × (σ × List (WireEvent × Nat)))
          = search_bit W.record m n st s := by
        rw [← hc]
      rw [e]
      exact hb
    · rename_i hc
      exact passPart_seq hb hc (ih _ _ _)

theorem search_bytes_part {σ : Type} (W : Wire σ) :
    ∀ (k m : Nat) (st : SearchState) (s : σ × List (WireEvent × Nat)),
      PassPart s.2 st (search_bytes W.record k m st s) := by
  intro k
  induction k with
  | zero =>
    intro m st s
    exact passPart_calm (by simp [search_bytes]) rfl rfl (calm_refl _)
  | succ k ih =>
    intro m st s
    have hb := search_bits_part W m 8 0 st s
    unfold search_bytes
    dsimp only
    split
    · rename_i c hc
      have e : ((some c, (search_bits W.record m 8 0 st s).2.1,
            (search_bits W.record m 8 0 st s).2.2)
          : Option Nat × SearchState × (σ × List (WireEvent × Nat)))
          = search_bits W.record m 8 0 st s := by
        rw [← hc]
      rw [e]
      exact hb
    · rename_i hc
      obtain ⟨e1, l1, nr1, n1, c1⟩ := hb
      have ne1 : NoEarly e1 ∧ (search_bits W.record m 8 0 st s).2.1.number = st.number := by
        rcases c1 with ⟨_, a, b⟩ | ⟨a, _⟩
        · exact ⟨a, b⟩
        · rw [hc] at a
          simp at a
      refine @passPart_seq _ _ _ (none, _, (search_bits W.record m 8 0 st s).2.2) _ ?_ rfl
        (ih _ _ _)
      exact ⟨e1, l1, nr1, n1, Or.inl ⟨by simp, ne1.1, ne1.2⟩⟩

theorem search_bit_rows {σ : Type} (W : Wire σ) (m n : Nat) (st : SearchState) (s : σ) :
    (search_bit W m n st s).2.1.num = st.num ∧ (search_bit W m n st s).2.1.pid = st.pid := by
  unfold search_bit
  dsimp only
  repeat' split
  all_goals exact ⟨rfl, rfl⟩

theorem search_bits_rows {σ : Type} (W : Wire σ) (m : Nat) :
    ∀ (k n : Nat) (st : SearchState) (s : σ),
      (search_bits W m k n st s).2.1.num = st.num ∧
        (search_bits W m k n st s).2.1.pid = st.pid := by
  intro k
  induction k with
  | zero =>
    intro n st s
    exact ⟨rfl, rfl⟩
  | succ k ih =>
    intro n st s
    have hb := search_bit_rows W m n st s
    unfold search_bits
    dsimp only
    split
    · exact hb
    · obtain ⟨a, b⟩ := ih (n + 1) (search_bit W m n st s).2.1 (search_bit W m n st s).2.2
      exact ⟨a.trans hb.1, b.trans hb.2⟩

theorem search_bytes_rows {σ : Type} (W : Wire σ) :
    ∀ (k m : Nat) (st : SearchState) (s : σ),
      (search_bytes W k m st s).2.1.num = st.num ∧
        ∀ i, i ≠ st.num → (search_bytes W k m st s).2.1.pid i = st.pid i := by
  intro k
  induction k with
  | zero =>
    intro m st s
    exact ⟨rfl, fun _ _ => rfl⟩
  | succ k ih =>
    intro m st s
    have hb := search_bits_rows W m 8 0 st s
    unfold search_bytes
    dsimp only
    split
    · exact ⟨hb.1, fun i _ => by rw [hb.2]⟩
    · obtain ⟨a, b⟩ := ih (m + 1)
        { (search_bits W m 8 0 st s).2.1 with
            pid := Function.update (search_bits W m 8 0 st s).2.1.pid
              (search_bits W m 8 0 st s).2.1.num
              (Function.update ((search_bits W m 8 0 st s).2.1.pid
                (search_bits W m 8 0 st s).2.1.num) m (search_bits W m 8 0 st s).2.1.s),
            s := 0 }
        (search_bits W m 8 0 st s).2.2
      refine ⟨a.trans hb.1, fun i hi => ?_⟩
      rw [b i (by rw [hb.1]; exact hi)]
      show Function.update _ _ _ i = _
      rw [Function.update_noteq (by rw [hb.1]; exact hi), hb.2]

theorem search_passes_rows {σ : Type} (W : Wire σ) (cmd : Nat) :
    ∀ (fuel : Nat) (st : SearchState) (s : σ) (r : Nat × SearchState × σ),
      st.num ≤ st.number → st.number < 255 → search_passes W cmd fuel st s = some r →
      ∀ i, i < st.num → r.2.1.pid i = st.pid i := by
  intro fuel
  induction fuel with
  | zero =>
    intro st s r _ _ hr
    simp [search_passes] at hr
  | succ fuel ih =>
    intro st s r h1 h2 hr i hi
    unfold search_passes at hr
    dsimp only at hr
    have hrows := search_bytes_rows W 8 0 st (W.write_byte cmd (W.reset s).2).2
    split at hr
    · simp only [Option.some.injEq] at hr
      subst hr
      rfl
    · split at hr
      · simp only [Option.some.injEq] at hr
        subst hr
        rfl
      · split at hr
        · simp only [Option.some.injEq] at hr
          subst hr
          exact hrows.2 i (by omega)
        · rename_i hc
          obtain ⟨k1, k2⟩ := search_bytes_keeps W 8 0 st _ hc
          split at hr
          · simp only [Option.some.injEq] at hr
            subst hr
            exact hrows.2 i (by omega)
          · rename_i hle
            split at hr
            · simp only [k1, k2, not_lt] at hle
              have hmod : (st.num + 1) % 256 = st.num + 1 := by omega
              have := ih _ _ r (by simp only [k1, k2]; omega) (by simp only [k2]; exact h2) hr i
                (by simp only [k1]; omega)
              rw [this]
              exact hrows.2 i (by omega)
            · simp only [Option.some.injEq] at hr
              subst hr
              exact hrows.2 i (by omega)

theorem noEarly_append {a b : List (WireEvent × Nat)} (ha : NoEarly a) (hb : NoEarly b) :
    NoEarly (a ++ b) := by
  intro e he
  rcases List.mem_append.1 he with h | h
  · exact ha e h
  · exact hb e h

theorem countP_noReset {a : List (WireEvent × Nat)} (ha : NoReset a) :
    a.countP is_reset = 0 := by
  rw [List.countP_eq_zero]
  intro e he
  rw [ha e he]
  simp

theorem pass_prefix {σ : Type} (W : Wire σ) (cmd : Nat) (s : σ × List (WireEvent × Nat)) :
    ∃ a b, (W.record.reset s).2.2 = s.2 ++ [(WireEvent.reset, a)] ∧
      (W.record.write_byte cmd (W.record.reset s).2).2.2
        = s.2 ++ [(WireEvent.reset, a), (WireEvent.write_byte cmd, b)] :=
  ⟨(W.reset s.1).1, (W.write_byte cmd (W.reset s.1).2).1, rfl, by simp [Wire.record]⟩

theorem search_passes_out {σ : Type} (W : Wire σ) (cmd : Nat) :
    ∀ (fuel : Nat) (st : SearchState) (s : σ × List (WireEvent × Nat))
      (r : Nat × SearchState × (σ × List (WireEvent × Nat))),
      st.num ≤ st.number → st.number < 255 → search_passes W.record cmd fuel st s = some r →
      PassesOut s.2 st r := by
  intro fuel
  induction fuel with
  | zero =>
    intro st s r _ _ hr
    simp [search_passes] at hr
  | succ fuel ih =>
    intro st s r h1 h2 hr
    unfold search_passes at hr
    dsimp only at hr
    obtain ⟨a, b, l0, l1⟩ := pass_prefix W cmd s
    have hpart := search_bytes_part W 8 0 st (W.record.write_byte cmd (W.record.reset s).2).2
    rw [l1] at hpart
    have hpre : NoEarly [(WireEvent.reset, a), (WireEvent.write_byte cmd, b)] := by
      intro e he
      simp only [List.mem_cons, List.mem_singleton, List.not_mem_nil, or_false] at he
      rcases he with rfl | rfl <;> rfl
    split at hr
    · simp only [Option.some.injEq] at hr
      subst hr
      refine ⟨[(WireEvent.reset, a), (WireEvent.debug_print "ds2431: reset failed.\n", 0)],
        ?_, Or.inl ?_⟩
      · show (W.record.reset s).2.2 ++ _ = _
        rw [l0]
        simp
      · intro e he
        simp only [List.mem_cons, List.mem_singleton, List.not_mem_nil, or_false] at he
        rcases he with rfl | rfl <;> rfl
    · split at hr
      · simp only [Option.some.injEq] at hr
        subst hr
        refine ⟨[(WireEvent.reset, a), (WireEvent.write_byte cmd, b),
          (WireEvent.debug_print "ds2431: write command failed.\n", 0)], ?_, Or.inl ?_⟩
        · show (W.record.write_byte cmd (W.record.reset s).2).2.2 ++ _ = _
          rw [l1]
          simp
        · intro e he
          simp only [List.mem_cons, List.mem_singleton, List.not_mem_nil, or_false] at he
          rcases he with rfl | rfl | rfl <;> rfl
      · obtain ⟨ep, lp, nrp, np, cp⟩ := hpart
        split at hr
        · rename_i c hc
          simp only [Option.some.injEq] at hr
          subst hr
          refine ⟨[(WireEvent.reset, a), (WireEvent.write_byte cmd, b)] ++ ep,
            by rw [lp, List.append_assoc], ?_⟩
          rcases cp with ⟨_, ne, _⟩ | ⟨c0, nm, pre, e, he, npre, hb⟩
          · exact Or.inl (noEarly_append hpre ne)
          · refine Or.inr ⟨[(WireEvent.reset, a), (WireEvent.write_byte cmd, b)] ++ pre, e,
              by rw [he, List.append_assoc], noEarly_append hpre npre, hb, ?_, ?_⟩
            · rw [hc] at c0
              simpa using c0
            · show _ = (search_bytes W.record 8 0 st _).2.1.number + 1
              rw [nm, List.countP_append, countP_noReset nrp]
              rfl
        · rename_i hc
          obtain ⟨k1, k2⟩ := search_bytes_keeps W.record 8 0 st _ hc
          have nep : NoEarly ep := by
            rcases cp with ⟨_, ne, _⟩ | ⟨c0, _⟩
            · exact ne
            · rw [hc] at c0
              simp at c0
          split at hr
          · simp only [Option.some.injEq] at hr
            subst hr
            exact ⟨[(WireEvent.reset, a), (WireEvent.write_byte cmd, b)] ++ ep,
              by rw [lp, List.append_assoc], Or.inl (noEarly_append hpre nep)⟩
          · rename_i hle
            split at hr
            · simp only [k1, k2, not_lt] at hle
              have hmod : (st.num + 1) % 256 = st.num + 1 := by omega
              obtain ⟨er, lr, cr⟩ := ih _ _ r (by simp only [k1, k2]; omega)
                (by simp only [k2]; exact h2) hr
              refine ⟨[(WireEvent.reset, a), (WireEvent.write_byte cmd, b)] ++ ep ++ er,
                by rw [lr, lp]; simp, ?_⟩
              rcases cr with ne | ⟨pre, e, he, npre, hb, r0, hcount⟩
              · exact Or.inl (noEarly_append (noEarly_append hpre nep) ne)
              · refine Or.inr ⟨[(WireEvent.reset, a), (WireEvent.write_byte cmd, b)] ++ ep ++ pre,
                  e, by rw [he]; simp, noEarly_append (noEarly_append hpre nep) npre, hb, r0, ?_⟩
                simp only [k1, hmod] at hcount
                rw [List.countP_append, List.countP_append, countP_noReset nrp, ← hcount]
                have e1 : List.countP is_reset
                    [(WireEvent.reset, a), (WireEvent.write_byte cmd, b)] = 1 := rfl
                rw [e1]
                omega
            · simp only [Option.some.injEq] at hr
              subst hr
              exact ⟨[(WireEvent.reset, a), (WireEvent.write_byte cmd, b)] ++ ep,
                by rw [lp, List.append_assoc], Or.inl (noEarly_append hpre nep)⟩

theorem last_of_noEarly {pre a b : List (WireEvent × Nat)} {e x : WireEvent × Nat}
    (h : pre ++ [e] = a ++ x :: b) (hpre : NoEarly pre) (hx : both_ones x = true) : b = [] := by
  rcases List.eq_nil_or_concat b with hb | ⟨b1, y, hb⟩
  · exact hb
  · exfalso
    subst hb
    have h2 : pre ++ [e] = (a ++ x :: b1) ++ [y] := by
      rw [h]
      simp
    have h3 := List.append_inj_left' h2 rfl
    have hm : x ∈ pre := by
      rw [h3]
      simp
    rw [hpre x hm] at hx
    exact absurd hx (by decide)

theorem search_rom_out {σ : Type} (W : Wire σ) (handle : Option Handle)
    (rom : Nat → Nat → Nat) (num : Nat) (s : σ × List (WireEvent × Nat)) :
    ∃ r ext, ds2431_search_rom W.record handle rom num s = some r ∧ r.2.2.2.2 = s.2 ++ ext ∧
      (NoEarly ext ∨
        (∃ pre e, ext = pre ++ [e] ∧ NoEarly pre ∧ both_ones e = true ∧ r.1 = 0 ∧
          ext.countP is_reset = r.2.1 + 1)) := by
  cases handle with
  | none => exact ⟨_, [], rfl, by simp, Or.inl (by simp [NoEarly])⟩
  | some h =>
    unfold ds2431_search_rom
    dsimp only
    split
    · exact ⟨_, [], rfl, by simp, Or.inl (by simp [NoEarly])⟩
    · unfold a_ds2431_search
      split
      · refine ⟨_, [(WireEvent.debug_print
          "ds2431: number is over DS2431_MAX_SEARCH_SIZE.\n", 0)], rfl, rfl, Or.inl ?_⟩
        intro e he
        simp only [List.mem_singleton] at he
        subst he
        rfl
      · rename_i hn
        have hn64 : num ≤ 64 := by
          simpa [DS2431_MAX_SEARCH_SIZE] using hn
        obtain ⟨r, hr⟩ := search_passes_total W.record DS2431_CMD_SEARCH_ROM (num + 1)
          ⟨fun _ => 0, 0, fun _ => 0, 0, 0, num, rom⟩ s (Nat.zero_le _)
          (by simp only; omega) (by simp only; omega)
        obtain ⟨ext, le, ce⟩ := search_passes_out W DS2431_CMD_SEARCH_ROM (num + 1)
          ⟨fun _ => 0, 0, fun _ => 0, 0, 0, num, rom⟩ s r (Nat.zero_le _)
          (by simp only; omega) hr
        rw [hr]
        refine ⟨_, ext, rfl, le, ?_⟩
        rcases ce with ne | ⟨pre, e, he, npre, hb, r0, hcount⟩
        · exact Or.inl ne
        · exact Or.inr ⟨pre, e, he, npre, hb, r0, by simpa using hcount⟩

/-- Claim C26.  Whatever the transport does, `ds2431_search_rom` returns, and whenever one
of its calls is a successful double read whose two bits are both `1`, that call is its last
call (no bit is written back, nothing is printed), the status is `0` and `*num` is the
number of passes completed before, one for each bus reset but the last.  A bit position at
which the double read succeeds with two ones returns `0` at once with `*number = num`, the
state being that after the double read; the rows below `num` are left as they are by every
pass that follows, however it ends; in particular, when the reset and the command byte
succeed and the first double read gives two ones, the search returns `0` with `*num = 0`
and the ROM array untouched. -/
theorem search_early_end {σ : Type} (W : Wire σ) (handle : Option Handle)
    (rom : Nat → Nat → Nat) (num : Nat) (s : σ) (t : List (WireEvent × Nat)) :
    (∃ r ext, ds2431_search_rom W.record handle rom num (s, t) = some r ∧
      r.2.2.2.2 = t ++ ext ∧
      ∀ a e b, ext = a ++ e :: b → both_ones e = true →
        b = [] ∧ r.1 = 0 ∧ r.2.1 + 1 = ext.countP is_reset) ∧
    (∀ m n st u, (W.read_2bit u).1 = 0 → (W.read_2bit u).2.1 &&& 0x03 = 0x03 →
      search_bit W m n st u
        = (some 0, { st with s := st.s >>> 1, number := st.num }, (W.read_2bit u).2.2)) ∧
    (∀ cmd fuel st u r, st.num ≤ st.number → st.number < 255 →
      search_passes W cmd fuel st u = some r → ∀ i, i < st.num → r.2.1.pid i = st.pid i) ∧
    (∀ h, handle = some h → h.inited = 1 → num ≤ 64 → (W.reset s).1 = 0 →
      (W.write_byte DS2431_CMD_SEARCH_ROM (W.reset s).2).1 = 0 →
      (W.read_2bit (W.write_byte DS2431_CMD_SEARCH_ROM (W.reset s).2).2).1 = 0 →
      (W.read_2bit (W.write_byte DS2431_CMD_SEARCH_ROM (W.reset s).2).2).2.1 &&& 0x03 = 0x03 →
      ds2431_search_rom W handle rom num s
        = some (0, 0, rom,
            (W.read_2bit (W.write_byte DS2431_CMD_SEARCH_ROM (W.reset s).2).2).2.2)) := by
  refine ⟨?_, fun m n st u => search_bit_early W m n st u,
    fun cmd fuel st u r => search_passes_rows W cmd fuel st u r, ?_⟩
  · obtain ⟨r, ext, hr, le, ce⟩ := search_rom_out W handle rom num (s, t)
    refine ⟨r, ext, hr, le, ?_⟩
    intro a e b hab hb
    rcases ce with ne | ⟨pre, e1, he, npre, hb1, r0, hcount⟩
    · exfalso
      have hm : e ∈ ext := by
        rw [hab]
        simp
      rw [ne e hm] at hb
      exact absurd hb (by decide)
    · exact ⟨last_of_noEarly (he.symm.trans hab) npre hb, r0, hcount.symm⟩
  · intro h hh hi hn h1 h2 h3 h4
    subst hh
    have hb := search_bit_early W 0 0 ⟨fun _ => 0, 0, fun _ => 0, 0, 0, num, rom⟩ _ h3 h4
    have hn64 : ¬ num > DS2431_MAX_SEARCH_SIZE := by
      simpa [DS2431_MAX_SEARCH_SIZE] using hn
    simp only [ds2431_search_rom, hi, ne_eq, not_true_eq_false, if_false, a_ds2431_search,
      hn64, search_passes, h1, h2, search_bytes, search_bits, hb]

/-- Witness of C26: the simulated bus without any device, on which every double read
gives two ones. -/
theorem search_early_end_witness :
    ds2431_search_rom simWire (some ⟨1, 0, []⟩) (fun _ _ => 0) 4 ⟨[], [], 0⟩
      = some (0, 0, fun _ _ => 0,
          (simWire.read_2bit (simWire.write_byte DS2431_CMD_SEARCH_ROM
            (simWire.reset ⟨[], [], 0⟩).2).2).2.2) :=
  (search_early_end simWire (some ⟨1, 0, []⟩) (fun _ _ => 0) 4 ⟨[], [], 0⟩ []).2.2.2
    ⟨1, 0, []⟩ rfl rfl (by decide) rfl rfl rfl (by decide)

/-! ## Claim C21: a failed scratchpad stage is never committed -/

theorem okStep_refl (t : List (WireEvent × Nat)) (c : Nat) : OkStep t c t :=
  fun _ => ⟨[], by simp, by simp [AllOk]⟩

theorem allOk_append {a b : List (WireEvent × Nat)} (ha : AllOk a) (hb : AllOk b) :
    AllOk (a ++ b) := by
  intro e he
  rcases List.mem_append.1 he with h | h
  · exact ha e h
  · exact hb e h

theorem okStep_trans {t t1 t2 : List (WireEvent × Nat)} {c : Nat} (h1 : OkStep t 0 t1)
    (h2 : OkStep t1 c t2) : OkStep t c t2 := by
  intro hc
  obtain ⟨e1, rfl, a1⟩ := h1 rfl
  obtain ⟨e2, rfl, a2⟩ := h2 hc
  exact ⟨e1 ++ e2, by simp, allOk_append a1 a2⟩

theorem okStep_one (t : List (WireEvent × Nat)) (ev : WireEvent) (c : Nat) :
    OkStep t c (t ++ [(ev, c)]) := by
  intro hc
  refine ⟨[(ev, c)], rfl, ?_⟩
  intro e he
  simp only [List.mem_singleton] at he
  subst he
  exact hc

theorem okRun1_if {σ : Type} {t t1 : List (WireEvent × Nat)} {c : Nat}
    {a b : Nat × (σ × List (WireEvent × Nat))} (h1 : OkStep t c t1) (ha : a.1 ≠ 0)
    (hb : c = 0 → OkRun1 t1 b) : OkRun1 t (if c ≠ 0 then a else b) := by
  by_cases hc : c = 0
  · rw [if_neg (by simpa using hc)]
    subst hc
    exact okStep_trans h1 (hb rfl)
  · rw [if_pos hc]
    intro h0
    exact absurd h0 ha

theorem okRun2_if {σ α : Type} {t t1 : List (WireEvent × Nat)} {c : Nat}
    {a b : Nat × α × (σ × List (WireEvent × Nat))} (h1 : OkStep t c t1) (ha : a.1 ≠ 0)
    (hb : c = 0 → OkRun2 t1 b) : OkRun2 t (if c ≠ 0 then a else b) := by
  by_cases hc : c = 0
  · rw [if_neg (by simpa using hc)]
    subst hc
    exact okStep_trans h1 (hb rfl)
  · rw [if_pos hc]
    intro h0
    exact absurd h0 ha

theorem record_reset_ok {σ : Type} (W : Wire σ) (s : σ × List (WireEvent × Nat)) :
    OkStep s.2 (W.record.reset s).1 (W.record.reset s).2.2 :=
  okStep_one _ _ _

theorem record_reset_overdrive_ok {σ : Type} (W : Wire σ) (s : σ × List (WireEvent × Nat)) :
    OkStep s.2 (W.record.reset_overdrive s).1 (W.record.reset_overdrive s).2.2 :=
  okStep_one _ _ _

theorem record_write_byte_ok {σ : Type} (W : Wire σ) (b : Nat)
    (s : σ × List (WireEvent × Nat)) :
    OkStep s.2 (W.record.write_byte b s).1 (W.record.write_byte b s).2.2 :=
  okStep_one _ _ _

theorem record_write_byte_overdrive_ok {σ : Type} (W : Wire σ) (b : Nat)
    (s : σ × List (WireEvent × Nat)) :
    OkStep s.2 (W.record.write_byte_overdrive b s).1 (W.record.write_byte_overdrive b s).2.2 :=
  okStep_one _ _ _

theorem record_wb_log {σ : Type} (W : Wire σ) (od : Bool) (b : Nat)
    (s : σ × List (WireEvent × Nat)) :
    (W.record.wb od b s).2.2 = s.2 ++ [(WireEvent.write od b, (W.record.wb od b s).1)] := by
  cases od <;> rfl

theorem record_rb_log {σ : Type} (W : Wire σ) (od : Bool) (s : σ × List (WireEvent × Nat)) :
    (W.record.rb od s).2.2.2
      = s.2 ++ [(WireEvent.read od (W.record.rb od s).2.1, (W.record.rb od s).1)] := by
  cases od <;> rfl

theorem record_wb_ok {σ : Type} (W : Wire σ) (od : Bool) (b : Nat)
    (s : σ × List (WireEvent × Nat)) :
    OkStep s.2 (W.record.wb od b s).1 (W.record.wb od b s).2.2 := by
  rw [record_wb_log]
  exact okStep_one _ _ _

theorem write_all_ok {σ : Type} (W : Wire σ)
    (wb : Nat → σ × List (WireEvent × Nat) → Nat × (σ × List (WireEvent × Nat)))
    (hwb : ∀ b s, OkStep s.2 (wb b s).1 (wb b s).2.2) (msg : String) :
    ∀ (bs : List Nat) (s : σ × List (WireEvent × Nat)),
      OkRun1 s.2 (write_all W.record wb msg bs s) := by
  intro bs
  induction bs with
  | nil =>
    intro s
    exact okStep_refl _ _
  | cons b bs ih =>
    intro s
    unfold write_all
    dsimp only
    exact okRun1_if (hwb b s) (by simp) (fun _ => ih _)

theorem write_data_crc_ok {σ : Type} (W : Wire σ)
    (wb : Nat → σ × List (WireEvent × Nat) → Nat × (σ × List (WireEvent × Nat)))
    (hwb : ∀ b s, OkStep s.2 (wb b s).1 (wb b s).2.2) :
    ∀ (bs : List Nat) (crc : Nat) (s : σ × List (WireEvent × Nat)),
      OkRun2 s.2 (write_data_crc W.record wb bs crc s) := by
  intro bs
  induction bs with
  | nil =>
    intro crc s
    exact okStep_refl _ _
  | cons b bs ih =>
    intro crc s
    unfold write_data_crc
    dsimp only
    exact okRun2_if (hwb b s) (by simp) (fun _ => ih _ _)

theorem rom_select_ok {σ : Type} (W : Wire σ) (h : Handle) (s : σ × List (WireEvent × Nat)) :
    OkRun1 s.2 (rom_select W.record h s) := by
  unfold rom_select
  dsimp only
  repeat' (first
    | exact okStep_refl _ _
    | exact write_all_ok W _ (record_write_byte_ok W) _ _ _
    | exact write_all_ok W _ (record_write_byte_overdrive_ok W) _ _ _
    | refine okRun1_if (record_reset_ok W _) (by simp) (fun _ => ?_)
    | refine okRun1_if (record_reset_overdrive_ok W _) (by simp) (fun _ => ?_)
    | refine okRun1_if (record_write_byte_ok W _ _) (by simp) (fun _ => ?_)
    | refine okRun1_if (record_write_byte_overdrive_ok W _ _) (by simp) (fun _ => ?_)
    | refine ite_ind ?_ ?_
    | exact fun h0 => absurd h0 (by simp))

theorem three_reads {σ : Type} (W : Wire σ) (od : Bool) (u : σ × List (WireEvent × Nat)) :
    (W.record.rb od (W.record.rb od (W.record.rb od u).2.2).2.2).2.2.2
      = u.2 ++ [(WireEvent.read od (W.record.rb od u).2.1, (W.record.rb od u).1),
          (WireEvent.read od (W.record.rb od (W.record.rb od u).2.2).2.1,
            (W.record.rb od (W.record.rb od u).2.2).1),
          (WireEvent.read od (W.record.rb od (W.record.rb od (W.record.rb od u).2.2).2.2).2.1,
            (W.record.rb od (W.record.rb od (W.record.rb od u).2.2).2.2).1)] := by
  rw [record_rb_log, record_rb_log, record_rb_log]
  simp

theorem write_scratchpad_body_verified {σ : Type} (W : Wire σ) (od : Bool) (address : Nat)
    (data : List Nat) (s : σ × List (WireEvent × Nat)) :
    Verified od address data s.2 (write_scratchpad_body W.record od address data s) := by
  unfold write_scratchpad_body
  dsimp only
  refine ite_ind_neg (fun h0 => absurd h0 (by simp)) (fun c1 => ?_)
  refine ite_ind_neg (fun h0 => absurd h0 (by simp)) (fun c2 => ?_)
  refine ite_ind_neg (fun h0 => absurd h0 (by simp)) (fun c3 => ?_)
  refine ite_ind_neg (fun h0 => absurd h0 (by simp)) (fun c4 => ?_)
  refine ite_ind_neg (fun h0 => absurd h0 (by simp)) (fun c5 => ?_)
  refine ite_ind_neg (fun h0 => absurd h0 (by simp)) (fun c6 => ?_)
  refine ite_ind_neg (fun h0 => absurd h0 (by simp)) (fun c7 => ?_)
  refine ite_ind_neg (fun h0 => absurd h0 (by simp)) (fun c8 => ?_)
  refine ite_ind_neg (fun h0 => absurd h0 (by simp)) (fun c9 => ?_)
  intro _
  have k1 := record_wb_ok W od DS2431_CMD_WRITE_SCRATCHPAD s
  rw [of_not_not c1] at k1
  have k2 := record_wb_ok W od (address >>> 0 &&& 255)
    (W.record.wb od DS2431_CMD_WRITE_SCRATCHPAD s).2
  rw [of_not_not c2] at k2
  have k3 := record_wb_ok W od (address >>> 8 &&& 255)
    (W.record.wb od (address >>> 0 &&& 255) (W.record.wb od DS2431_CMD_WRITE_SCRATCHPAD s).2).2
  rw [of_not_not c3] at k3
  have k4 := write_data_crc_ok W (W.record.wb od) (record_wb_ok W od) (bytes8 data)
    (a_ds2431_crc16_update (a_ds2431_crc16_update
      (a_ds2431_crc16_update 0 DS2431_CMD_WRITE_SCRATCHPAD) (address >>> 0 &&& 255))
      (address >>> 8 &&& 255))
    (W.record.wb od (address >>> 8 &&& 255)
      (W.record.wb od (address >>> 0 &&& 255)
        (W.record.wb od DS2431_CMD_WRITE_SCRATCHPAD s).2).2).2
  unfold OkRun2 at k4
  rw [of_not_not c4] at k4
  have hw := write_data_crc_value W.record (W.record.wb od) (bytes8 data)
    (a_ds2431_crc16_update (a_ds2431_crc16_update
      (a_ds2431_crc16_update 0 DS2431_CMD_WRITE_SCRATCHPAD) (address >>> 0 &&& 255))
      (address >>> 8 &&& 255))
    (W.record.wb od (address >>> 8 &&& 255)
      (W.record.wb od (address >>> 0 &&& 255)
        (W.record.wb od DS2431_CMD_WRITE_SCRATCHPAD s).2).2).2 (of_not_not c4)
  have k := okStep_trans k1 (okStep_trans k2 (okStep_trans k3 k4))
  clear k1 k2 k3 k4 c1 c2 c3
  generalize write_data_crc W.record (W.record.wb od) (bytes8 data)
    (a_ds2431_crc16_update (a_ds2431_crc16_update
      (a_ds2431_crc16_update 0 DS2431_CMD_WRITE_SCRATCHPAD) (address >>> 0 &&& 255))
      (address >>> 8 &&& 255))
    (W.record.wb od (address >>> 8 &&& 255)
      (W.record.wb od (address >>> 0 &&& 255)
        (W.record.wb od DS2431_CMD_WRITE_SCRATCHPAD s).2).2).2 = w at *
  obtain ⟨pre, hpre, hok⟩ := k rfl
  rw [hw] at c9
  refine ⟨pre, (W.record.rb od w.2.2).2.1, (W.record.rb od (W.record.rb od w.2.2).2.2).2.1,
    ?_, hok, ?_⟩
  · show (W.record.rb od (W.record.rb od (W.record.rb od w.2.2).2.2).2.2).2.2.2 = _
    rw [three_reads, hpre, of_not_not c5, of_not_not c6, of_not_not c7, of_not_not c8]
  · rw [← of_not_not c9]
    simp [crc16, List.foldl_append, DS2431_CMD_WRITE_SCRATCHPAD]

theorem scratchpad_stage_traced {σ : Type} (W : Wire (σ × List Event)) (hW : W.Traced)
    (h : Handle) (address : Nat) (data : List Nat) (s : σ × List Event) :
    Traced1 s.2 (scratchpad_stage W h address data s) := by
  unfold scratchpad_stage
  dsimp only
  refine traced_if _ _ (rom_select_traced W hW h s) (fun _ => ⟨by simp, quietStep_refl _⟩)
    (fun _ => ?_)
  exact traced_if _ _ (write_scratchpad_body_traced W hW _ _ _ _)
    (fun _ => ⟨by simp, quietStep_refl _⟩) (fun _ => step_refl _)

theorem scratchpad_stage_verified {σ : Type} (W : Wire σ) (h : Handle) (address : Nat)
    (data : List Nat) (s : σ × List (WireEvent × Nat))
    (h0 : (scratchpad_stage W.record h address data s).1 = 0) :
    ∃ pre b0 b1,
      (scratchpad_stage W.record h address data s).2.2
        = s.2 ++ pre ++ [(WireEvent.read (overdrive h.mode) b0, 0),
            (WireEvent.read (overdrive h.mode) b1, 0),
            (WireEvent.read (overdrive h.mode) 0xFF, 0)] ∧ AllOk pre ∧
      crc16 ([0x0F, address &&& 0xFF, (address >>> 8) &&& 0xFF] ++ bytes8 data ++ [b0, b1])
        = 0xB001 := by
  unfold scratchpad_stage at h0 ⊢
  dsimp only at h0 ⊢
  by_cases c1 : (rom_select W.record h s).1 ≠ 0
  · rw [if_pos c1] at h0
    exact absurd h0 (by simp)
  · rw [if_neg c1] at h0 ⊢
    by_cases c2 : (write_scratchpad_body W.record (overdrive h.mode) address data
        (rom_select W.record h s).2).1 ≠ 0
    · rw [if_pos c2] at h0
      exact absurd h0 (by simp)
    · rw [if_neg c2]
      obtain ⟨e1, l1, a1⟩ := rom_select_ok W h s (of_not_not c1)
      obtain ⟨pre, b0, b1, l2, a2, hc⟩ :=
        write_scratchpad_body_verified W (overdrive h.mode) address data
          (rom_select W.record h s).2 (of_not_not c2)
      refine ⟨e1 ++ pre, b0, b1, ?_, allOk_append a1 a2, hc⟩
      show (write_scratchpad_body W.record (overdrive h.mode) address data
        (rom_select W.record h s).2).2.2.2 = _
      rw [l2, l1]
      simp

theorem a_ds2431_write_stage {σ : Type} (W : Wire σ) (h : Handle) (address : Nat)
    (data : List Nat) (s : σ) :
    a_ds2431_write W h address data s
      = if (scratchpad_stage W h address data s).1 ≠ 0 then
          (1, (scratchpad_stage W h address data s).2)
        else
          (if (copy_readdress W h (scratchpad_stage W h address data s).2).1 ≠ 0 then
            (1, (copy_readdress W h (scratchpad_stage W h address data s).2).2)
          else copy_scratchpad_body W (overdrive h.mode) address
            (copy_readdress W h (scratchpad_stage W h address data s).2).2) := by
  unfold a_ds2431_write scratchpad_stage
  dsimp only
  by_cases c1 : (rom_select W h s).1 ≠ 0
  · simp only [if_pos c1, ne_eq, one_ne_zero, not_false_eq_true, if_true]
  · rw [if_neg c1, if_neg c1]
    by_cases c2 : (write_scratchpad_body W (overdrive h.mode) address data
        (rom_select W h s).2).1 ≠ 0
    · simp only [if_pos c2, ne_eq, one_ne_zero, not_false_eq_true, if_true]
    · simp only [if_neg c2, ne_eq, not_true_eq_false, if_false]

/-- Claim C21.  In every mode and over every transport, `a_ds2431_write` whose scratchpad
stage returns a status other than `0` returns `1` in the state the stage left, so that no
further call is made and no copy-scratchpad command follows; the stage returns `0` only
when every transport call succeeded, the status byte read back is `0xFF` and the running
CRC-16 over the bytes sent and the two CRC bytes is `0xB001`, and over any platform a
failed `bus_read` or `bus_write` during the stage makes its status other than `0`.  A page
write of `ds2431_write` that fails ends the loop with `1` in the state that page write
left, so no later page is touched, and `ds2431_write_memory_config` returns `1` in the
state of its failed page write. -/
theorem failed_scratchpad_stage_is_not_committed {σ : Type} (W : Wire σ) (h : Handle)
    (address : Nat) (data : List Nat) (s : σ) :
    ((scratchpad_stage W h address data s).1 ≠ 0 →
      a_ds2431_write W h address data s = (1, (scratchpad_stage W h address data s).2)) ∧
    ((scratchpad_stage W h address data s).1 = 0 →
      a_ds2431_write W h address data s
        = if (copy_readdress W h (scratchpad_stage W h address data s).2).1 ≠ 0 then
            (1, (copy_readdress W h (scratchpad_stage W h address data s).2).2)
          else copy_scratchpad_body W (overdrive h.mode) address
            (copy_readdress W h (scratchpad_stage W h address data s).2).2) ∧
    (∀ t, (scratchpad_stage W.record h address data (s, t)).1 = 0 →
      ∃ pre b0 b1,
        (scratchpad_stage W.record h address data (s, t)).2.2
          = t ++ pre ++ [(WireEvent.read (overdrive h.mode) b0, 0),
              (WireEvent.read (overdrive h.mode) b1, 0),
              (WireEvent.read (overdrive h.mode) 0xFF, 0)] ∧ AllOk pre ∧
        crc16 ([0x0F, address &&& 0xFF, (address >>> 8) &&& 0xFF] ++ bytes8 data ++ [b0, b1])
          = 0xB001) ∧
    (∀ (τ : Type) (L : Link τ) (u : τ) (t ext : List Event),
      (scratchpad_stage (driver L) h address data (u, t)).2.2 = t ++ ext →
      ∀ e, e ∈ ext → e.failed = true →
        (scratchpad_stage (driver L) h address data (u, t)).1 ≠ 0) ∧
    (∀ fuel pos off remain len,
      (ds2431_write_chunk (Pager.ofWire W) h pos off remain data address s).1 ≠ 0 →
      ds2431_write_loop (Pager.ofWire W) h (fuel + 1) pos off remain data address len s
        = some (1, (ds2431_write_chunk (Pager.ofWire W) h pos off remain data address s).2)) ∧
    (∀ pos off, ds2431_write_chunk (Pager.ofWire W) h pos off 8 data address s
      = a_ds2431_write W h address data s) ∧
    (∀ pos off remain, remain ≠ 8 →
      (a_ds2431_read W h ((pos * 8) % 65536) 8 s).1 = 0 →
      ds2431_write_chunk (Pager.ofWire W) h pos off remain data address s
        = a_ds2431_write W h ((pos * 8) % 65536)
            (overlay (page_buffer (a_ds2431_read W h ((pos * 8) % 65536) 8 s).2.1) off remain
              data)
            (a_ds2431_read W h ((pos * 8) % 65536) 8 s).2.2) ∧
    (∀ config, h.inited = 1 → (a_ds2431_write W h 0x80 (buf_of_config config) s).1 ≠ 0 →
      ds2431_write_memory_config (Pager.ofWire W) (some h) config s
        = (1, (a_ds2431_write W h 0x80 (buf_of_config config) s).2)) := by
  refine ⟨?_, ?_, ?_, ?_, ?_, ?_, ?_, ?_⟩
  · intro hs
    rw [a_ds2431_write_stage, if_pos hs]
  · intro hs
    rw [a_ds2431_write_stage, if_neg (by simpa using hs)]
  · intro t
    exact scratchpad_stage_verified W h address data (s, t)
  · intro τ L u t ext hl e he hf hz
    obtain ⟨ext1, l1, c1⟩ := scratchpad_stage_traced (driver L) (driver_traced L) h address
      data (u, t)
    have hx : ext1 = ext := List.append_cancel_left (l1.symm.trans hl)
    subst hx
    rcases c1 with ⟨_, hc⟩ | ⟨hn, _⟩
    · rw [hc e he] at hf
      exact absurd hf (by decide)
    · exact hn hz
  · intro fuel pos off remain len hc
    unfold ds2431_write_loop
    dsimp only
    rw [if_pos hc]
  · intro pos off
    unfold ds2431_write_chunk
    rfl
  · intro pos off remain hr hrd
    unfold ds2431_write_chunk
    dsimp only
    rw [if_pos hr]
    have e : (Pager.ofWire W).a_read h ((pos * 8) % 65536) 8 s
        = a_ds2431_read W h ((pos * 8) % 65536) 8 s := rfl
    rw [e, if_neg (by simpa using hrd)]
    rfl
  · intro config hi hc
    unfold ds2431_write_memory_config
    dsimp only
    have e : (Pager.ofWire W).a_write h 0x80 (buf_of_config config) s
        = a_ds2431_write W h 0x80 (buf_of_config config) s := rfl
    rw [e, if_neg (by simpa using hi), if_pos hc]

set_option maxRecDepth 1000000 in
/-- Witness of C21: skip-ROM mode, address `0`, data `[1..8]` on the scripted bus whose
device answers the CRC bytes `0x00`, `0x00`: the stage fails and the byte `0xAA` that
would answer a copy command stays unread. -/
theorem failed_scratchpad_stage_is_not_committed_witness :
    a_ds2431_write scriptWire ⟨1, 0, []⟩ 0 [1, 2, 3, 4, 5, 6, 7, 8] ⟨[0x00, 0x00, 0xFF, 0xAA], []⟩
      = (1, (scratchpad_stage scriptWire ⟨1, 0, []⟩ 0 [1, 2, 3, 4, 5, 6, 7, 8]
          ⟨[0x00, 0x00, 0xFF, 0xAA], []⟩).2) :=
  (failed_scratchpad_stage_is_not_committed scriptWire ⟨1, 0, []⟩ 0 [1, 2, 3, 4, 5, 6, 7, 8]
    ⟨[0x00, 0x00, 0xFF, 0xAA], []⟩).1 (by decide)

/-! ## Interrupt discipline: the transport helpers -/

theorem opened_snoc {t u : List Event} (e : Event) (he : e.isIrq = false) (h : Opened t u) :
    Opened t (u ++ [e]) := by
  obtain ⟨mid, rfl, hm⟩ := h
  refine ⟨mid ++ [e], by simp, ?_⟩
  intro x hx
  rcases List.mem_append.1 hx with h1 | h1
  · exact hm x h1
  · simp only [List.mem_singleton] at h1
    subst h1
    exact he

theorem sectioned_close {t u : List Event} (h : Opened t u) :
    Sectioned t (u ++ [Event.enable_irq]) := by
  obtain ⟨mid, rfl, hm⟩ := h
  exact ⟨Event.disable_irq :: (mid ++ Event.enable_irq :: []), by simp,
    mid, [], rfl, hm, by simp [NoIrq], by simp [Quiet]⟩

theorem sectioned_snoc {t u : List Event} (e : Event) (he : e.isIrq = false)
    (hb : e.isBus = false) (h : Sectioned t u) : Sectioned t (u ++ [e]) := by
  obtain ⟨ext, rfl, mid, tail, rfl, hm, ht, hq⟩ := h
  refine ⟨Event.disable_irq :: (mid ++ Event.enable_irq :: (tail ++ [e])), by simp,
    mid, tail ++ [e], rfl, hm, ?_, ?_⟩
  · intro x hx
    rcases List.mem_append.1 hx with h1 | h1
    · exact ht x h1
    · simp only [List.mem_singleton] at h1
      subst h1
      exact he
  · intro x hx
    rcases List.mem_append.1 hx with h1 | h1
    · exact hq x h1
    · simp only [List.mem_singleton] at h1
      subst h1
      exact hb

theorem opened_disable {σ : Type} (L : Link σ) (s : σ × List Event) :
    Opened s.2 (L.record.disable_irq s).2 :=
  ⟨[], rfl, by simp [NoIrq]⟩

theorem opened_bus_write {σ : Type} (L : Link σ) (v : Nat) {t : List Event}
    (s : σ × List Event) (h : Opened t s.2) : Opened t (L.record.bus_write v s).2.2 :=
  opened_snoc _ rfl h

theorem opened_bus_read {σ : Type} (L : Link σ) {t : List Event}
    (s : σ × List Event) (h : Opened t s.2) : Opened t (L.record.bus_read s).2.2.2 :=
  opened_snoc _ rfl h

theorem opened_delay_us {σ : Type} (L : Link σ) (n : Nat) {t : List Event}
    (s : σ × List Event) (h : Opened t s.2) : Opened t (L.record.delay_us n s).2 :=
  opened_snoc _ rfl h

theorem opened_debug_print {σ : Type} (L : Link σ) (m : String) {t : List Event}
    (s : σ × List Event) (h : Opened t s.2) : Opened t (L.record.debug_print m s).2 :=
  opened_snoc _ rfl h

theorem sectioned_enable {σ : Type} (L : Link σ) {t : List Event}
    (s : σ × List Event) (h : Opened t s.2) : Sectioned t (L.record.enable_irq s).2 :=
  sectioned_close h

theorem sectioned_debug_print {σ : Type} (L : Link σ) (m : String) {t : List Event}
    (s : σ × List Event) (h : Sectioned t s.2) : Sectioned t (L.record.debug_print m s).2 :=
  sectioned_snoc _ rfl rfl h

theorem read_bit_opened {σ : Type} (L : Link σ) {t : List Event} (s : σ × List Event)
    (h : Opened t s.2) : Opened t (a_ds2431_read_bit L.record s).2.2.2 := by
  unfold a_ds2431_read_bit
  dsimp only
  repeat' split
  all_goals
    dsimp only
    repeat' (first
      | exact h
      | apply opened_debug_print
      | apply opened_delay_us
      | apply opened_bus_write
      | apply opened_bus_read)

theorem read_bit_overdrive_opened {σ : Type} (L : Link σ) {t : List Event}
    (s : σ × List Event) (h : Opened t s.2) :
    Opened t (a_ds2431_read_bit_overdrive L.record s).2.2.2 := by
  unfold a_ds2431_read_bit_overdrive
  dsimp only
  repeat' split
  all_goals
    dsimp only
    repeat' (first
      | exact h
      | apply opened_debug_print
      | apply opened_delay_us
      | apply opened_bus_write
      | apply opened_bus_read)

theorem reset_poll_opened {σ : Type} (L : Link σ) (waitLow : Bool) (limit : Nat)
    {t : List Event} :
    ∀ (n res retry : Nat) (s : σ × List Event), Opened t s.2 →
      ((reset_poll L.record waitLow limit n res retry s).1 ≠ 0 →
        Sectioned t (reset_poll L.record waitLow limit n res retry s).2.2.2) ∧
      ((reset_poll L.record waitLow limit n res retry s).1 = 0 →
        Opened t (reset_poll L.record waitLow limit n res retry s).2.2.2) := by
  intro n
  induction n with
  | zero =>
    intro res retry s h
    exact ⟨fun h0 => absurd rfl h0, fun _ => h⟩
  | succ n ih =>
    intro res retry s h
    unfold reset_poll
    by_cases c : (if waitLow then res ≠ 0 else res = 0) ∧ retry < limit
    · rw [if_pos c]
      dsimp only
      by_cases c2 : (L.record.bus_read s).1 ≠ 0
      · rw [if_pos c2]
        refine ⟨fun _ => ?_, fun h0 => absurd h0 (by simp)⟩
        exact sectioned_debug_print L _ _ (sectioned_enable L _ (opened_bus_read L _ h))
      · rw [if_neg c2]
        exact ih _ _ _ (opened_delay_us L _ _ (opened_bus_read L _ h))
    · rw [if_neg c]
      exact ⟨fun h0 => absurd rfl h0, fun _ => h⟩

theorem reset_core_sectioned {σ : Type} (L : Link σ) (lowUs highUs budget1 budget2 : Nat)
    (s : σ × List Event) :
    Sectioned s.2 (reset_core L.record lowUs highUs budget1 budget2 s).2.2 := by
  have h0 := opened_disable L s
  have h1 := opened_bus_write L 0 _ h0
  have h2 := opened_bus_write L 1 _ (opened_delay_us L lowUs _ h1)
  have h3 := opened_delay_us L highUs _ h2
  have hp := reset_poll_opened L true budget1 budget1 1 0 _ h3
  unfold reset_core
  dsimp only
  split
  · exact sectioned_debug_print L _ _ (sectioned_enable L _ h1)
  · split
    · exact sectioned_debug_print L _ _ (sectioned_enable L _ h2)
    · split
      · rename_i c
        exact hp.1 c
      · rename_i c
        have hp0 := hp.2 (of_not_not c)
        have hq := reset_poll_opened L false budget2 budget2 0 0 _ hp0
        split
        · exact sectioned_debug_print L _ _ (sectioned_enable L _ hp0)
        · split
          · rename_i c2
            exact hq.1 c2
          · rename_i c2
            have hq0 := hq.2 (of_not_not c2)
            split
            · exact sectioned_debug_print L _ _ (sectioned_enable L _ hq0)
            · exact sectioned_enable L _ hq0

theorem read_byte_loop_sectioned {σ : Type} (L : Link σ)
    (readBit : σ × List Event → Nat × Nat × (σ × List Event))
    (hr : ∀ (t : List Event) (s : σ × List Event), Opened t s.2 → Opened t (readBit s).2.2.2)
    {t : List Event} :
    ∀ (n byte : Nat) (s : σ × List Event), Opened t s.2 →
      Sectioned t (read_byte_loop L.record readBit n byte s).2.2.2 := by
  intro n
  induction n with
  | zero =>
    intro byte s h
    exact sectioned_enable L _ h
  | succ n ih =>
    intro byte s h
    unfold read_byte_loop
    dsimp only
    split
    · exact sectioned_debug_print L _ _ (sectioned_enable L _ (hr _ _ h))
    · exact ih _ _ (hr _ _ h)

theorem write_byte_loop_sectioned {σ : Type} (L : Link σ)
    (oneLow oneHigh zeroLow zeroHigh : Nat) {t : List Event} :
    ∀ (n byte : Nat) (s : σ × List Event), Opened t s.2 →
      Sectioned t (write_byte_loop L.record oneLow oneHigh zeroLow zeroHigh n byte s).2.2 := by
  intro n
  induction n with
  | zero =>
    intro byte s h
    exact sectioned_enable L _ h
  | succ n ih =>
    intro byte s h
    have h1 := opened_bus_write L 0 _ h
    unfold write_byte_loop
    dsimp only
    split
    · split
      · exact sectioned_debug_print L _ _ (sectioned_enable L _ h1)
      · split
        · exact sectioned_debug_print L _ _ (sectioned_enable L _
            (opened_bus_write L 1 _ (opened_delay_us L _ _ h1)))
        · exact ih _ _ (opened_delay_us L _ _
            (opened_bus_write L 1 _ (opened_delay_us L _ _ h1)))
    · split
      · exact sectioned_debug_print L _ _ (sectioned_enable L _ h1)
      · split
        · exact sectioned_debug_print L _ _ (sectioned_enable L _
            (opened_bus_write L 1 _ (opened_delay_us L _ _ h1)))
        · exact ih _ _ (opened_delay_us L _ _
            (opened_bus_write L 1 _ (opened_delay_us L _ _ h1)))

theorem read_2bit_loop_sectioned {σ : Type} (L : Link σ) {t : List Event} :
    ∀ (n data : Nat) (s : σ × List Event), Opened t s.2 →
      Sectioned t (read_2bit_loop L.record n data s).2.2.2 := by
  intro n
  induction n with
  | zero =>
    intro data s h
    exact sectioned_enable L _ h
  | succ n ih =>
    intro data s h
    unfold read_2bit_loop
    dsimp only
    split
    · exact sectioned_debug_print L _ _ (sectioned_enable L _ (read_bit_opened L _ h))
    · exact ih _ _ (read_bit_opened L _ h)

theorem write_bit_sectioned {σ : Type} (L : Link σ) (bit : Nat) (s : σ × List Event) :
    Sectioned s.2 (a_ds2431_write_bit L.record bit s).2.2 := by
  have h0 := opened_disable L s
  have h1 := opened_bus_write L 0 _ h0
  have h2 := opened_bus_write L bit _ (opened_delay_us L 12 _ h1)
  have h3 := opened_bus_write L 1 _ (opened_delay_us L 30 _ h2)
  unfold a_ds2431_write_bit
  dsimp only
  split
  · exact sectioned_debug_print L _ _ (sectioned_enable L _ h1)
  · split
    · exact sectioned_debug_print L _ _ (sectioned_enable L _ h2)
    · split
      · exact sectioned_debug_print L _ _ (sectioned_enable L _ h3)
      · exact sectioned_enable L _ (opened_delay_us L 5 _ h3)

/-! ## Interrupt discipline: the automaton -/

theorem irq_run_append (x y : List Event) :
    ∀ b, irq_run b (x ++ y) = (irq_run b x).bind (fun b1 => irq_run b1 y) := by
  induction x with
  | nil =>
    intro b
    rfl
  | cons e es ih =>
    intro b
    simp only [List.cons_append, irq_run]
    cases irq_step b e with
    | none => rfl
    | some b1 => exact ih b1

theorem irq_run_noIrq (mid : List Event) (h : NoIrq mid) : irq_run false mid = some false := by
  induction mid with
  | nil => rfl
  | cons e es ih =>
    have he : e.isIrq = false := h e (by simp)
    have hes : NoIrq es := fun x hx => h x (by simp [hx])
    cases e <;> first | exact absurd he (by decide) | exact ih hes

theorem irq_run_quiet (tail : List Event) (h : NoIrq tail) (hq : Quiet tail) :
    irq_run true tail = some true := by
  induction tail with
  | nil => rfl
  | cons e es ih =>
    have he : e.isIrq = false := h e (by simp)
    have hb : e.isBus = false := hq e (by simp)
    have hes : NoIrq es := fun x hx => h x (by simp [hx])
    have hqs : Quiet es := fun x hx => hq x (by simp [hx])
    cases e <;>
      first
      | exact ih hes hqs
      | exact absurd he (by decide)
      | exact Bool.noConfusion hb

theorem irq_run_section (ext : List Event) (h : OneSection ext) :
    irq_run true ext = some true := by
  obtain ⟨mid, tail, rfl, hm, ht, hq⟩ := h
  show irq_run false (mid ++ Event.enable_irq :: tail) = some true
  rw [irq_run_append, irq_run_noIrq mid hm]
  exact irq_run_quiet tail ht hq

theorem guarded_refl (t : List Event) : Guarded t t := ⟨[], by simp, rfl⟩

theorem guarded_trans {t t1 t2 : List Event} (h1 : Guarded t t1) (h2 : Guarded t1 t2) :
    Guarded t t2 := by
  obtain ⟨e1, rfl, a1⟩ := h1
  obtain ⟨e2, rfl, a2⟩ := h2
  refine ⟨e1 ++ e2, by simp, ?_⟩
  rw [irq_run_append, a1]
  exact a2

theorem guarded_of_sectioned {t t1 : List Event} (h : Sectioned t t1) : Guarded t t1 := by
  obtain ⟨ext, rfl, hs⟩ := h
  exact ⟨ext, rfl, irq_run_section ext hs⟩

theorem guarded_one (t : List Event) (e : Event) (he : e.isIrq = false)
    (hb : e.isBus = false) : Guarded t (t ++ [e]) := by
  refine ⟨[e], rfl, ?_⟩
  cases e <;>
    first
    | rfl
    | exact absurd he (by decide)
    | exact Bool.noConfusion hb

theorem driver_guards {σ : Type} (L : Link σ) : (driver L).Guards where
  reset := fun s => guarded_of_sectioned (reset_core_sectioned L 550 15 200 240 s)
  reset_overdrive := fun s => guarded_of_sectioned (reset_core_sectioned L 70 2 20 20 s)
  read_byte := fun s => guarded_of_sectioned
    (read_byte_loop_sectioned L _ (fun _ u hu => read_bit_opened L u hu) 8 0 _
      (opened_disable L s))
  write_byte := fun b s => guarded_of_sectioned
    (write_byte_loop_sectioned L 2 65 65 2 8 b _ (opened_disable L s))
  read_byte_overdrive := fun s => guarded_of_sectioned
    (read_byte_loop_sectioned L _ (fun _ u hu => read_bit_overdrive_opened L u hu) 8 0 _
      (opened_disable L s))
  write_byte_overdrive := fun b s => guarded_of_sectioned
    (write_byte_loop_sectioned L 1 10 10 2 8 b _ (opened_disable L s))
  read_2bit := fun s => guarded_of_sectioned
    (read_2bit_loop_sectioned L 2 0 _ (opened_disable L s))
  write_bit := fun b s => guarded_of_sectioned (write_bit_sectioned L b s)
  delay_ms := fun _ _ => guarded_one _ _ rfl rfl
  delay_us := fun _ _ => guarded_one _ _ rfl rfl
  debug_print := fun _ _ => guarded_one _ _ rfl rfl

/-! ## Interrupt discipline: transport steps and byte loops -/

theorem g_reset {σ : Type} {W : Wire (σ × List Event)} (hW : W.Guards) {t : List Event}
    (s : σ × List Event) (hg : Guarded t s.2) : Guarded t (W.reset s).2.2 :=
  guarded_trans hg (hW.reset s)

theorem g_reset_overdrive {σ : Type} {W : Wire (σ × List Event)} (hW : W.Guards)
    {t : List Event} (s : σ × List Event) (hg : Guarded t s.2) :
    Guarded t (W.reset_overdrive s).2.2 :=
  guarded_trans hg (hW.reset_overdrive s)

theorem g_read_byte {σ : Type} {W : Wire (σ × List Event)} (hW : W.Guards) {t : List Event}
    (s : σ × List Event) (hg : Guarded t s.2) : Guarded t (W.read_byte s).2.2.2 :=
  guarded_trans hg (hW.read_byte s)

theorem g_write_byte {σ : Type} {W : Wire (σ × List Event)} (hW : W.Guards) (b : Nat)
    {t : List Event} (s : σ × List Event) (hg : Guarded t s.2) :
    Guarded t (W.write_byte b s).2.2 :=
  guarded_trans hg (hW.write_byte b s)

theorem g_read_byte_overdrive {σ : Type} {W : Wire (σ × List Event)} (hW : W.Guards)
    {t : List Event} (s : σ × List Event) (hg : Guarded t s.2) :
    Guarded t (W.read_byte_overdrive s).2.2.2 :=
  guarded_trans hg (hW.read_byte_overdrive s)

theorem g_write_byte_overdrive {σ : Type} {W : Wire (σ × List Event)} (hW : W.Guards) (b : Nat)
    {t : List Event} (s : σ × List Event) (hg : Guarded t s.2) :
    Guarded t (W.write_byte_overdrive b s).2.2 :=
  guarded_trans hg (hW.write_byte_overdrive b s)

theorem g_read_2bit {σ : Type} {W : Wire (σ × List Event)} (hW : W.Guards) {t : List Event}
    (s : σ × List Event) (hg : Guarded t s.2) : Guarded t (W.read_2bit s).2.2.2 :=
  guarded_trans hg (hW.read_2bit s)

theorem g_write_bit {σ : Type} {W : Wire (σ × List Event)} (hW : W.Guards) (b : Nat)
    {t : List Event} (s : σ × List Event) (hg : Guarded t s.2) :
    Guarded t (W.write_bit b s).2.2 :=
  guarded_trans hg (hW.write_bit b s)

theorem g_delay_ms {σ : Type} {W : Wire (σ × List Event)} (hW : W.Guards) (n : Nat)
    {t : List Event} (s : σ × List Event) (hg : Guarded t s.2) :
    Guarded t (W.delay_ms n s).2 :=
  guarded_trans hg (hW.delay_ms n s)

theorem g_delay_us {σ : Type} {W : Wire (σ × List Event)} (hW : W.Guards) (n : Nat)
    {t : List Event} (s : σ × List Event) (hg : Guarded t s.2) :
    Guarded t (W.delay_us n s).2 :=
  guarded_trans hg (hW.delay_us n s)

theorem g_debug_print {σ : Type} {W : Wire (σ × List Event)} (hW : W.Guards) (m : String)
    {t : List Event} (s : σ × List Event) (hg : Guarded t s.2) :
    Guarded t (W.debug_print m s).2 :=
  guarded_trans hg (hW.debug_print m s)

theorem g_wb {σ : Type} {W : Wire (σ × List Event)} (hW : W.Guards) (od : Bool) (b : Nat)
    {t : List Event} (s : σ × List Event) (hg : Guarded t s.2) :
    Guarded t (W.wb od b s).2.2 := by
  cases od
  · exact g_write_byte hW b s hg
  · exact g_write_byte_overdrive hW b s hg

theorem g_rb {σ : Type} {W : Wire (σ × List Event)} (hW : W.Guards) (od : Bool)
    {t : List Event} (s : σ × List Event) (hg : Guarded t s.2) :
    Guarded t (W.rb od s).2.2.2 := by
  cases od
  · exact g_read_byte hW s hg
  · exact g_read_byte_overdrive hW s hg

theorem write_all_guarded {σ : Type} (W : Wire (σ × List Event)) (hW : W.Guards)
    (wb : Nat → σ × List Event → Nat × (σ × List Event))
    (hwb : ∀ (b : Nat) {t : List Event} (s : σ × List Event),
      Guarded t s.2 → Guarded t (wb b s).2.2)
    (msg : String) {t : List Event} :
    ∀ (bs : List Nat) (s : σ × List Event), Guarded t s.2 →
      Guarded t (write_all W wb msg bs s).2.2 := by
  intro bs
  induction bs with
  | nil =>
    intro s hg
    exact hg
  | cons b bs ih =>
    intro s hg
    unfold write_all
    dsimp only
    split
    · exact g_debug_print hW _ _ (hwb b s hg)
    · exact ih _ (hwb b s hg)

theorem write_data_crc_guarded {σ : Type} (W : Wire (σ × List Event)) (hW : W.Guards)
    (wb : Nat → σ × List Event → Nat × (σ × List Event))
    (hwb : ∀ (b : Nat) {t : List Event} (s : σ × List Event),
      Guarded t s.2 → Guarded t (wb b s).2.2) {t : List Event} :
    ∀ (bs : List Nat) (crc : Nat) (s : σ × List Event), Guarded t s.2 →
      Guarded t (write_data_crc W wb bs crc s).2.2.2 := by
  intro bs
  induction bs with
  | nil =>
    intro crc s hg
    exact hg
  | cons b bs ih =>
    intro crc s hg
    unfold write_data_crc
    dsimp only
    split
    · exact g_debug_print hW _ _ (hwb b s hg)
    · exact ih _ _ (hwb b s hg)

theorem read_data_crc_guarded {σ : Type} (W : Wire (σ × List Event)) (hW : W.Guards)
    (rb : σ × List Event → Nat × Nat × (σ × List Event))
    (hrb : ∀ {t : List Event} (s : σ × List Event),
      Guarded t s.2 → Guarded t (rb s).2.2.2) {t : List Event} :
    ∀ (n crc : Nat) (acc : List Nat) (s : σ × List Event), Guarded t s.2 →
      Guarded t (read_data_crc W rb n crc acc s).2.2.2.2 := by
  intro n
  induction n with
  | zero =>
    intro crc acc s hg
    exact hg
  | succ n ih =>
    intro crc acc s hg
    unfold read_data_crc
    dsimp only
    split
    · exact g_debug_print hW _ _ (hrb s hg)
    · exact ih _ _ _ (hrb s hg)

theorem read_data_guarded {σ : Type} (W : Wire (σ × List Event)) (hW : W.Guards)
    (rb : σ × List Event → Nat × Nat × (σ × List Event))
    (hrb : ∀ {t : List Event} (s : σ × List Event),
      Guarded t s.2 → Guarded t (rb s).2.2.2) {t : List Event} :
    ∀ (n : Nat) (acc : List Nat) (s : σ × List Event), Guarded t s.2 →
      Guarded t (read_data W rb n acc s).2.2.2 := by
  intro n
  induction n with
  | zero =>
    intro acc s hg
    exact hg
  | succ n ih =>
    intro acc s hg
    unfold read_data
    dsimp only
    split
    · exact g_debug_print hW _ _ (hrb s hg)
    · exact ih _ _ (hrb s hg)

theorem read_rom_guarded {σ : Type} (W : Wire (σ × List Event)) (hW : W.Guards)
    {t : List Event} :
    ∀ (n : Nat) (acc : List Nat) (s : σ × List Event), Guarded t s.2 →
      Guarded t (read_rom W n acc s).2.2.2 := by
  intro n
  induction n with
  | zero =>
    intro acc s hg
    exact hg
  | succ n ih =>
    intro acc s hg
    unfold read_rom
    dsimp only
    split
    · exact g_debug_print hW _ _ (g_read_byte hW s hg)
    · exact ih _ _ (g_read_byte hW s hg)

/-! ## Interrupt discipline: the protocol routines -/

theorem guarded_ite1 {σ α : Type} {c : Prop} [Decidable c] {t : List Event}
    {a b : α × (σ × List Event)} (ha : Guarded t a.2.2) (hb : Guarded t b.2.2) :
    Guarded t (if c then a else b).2.2 := by
  split
  · exact ha
  · exact hb

theorem guarded_ite2 {σ α β : Type} {c : Prop} [Decidable c] {t : List Event}
    {a b : α × β × (σ × List Event)} (ha : Guarded t a.2.2.2) (hb : Guarded t b.2.2.2) :
    Guarded t (if c then a else b).2.2.2 := by
  split
  · exact ha
  · exact hb

theorem guarded_ite3 {σ α β γ : Type} {c : Prop} [Decidable c] {t : List Event}
    {a b : α × β × γ × (σ × List Event)} (ha : Guarded t a.2.2.2.2)
    (hb : Guarded t b.2.2.2.2) : Guarded t (if c then a else b).2.2.2.2 := by
  split
  · exact ha
  · exact hb

theorem rom_select_guarded {σ : Type} (W : Wire (σ × List Event)) (hW : W.Guards)
    (h : Handle)
    {t : List Event} (s : σ × List Event) (hg : Guarded t s.2) :
    Guarded t (rom_select W h s).2.2 := by
  unfold rom_select
  dsimp only
  with_reducible
    repeat' (first | apply guarded_ite1 | apply guarded_ite2 | apply guarded_ite3)
  all_goals
    try dsimp only
    with_reducible
      repeat' (first
        | exact hg
        | apply g_debug_print hW
        | apply g_delay_ms hW
        | apply g_delay_us hW
        | apply g_reset hW
        | apply g_reset_overdrive hW
        | apply g_write_byte hW
        | apply g_write_byte_overdrive hW
        | apply g_read_byte hW
        | apply g_read_byte_overdrive hW
        | apply g_read_2bit hW
        | apply g_write_bit hW
        | apply g_wb hW
        | apply g_rb hW
        | apply write_all_guarded W hW _ (g_write_byte hW)
        | apply write_all_guarded W hW _ (g_write_byte_overdrive hW))

theorem copy_readdress_guarded {σ : Type} (W : Wire (σ × List Event)) (hW : W.Guards)
    (h : Handle)
    {t : List Event} (s : σ × List Event) (hg : Guarded t s.2) :
    Guarded t (copy_readdress W h s).2.2 := by
  unfold copy_readdress
  dsimp only
  with_reducible
    repeat' (first | apply guarded_ite1 | apply guarded_ite2 | apply guarded_ite3)
  all_goals
    try dsimp only
    with_reducible
      repeat' (first
        | exact hg
        | apply g_debug_print hW
        | apply g_delay_ms hW
        | apply g_delay_us hW
        | apply g_reset hW
        | apply g_reset_overdrive hW
        | apply g_write_byte hW
        | apply g_write_byte_overdrive hW
        | apply g_read_byte hW
        | apply g_read_byte_overdrive hW
        | apply g_read_2bit hW
        | apply g_write_bit hW
        | apply g_wb hW
        | apply g_rb hW
        | apply write_all_guarded W hW _ (g_write_byte hW))

theorem copy_scratchpad_body_guarded {σ : Type} (W : Wire (σ × List Event)) (hW : W.Guards)
    (od : Bool) (address : Nat)
    {t : List Event} (s : σ × List Event) (hg : Guarded t s.2) :
    Guarded t (copy_scratchpad_body W od address s).2.2 := by
  unfold copy_scratchpad_body
  dsimp only
  with_reducible
    repeat' (first | apply guarded_ite1 | apply guarded_ite2 | apply guarded_ite3)
  all_goals
    try dsimp only
    with_reducible
      repeat' (first
        | exact hg
        | apply g_debug_print hW
        | apply g_delay_ms hW
        | apply g_delay_us hW
        | apply g_reset hW
        | apply g_reset_overdrive hW
        | apply g_write_byte hW
        | apply g_write_byte_overdrive hW
        | apply g_read_byte hW
        | apply g_read_byte_overdrive hW
        | apply g_read_2bit hW
        | apply g_write_bit hW
        | apply g_wb hW
        | apply g_rb hW)

theorem ds2431_copy_scratchpad_guarded {σ : Type} (W : Wire (σ × List Event)) (hW : W.Guards)
    (h : Handle) (address : Nat)
    {t : List Event} (s : σ × List Event) (hg : Guarded t s.2) :
    Guarded t (ds2431_copy_scratchpad W (some h) address s).2.2 := by
  unfold ds2431_copy_scratchpad
  dsimp only
  with_reducible
    repeat' (first | apply guarded_ite1 | apply guarded_ite2 | apply guarded_ite3)
  all_goals
    try dsimp only
    with_reducible
      repeat' (first
        | apply copy_scratchpad_body_guarded W hW
        | apply rom_select_guarded W hW
        | exact hg
        | apply g_debug_print hW)

theorem write_scratchpad_body_guarded {σ : Type} (W : Wire (σ × List Event)) (hW : W.Guards)
    (od : Bool) (address : Nat) (data : List Nat)
    {t : List Event} (s : σ × List Event) (hg : Guarded t s.2) :
    Guarded t (write_scratchpad_body W od address data s).2.2.2 := by
  unfold write_scratchpad_body
  dsimp only
  with_reducible
    repeat' (first | apply guarded_ite1 | apply guarded_ite2 | apply guarded_ite3)
  all_goals
    try dsimp only
    with_reducible
      repeat' (first
        | apply write_data_crc_guarded W hW _ (g_wb hW od)
        | exact hg
        | apply g_debug_print hW
        | apply g_delay_ms hW
        | apply g_delay_us hW
        | apply g_reset hW
        | apply g_reset_overdrive hW
        | apply g_write_byte hW
        | apply g_write_byte_overdrive hW
        | apply g_read_byte hW
        | apply g_read_byte_overdrive hW
        | apply g_read_2bit hW
        | apply g_write_bit hW
        | apply g_wb hW
        | apply g_rb hW)

theorem ds2431_write_scratchpad_guarded {σ : Type} (W : Wire (σ × List Event)) (hW : W.Guards)
    (h : Handle) (address : Nat) (data : List Nat)
    {t : List Event} (s : σ × List Event) (hg : Guarded t s.2) :
    Guarded t (ds2431_write_scratchpad W (some h) address data s).2.2.2 := by
  unfold ds2431_write_scratchpad
  dsimp only
  with_reducible
    repeat' (first | apply guarded_ite1 | apply guarded_ite2 | apply guarded_ite3)
  all_goals
    try dsimp only
    with_reducible
      repeat' (first
        | apply write_scratchpad_body_guarded W hW
        | apply rom_select_guarded W hW
        | exact hg
        | apply g_debug_print hW)

theorem read_scratchpad_body_guarded {σ : Type} (W : Wire (σ × List Event)) (hW : W.Guards)
    (od : Bool)
    {t : List Event} (s : σ × List Event) (hg : Guarded t s.2) :
    Guarded t (read_scratchpad_body W od s).2.2.2 := by
  unfold read_scratchpad_body
  dsimp only
  with_reducible
    repeat' (first | apply guarded_ite1 | apply guarded_ite2 | apply guarded_ite3)
  all_goals
    try dsimp only
    with_reducible
      repeat' (first
        | apply read_data_crc_guarded W hW _ (g_rb hW od)
        | exact hg
        | apply g_debug_print hW
        | apply g_delay_ms hW
        | apply g_delay_us hW
        | apply g_reset hW
        | apply g_reset_overdrive hW
        | apply g_write_byte hW
        | apply g_write_byte_overdrive hW
        | apply g_read_byte hW
        | apply g_read_byte_overdrive hW
        | apply g_read_2bit hW
        | apply g_write_bit hW
        | apply g_wb hW
        | apply g_rb hW)

theorem ds2431_read_scratchpad_guarded {σ : Type} (W : Wire (σ × List Event)) (hW : W.Guards)
    (h : Handle)
    {t : List Event} (s : σ × List Event) (hg : Guarded t s.2) :
    Guarded t (ds2431_read_scratchpad W (some h) s).2.2.2 := by
  unfold ds2431_read_scratchpad
  dsimp only
  with_reducible
    repeat' (first | apply guarded_ite1 | apply guarded_ite2 | apply guarded_ite3)
  all_goals
    try dsimp only
    with_reducible
      repeat' (first
        | apply read_scratchpad_body_guarded W hW
        | apply rom_select_guarded W hW
        | exact hg)

theorem read_memory_body_guarded {σ : Type} (W : Wire (σ × List Event)) (hW : W.Guards)
    (od : Bool) (address len : Nat)
    {t : List Event} (s : σ × List Event) (hg : Guarded t s.2) :
    Guarded t (read_memory_body W od address len s).2.2.2 := by
  unfold read_memory_body
  dsimp only
  with_reducible
    repeat' (first | apply guarded_ite1 | apply guarded_ite2 | apply guarded_ite3)
  all_goals
    try dsimp only
    with_reducible
      repeat' (first
        | apply read_data_guarded W hW _ (g_rb hW od)
        | exact hg
        | apply g_debug_print hW
        | apply g_delay_ms hW
        | apply g_delay_us hW
        | apply g_reset hW
        | apply g_reset_overdrive hW
        | apply g_write_byte hW
        | apply g_write_byte_overdrive hW
        | apply g_read_byte hW
        | apply g_read_byte_overdrive hW
        | apply g_read_2bit hW
        | apply g_write_bit hW
        | apply g_wb hW)

theorem ds2431_read_memory_guarded {σ : Type} (W : Wire (σ × List Event)) (hW : W.Guards)
    (h : Handle) (address len : Nat)
    {t : List Event} (s : σ × List Event) (hg : Guarded t s.2) :
    Guarded t (ds2431_read_memory W (some h) address len s).2.2.2 := by
  unfold ds2431_read_memory
  dsimp only
  with_reducible
    repeat' (first | apply guarded_ite1 | apply guarded_ite2 | apply guarded_ite3)
  all_goals
    try dsimp only
    with_reducible
      repeat' (first
        | apply read_memory_body_guarded W hW
        | apply rom_select_guarded W hW
        | exact hg
        | apply g_debug_print hW)

theorem a_ds2431_read_guarded {σ : Type} (W : Wire (σ × List Event)) (hW : W.Guards)
    (h : Handle) (address len : Nat)
    {t : List Event} (s : σ × List Event) (hg : Guarded t s.2) :
    Guarded t (a_ds2431_read W h address len s).2.2.2 := by
  unfold a_ds2431_read
  dsimp only
  with_reducible
    repeat' (first | apply guarded_ite1 | apply guarded_ite2 | apply guarded_ite3)
  all_goals
    try dsimp only
    with_reducible
      repeat' (first
        | apply read_memory_body_guarded W hW
        | apply rom_select_guarded W hW
        | exact hg)

theorem a_ds2431_write_guarded {σ : Type} (W : Wire (σ × List Event)) (hW : W.Guards)
    (h : Handle) (address : Nat) (data : List Nat)
    {t : List Event} (s : σ × List Event) (hg : Guarded t s.2) :
    Guarded t (a_ds2431_write W h address data s).2.2 := by
  unfold a_ds2431_write
  dsimp only
  with_reducible
    repeat' (first | apply guarded_ite1 | apply guarded_ite2 | apply guarded_ite3)
  all_goals
    try dsimp only
    with_reducible
      repeat' (first
        | apply copy_scratchpad_body_guarded W hW
        | apply copy_readdress_guarded W hW
        | apply write_scratchpad_body_guarded W hW
        | apply rom_select_guarded W hW
        | exact hg)

theorem ds2431_get_rom_guarded {σ : Type} (W : Wire (σ × List Event)) (hW : W.Guards)
    (h : Handle)
    {t : List Event} (s : σ × List Event) (hg : Guarded t s.2) :
    Guarded t (ds2431_get_rom W (some h) s).2.2.2 := by
  unfold ds2431_get_rom
  dsimp only
  with_reducible
    repeat' (first | apply guarded_ite1 | apply guarded_ite2 | apply guarded_ite3)
  all_goals
    try dsimp only
    with_reducible
      repeat' (first
        | apply read_rom_guarded W hW
        | exact hg
        | apply g_debug_print hW
        | apply g_delay_ms hW
        | apply g_delay_us hW
        | apply g_reset hW
        | apply g_reset_overdrive hW
        | apply g_write_byte hW)

theorem ds2431_rom_match_guarded {σ : Type} (W : Wire (σ × List Event)) (hW : W.Guards)
    (h : Handle) (type : Nat) (rom : List Nat)
    {t : List Event} (s : σ × List Event) (hg : Guarded t s.2) :
    Guarded t (ds2431_rom_match W (some h) type rom s).2.2 := by
  unfold ds2431_rom_match
  dsimp only
  with_reducible
    repeat' (first | apply guarded_ite1 | apply guarded_ite2 | apply guarded_ite3)
  all_goals
    try dsimp only
    with_reducible
      repeat' (first
        | exact hg
        | apply g_debug_print hW
        | apply g_delay_ms hW
        | apply g_delay_us hW
        | apply g_reset hW
        | apply g_reset_overdrive hW
        | apply g_write_byte hW
        | apply g_write_byte_overdrive hW
        | apply g_read_byte hW
        | apply g_read_byte_overdrive hW
        | apply g_read_2bit hW
        | apply g_write_bit hW
        | apply g_wb hW
        | apply g_rb hW
        | apply write_all_guarded W hW _ (g_write_byte hW)
        | apply write_all_guarded W hW _ (g_write_byte_overdrive hW))

theorem search_bit_guarded {σ : Type} (W : Wire (σ × List Event)) (hW : W.Guards)
    (m n : Nat) (st : SearchState)
    {t : List Event} (s : σ × List Event) (hg : Guarded t s.2) :
    Guarded t (search_bit W m n st s).2.2.2 := by
  unfold search_bit
  dsimp only
  with_reducible
    repeat' (first | apply guarded_ite1 | apply guarded_ite2 | apply guarded_ite3)
  all_goals
    try dsimp only
    with_reducible
      repeat' (first
        | exact hg
        | apply g_debug_print hW
        | apply g_delay_ms hW
        | apply g_delay_us hW
        | apply g_reset hW
        | apply g_reset_overdrive hW
        | apply g_write_byte hW
        | apply g_write_byte_overdrive hW
        | apply g_read_byte hW
        | apply g_read_byte_overdrive hW
        | apply g_read_2bit hW
        | apply g_write_bit hW)

/-! ## Interrupt discipline: the public functions -/

theorem ofWire_guards {σ : Type} (W : Wire (σ × List Event)) (hW : W.Guards) :
    (Pager.ofWire W).Guards where
  a_read := fun h address len s => a_ds2431_read_guarded W hW h address len s (guarded_refl _)
  a_write := fun h address data s =>
    a_ds2431_write_guarded W hW h address data s (guarded_refl _)
  debug_print := hW.debug_print

theorem ds2431_read_guarded {σ : Type} (P : Pager (σ × List Event)) (hP : P.Guards)
    (h : Handle) (address len : Nat) {t : List Event} (s : σ × List Event)
    (hg : Guarded t s.2) : Guarded t (ds2431_read P (some h) address len s).2.2.2 := by
  unfold ds2431_read
  dsimp only
  split
  · exact hg
  · split
    · exact guarded_trans hg (hP.debug_print _ _)
    · split
      · exact guarded_trans hg (hP.a_read _ _ _ _)
      · exact guarded_trans hg (hP.a_read _ _ _ _)

theorem ds2431_read_memory_config_guarded {σ : Type} (P : Pager (σ × List Event))
    (hP : P.Guards) (h : Handle) {t : List Event} (s : σ × List Event) (hg : Guarded t s.2) :
    Guarded t (ds2431_read_memory_config P (some h) s).2.2.2 := by
  unfold ds2431_read_memory_config
  dsimp only
  split
  · exact hg
  · split
    · exact guarded_trans hg (hP.a_read _ _ _ _)
    · exact guarded_trans hg (hP.a_read _ _ _ _)

theorem ds2431_write_memory_config_guarded {σ : Type} (P : Pager (σ × List Event))
    (hP : P.Guards) (h : Handle) (config : Config) {t : List Event} (s : σ × List Event)
    (hg : Guarded t s.2) : Guarded t (ds2431_write_memory_config P (some h) config s).2.2 := by
  unfold ds2431_write_memory_config
  dsimp only
  split
  · exact hg
  · split
    · exact guarded_trans hg (hP.a_write _ _ _ _)
    · exact guarded_trans hg (hP.a_write _ _ _ _)

theorem ds2431_write_chunk_guarded {σ : Type} (P : Pager (σ × List Event)) (hP : P.Guards)
    (h : Handle) (pos off remain : Nat) (data : List Nat) (address : Nat) {t : List Event}
    (s : σ × List Event) (hg : Guarded t s.2) :
    Guarded t (ds2431_write_chunk P h pos off remain data address s).2.2 := by
  unfold ds2431_write_chunk
  dsimp only
  split
  · split
    · exact guarded_trans hg (hP.a_read _ _ _ _)
    · exact guarded_trans (guarded_trans hg (hP.a_read _ _ _ _)) (hP.a_write _ _ _ _)
  · exact guarded_trans hg (hP.a_write _ _ _ _)

theorem ds2431_write_loop_guarded {σ : Type} (P : Pager (σ × List Event)) (hP : P.Guards)
    (h : Handle) {t : List Event} :
    ∀ (fuel pos off remain : Nat) (data : List Nat) (address len : Nat) (s : σ × List Event)
      (r : Nat × (σ × List Event)), Guarded t s.2 →
      ds2431_write_loop P h fuel pos off remain data address len s = some r →
      Guarded t r.2.2 := by
  intro fuel
  induction fuel with
  | zero =>
    intro pos off remain data address len s r _ hr
    simp [ds2431_write_loop] at hr
  | succ fuel ih =>
    intro pos off remain data address len s r hg hr
    have hc := ds2431_write_chunk_guarded P hP h pos off remain data address s hg
    unfold ds2431_write_loop at hr
    dsimp only at hr
    split at hr
    · simp only [Option.some.injEq] at hr
      subst hr
      exact hc
    · split at hr
      · simp only [Option.some.injEq] at hr
        subst hr
        exact hc
      · exact ih _ _ _ _ _ _ _ r hc hr

theorem ds2431_write_guarded {σ : Type} (P : Pager (σ × List Event)) (hP : P.Guards)
    (h : Handle) (fuel address len : Nat) (data : List Nat) {t : List Event}
    (s : σ × List Event) (r : Nat × (σ × List Event)) (hg : Guarded t s.2)
    (hr : ds2431_write P fuel (some h) address data len s = some r) : Guarded t r.2.2 := by
  unfold ds2431_write at hr
  dsimp only at hr
  split at hr
  · simp only [Option.some.injEq] at hr
    subst hr
    exact hg
  · split at hr
    · simp only [Option.some.injEq] at hr
      subst hr
      exact guarded_trans hg (hP.debug_print _ _)
    · exact ds2431_write_loop_guarded P hP h _ _ _ _ _ _ _ _ r hg hr

theorem search_bits_guarded {σ : Type} (W : Wire (σ × List Event)) (hW : W.Guards) (m : Nat)
    {t : List Event} :
    ∀ (k n : Nat) (st : SearchState) (s : σ × List Event), Guarded t s.2 →
      Guarded t (search_bits W m k n st s).2.2.2 := by
  intro k
  induction k with
  | zero =>
    intro n st s hg
    exact hg
  | succ k ih =>
    intro n st s hg
    have hb := search_bit_guarded W hW m n st s hg
    unfold search_bits
    dsimp only
    split
    · exact hb
    · exact ih _ _ _ hb

theorem search_bytes_guarded {σ : Type} (W : Wire (σ × List Event)) (hW : W.Guards)
    {t : List Event} :
    ∀ (k m : Nat) (st : SearchState) (s : σ × List Event), Guarded t s.2 →
      Guarded t (search_bytes W k m st s).2.2.2 := by
  intro k
  induction k with
  | zero =>
    intro m st s hg
    exact hg
  | succ k ih =>
    intro m st s hg
    have hb := search_bits_guarded W hW m 8 0 st s hg
    unfold search_bytes
    dsimp only
    split
    · exact hb
    · exact ih _ _ _ hb

theorem search_passes_guarded {σ : Type} (W : Wire (σ × List Event)) (hW : W.Guards)
    (cmd : Nat) {t : List Event} :
    ∀ (fuel : Nat) (st : SearchState) (s : σ × List Event)
      (r : Nat × SearchState × (σ × List Event)), Guarded t s.2 →
      search_passes W cmd fuel st s = some r → Guarded t r.2.2.2 := by
  intro fuel
  induction fuel with
  | zero =>
    intro st s r _ hr
    simp [search_passes] at hr
  | succ fuel ih =>
    intro st s r hg hr
    have h1 := g_reset hW s hg
    have h2 := g_write_byte hW cmd _ h1
    have h3 := search_bytes_guarded W hW 8 0 st _ h2
    unfold search_passes at hr
    dsimp only at hr
    split at hr
    · simp only [Option.some.injEq] at hr
      subst hr
      exact g_debug_print hW _ _ h1
    · split at hr
      · simp only [Option.some.injEq] at hr
        subst hr
        exact g_debug_print hW _ _ h2
      · split at hr
        · simp only [Option.some.injEq] at hr
          subst hr
          exact h3
        · split at hr
          · simp only [Option.some.injEq] at hr
            subst hr
            exact h3
          · split at hr
            · exact ih _ _ r h3 hr
            · simp only [Option.some.injEq] at hr
              subst hr
              exact h3

theorem ds2431_search_rom_guarded {σ : Type} (W : Wire (σ × List Event)) (hW : W.Guards)
    (h : Handle) (rom : Nat → Nat → Nat) (num : Nat) {t : List Event} (s : σ × List Event)
    (r : Nat × Nat × (Nat → Nat → Nat) × (σ × List Event)) (hg : Guarded t s.2)
    (hr : ds2431_search_rom W (some h) rom num s = some r) : Guarded t r.2.2.2.2 := by
  unfold ds2431_search_rom at hr
  dsimp only at hr
  split at hr
  · simp only [Option.some.injEq] at hr
    subst hr
    exact hg
  · unfold a_ds2431_search at hr
    split at hr
    · simp only [Option.some.injEq] at hr
      subst hr
      exact g_debug_print hW _ _ hg
    · split at hr
      · simp at hr
      · rename_i r1 hr1
        simp only [Option.some.injEq] at hr
        subst hr
        exact search_passes_guarded W hW _ _ _ _ r1 hg hr1

theorem ds2431_init_guarded {σ : Type} (L : Link σ) (h : Handle) {t : List Event}
    (s : σ × List Event) (hg : Guarded t s.2) :
    Guarded t (ds2431_init (LinkPtrs.ofLink L.record) (some h) s).2.2.2 := by
  have h1 : Guarded t (L.record.bus_init s).2.2 :=
    guarded_trans hg (guarded_one _ _ rfl rfl)
  have h2 : Guarded t (a_ds2431_reset L.record (L.record.bus_init s).2).2.2 :=
    guarded_trans h1 ((driver_guards L).reset _)
  rw [init_ofLink]
  split
  · exact guarded_trans h1 (guarded_one _ _ rfl rfl)
  · split
    · have h3 : Guarded t (L.record.debug_print "ds2431: reset failed.\n"
          (a_ds2431_reset L.record (L.record.bus_init s).2).2).2 :=
        guarded_trans h2 (guarded_one _ _ rfl rfl)
      have h4 : Guarded t (L.record.bus_deinit (L.record.debug_print "ds2431: reset failed.\n"
          (a_ds2431_reset L.record (L.record.bus_init s).2).2)).2.2 :=
        guarded_trans h3 (guarded_one _ _ rfl rfl)
      exact h4
    · exact h2

theorem ds2431_deinit_guarded {σ : Type} (L : Link σ) (h : Handle) {t : List Event}
    (s : σ × List Event) (hg : Guarded t s.2) :
    Guarded t (ds2431_deinit L.record (some h) s).2.2.2 := by
  have h1 : Guarded t (L.record.bus_deinit s).2.2 :=
    guarded_trans hg (guarded_one _ _ rfl rfl)
  unfold ds2431_deinit
  dsimp only
  split
  · exact hg
  · split
    · exact guarded_trans h1 (guarded_one _ _ rfl rfl)
    · exact h1

theorem exec_guarded {σ : Type} (L : Link σ) (c : Call) (h : Handle) (s : σ) (t : List Event)
    (r : Nat × Handle × (σ × List Event)) (hr : exec L.record c h (s, t) = some r) :
    Guarded t r.2.2.2 := by
  have hW := driver_guards L
  have hP := ofWire_guards _ hW
  have hg : Guarded t ((s, t) : σ × List Event).2 := guarded_refl t
  cases c with
  | set_mode mode =>
    simp only [exec, Option.some.injEq] at hr
    subst hr
    exact hg
  | get_mode =>
    simp only [exec, Option.some.injEq] at hr
    subst hr
    exact hg
  | set_rom rom =>
    simp only [exec, Option.some.injEq] at hr
    subst hr
    exact hg
  | get_rom =>
    simp only [exec, Option.some.injEq] at hr
    subst hr
    exact ds2431_get_rom_guarded _ hW h (s, t) hg
  | copy_scratchpad address =>
    simp only [exec, Option.some.injEq] at hr
    subst hr
    exact ds2431_copy_scratchpad_guarded _ hW h address (s, t) hg
  | write_scratchpad address data =>
    simp only [exec, Option.some.injEq] at hr
    subst hr
    exact ds2431_write_scratchpad_guarded _ hW h address data (s, t) hg
  | read_scratchpad =>
    simp only [exec, Option.some.injEq] at hr
    subst hr
    exact ds2431_read_scratchpad_guarded _ hW h (s, t) hg
  | read_memory address len =>
    simp only [exec, Option.some.injEq] at hr
    subst hr
    exact ds2431_read_memory_guarded _ hW h address len (s, t) hg
  | read_memory_config =>
    simp only [exec, Option.some.injEq] at hr
    subst hr
    exact ds2431_read_memory_config_guarded _ hP h (s, t) hg
  | write_memory_config config =>
    simp only [exec, Option.some.injEq] at hr
    subst hr
    exact ds2431_write_memory_config_guarded _ hP h config (s, t) hg
  | read address len =>
    simp only [exec, Option.some.injEq] at hr
    subst hr
    exact ds2431_read_guarded _ hP h address len (s, t) hg
  | write address data len =>
    simp only [exec, Option.map_eq_some'] at hr
    obtain ⟨r1, hr1, rfl⟩ := hr
    exact ds2431_write_guarded _ hP h 17 address len data (s, t) r1 hg hr1
  | rom_match type rom =>
    simp only [exec, Option.some.injEq] at hr
    subst hr
    exact ds2431_rom_match_guarded _ hW h type rom (s, t) hg
  | search_rom rom num =>
    simp only [exec, Option.map_eq_some'] at hr
    obtain ⟨r1, hr1, rfl⟩ := hr
    exact ds2431_search_rom_guarded _ hW h rom num (s, t) r1 hg hr1
  | init =>
    simp only [exec, Option.some.injEq] at hr
    subst hr
    exact ds2431_init_guarded L h (s, t) hg
  | deinit =>
    simp only [exec, Option.some.injEq] at hr
    subst hr
    exact ds2431_deinit_guarded L h (s, t) hg

theorem exec_record_returns {σ : Type} (L : Link σ) (c : Call) (h : Handle) (s : σ)
    (t : List Event) : ∃ r, exec L.record c h (s, t) = some r := by
  have hP := ofWire_traced _ (ofLink_traced L.record (record_traced L))
  cases c with
  | write address data len =>
    obtain ⟨r, hr, _⟩ := write_traced _ hP h 17 address len data (s, t) (le_refl _)
    exact ⟨(r.1, h, r.2), by simp only [exec, hr, Option.map_some']⟩
  | search_rom rom num =>
    obtain ⟨r, hr, _⟩ := search_rom_traced _ (ofLink_traced L.record (record_traced L)) h rom
      num (s, t)
    exact ⟨(r.1, h, r.2.2.2), by simp only [exec, hr, Option.map_some']⟩
  | _ => exact ⟨_, rfl⟩

theorem irq_run_count :
    ∀ (ext : List Event) (b b1 : Bool), irq_run b ext = some b1 →
      ext.count Event.disable_irq + (if b then 0 else 1)
        = ext.count Event.enable_irq + (if b1 then 0 else 1) := by
  intro ext
  induction ext with
  | nil =>
    intro b b1 h
    simp only [irq_run, Option.some.injEq] at h
    subst h
    simp
  | cons e es ih =>
    intro b b1 h
    simp only [irq_run] at h
    cases hs : irq_step b e with
    | none =>
      rw [hs] at h
      simp at h
    | some b2 =>
      rw [hs] at h
      have h2 := ih b2 b1 h
      cases e <;> cases b <;> simp [irq_step] at hs <;> subst hs <;>
        simp [List.count_cons] at h2 ⊢ <;> omega

theorem irq_run_bus :
    ∀ (a : List Event) (e : Event) (rest : List Event) (b b1 : Bool),
      irq_run b (a ++ e :: rest) = some b1 → e.isBus = true → irq_run b a = some false := by
  intro a
  induction a with
  | nil =>
    intro e rest b b1 h he
    simp only [List.nil_append, irq_run] at h
    cases b with
    | false => rfl
    | true =>
      exfalso
      cases e <;> first | exact Bool.noConfusion he | simp [irq_step] at h
  | cons x xs ih =>
    intro e rest b b1 h he
    simp only [List.cons_append, irq_run] at h ⊢
    cases hs : irq_step b x with
    | none =>
      rw [hs] at h
      simp at h
    | some b2 =>
      rw [hs] at h
      exact ih e rest b2 b1 h he

/-! ## Claim C22: symmetric critical sections -/

/-- Claim C22.  On every platform, whatever its `bus_read` and `bus_write` return, the
capability calls of one call of `a_ds2431_reset`, `a_ds2431_reset_overdrive`,
`a_ds2431_read_byte`, `a_ds2431_write_byte`, `a_ds2431_read_byte_overdrive`,
`a_ds2431_write_byte_overdrive`, `a_ds2431_read_2bit` or `a_ds2431_write_bit` are
`disable_irq` once, then calls none of which is `disable_irq` or `enable_irq`, then
`enable_irq` once, then calls none of which is `disable_irq`, `enable_irq`, `bus_read` or
`bus_write`.  Hence every call of the public interface returns with as many `disable_irq`
calls as `enable_irq` calls, and each of its `bus_read` and `bus_write` calls is made with
one `disable_irq` more than `enable_irq` before it, that is, with interrupts disabled. -/
theorem critical_sections_are_symmetric {σ : Type} (L : Link σ) (s : σ) (t : List Event)
    (b : Nat) (c : Call) (h : Handle) :
    Sectioned t (a_ds2431_reset L.record (s, t)).2.2 ∧
    Sectioned t (a_ds2431_reset_overdrive L.record (s, t)).2.2 ∧
    Sectioned t (a_ds2431_read_byte L.record (s, t)).2.2.2 ∧
    Sectioned t (a_ds2431_write_byte L.record b (s, t)).2.2 ∧
    Sectioned t (a_ds2431_read_byte_overdrive L.record (s, t)).2.2.2 ∧
    Sectioned t (a_ds2431_write_byte_overdrive L.record b (s, t)).2.2 ∧
    Sectioned t (a_ds2431_read_2bit L.record (s, t)).2.2.2 ∧
    Sectioned t (a_ds2431_write_bit L.record b (s, t)).2.2 ∧
    ∃ r ext, exec L.record c h (s, t) = some r ∧ r.2.2.2 = t ++ ext ∧
      irq_run true ext = some true ∧
      ext.count Event.disable_irq = ext.count Event.enable_irq ∧
      ∀ a e rest, ext = a ++ e :: rest → e.isBus = true →
        a.count Event.disable_irq = a.count Event.enable_irq + 1 := by
  refine ⟨reset_core_sectioned L 550 15 200 240 (s, t),
    reset_core_sectioned L 70 2 20 20 (s, t),
    read_byte_loop_sectioned L _ (fun _ u hu => read_bit_opened L u hu) 8 0 _
      (opened_disable L (s, t)),
    write_byte_loop_sectioned L 2 65 65 2 8 b _ (opened_disable L (s, t)),
    read_byte_loop_sectioned L _ (fun _ u hu => read_bit_overdrive_opened L u hu) 8 0 _
      (opened_disable L (s, t)),
    write_byte_loop_sectioned L 1 10 10 2 8 b _ (opened_disable L (s, t)),
    read_2bit_loop_sectioned L 2 0 _ (opened_disable L (s, t)),
    write_bit_sectioned L b (s, t), ?_⟩
  obtain ⟨r, hr⟩ := exec_record_returns L c h s t
  obtain ⟨ext, he, hrun⟩ := exec_guarded L c h s t r hr
  refine ⟨r, ext, hr, he, hrun, ?_, ?_⟩
  · have := irq_run_count ext true true hrun
    simpa using this
  · intro a e rest hx hb
    rw [hx] at hrun
    have h1 := irq_run_bus a e rest true true hrun hb
    have := irq_run_count a true false h1
    simpa using this

/-! ## The handle in memory: stores and frames -/

theorem store_of_ne (m : Mem) (p v a : Nat) (h : a ≠ p) : store m p v a = m a := by
  unfold store
  exact Function.update_noteq h v m

theorem store_same (m : Mem) (p v : Nat) : store m p v p = v := by
  unfold store
  exact Function.update_same p v m

theorem store_all_outside :
    ∀ (bs : List Nat) (p : Nat) (m : Mem) (a : Nat), ¬ (p ≤ a ∧ a < p + bs.length) →
      store_all m p bs a = m a := by
  intro bs
  induction bs with
  | nil =>
    intro p m a _
    rfl
  | cons b bs ih =>
    intro p m a h
    simp only [List.length_cons] at h
    unfold store_all
    rw [ih (p + 1) _ a (by omega), store_of_ne _ _ _ _ (by omega)]

theorem store_all_inside :
    ∀ (bs : List Nat) (p : Nat) (m : Mem) (i : Nat), i < bs.length →
      store_all m p bs (p + i) = bs.getD i 0 := by
  intro bs
  induction bs with
  | nil =>
    intro p m i h
    simp at h
  | cons b bs ih =>
    intro p m i h
    unfold store_all
    cases i with
    | zero =>
      show store_all (store m p b) (p + 1) bs p = _
      rw [store_all_outside bs (p + 1) _ p (by omega), store_same]
      rfl
    | succ i =>
      simp only [List.length_cons] at h
      have e : p + (i + 1) = (p + 1) + i := by omega
      rw [e, ih (p + 1) _ i (by omega)]
      rfl

theorem sameOutside_refl (F : Nat → Prop) (m : Mem) : SameOutside F m m := fun _ _ => rfl

theorem sameOutside_trans {F : Nat → Prop} {m m1 m2 : Mem} (h1 : SameOutside F m m1)
    (h2 : SameOutside F m1 m2) : SameOutside F m m2 :=
  fun a ha => (h2 a ha).trans (h1 a ha)

theorem sameOutside_store {F : Nat → Prop} {m m1 : Mem} (p v : Nat) (hp : F p)
    (h : SameOutside F m m1) : SameOutside F m (store m1 p v) := by
  intro a ha
  rw [store_of_ne _ _ _ _ (fun e => ha (by rw [e]; exact hp))]
  exact h a ha

theorem bytes8_length (data : List Nat) : (bytes8 data).length = 8 := by
  simp [bytes8]

theorem load_store_handle (hp : Nat) (h : Handle) (m : Mem) :
    load_handle hp (store_handle hp h m) = ⟨h.inited, h.mode, bytes8 h.rom⟩ := by
  unfold load_handle store_handle
  have h0 : store_all (store (store m hp h.inited) (hp + 1) h.mode) (hp + 2) (bytes8 h.rom) hp
      = h.inited := by
    rw [store_all_outside _ _ _ _ (by rw [bytes8_length]; omega),
      store_of_ne _ _ _ _ (by omega), store_same]
  have h1 : store_all (store (store m hp h.inited) (hp + 1) h.mode) (hp + 2) (bytes8 h.rom)
      (hp + 1) = h.mode := by
    rw [store_all_outside _ _ _ _ (by rw [bytes8_length]; omega), store_same]
  have h2 : (List.range 8).map (fun i =>
        store_all (store (store m hp h.inited) (hp + 1) h.mode) (hp + 2) (bytes8 h.rom)
          (hp + 2 + i))
      = bytes8 h.rom := by
    refine Eq.trans ?_ (bytes8_of_length (bytes8 h.rom) (bytes8_length _))
    show _ = (List.range 8).map (fun i => (bytes8 h.rom).getD i 0)
    apply List.map_congr_left
    intro i hi
    rw [List.mem_range] at hi
    rw [store_all_inside _ _ _ i (by rw [bytes8_length]; exact hi)]
  rw [h0, h1, h2]

theorem load_handle_rom_length (hp : Nat) (m : Mem) : (load_handle hp m).rom.length = 8 := by
  simp [load_handle]

theorem store_load_handle (hp : Nat) (m : Mem) :
    load_handle hp (store_handle hp (load_handle hp m) m) = load_handle hp m := by
  rw [load_store_handle, bytes8_of_length _ (load_handle_rom_length hp m)]

theorem search_bit_at_num {σ : Type} (W : Wire σ) (number bm n : Nat) (v : SearchVars)
    (m : Mem) (s : σ) : (search_bit_at W number bm n v m s).2.1.num = v.num := by
  unfold search_bit_at
  dsimp only
  repeat' split
  all_goals rfl

theorem search_bit_at_none {σ : Type} (W : Wire σ) (number bm n : Nat) (v : SearchVars)
    (m : Mem) (s : σ) (h : (search_bit_at W number bm n v m s).1 = none) :
    (search_bit_at W number bm n v m s).2.2.1 = m := by
  revert h
  unfold search_bit_at
  dsimp only
  repeat' (first | split | intro h)
  all_goals first | rfl | simp at h

theorem search_bits_at_num {σ : Type} (W : Wire σ) (number bm : Nat) :
    ∀ (k n : Nat) (v : SearchVars) (m : Mem) (s : σ),
      (search_bits_at W number bm k n v m s).2.1.num = v.num := by
  intro k
  induction k with
  | zero =>
    intro n v m s
    rfl
  | succ k ih =>
    intro n v m s
    have hb := search_bit_at_num W number bm n v m s
    unfold search_bits_at
    dsimp only
    split
    · exact hb
    · exact (ih _ _ _ _).trans hb

theorem search_bits_at_none {σ : Type} (W : Wire σ) (number bm : Nat) :
    ∀ (k n : Nat) (v : SearchVars) (m : Mem) (s : σ),
      (search_bits_at W number bm k n v m s).1 = none →
      (search_bits_at W number bm k n v m s).2.2.1 = m := by
  intro k
  induction k with
  | zero =>
    intro n v m s _
    rfl
  | succ k ih =>
    intro n v m s h
    unfold search_bits_at at h ⊢
    dsimp only at h ⊢
    split at h
    · simp at h
    · rename_i hc
      rw [ih _ _ _ _ h]
      exact search_bit_at_none W number bm n v m s hc

theorem search_bytes_at_num {σ : Type} (W : Wire σ) (pid number : Nat) :
    ∀ (k bm : Nat) (v : SearchVars) (m : Mem) (s : σ),
      (search_bytes_at W pid number k bm v m s).2.1.num = v.num := by
  intro k
  induction k with
  | zero =>
    intro bm v m s
    rfl
  | succ k ih =>
    intro bm v m s
    have hb := search_bits_at_num W number bm 8 0 v m s
    unfold search_bytes_at
    dsimp only
    split
    · exact hb
    · exact (ih _ _ _ _).trans hb

theorem search_bytes_at_none {σ : Type} (W : Wire σ) (pid number : Nat) :
    ∀ (k bm : Nat) (v : SearchVars) (m : Mem) (s : σ), bm + k ≤ 8 →
      (search_bytes_at W pid number k bm v m s).1 = none →
      SameOutside (fun a => pid + 8 * v.num ≤ a ∧ a < pid + 8 * v.num + 8) m
        (search_bytes_at W pid number k bm v m s).2.2.1 := by
  intro k
  induction k with
  | zero =>
    intro bm v m s _ _
    exact sameOutside_refl _ _
  | succ k ih =>
    intro bm v m s hk h
    have hn := search_bits_at_num W number bm 8 0 v m s
    unfold search_bytes_at at h ⊢
    dsimp only at h ⊢
    split at h
    · simp at h
    · rename_i hc
      have hm := search_bits_at_none W number bm 8 0 v m s hc
      have h1 := ih (bm + 1) _ _ _ (by omega) h
      simp only [hn, hm] at h1 ⊢
      refine sameOutside_trans ?_ h1
      exact sameOutside_store _ _ ⟨by omega, by omega⟩ (sameOutside_refl _ _)

theorem agree_ite {σ β γ : Type} {c : Prop} [Decidable c] {a b : Nat × β × σ}
    {a1 b1 : Nat × γ × σ} (ha : a.1 = a1.1 ∧ a.2.2 = a1.2.2) (hb : b.1 = b1.1 ∧ b.2.2 = b1.2.2) :
    (if c then a else b).1 = (if c then a1 else b1).1 ∧
      (if c then a else b).2.2 = (if c then a1 else b1).2.2 := by
  split
  · exact ha
  · exact hb

theorem read_rom_at_agrees {σ : Type} (W : Wire σ) :
    ∀ (n p : Nat) (acc : List Nat) (m : Mem) (s : σ),
      (read_rom_at W n p m s).1 = (read_rom W n acc s).1 ∧
        (read_rom_at W n p m s).2.2 = (read_rom W n acc s).2.2 := by
  intro n
  induction n with
  | zero =>
    intro p acc m s
    exact ⟨rfl, rfl⟩
  | succ n ih =>
    intro p acc m s
    unfold read_rom_at read_rom
    dsimp only
    exact agree_ite ⟨rfl, rfl⟩ (ih _ _ _ _)

theorem read_data_at_agrees {σ : Type} (W : Wire σ) (rb : σ → Nat × Nat × σ) :
    ∀ (n p : Nat) (acc : List Nat) (m : Mem) (s : σ),
      (read_data_at W rb n p m s).1 = (read_data W rb n acc s).1 ∧
        (read_data_at W rb n p m s).2.2 = (read_data W rb n acc s).2.2 := by
  intro n
  induction n with
  | zero =>
    intro p acc m s
    exact ⟨rfl, rfl⟩
  | succ n ih =>
    intro p acc m s
    unfold read_data_at read_data
    dsimp only
    exact agree_ite ⟨rfl, rfl⟩ (ih _ _ _ _)

theorem read_data_crc_at_agrees {σ : Type} (W : Wire σ) (rb : σ → Nat × Nat × σ) :
    ∀ (n p crc : Nat) (acc : List Nat) (m : Mem) (s : σ),
      (read_data_crc_at W rb n p crc m s).1 = (read_data_crc W rb n crc acc s).1 ∧
        (read_data_crc_at W rb n p crc m s).2.1 = (read_data_crc W rb n crc acc s).2.1 ∧
        (read_data_crc_at W rb n p crc m s).2.2.2 = (read_data_crc W rb n crc acc s).2.2.2 := by
  intro n
  induction n with
  | zero =>
    intro p crc acc m s
    exact ⟨rfl, rfl, rfl⟩
  | succ n ih =>
    intro p crc acc m s
    unfold read_data_crc_at read_data_crc
    dsimp only
    rw [store_same]
    split
    · exact ⟨rfl, rfl, rfl⟩
    · exact ih _ _ _ _ _

theorem ds2431_get_rom_at_agrees {σ : Type} (W : Wire σ) (hp rom : Nat) (m : Mem) (s : σ) :
    (ds2431_get_rom_at W hp rom m s).1 = (ds2431_get_rom W (some (load_handle hp m)) s).1 ∧
      (ds2431_get_rom_at W hp rom m s).2.2
        = (ds2431_get_rom W (some (load_handle hp m)) s).2.2 := by
  unfold ds2431_get_rom_at ds2431_get_rom load_handle
  dsimp only
  refine agree_ite ⟨rfl, rfl⟩ ?_
  refine agree_ite ⟨rfl, rfl⟩ ?_
  refine agree_ite ⟨rfl, rfl⟩ ?_
  exact read_rom_at_agrees W 8 rom [] m _

theorem read_memory_body_at_agrees {σ : Type} (W : Wire σ) (od : Bool)
    (address len data : Nat) (m : Mem) (s : σ) :
    (read_memory_body_at W od address len data m s).1
        = (read_memory_body W od address len s).1 ∧
      (read_memory_body_at W od address len data m s).2.2
        = (read_memory_body W od address len s).2.2 := by
  unfold read_memory_body_at read_memory_body
  dsimp only
  refine agree_ite ⟨rfl, rfl⟩ ?_
  refine agree_ite ⟨rfl, rfl⟩ ?_
  refine agree_ite ⟨rfl, rfl⟩ ?_
  exact read_data_at_agrees W _ len data [] m _

theorem a_ds2431_read_at_agrees {σ : Type} (W : Wire σ) (hp address data len : Nat)
    (m : Mem) (s : σ) :
    (a_ds2431_read_at W hp address data len m s).1
        = (a_ds2431_read W (load_handle hp m) address len s).1 ∧
      (a_ds2431_read_at W hp address data len m s).2.2
        = (a_ds2431_read W (load_handle hp m) address len s).2.2 := by
  unfold a_ds2431_read_at a_ds2431_read
  dsimp only
  refine agree_ite ⟨rfl, rfl⟩ ?_
  exact read_memory_body_at_agrees W _ address len data m _

theorem ds2431_read_memory_at_agrees {σ : Type} (W : Wire σ) (hp address data len : Nat)
    (m : Mem) (s : σ) :
    (ds2431_read_memory_at W hp address data len m s).1
        = (ds2431_read_memory W (some (load_handle hp m)) address len s).1 ∧
      (ds2431_read_memory_at W hp address data len m s).2.2
        = (ds2431_read_memory W (some (load_handle hp m)) address len s).2.2 := by
  unfold ds2431_read_memory_at ds2431_read_memory
  dsimp only
  refine agree_ite ⟨rfl, rfl⟩ ?_
  refine agree_ite ⟨rfl, rfl⟩ ?_
  refine agree_ite ⟨rfl, rfl⟩ ?_
  exact read_memory_body_at_agrees W _ address len data m _

theorem ds2431_read_at_agrees {σ : Type} (W : Wire σ) (hp address data len : Nat)
    (m : Mem) (s : σ) :
    (ds2431_read_at W hp address data len m s).1
        = (ds2431_read (Pager.ofWire W) (some (load_handle hp m)) address len s).1 ∧
      (ds2431_read_at W hp address data len m s).2.2
        = (ds2431_read (Pager.ofWire W) (some (load_handle hp m)) address len s).2.2 := by
  have h := a_ds2431_read_at_agrees W hp address data len m s
  unfold ds2431_read_at ds2431_read Pager.ofWire
  dsimp only
  refine agree_ite ⟨rfl, rfl⟩ ?_
  refine agree_ite ⟨rfl, rfl⟩ ?_
  rw [h.1]
  exact agree_ite ⟨rfl, h.2⟩ ⟨rfl, h.2⟩

theorem ds2431_read_memory_config_at_agrees {σ : Type} (P : Pager σ) (hp config : Nat)
    (m : Mem) (s : σ) :
    (ds2431_read_memory_config_at P hp config m s).1
        = (ds2431_read_memory_config P (some (load_handle hp m)) s).1 ∧
      (ds2431_read_memory_config_at P hp config m s).2.2
        = (ds2431_read_memory_config P (some (load_handle hp m)) s).2.2 := by
  unfold ds2431_read_memory_config_at ds2431_read_memory_config
  dsimp only
  refine agree_ite ⟨rfl, rfl⟩ ?_
  exact agree_ite ⟨rfl, rfl⟩ ⟨rfl, rfl⟩

theorem write_scratchpad_body_at_agrees {σ : Type} (W : Wire σ) (R : Repr) (od : Bool)
    (address : Nat) (data : List Nat) (crc16 : Nat) (m : Mem) (s : σ) :
    (write_scratchpad_body_at W R od address data crc16 m s).1
        = (write_scratchpad_body W od address data s).1 ∧
      (write_scratchpad_body_at W R od address data crc16 m s).2.2
        = (write_scratchpad_body W od address data s).2.2 := by
  unfold write_scratchpad_body_at write_scratchpad_body
  dsimp only
  repeat' (first | exact ⟨rfl, rfl⟩ | refine agree_ite ?_ ?_)

theorem ds2431_write_scratchpad_at_agrees {σ : Type} (W : Wire σ) (R : Repr)
    (hp address : Nat) (data : List Nat) (crc16 : Nat) (m : Mem) (s : σ) :
    (ds2431_write_scratchpad_at W R hp address data crc16 m s).1
        = (ds2431_write_scratchpad W (some (load_handle hp m)) address data s).1 ∧
      (ds2431_write_scratchpad_at W R hp address data crc16 m s).2.2
        = (ds2431_write_scratchpad W (some (load_handle hp m)) address data s).2.2 := by
  unfold ds2431_write_scratchpad_at ds2431_write_scratchpad
  dsimp only
  refine agree_ite ⟨rfl, rfl⟩ ?_
  refine agree_ite ⟨rfl, rfl⟩ ?_
  refine agree_ite ⟨rfl, rfl⟩ ?_
  refine agree_ite ⟨rfl, rfl⟩ ?_
  exact write_scratchpad_body_at_agrees W R _ address data crc16 m _

theorem read_scratchpad_body_at_agrees {σ : Type} (W : Wire σ) (R : Repr) (od : Bool)
    (address data crc16 : Nat) (m : Mem) (s : σ) :
    (read_scratchpad_body_at W R od address data crc16 m s).1
        = (read_scratchpad_body W od s).1 ∧
      (read_scratchpad_body_at W R od address data crc16 m s).2.2
        = (read_scratchpad_body W od s).2.2 := by
  unfold read_scratchpad_body_at read_scratchpad_body
  dsimp only
  refine agree_ite ⟨rfl, rfl⟩ ?_
  refine agree_ite ⟨rfl, rfl⟩ ?_
  refine agree_ite ⟨rfl, rfl⟩ ?_
  refine agree_ite ⟨rfl, rfl⟩ ?_
  refine agree_ite ⟨rfl, rfl⟩ ?_
  have hd := fun u crc t => read_data_crc_at_agrees W (W.rb od) 8 data crc []
    (store_obj R m address u) t
  simp only [(hd _ _ _).1, (hd _ _ _).2.1, (hd _ _ _).2.2]
  repeat' (first | exact ⟨rfl, rfl⟩ | refine agree_ite ?_ ?_)

theorem ds2431_read_scratchpad_at_agrees {σ : Type} (W : Wire σ) (R : Repr)
    (hp address data crc16 : Nat) (m : Mem) (s : σ) :
    (ds2431_read_scratchpad_at W R hp address data crc16 m s).1
        = (ds2431_read_scratchpad W (some (load_handle hp m)) s).1 ∧
      (ds2431_read_scratchpad_at W R hp address data crc16 m s).2.2
        = (ds2431_read_scratchpad W (some (load_handle hp m)) s).2.2 := by
  unfold ds2431_read_scratchpad_at ds2431_read_scratchpad
  dsimp only
  refine agree_ite ⟨rfl, rfl⟩ ?_
  refine agree_ite ⟨rfl, rfl⟩ ?_
  exact read_scratchpad_body_at_agrees W R _ address data crc16 m _

theorem search_bit_at_agrees {σ : Type} (W : Wire σ) (number bm n : Nat) (st : SearchState)
    (m : Mem) (s : σ) (h : st.number = m number) :
    (search_bit_at W number bm n st.vars m s).1 = (search_bit W bm n st s).1 ∧
      (search_bit_at W number bm n st.vars m s).2.1 = (search_bit W bm n st s).2.1.vars ∧
      (search_bit_at W number bm n st.vars m s).2.2.2 = (search_bit W bm n st s).2.2 ∧
      (search_bit W bm n st s).2.1.number
        = (search_bit_at W number bm n st.vars m s).2.2.1 number := by
  unfold search_bit_at search_bit SearchState.vars
  dsimp only
  repeat' split
  all_goals first
    | exact ⟨rfl, rfl, rfl, h⟩
    | exact ⟨rfl, rfl, rfl, (store_same _ _ _).symm⟩

theorem search_bits_at_agrees {σ : Type} (W : Wire σ) (number bm : Nat) :
    ∀ (k n : Nat) (st : SearchState) (m : Mem) (s : σ), st.number = m number →
      (search_bits_at W number bm k n st.vars m s).1 = (search_bits W bm k n st s).1 ∧
      (search_bits_at W number bm k n st.vars m s).2.1 = (search_bits W bm k n st s).2.1.vars ∧
      (search_bits_at W number bm k n st.vars m s).2.2.2 = (search_bits W bm k n st s).2.2 ∧
      (search_bits W bm k n st s).2.1.number
        = (search_bits_at W number bm k n st.vars m s).2.2.1 number := by
  intro k
  induction k with
  | zero =>
    intro n st m s h
    exact ⟨rfl, rfl, rfl, h⟩
  | succ k ih =>
    intro n st m s h
    obtain ⟨h1, h2, h3, h4⟩ := search_bit_at_agrees W number bm n st m s h
    unfold search_bits_at search_bits
    dsimp only
    rw [h1]
    split
    · exact ⟨rfl, h2, h3, h4⟩
    · rw [h2, h3]
      exact ih _ _ _ _ h4

theorem search_bytes_at_agrees {σ : Type} (W : Wire σ) (pid number : Nat) :
    ∀ (k bm : Nat) (st : SearchState) (m : Mem) (s : σ), bm + k ≤ 8 →
      ¬ (pid + 8 * st.num ≤ number ∧ number < pid + 8 * st.num + 8) →
      st.number = m number →
      (search_bytes_at W pid number k bm st.vars m s).1 = (search_bytes W k bm st s).1 ∧
      (search_bytes_at W pid number k bm st.vars m s).2.1
        = (search_bytes W k bm st s).2.1.vars ∧
      (search_bytes_at W pid number k bm st.vars m s).2.2.2 = (search_bytes W k bm st s).2.2 ∧
      (search_bytes W k bm st s).2.1.number
        = (search_bytes_at W pid number k bm st.vars m s).2.2.1 number := by
  intro k
  induction k with
  | zero =>
    intro bm st m s _ _ h
    exact ⟨rfl, rfl, rfl, h⟩
  | succ k ih =>
    intro bm st m s hk hnum h
    obtain ⟨h1, h2, h3, h4⟩ := search_bits_at_agrees W number bm 8 0 st m s h
    have hn : (search_bits W bm 8 0 st s).2.1.num = st.num := by
      have := search_bits_at_num W number bm 8 0 st.vars m s
      rw [h2] at this
      exact this
    unfold search_bytes_at search_bytes
    dsimp only
    rw [h1]
    split
    · exact ⟨rfl, h2, h3, h4⟩
    · rw [h2, h3]
      have hv : ({ (search_bits W bm 8 0 st s).2.1.vars with s := 0 } : SearchVars)
          = SearchState.vars { (search_bits W bm 8 0 st s).2.1 with
              pid := Function.update (search_bits W bm 8 0 st s).2.1.pid
                (search_bits W bm 8 0 st s).2.1.num
                (Function.update ((search_bits W bm 8 0 st s).2.1.pid
                  (search_bits W bm 8 0 st s).2.1.num) bm (search_bits W bm 8 0 st s).2.1.s),
              s := 0 } := rfl
      rw [hv]
      refine ih (bm + 1) _ _ _ (by omega) ?_ ?_
      · show ¬ (pid + 8 * (search_bits W bm 8 0 st s).2.1.num ≤ number ∧
          number < pid + 8 * (search_bits W bm 8 0 st s).2.1.num + 8)
        rw [hn]
        exact hnum
      · show (search_bits W bm 8 0 st s).2.1.number = _
        rw [h4]
        refine (store_of_ne _ _ _ _ ?_).symm
        show number ≠ pid + 8 * (search_bits W bm 8 0 st s).2.1.num + bm
        rw [hn]
        omega

theorem search_passes_at_agrees {σ : Type} (W : Wire σ) (cmd pid number n0 : Nat)
    (hn0 : n0 < 255) (hnum : ¬ (pid ≤ number ∧ number < pid + 8 * (n0 + 1))) :
    ∀ (fuel : Nat) (st : SearchState) (m : Mem) (s : σ), m number = n0 → st.number = n0 →
      st.num ≤ n0 →
      (search_passes_at W cmd pid number fuel st.vars m s).map (fun r => (r.1, r.2.2))
        = (search_passes W cmd fuel st s).map (fun r => (r.1, r.2.2)) := by
  intro fuel
  induction fuel with
  | zero =>
    intro st m s _ _ _
    rfl
  | succ fuel ih =>
    intro st m s hm hst hv
    obtain ⟨h1, h2, h3, h4⟩ := search_bytes_at_agrees W pid number 8 0 st m
      (W.write_byte cmd (W.reset s).2).2 (by omega) (by omega) (hst.trans hm.symm)
    have hpn := search_bytes_at_num W pid number 8 0 st.vars m
      (W.write_byte cmd (W.reset s).2).2
    unfold search_passes_at search_passes
    dsimp only
    split
    · rfl
    · split
      · rfl
      · rw [h1]
        split
        · simp only [Option.map_some', h3]
        · rename_i hc
          have hq := search_bytes_at_none W pid number 8 0 st.vars m
            (W.write_byte cmd (W.reset s).2).2 (by omega) (h1.trans hc)
          have hmn : (search_bytes_at W pid number 8 0 st.vars m
              (W.write_byte cmd (W.reset s).2).2).2.2.1 number = n0 := by
            rw [hq number (by
              show ¬ (pid + 8 * st.num ≤ number ∧ number < pid + 8 * st.num + 8)
              omega), hm]
          have hnum1 : (search_bytes W 8 0 st (W.write_byte cmd (W.reset s).2).2).2.1.num
              = st.num := by
            rw [h2] at hpn
            exact hpn
          rw [h2, h3, ← h4]
          simp only [SearchState.vars]
          split
          · rfl
          · rename_i hle
            split
            · rw [hnum1, h4, hmn, not_lt] at hle
              have hmod : (st.num + 1) % 256 = st.num + 1 := by omega
              refine ih { (search_bytes W 8 0 st (W.write_byte cmd (W.reset s).2).2).2.1 with
                  num := ((search_bytes W 8 0 st (W.write_byte cmd (W.reset s).2).2).2.1.num
                    + 1) % 256 } _ _ hmn ?_ ?_
              · show (search_bytes W 8 0 st (W.write_byte cmd (W.reset s).2).2).2.1.number = n0
                rw [h4, hmn]
              · show ((search_bytes W 8 0 st (W.write_byte cmd (W.reset s).2).2).2.1.num
                  + 1) % 256 ≤ n0
                rw [hnum1]
                omega
            · rfl

theorem ds2431_search_rom_at_agrees {σ : Type} (W : Wire σ) (hp rom num : Nat)
    (pid : Nat → Nat → Nat) (m : Mem) (s : σ)
    (hnum : ¬ (rom ≤ num ∧ num < rom + 8 * (m num + 1))) :
    (ds2431_search_rom_at W hp rom num m s).map (fun r => (r.1, r.2.2))
      = (ds2431_search_rom W (some (load_handle hp m)) pid (m num) s).map
          (fun r => (r.1, r.2.2.2)) := by
  unfold ds2431_search_rom_at ds2431_search_rom load_handle
  dsimp only
  split
  · rfl
  · unfold a_ds2431_search_at a_ds2431_search
    split
    · rfl
    · rename_i hn
      have hn64 : m num ≤ 64 := by
        simpa [DS2431_MAX_SEARCH_SIZE] using hn
      have h := search_passes_at_agrees W DS2431_CMD_SEARCH_ROM rom num (m num) (by omega) hnum
        (m num + 1) ⟨fun _ => 0, 0, fun _ => 0, 0, 0, m num, pid⟩ m s rfl rfl (Nat.zero_le _)
      have hv : SearchState.vars ⟨fun _ => 0, 0, fun _ => 0, 0, 0, m num, pid⟩
          = ⟨fun _ => 0, 0, fun _ => 0, 0, 0⟩ := rfl
      rw [hv] at h
      rw [h]
      cases search_passes W DS2431_CMD_SEARCH_ROM (m num + 1)
        ⟨fun _ => 0, 0, fun _ => 0, 0, 0, m num, pid⟩ s <;> rfl

theorem some_pair_congr {α β : Type} {a a1 : α} {b b1 : β} (h : a = a1 ∧ b = b1) :
    some (a, b) = some (a1, b1) := by
  rw [h.1, h.2]

theorem exec_at_agrees {σ : Type} (L : Link σ) (A : Layout) (c : CallAt) (hp : Nat) (m : Mem)
    (s : σ) (k : Call) (hk : c.call m = some k) (hap : c.apart m) :
    (exec_at L A c hp m s).map (fun r => (r.1, r.2.2))
      = (exec L k (load_handle hp m) s).map (fun r => (r.1, r.2.2)) := by
  cases c with
  | set_mode mode =>
    cases hk
    rfl
  | get_mode mode =>
    cases hk
    refine some_pair_congr ⟨?_, rfl⟩
    show (ds2431_get_mode_at A.mode hp mode m).1 = (ds2431_get_mode (some (load_handle hp m))).1
    unfold ds2431_get_mode_at ds2431_get_mode load_handle
    dsimp only
    split <;> rfl
  | set_rom rom =>
    cases hk
    rfl
  | get_rom rom =>
    cases hk
    exact some_pair_congr (ds2431_get_rom_at_agrees (Wire.ofLink L) hp rom m s)
  | copy_scratchpad address =>
    cases hk
    rfl
  | write_scratchpad address data crc16 =>
    cases hk
    exact some_pair_congr
      (ds2431_write_scratchpad_at_agrees (Wire.ofLink L) A.u16 hp address data crc16 m s)
  | read_scratchpad address data crc16 =>
    cases hk
    exact some_pair_congr
      (ds2431_read_scratchpad_at_agrees (Wire.ofLink L) A.u16 hp address data crc16 m s)
  | read_memory address len data =>
    cases hk
    exact some_pair_congr (ds2431_read_memory_at_agrees (Wire.ofLink L) hp address data len m s)
  | read_memory_config config =>
    cases hk
    exact some_pair_congr
      (ds2431_read_memory_config_at_agrees (Pager.ofWire (Wire.ofLink L)) hp config m s)
  | write_memory_config config =>
    cases hk
    rfl
  | read address len data =>
    cases hk
    exact some_pair_congr (ds2431_read_at_agrees (Wire.ofLink L) hp address data len m s)
  | write address data len =>
    cases hk
    show ((ds2431_write (Pager.ofWire (Wire.ofLink L)) 17 (some (load_handle hp m)) address
        data len s).map (fun r => (r.1, m, r.2))).map (fun r => (r.1, r.2.2))
      = ((ds2431_write (Pager.ofWire (Wire.ofLink L)) 17 (some (load_handle hp m)) address
        data len s).map (fun r => (r.1, load_handle hp m, r.2))).map (fun r => (r.1, r.2.2))
    rw [Option.map_map, Option.map_map]
    rfl
  | rom_match type rom =>
    cases hk
    rfl
  | search_rom rom num =>
    cases hk
    show (ds2431_search_rom_at (Wire.ofLink L) hp rom num m s).map (fun r => (r.1, r.2.2))
      = ((ds2431_search_rom (Wire.ofLink L) (some (load_handle hp m))
          (fun i j => m (rom + 8 * i + j)) (m num) s).map
            (fun r => (r.1, load_handle hp m, r.2.2.2))).map (fun r => (r.1, r.2.2))
    rw [Option.map_map]
    exact ds2431_search_rom_at_agrees (Wire.ofLink L) hp rom num _ m s hap
  | init =>
    cases hk
    rfl
  | deinit =>
    cases hk
    rfl
  | info i => cases hk

/-! ## Claim C15: the handle frame -/

end DS2431
